import Mathlib

/-!
Triumvirate: measurement preparation and normalisation.

A shallow embedding of the binning engine (`dataobjs.cpp`), the particle
catalogue (`particles.hpp`) and the orchestration in `triumvirate.cpp`.

Conventions of the embedding.

* A C++ `double` is an element of an arbitrary linearly ordered field `α`.
  The definitions translated first read each operation as the exact
  operation of the field (rounding, overflow, infinities and NaN are not
  modelled).  Where rounding bears on a statement, the function concerned
  has a second translation, named with the suffix `_fl`, in which every
  operation is followed by a rounding `fl`; `round_binary64` is the rounding
  of IEEE 754 binary64 on the rationals.  The outcome of a division by zero
  is modelled apart (`DoubleQuotient`).  Every definition is computable and
  can be run at `α := ℚ`.
* A C++ `int` is an `Int`; the conversion `double(n)` is the cast `(n : α)`.
  The conversion `int(x)` of a `double` needs a floor on `α` and has no
  value when the truncated number does not fit a 32-bit `int`.
* `std::log`, `std::exp`, `M_PI` and `trv::maths::get_vec3d_magnitude` come
  from outside the sources at hand and are parameters of the definitions
  that use them; so are `trv::sys::currTask` and the method
  `load_catalogue_file` that `main` calls.  Nothing is assumed of `log` and
  `exp` unless a theorem says so (that they do not decrease, that
  `exp 0 = 1`).
* A function that throws returns its exception together with the state the
  object is left in.
-/

namespace Triumvirate

/-! ## Common data -/

/-- Exceptions of `trv::sys` thrown by the program, with their messages. -/
inductive SysError where
  | InvalidParameter (err_mesg : String)
  | UnimplementedError (err_mesg : String)
  | IOError (err_mesg : String)
  deriving DecidableEq, Repr

/-- Whether an exception is an `InvalidParameter`, whatever its message. -/
def SysError.isInvalidParameter : SysError → Bool
  | .InvalidParameter _ => true
  | _ => false

/-- Whether an exception is an `UnimplementedError`, whatever its message. -/
def SysError.isUnimplementedError : SysError → Bool
  | .UnimplementedError _ => true
  | _ => false

/-- The C++ loop `for (int i = start; i < stop; i++) body(i)` acting on a
state `σ`: the body runs for `i = start, start + 1, ..., stop - 1` in this
order, and not at all when `stop <= start`. -/
def for_loop {σ : Type} (start stop : Int) (body : Int → σ → σ) (s : σ) : σ :=
  (List.range (stop - start).toNat).foldl (fun acc (k : Nat) => body (start + (k : Int)) acc) s

/-- A C array `double[3]`. -/
structure Vec3 (α : Type) where
  x : α
  y : α
  z : α
  deriving DecidableEq, Repr

/-! ## Program utilities (`common.hpp`) -/

/-- Ways in which a call into the C++ standard library or a conversion ends
without a value: behaviour the language leaves undefined, and the exception
`std::length_error`. -/
inductive StdFailure where
  | undefined_behaviour
  | length_error
  deriving DecidableEq, Repr

/-- The conversion `int(x)` of a `double` `x`: the value truncated toward
zero when it is representable in `int` (32 bits, two's complement);
otherwise the behaviour is undefined and there is no value. -/
def double_to_int {α : Type} [LinearOrderedField α] [FloorRing α] (x : α) : Option Int :=
  let truncated : Int := if 0 ≤ x then ⌊x⌋ else ⌈x⌉
  if -2147483648 ≤ truncated ∧ truncated ≤ 2147483647 then some truncated else none

/-- The library function `std::to_string(int)`: the decimal digits of the
value, after a minus sign when it is negative. -/
def to_string (value : Int) : String :=
  if value < 0 then "-" ++ Nat.repr value.natAbs else Nat.repr value.natAbs

/-- The expression `std::string(2 - str.length(), '0') + str`.  The
subtraction is made in the unsigned type `size_t`: when `str` has more than
two characters the count wraps around to a value above `max_size()` and the
constructor throws `std::length_error`. -/
def pad_to_two (str : String) : Except StdFailure String :=
  if str.length ≤ 2 then .ok (String.mk (List.replicate (2 - str.length) '0') ++ str)
  else .error .length_error

/-- Function `show_elapsed_time(clock_duration)`.  The macro `CLOCKS_PER_SEC` of
`<ctime>` is a parameter, given as the `double` it is converted to for the
division; `/` and `%` on `int` truncate toward zero. -/
def show_elapsed_time {α : Type} [LinearOrderedField α] [FloorRing α]
    (CLOCKS_PER_SEC clock_duration : α) : Except StdFailure String :=
  match double_to_int (clock_duration / CLOCKS_PER_SEC) with
  | none => .error .undefined_behaviour
  | some time =>
    let h := to_string (time.tdiv 3600)
    let m := to_string ((time.tmod 3600).tdiv 60)
    let s := to_string (time.tmod 60)
    let hh := if h.length < 2 then String.mk (List.replicate (2 - h.length) '0') ++ h else h
    match pad_to_two m with
    | .error failure => .error failure
    | .ok mm =>
      match pad_to_two s with
      | .error failure => .error failure
      | .ok ss => .ok (hh ++ ":" ++ mm ++ ":" ++ ss)

/-! ## Binning (`dataobjs.cpp`) -/

/-- The data members of `trv::Binning` used by `dataobjs.cpp`. -/
structure Binning (α : Type) where
  scheme : String
  space : String
  bin_min : α
  bin_max : α
  num_bins : Int
  nbin_pad : Int
  dbin_pad_config : α
  dbin_pad_fourier : α
  bin_edges : List α
  bin_centres : List α
  bin_widths : List α
  deriving DecidableEq, Repr

/-- The three `push_back` calls that end the body of every binning loop. -/
def Binning.push_bin {α : Type} (b : Binning α) (edge_left centre width : α) : Binning α :=
  { b with
    bin_edges := b.bin_edges ++ [edge_left]
    bin_centres := b.bin_centres ++ [centre]
    bin_widths := b.bin_widths ++ [width] }

/-- The closing `this->bin_edges.push_back(this->bin_max)`. -/
def Binning.push_last_edge {α : Type} (b : Binning α) : Binning α :=
  { b with bin_edges := b.bin_edges ++ [b.bin_max] }

/-- The members of `trv::Binning` that the three-argument constructor does
not assign, with the values their declarations in `dataobjs.hpp` (not among
the sources) give them. -/
structure BinningDeclared (α : Type) where
  scheme : String
  space : String
  nbin_pad : Int
  dbin_pad_config : α
  dbin_pad_fourier : α

section BinningDefs

variable {α : Type} [LinearOrderedField α]

/-- The padding width chosen at the top of `set_bins`.  The local
`double dbin_pad;` is declared without a value and is assigned only when
`space` is `"fourier"` or `"config"`; `dbin_pad_uninit` stands for the
indeterminate value it holds otherwise. -/
def Binning.select_dbin_pad (dbin_pad_uninit : α) (b : Binning α) (space : String) : α :=
  if space = "fourier" then b.dbin_pad_fourier
  else if space = "config" then b.dbin_pad_config
  else dbin_pad_uninit

/-- Body of the loop of the `lin` scheme (and, with `offset = nbin_pad`, of
the second loop of `linpad`). -/
def Binning.lin_body (bin_min dbin : α) (offset : Int) (ibin : Int) (b : Binning α) :
    Binning α :=
  let edge_left := bin_min + dbin * ((ibin - offset : Int) : α)
  let centre := edge_left + dbin / 2
  b.push_bin edge_left centre dbin

/-- Body of the loop of the `log` scheme (and, with `offset = nbin_pad`, of
the second loop of `logpad`). -/
def Binning.log_body (exp : α → α) (bin_min dlnbin : α) (offset : Int) (ibin : Int)
    (b : Binning α) : Binning α :=
  let edge_left := bin_min * exp (dlnbin * ((ibin - offset : Int) : α))
  let edge_right := bin_min * exp (dlnbin * ((ibin - offset + 1 : Int) : α))
  let centre := (edge_left + edge_right) / 2
  b.push_bin edge_left centre (edge_right - edge_left)

/-- Body of the first loop of `linpad` and `logpad`. -/
def Binning.pad_body (dbin_pad : α) (ibin : Int) (b : Binning α) : Binning α :=
  let edge_left := dbin_pad * (ibin : α)
  let centre := edge_left + dbin_pad / 2
  b.push_bin edge_left centre dbin_pad

/-- Method `Binning::set_bins(std::string scheme, std::string space)`.  The result
is the exception thrown, if any, paired with the object after the call. -/
def Binning.set_bins (log exp : α → α) (dbin_pad_uninit : α) (b : Binning α)
    (scheme space : String) : Except SysError Unit × Binning α :=
  let dbin_pad := b.select_dbin_pad dbin_pad_uninit space
  if scheme = "custom" then
    (.error (.UnimplementedError
      ("Customed binning not implemented. " ++
        "Implement your own binning scheme here (\"dataobjs.cpp\").")), b)
  else if scheme = "lin" then
    let dbin := (b.bin_max - b.bin_min) / (b.num_bins : α)
    let b₁ := for_loop 0 b.num_bins (Binning.lin_body b.bin_min dbin 0) b
    (.ok (), b₁.push_last_edge)
  else if scheme = "log" then
    if b.bin_min = 0 then
      (.error (.InvalidParameter
        "Cannot use logarithmic binning when the lowest edge is zero."), b)
    else
      let dlnbin := (log b.bin_max - log b.bin_min) / (b.num_bins : α)
      let b₁ := for_loop 0 b.num_bins (Binning.log_body exp b.bin_min dlnbin 0) b
      (.ok (), b₁.push_last_edge)
  else if scheme = "linpad" then
    let b₁ := for_loop 0 b.nbin_pad (Binning.pad_body dbin_pad) b
    let bin_min := dbin_pad * (b.nbin_pad : α)
    let dbin := (b.bin_max - bin_min) / ((b.num_bins - b.nbin_pad : Int) : α)
    let b₂ := for_loop b.nbin_pad b.num_bins (Binning.lin_body bin_min dbin b.nbin_pad) b₁
    (.ok (), b₂.push_last_edge)
  else if scheme = "logpad" then
    let b₁ := for_loop 0 b.nbin_pad (Binning.pad_body dbin_pad) b
    let bin_min := dbin_pad * (b.nbin_pad : α)
    let dlnbin := (log b.bin_max - log bin_min) / ((b.num_bins - b.nbin_pad : Int) : α)
    let b₂ :=
      for_loop b.nbin_pad b.num_bins (Binning.log_body exp bin_min dlnbin b.nbin_pad) b₁
    (.ok (), b₂.push_last_edge)
  else
    (.error (.InvalidParameter ("Invalid binning `scheme`: " ++ scheme ++ ".")), b)

/-- Constructor `Binning::Binning(double coord_min, double coord_max, int nbin)`
(named `construct`, the name `Binning` being that of the type): the
exception thrown, or the object constructed.  The members it does not
assign are as `declared`; the three bin vectors start empty. -/
def Binning.construct (declared : BinningDeclared α) (coord_min coord_max : α) (nbin : Int) :
    Except SysError (Binning α) :=
  if coord_min < 0 then
    .error (.InvalidParameter "Binning range must be non-negative.")
  else
    .ok { scheme := declared.scheme, space := declared.space,
          bin_min := coord_min, bin_max := coord_max, num_bins := nbin,
          nbin_pad := declared.nbin_pad, dbin_pad_config := declared.dbin_pad_config,
          dbin_pad_fourier := declared.dbin_pad_fourier,
          bin_edges := [], bin_centres := [], bin_widths := [] }

end BinningDefs

/-! ## Parameters -/

/-- The members of `ParameterSet` read by the code embedded here.  The
header that declares the class is not among the sources; the fields are
those the sources access, with the types the accesses imply (`nmesh` is the
name `particles.hpp` uses for the grid counts, `ngrid` the one
`triumvirate.cpp` uses). -/
structure ParameterSet (α : Type) where
  catalogue_type : String
  statistic_type : String
  npoint : String
  norm_convention : String
  alignment : String
  padscale : String
  padfactor : α
  boxsize : Vec3 α
  ngrid : Vec3 Int
  nmesh : Vec3 Int
  deriving DecidableEq, Repr

/-! ## Particle catalogue (`particles.hpp`) -/

/-- The struct `ParticleCatalogue::ParticleData`. -/
structure ParticleData (α : Type) where
  pos : Vec3 α
  w : α
  deriving DecidableEq, Repr

/-- The class `ParticleCatalogue`.  The pointer `particles` and the count
`nparticles` are one list: `initialise_particles` is the only place that
allocates, it sets `nparticles` to the allocated length and refuses lengths
below 1, so the empty list is `particles == NULL` with `nparticles == 0` and
a list of `n >= 1` entries is an array of `nparticles == n` particles. -/
structure ParticleCatalogue (α : Type) where
  particles : List (ParticleData α)
  pos_min : Vec3 α
  pos_max : Vec3 α
  deriving DecidableEq, Repr

/-- The member `nparticles`. -/
def ParticleCatalogue.nparticles {α : Type} (c : ParticleCatalogue α) : Int :=
  (c.particles.length : Int)

section ParticleDefs

variable {α : Type} [LinearOrderedField α]

/-- The constructor `ParticleCatalogue()`. -/
def ParticleCatalogue.init : ParticleCatalogue α :=
  { particles := [], pos_min := ⟨0, 0, 0⟩, pos_max := ⟨0, 0, 0⟩ }

/-- Method `initialise_particles(num)`: a warning and no change when `num <= 0`,
otherwise a fresh array of `num` particles at the origin with weight 0.
(The update of the global memory counter is left out.) -/
def ParticleCatalogue.initialise_particles (c : ParticleCatalogue α) (num : Int) :
    ParticleCatalogue α :=
  if num ≤ 0 then c
  else { c with particles := List.replicate num.toNat ⟨⟨0, 0, 0⟩, 0⟩ }

/-- One step of the scan of `calc_min_and_max`: the six comparisons made for
the particle `p`. -/
def min_max_step (acc : Vec3 α × Vec3 α) (p : ParticleData α) : Vec3 α × Vec3 α :=
  (⟨if acc.1.x > p.pos.x then p.pos.x else acc.1.x,
    if acc.1.y > p.pos.y then p.pos.y else acc.1.y,
    if acc.1.z > p.pos.z then p.pos.z else acc.1.z⟩,
   ⟨if acc.2.x < p.pos.x then p.pos.x else acc.2.x,
    if acc.2.y < p.pos.y then p.pos.y else acc.2.y,
    if acc.2.z < p.pos.z then p.pos.z else acc.2.z⟩)

/-- Method `calc_min_and_max()`: exit status and the catalogue after the call. -/
def ParticleCatalogue.calc_min_and_max (c : ParticleCatalogue α) :
    Int × ParticleCatalogue α :=
  match c.particles with
  | [] => (-1, c)
  | p0 :: _ =>
    let ext := c.particles.foldl min_max_step (p0.pos, p0.pos)
    (0, { c with pos_min := ext.1, pos_max := ext.2 })

/-- The accumulation `for (id...) num_wgt += particles[id].w` starting from
`0.`, shared by `calc_alpha_ratio` and the normalisation functions. -/
def ParticleCatalogue.num_wgt (c : ParticleCatalogue α) : α :=
  c.particles.foldl (fun acc p => acc + p.w) 0

/-- Function `calc_alpha_ratio(particles_data, particles_rand)`. -/
def calc_alpha_ratio (particles_data particles_rand : ParticleCatalogue α) : α :=
  let num_wgt_data := particles_data.num_wgt
  let num_wgt_rand := particles_rand.num_wgt
  num_wgt_data / num_wgt_rand

/-- Function `calc_norm_for_power_spec_sugiyama(particles_data, survey_vol_norm)`. -/
def calc_norm_for_power_spec_sugiyama (particles_data : ParticleCatalogue α)
    (survey_vol_norm : α) : α :=
  let num_wgt_data := particles_data.num_wgt
  survey_vol_norm / num_wgt_data / num_wgt_data

/-- Function `calc_norm_for_bispec(particles_data, survey_vol_norm)`. -/
def calc_norm_for_bispec (particles_data : ParticleCatalogue α) (survey_vol_norm : α) : α :=
  let num_wgt_data := particles_data.num_wgt
  let norm := survey_vol_norm / num_wgt_data / num_wgt_data
  norm * (survey_vol_norm / num_wgt_data)

/-- Method `offset_particles(dpos)`: exit status and the catalogue after the call. -/
def ParticleCatalogue.offset_particles (c : ParticleCatalogue α) (dpos : Vec3 α) :
    Int × ParticleCatalogue α :=
  match c.particles with
  | [] => (-1, c)
  | _ :: _ =>
    (0, { c with particles := c.particles.map fun (p : ParticleData α) =>
      { p with pos := ⟨p.pos.x - dpos.x, p.pos.y - dpos.y, p.pos.z - dpos.z⟩ } })

/-- Function `offset_particles_for_fft(particles_data, particles_rand, params, factor)`:
exit status and the two catalogues after the call. -/
def offset_particles_for_fft (particles_data particles_rand : ParticleCatalogue α)
    (params : ParameterSet α) (factor : α) :
    Int × ParticleCatalogue α × ParticleCatalogue α :=
  let data₁ := particles_data.calc_min_and_max.2
  let rand₁ := particles_rand.calc_min_and_max.2
  let dpos : Vec3 α :=
    ⟨rand₁.pos_min.x - factor * params.boxsize.x / (params.nmesh.x : α),
     rand₁.pos_min.y - factor * params.boxsize.y / (params.nmesh.y : α),
     rand₁.pos_min.z - factor * params.boxsize.z / (params.nmesh.z : α)⟩
  let data₂ := (data₁.offset_particles dpos).2
  let rand₂ := (rand₁.offset_particles dpos).2
  (0, data₂.calc_min_and_max.2, rand₂.calc_min_and_max.2)

/-- Method `offset_particles_for_window(params)`: exit status and the catalogue
after the call. -/
def ParticleCatalogue.offset_particles_for_window (c : ParticleCatalogue α)
    (params : ParameterSet α) : Int × ParticleCatalogue α :=
  let xmid := c.pos_min.x + (c.pos_max.x - c.pos_min.x) / 2
  let ymid := c.pos_min.y + (c.pos_max.y - c.pos_min.y) / 2
  let zmid := c.pos_min.z + (c.pos_max.z - c.pos_min.z) / 2
  let dx : Vec3 α :=
    ⟨params.boxsize.x / 2 - xmid, params.boxsize.y / 2 - ymid, params.boxsize.z / 2 - zmid⟩
  let c₁ := { c with particles := c.particles.map fun (p : ParticleData α) =>
    { p with pos := ⟨p.pos.x + dx.x, p.pos.y + dx.y, p.pos.z + dx.z⟩ } }
  (0, c₁.calc_min_and_max.2)

/-- The branch made for one axis of one particle in
`offset_particles_for_periodicity`. -/
def wrap_coord (pos boxsize : α) : α :=
  if pos ≥ boxsize then pos - boxsize
  else if pos < 0 then pos + boxsize
  else pos

/-- Method `offset_particles_for_periodicity(params)`: exit status and the
catalogue after the call. -/
def ParticleCatalogue.offset_particles_for_periodicity (c : ParticleCatalogue α)
    (params : ParameterSet α) : Int × ParticleCatalogue α :=
  let c₁ := { c with particles := c.particles.map fun (p : ParticleData α) =>
    { p with pos := ⟨wrap_coord p.pos.x params.boxsize.x,
                     wrap_coord p.pos.y params.boxsize.y,
                     wrap_coord p.pos.z params.boxsize.z⟩ } }
  (0, c₁.calc_min_and_max.2)

/-- The `isspace` of the "C" locale: space, `\t`, `\n`, `\v`, `\f`, `\r`. -/
def isspace (c : Char) : Bool :=
  c = ' ' || c = '\t' || c = '\n' || c = Char.ofNat 11 || c = Char.ofNat 12 || c = '\r'

/-- Up to `n` consecutive `%lf` conversions on `input`.  Each conversion
skips leading white space (as does the blank between two directives of the
format) and then reads a number with `strtod`, which yields the value and
the unread rest of the input, or nothing when no number starts there.  The
scan stops at the first conversion that fails; what follows the last
conversion is never looked at. -/
def scan_lf (strtod : List Char → Option (α × List Char)) : Nat → List Char → List α
  | 0, _ => []
  | n + 1, input =>
    match strtod (input.dropWhile isspace) with
    | none => []
    | some (v, rest) => v :: scan_lf strtod n rest

/-- The call `sscanf(str_line.c_str(), "%lf %lf %lf %lf", &x, &y, &z, &w)`: the
return value and the values stored, in order.  The return value is the
number of conversions made, or `EOF` (`-1`) when the input ends before the
first one. -/
def sscanf_4lf (strtod : List Char → Option (α × List Char)) (str_line : String) :
    Int × List α :=
  let stored := scan_lf strtod 4 str_line.toList
  if stored.isEmpty && (str_line.toList.dropWhile isspace).isEmpty then (-1, stored)
  else ((stored.length : Int), stored)

/-- First loop of `read_particles_catalogue`: one `getline` iteration,
counting the line unless `sscanf` does not return 4. -/
def count_line (strtod : List Char → Option (α × List Char)) (num_lines : Int)
    (str_line : String) : Int :=
  if (sscanf_4lf strtod str_line).1 ≠ 4 then num_lines else num_lines + 1

/-- Second loop of `read_particles_catalogue`: one `getline` iteration,
storing the four values read at index `num_lines` unless `sscanf` does not
return 4. -/
def fill_line (strtod : List Char → Option (α × List Char))
    (st : Int × List (ParticleData α)) (str_line : String) : Int × List (ParticleData α) :=
  match sscanf_4lf strtod str_line with
  | (4, [x, y, z, w]) => (st.1 + 1, st.2.set st.1.toNat ⟨⟨x, y, z⟩, w⟩)
  | _ => st

/-- Method `read_particles_catalogue(particles_file)`.  The file is given by what
opening and reading it yields: `none` when it cannot be opened, otherwise
the lines `getline` returns, the same in both passes.  The result is the
exit status and the catalogue after the call. -/
def ParticleCatalogue.read_particles_catalogue
    (strtod : List Char → Option (α × List Char)) (c : ParticleCatalogue α)
    (particles_file : Option (List String)) : Int × ParticleCatalogue α :=
  match particles_file with
  | none => (-1, c)
  | some lines =>
    let num_lines := lines.foldl (count_line strtod) 0
    let c₁ := c.initialise_particles num_lines
    let filled := lines.foldl (fill_line strtod) (0, c₁.particles)
    (0, { c₁ with particles := filled.2 })

end ParticleDefs

/-- A reader of plain decimal numbers (sign, digits, optional fraction) over
the rationals, to run `read_particles_catalogue` on concrete files; it
agrees with `strtod` on such numbers. -/
def strtod_decimal (input : List Char) : Option (ℚ × List Char) :=
  let signed : Bool × List Char :=
    match input with
    | '-' :: t => (true, t)
    | '+' :: t => (false, t)
    | _ => (false, input)
  let int_part := signed.2.span Char.isDigit
  let frac_part : List Char × List Char :=
    match int_part.2 with
    | '.' :: t => t.span Char.isDigit
    | _ => ([], int_part.2)
  if int_part.1.isEmpty && frac_part.1.isEmpty then none
  else
    let digits := int_part.1 ++ frac_part.1
    let n : Nat := digits.foldl (fun acc d => 10 * acc + (d.toNat - 48)) 0
    let v : ℚ := (n : ℚ) / (10 : ℚ) ^ frac_part.1.length
    some (if signed.1 then -v else v, frac_part.2)

/-! ## The measurement part of `main` (`triumvirate.cpp`, sections B.2 to B.5)

`main` works with the `trv::ParticleCatalogue` of a later interface than
`particles.hpp` (`ntotal` for `nparticles`, alignment and normalisation
under other names).  A catalogue is modelled by `ParticleCatalogue` above;
the functions `main` calls that are declared outside `triumvirate.cpp` are
the fields of `External`.  The estimators are not run: the call `main`
makes is recorded with its arguments. -/

/-- The struct `trv::LineOfSight`. -/
structure LineOfSight (α : Type) where
  pos : Vec3 α
  deriving DecidableEq, Repr

/-- The functions called by sections B.2 to B.5 of `main` that are defined
outside `triumvirate.cpp`.  The alignment functions return the catalogues
they have moved; the normalisation functions are taken to leave their
arguments as they are. -/
structure External (α : Type) where
  get_vec3d_magnitude : Vec3 α → α
  pad_grids_pair : ParticleCatalogue α → ParticleCatalogue α → Vec3 α → Vec3 Int → Vec3 α →
    ParticleCatalogue α × ParticleCatalogue α
  pad_in_box_pair : ParticleCatalogue α → ParticleCatalogue α → Vec3 α → Vec3 α →
    ParticleCatalogue α × ParticleCatalogue α
  centre_in_box_pair : ParticleCatalogue α → ParticleCatalogue α → Vec3 α →
    ParticleCatalogue α × ParticleCatalogue α
  offset_coords_for_periodicity : ParticleCatalogue α → Vec3 α → ParticleCatalogue α
  pad_grids : ParticleCatalogue α → Vec3 α → Vec3 Int → Vec3 α → ParticleCatalogue α
  pad_in_box : ParticleCatalogue α → Vec3 α → Vec3 α → ParticleCatalogue α
  centre_in_box : ParticleCatalogue α → Vec3 α → ParticleCatalogue α
  wstotal : ParticleCatalogue α → α
  calc_powspec_normalisation_from_particles : ParticleCatalogue α → α → α
  calc_powspec_normalisation_from_mesh : ParticleCatalogue α → ParameterSet α → α → α
  calc_powspec_normalisation_from_meshes :
    ParticleCatalogue α → ParticleCatalogue α → ParameterSet α → α → α → α → String → α
  calc_bispec_normalisation_from_particles : ParticleCatalogue α → α → α
  calc_bispec_normalisation_from_mesh : ParticleCatalogue α → ParameterSet α → α → α

/-- The estimator call made in section B.5, with its arguments (`params`
left out).  A line-of-sight argument is `none` for a null pointer. -/
inductive EstimatorCall (α : Type) where
  | compute_powspec (catalogue_data catalogue_rand : ParticleCatalogue α)
      (los_data los_rand : Option (List (LineOfSight α))) (binning : Binning α)
      (norm_factor : α)
  | compute_powspec_in_gpp_box (catalogue_data : ParticleCatalogue α) (binning : Binning α)
      (norm_factor : α)
  | compute_corrfunc (catalogue_data catalogue_rand : ParticleCatalogue α)
      (los_data los_rand : Option (List (LineOfSight α))) (binning : Binning α)
      (norm_factor : α)
  | compute_corrfunc_in_gpp_box (catalogue_data : ParticleCatalogue α) (binning : Binning α)
      (norm_factor : α)
  | compute_corrfunc_window (catalogue_rand : ParticleCatalogue α)
      (los_rand : Option (List (LineOfSight α))) (binning : Binning α) (alpha norm_factor : α)
  | compute_bispec (catalogue_data catalogue_rand : ParticleCatalogue α)
      (los_data los_rand : Option (List (LineOfSight α))) (binning : Binning α)
      (norm_factor : α)
  | compute_bispec_in_gpp_box (catalogue_data : ParticleCatalogue α) (binning : Binning α)
      (norm_factor : α)
  | compute_3pcf (catalogue_data catalogue_rand : ParticleCatalogue α)
      (los_data los_rand : Option (List (LineOfSight α))) (binning : Binning α)
      (norm_factor : α)
  | compute_3pcf_in_gpp_box (catalogue_data : ParticleCatalogue α) (binning : Binning α)
      (norm_factor : α)
  | compute_3pcf_window (catalogue_rand : ParticleCatalogue α)
      (los_rand : Option (List (LineOfSight α))) (binning : Binning α) (alpha norm_factor : α)
      (wa : Bool)
  deriving DecidableEq, Repr

/-- The normalisation factor an estimator call receives. -/
def EstimatorCall.norm_factor {α : Type} : EstimatorCall α → α
  | .compute_powspec _ _ _ _ _ nf => nf
  | .compute_powspec_in_gpp_box _ _ nf => nf
  | .compute_corrfunc _ _ _ _ _ nf => nf
  | .compute_corrfunc_in_gpp_box _ _ nf => nf
  | .compute_corrfunc_window _ _ _ _ nf => nf
  | .compute_bispec _ _ _ _ _ nf => nf
  | .compute_bispec_in_gpp_box _ _ nf => nf
  | .compute_3pcf _ _ _ _ _ nf => nf
  | .compute_3pcf_in_gpp_box _ _ nf => nf
  | .compute_3pcf_window _ _ _ _ nf _ => nf

/-- The catalogues an estimator call receives together with a
line-of-sight array for them: each pair is a catalogue and the array passed
for it. -/
def EstimatorCall.los_pairs {α : Type} :
    EstimatorCall α → List (ParticleCatalogue α × Option (List (LineOfSight α)))
  | .compute_powspec d r ld lr _ _ => [(d, ld), (r, lr)]
  | .compute_powspec_in_gpp_box _ _ _ => []
  | .compute_corrfunc d r ld lr _ _ => [(d, ld), (r, lr)]
  | .compute_corrfunc_in_gpp_box _ _ _ => []
  | .compute_corrfunc_window r lr _ _ _ => [(r, lr)]
  | .compute_bispec d r ld lr _ _ => [(d, ld), (r, lr)]
  | .compute_bispec_in_gpp_box _ _ _ => []
  | .compute_3pcf d r ld lr _ _ => [(d, ld), (r, lr)]
  | .compute_3pcf_in_gpp_box _ _ _ => []
  | .compute_3pcf_window r lr _ _ _ _ => [(r, lr)]

/-- What sections B.2 to B.5 of `main` leave behind. -/
structure MainRun (α : Type) where
  warnings : List String
  los_data : Option (List (LineOfSight α))
  los_rand : Option (List (LineOfSight α))
  catalogue_data : ParticleCatalogue α
  catalogue_rand : ParticleCatalogue α
  alpha : α
  norm_factor_part : α
  norm_factor_mesh : α
  norm_factor_meshes : α
  norm_factor : α
  estimator : Option (EstimatorCall α)

section MainDefs

variable {α : Type} [LinearOrderedField α]

/-- Body of the line-of-sight loops of section B.2 for one particle: the
entry written at the particle's index, and whether the warning was logged. -/
def los_of_particle (get_vec3d_magnitude : Vec3 α → α) (p : ParticleData α) :
    LineOfSight α × Bool :=
  let los_mag := get_vec3d_magnitude p.pos
  let warned : Bool := decide (los_mag = 0)
  let los_mag := if los_mag = 0 then 1 else los_mag
  (⟨⟨p.pos.x / los_mag, p.pos.y / los_mag, p.pos.z / los_mag⟩⟩, warned)

/-- A line-of-sight loop of section B.2, `for (pid = 0; pid < ntotal; pid++)`:
the array filled, and the warnings logged (in index order). -/
def compute_los (get_vec3d_magnitude : Vec3 α → α) (warning : String)
    (catalogue : ParticleCatalogue α) : List (LineOfSight α) × List String :=
  let entries := catalogue.particles.map (los_of_particle get_vec3d_magnitude)
  (entries.map Prod.fst, (entries.filter Prod.snd).map fun _ => warning)

/-- Section B.3, box alignment: the two catalogues after it. -/
def main_align (ext : External α) (params : ParameterSet α)
    (catalogue_data catalogue_rand : ParticleCatalogue α) :
    ParticleCatalogue α × ParticleCatalogue α :=
  let pad : Vec3 α := ⟨params.padfactor, params.padfactor, params.padfactor⟩
  if params.catalogue_type = "survey" then
    if params.alignment = "pad" then
      if params.padscale = "grid" then
        ext.pad_grids_pair catalogue_data catalogue_rand params.boxsize params.ngrid pad
      else if params.padscale = "box" then
        ext.pad_in_box_pair catalogue_data catalogue_rand params.boxsize pad
      else (catalogue_data, catalogue_rand)
    else if params.alignment = "centre" then
      ext.centre_in_box_pair catalogue_data catalogue_rand params.boxsize
    else (catalogue_data, catalogue_rand)
  else if params.catalogue_type = "sim" then
    (ext.offset_coords_for_periodicity catalogue_data params.boxsize, catalogue_rand)
  else if params.catalogue_type = "random" then
    if params.alignment = "pad" then
      if params.padscale = "grid" then
        (catalogue_data, ext.pad_grids catalogue_rand params.boxsize params.ngrid pad)
      else if params.padscale = "box" then
        (catalogue_data, ext.pad_in_box catalogue_rand params.boxsize pad)
      else (catalogue_data, catalogue_rand)
    else if params.alignment = "centre" then
      (catalogue_data, ext.centre_in_box catalogue_rand params.boxsize)
    else (catalogue_data, catalogue_rand)
  else (catalogue_data, catalogue_rand)

/-- The choice of `norm_factor` that ends section B.4. -/
def select_norm_factor (npoint norm_convention : String)
    (norm_factor_part norm_factor_mesh norm_factor_meshes : α) : α :=
  if npoint ≠ "none" then
    if norm_convention = "none" then 1
    else if norm_convention = "particle" then norm_factor_part
    else if norm_convention = "mesh" then norm_factor_mesh
    else if norm_convention = "mesh-mixed" then norm_factor_meshes
    else 0
  else 0

/-- Section B.5: the estimator called for `statistic_type` and
`catalogue_type`, if any. -/
def main_estimator (params : ParameterSet α)
    (catalogue_data catalogue_rand : ParticleCatalogue α)
    (los_data los_rand : Option (List (LineOfSight α))) (binning : Binning α)
    (alpha norm_factor : α) : Option (EstimatorCall α) :=
  if params.statistic_type = "powspec" then
    if params.catalogue_type = "survey" then
      some (.compute_powspec catalogue_data catalogue_rand los_data los_rand binning norm_factor)
    else if params.catalogue_type = "sim" then
      some (.compute_powspec_in_gpp_box catalogue_data binning norm_factor)
    else none
  else if params.statistic_type = "2pcf" then
    if params.catalogue_type = "survey" then
      some (.compute_corrfunc catalogue_data catalogue_rand los_data los_rand binning norm_factor)
    else if params.catalogue_type = "sim" then
      some (.compute_corrfunc_in_gpp_box catalogue_data binning norm_factor)
    else none
  else if params.statistic_type = "2pcf-win" then
    some (.compute_corrfunc_window catalogue_rand los_rand binning alpha norm_factor)
  else if params.statistic_type = "bispec" then
    if params.catalogue_type = "survey" then
      some (.compute_bispec catalogue_data catalogue_rand los_data los_rand binning norm_factor)
    else if params.catalogue_type = "sim" then
      some (.compute_bispec_in_gpp_box catalogue_data binning norm_factor)
    else none
  else if params.statistic_type = "3pcf" then
    if params.catalogue_type = "survey" then
      some (.compute_3pcf catalogue_data catalogue_rand los_data los_rand binning norm_factor)
    else if params.catalogue_type = "sim" then
      some (.compute_3pcf_in_gpp_box catalogue_data binning norm_factor)
    else none
  else if params.statistic_type = "3pcf-win" then
    some (.compute_3pcf_window catalogue_rand los_rand binning alpha norm_factor false)
  else if params.statistic_type = "3pcf-win-wa" then
    some (.compute_3pcf_window catalogue_rand los_rand binning alpha norm_factor true)
  else none

/-- Sections B.2 to B.5 of `main`, in program order, starting from the state
that section B.1 leaves: `binning` is the binning set up there, and
`loaded_data`, `loaded_rand` are the catalogues the two files of section A.2
load.  A catalogue that `catalogue_type` does not ask for stays as
constructed. -/
def main_measure (ext : External α) (params : ParameterSet α) (binning : Binning α)
    (loaded_data loaded_rand : ParticleCatalogue α) : MainRun α :=
  -- A.2: which catalogues exist
  let flag_data : Bool :=
    decide (params.catalogue_type = "survey" ∨ params.catalogue_type = "sim")
  let flag_rand : Bool :=
    decide (params.catalogue_type = "survey" ∨ params.catalogue_type = "random")
  let catalogue_data := if flag_data then loaded_data else ParticleCatalogue.init
  let catalogue_rand := if flag_rand then loaded_rand else ParticleCatalogue.init
  -- B.2 Line of sight
  let los_data_run :=
    if flag_data then
      let r := compute_los ext.get_vec3d_magnitude
        "A data-catalogue particle coincides with the origin." catalogue_data
      (some r.1, r.2)
    else (none, [])
  let los_rand_run :=
    if flag_rand then
      let r := compute_los ext.get_vec3d_magnitude
        "A random-catalogue particle coincides with the origin." catalogue_rand
      (some r.1, r.2)
    else (none, [])
  -- B.3 Box alignment
  let aligned := main_align ext params catalogue_data catalogue_rand
  let catalogue_data := aligned.1
  let catalogue_rand := aligned.2
  -- B.4 Constants
  let alpha : α :=
    if flag_data && flag_rand then ext.wstotal catalogue_data / ext.wstotal catalogue_rand
    else 1
  let catalogue_for_norm := if flag_rand then catalogue_rand else catalogue_data
  let alpha_for_norm : α := if flag_rand then alpha else 1
  let norms : α × α × α :=
    if params.npoint = "2pt" then
      (ext.calc_powspec_normalisation_from_particles catalogue_for_norm alpha_for_norm,
       ext.calc_powspec_normalisation_from_mesh catalogue_for_norm params alpha_for_norm,
       if params.catalogue_type = "survey" then
         ext.calc_powspec_normalisation_from_meshes catalogue_data catalogue_rand params alpha
           0.1 10 "cic"
       else 0)
    else if params.npoint = "3pt" then
      (ext.calc_bispec_normalisation_from_particles catalogue_for_norm alpha_for_norm,
       ext.calc_bispec_normalisation_from_mesh catalogue_for_norm params alpha_for_norm,
       0)
    else (0, 0, 0)
  let norm_factor :=
    select_norm_factor params.npoint params.norm_convention norms.1 norms.2.1 norms.2.2
  -- B.5 Clustering algorithms
  { warnings := los_data_run.2 ++ los_rand_run.2
    los_data := los_data_run.1
    los_rand := los_rand_run.1
    catalogue_data := catalogue_data
    catalogue_rand := catalogue_rand
    alpha := alpha
    norm_factor_part := norms.1
    norm_factor_mesh := norms.2.1
    norm_factor_meshes := norms.2.2
    norm_factor := norm_factor
    estimator := main_estimator params catalogue_data catalogue_rand los_data_run.1
      los_rand_run.1 binning alpha norm_factor }

/-- The loading of one catalogue in section A.2 of `main`,
`if (catalogue.load_catalogue_file(...)) { if (currTask == 0) { ... throw
IOError(...) } }`: a non-zero status of the load is turned into an `IOError`
with the message of the catalogue concerned, on the task 0; otherwise the
run goes on with the catalogue as loaded.  The method called,
`load_catalogue_file`, and the global `trv::sys::currTask` are parameters;
the catalogue loaded into is the one just constructed. -/
def main_load_catalogue (currTask : Int)
    (load_catalogue_file : ParticleCatalogue α → Int × ParticleCatalogue α)
    (err_mesg : String) : Except SysError (ParticleCatalogue α) :=
  let loaded := load_catalogue_file ParticleCatalogue.init
  if loaded.1 ≠ 0 then
    if currTask = 0 then .error (.IOError err_mesg)
    else .ok loaded.2
  else .ok loaded.2

end MainDefs

/-! ## Division by a zero weight sum

The field that stands for `double` gives no meaning to a division by zero,
whereas a `double` division returns an infinity or NaN.  Where a claim is
about that case, the quotient of the two weight sums is modelled with its
IEEE 754 outcome spelled out. -/

/-- The value of a `double` division with finite operands. -/
inductive DoubleQuotient (α : Type) where
  | finite (value : α)
  | pos_infinity
  | neg_infinity
  | nan
  deriving DecidableEq, Repr

section QuotientDefs

variable {α : Type} [LinearOrderedField α]

/-- The `double` division `x / y` for finite `x` and a finite `y` that is not
the negative zero: the quotient when `y` is not zero, otherwise NaN for
`0 / 0` and the infinity of the sign of `x`.  (A sum accumulated from `0.`,
as the weight sums are, is never the negative zero.) -/
def double_div (x y : α) : DoubleQuotient α :=
  if y = 0 then
    if x = 0 then .nan
    else if 0 < x then .pos_infinity
    else .neg_infinity
  else .finite (x / y)

/-- Function `calc_alpha_ratio(particles_data, particles_rand)` with the
outcome of its division spelled out; there is no statement between the
division and the `return`. -/
def calc_alpha_ratio_ieee (particles_data particles_rand : ParticleCatalogue α) :
    DoubleQuotient α :=
  let num_wgt_data := particles_data.num_wgt
  let num_wgt_rand := particles_rand.num_wgt
  double_div num_wgt_data num_wgt_rand

/-- The assignment of `alpha` that opens section B.4 of `main`, with the
outcome of its division spelled out. -/
def main_alpha_ieee (ext : External α) (params : ParameterSet α)
    (catalogue_data catalogue_rand : ParticleCatalogue α) : DoubleQuotient α :=
  let flag_data : Bool :=
    decide (params.catalogue_type = "survey" ∨ params.catalogue_type = "sim")
  let flag_rand : Bool :=
    decide (params.catalogue_type = "survey" ∨ params.catalogue_type = "random")
  if flag_data && flag_rand then
    double_div (ext.wstotal catalogue_data) (ext.wstotal catalogue_rand)
  else .finite 1

end QuotientDefs

/-! ## Notions of the specification used in the statements -/

section SpecDefs

variable {α : Type} [LinearOrderedField α]

/-- Modelled from the spec: `trv::maths::get_vec3d_magnitude` is called by
`main` but defined outside the sources at hand; the spec writes its value
at `p` as `|p|`, the Euclidean length.  `IsEuclideanNorm m v` says that `m`
is that length of `v`: the non-negative number whose square is the sum of
the squares of the components. -/
def IsEuclideanNorm (m : α) (v : Vec3 α) : Prop :=
  0 ≤ m ∧ m * m = v.x * v.x + v.y * v.y + v.z * v.z

/-- The spec's reading of a valid catalogue row: split at white space, the
line consists of exactly four fields and each field, as a whole, is a
number. -/
def exactly_four_numeric_fields (strtod : List Char → Option (α × List Char))
    (str_line : String) : Bool :=
  let fields := (str_line.toList.splitOnP isspace).filter fun f => !f.isEmpty
  fields.length == 4 &&
    fields.all fun f =>
      match strtod f with
      | some (_, rest) => rest.isEmpty
      | none => false

/-- What the code accepts as a row: four numbers can be read one after the
other from the start of the line, each after optional white space.  The
result is the particle made of them; the rest of the line plays no role. -/
def leading_four_numbers (strtod : List Char → Option (α × List Char)) (str_line : String) :
    Option (ParticleData α) :=
  match strtod (str_line.toList.dropWhile isspace) with
  | none => none
  | some (x, rest₁) =>
    match strtod (rest₁.dropWhile isspace) with
    | none => none
    | some (y, rest₂) =>
      match strtod (rest₂.dropWhile isspace) with
      | none => none
      | some (z, rest₃) =>
        match strtod (rest₃.dropWhile isspace) with
        | none => none
        | some (w, _) => some ⟨⟨x, y, z⟩, w⟩

/-- The residual range of the padded schemes as a binning of its own: the
lowest edge is `nbin_pad` padding widths, `num_bins - nbin_pad` bins are
left, and the bin vectors are empty. -/
def Binning.residual (b : Binning α) (dbin_pad : α) : Binning α :=
  { b with
    bin_min := dbin_pad * (b.nbin_pad : α)
    num_bins := b.num_bins - b.nbin_pad
    bin_edges := []
    bin_centres := []
    bin_widths := [] }

/-- One bin of the spec's scheme `lin`, as left edge, centre and width: the
edge is `bin_min + k * dbin`, the centre the edge plus `dbin / 2`, the width
`dbin`. -/
def spec_lin_bin (bin_min dbin : α) (k : Nat) : α × α × α :=
  (bin_min + dbin * (k : α), bin_min + dbin * (k : α) + dbin / 2, dbin)

/-- One bin of the spec's scheme `log`: the edge is `bin_min * exp (k * dln)`,
the centre the arithmetic mean of this edge and the next, the width their
difference. -/
def spec_log_bin (exp : α → α) (bin_min dln : α) (k : Nat) : α × α × α :=
  (bin_min * exp (dln * (k : α)),
   (bin_min * exp (dln * (k : α)) + bin_min * exp (dln * ((k : α) + 1))) / 2,
   bin_min * exp (dln * ((k : α) + 1)) - bin_min * exp (dln * (k : α)))

/-- One bin of the spec's padded schemes: the first `pad_bins` bins have the
edge `k * pad_width` and the width `pad_width`, the bins after them are
those of the unpadded scheme, counted from the first of them. -/
def spec_padded_bin (pad_bins : Nat) (pad_width : α) (unpadded : Nat → α × α × α)
    (k : Nat) : α × α × α :=
  if k < pad_bins then
    (pad_width * (k : α), pad_width * (k : α) + pad_width / 2, pad_width)
  else unpadded (k - pad_bins)

/-- A binning with the given bins appended to its three bin vectors and the
edges closed by `bin_max`. -/
def Binning.append_bins (b : Binning α) (bins : List (α × α × α)) : Binning α :=
  { b with
    bin_edges := b.bin_edges ++ (bins.map (fun bin => bin.1) ++ [b.bin_max])
    bin_centres := b.bin_centres ++ bins.map (fun bin => bin.2.1)
    bin_widths := b.bin_widths ++ bins.map (fun bin => bin.2.2) }

/-- The number a string of decimal digits denotes. -/
def decimal_value (digits : List Char) : Nat :=
  digits.foldl (fun value c => 10 * value + (c.toNat - '0'.toNat)) 0

/-- The cached bounds of a catalogue are exact: on each axis every particle
lies within `[pos_min, pos_max]` and each of the two bounds is the
coordinate of some particle. -/
def ParticleCatalogue.bounds_exact (c : ParticleCatalogue α) : Prop :=
  (∀ p ∈ c.particles,
    (c.pos_min.x ≤ p.pos.x ∧ p.pos.x ≤ c.pos_max.x) ∧
    (c.pos_min.y ≤ p.pos.y ∧ p.pos.y ≤ c.pos_max.y) ∧
    (c.pos_min.z ≤ p.pos.z ∧ p.pos.z ≤ c.pos_max.z)) ∧
  ((∃ p ∈ c.particles, p.pos.x = c.pos_min.x) ∧ (∃ p ∈ c.particles, p.pos.x = c.pos_max.x)) ∧
  ((∃ p ∈ c.particles, p.pos.y = c.pos_min.y) ∧ (∃ p ∈ c.particles, p.pos.y = c.pos_max.y)) ∧
  ((∃ p ∈ c.particles, p.pos.z = c.pos_min.z) ∧ (∃ p ∈ c.particles, p.pos.z = c.pos_max.z))

end SpecDefs

/-! ## Concrete inputs over the rationals -/

/-- Integer square root by search: the largest `k` with `k * k <= n`. -/
def isqrt (n : Nat) : Nat :=
  ((List.range (n + 1)).filter fun k => k * k ≤ n).length - 1

/-- A magnitude function over the rationals to run `main_measure` with: the
square root of the sum of squares, exact whenever that root is rational. -/
def vec3_magnitude_rat (v : Vec3 ℚ) : ℚ :=
  let q : ℚ := v.x * v.x + v.y * v.y + v.z * v.z
  (isqrt (q.num.toNat * q.den) : ℚ) / (q.den : ℚ)

/-- An environment to run `main_measure` in over the rationals.  Alignment
is done by the functions of `particles.hpp` that implement it under their
older names (`offset_particles_for_fft` for `pad_grids`,
`offset_particles_for_window` for `centre_in_box`,
`offset_particles_for_periodicity` for `offset_coords_for_periodicity`) and
the total weight is the sum of the weights; the functions that have no
counterpart in the sources return the catalogues unmoved and the factor 0. -/
def example_external : External ℚ where
  get_vec3d_magnitude := vec3_magnitude_rat
  pad_grids_pair := fun d r boxsize ngrid pad =>
    (offset_particles_for_fft d r
      { catalogue_type := "", statistic_type := "", npoint := "", norm_convention := "",
        alignment := "", padscale := "", padfactor := pad.x, boxsize := boxsize,
        ngrid := ngrid, nmesh := ngrid } pad.x).2
  pad_in_box_pair := fun d r _ _ => (d, r)
  centre_in_box_pair := fun d r _ => (d, r)
  offset_coords_for_periodicity := fun c boxsize =>
    (c.offset_particles_for_periodicity
      { catalogue_type := "", statistic_type := "", npoint := "", norm_convention := "",
        alignment := "", padscale := "", padfactor := 0, boxsize := boxsize,
        ngrid := ⟨0, 0, 0⟩, nmesh := ⟨0, 0, 0⟩ }).2
  pad_grids := fun c boxsize ngrid pad =>
    (offset_particles_for_fft c c
      { catalogue_type := "", statistic_type := "", npoint := "", norm_convention := "",
        alignment := "", padscale := "", padfactor := pad.x, boxsize := boxsize,
        ngrid := ngrid, nmesh := ngrid } pad.x).2.2
  pad_in_box := fun c _ _ => c
  centre_in_box := fun c boxsize =>
    (c.offset_particles_for_window
      { catalogue_type := "", statistic_type := "", npoint := "", norm_convention := "",
        alignment := "", padscale := "", padfactor := 0, boxsize := boxsize,
        ngrid := ⟨0, 0, 0⟩, nmesh := ⟨0, 0, 0⟩ }).2
  wstotal := fun c => c.num_wgt
  calc_powspec_normalisation_from_particles := fun _ _ => 0
  calc_powspec_normalisation_from_mesh := fun _ _ _ => 0
  calc_powspec_normalisation_from_meshes := fun _ _ _ _ _ _ _ => 0
  calc_bispec_normalisation_from_particles := fun _ _ => 0
  calc_bispec_normalisation_from_mesh := fun _ _ _ => 0

/-- The environment `example_external` with normalisation functions that
return the given particle-based, mesh-based and mixed-mesh factors. -/
def example_external_with_factors (part mesh meshes : ℚ) : External ℚ :=
  { example_external with
    calc_powspec_normalisation_from_particles := fun _ _ => part
    calc_powspec_normalisation_from_mesh := fun _ _ _ => mesh
    calc_powspec_normalisation_from_meshes := fun _ _ _ _ _ _ _ => meshes
    calc_bispec_normalisation_from_particles := fun _ _ => part
    calc_bispec_normalisation_from_mesh := fun _ _ _ => mesh }

/-- A binning with empty bin vectors over `[bin_min, bin_max]`. -/
def example_binning (bin_min bin_max : ℚ) (num_bins : Int) : Binning ℚ :=
  { scheme := "lin", space := "fourier", bin_min := bin_min, bin_max := bin_max,
    num_bins := num_bins, nbin_pad := 0, dbin_pad_config := 0, dbin_pad_fourier := 0,
    bin_edges := [], bin_centres := [], bin_widths := [] }

/-- A binning with empty bin vectors, `nbin_pad` padded bins of width
`dbin_pad` in both spaces, and the range `[bin_min, bin_max]`. -/
def example_binning_padded (bin_min bin_max dbin_pad : ℚ) (num_bins nbin_pad : Int) :
    Binning ℚ :=
  { scheme := "linpad", space := "fourier", bin_min := bin_min, bin_max := bin_max,
    num_bins := num_bins, nbin_pad := nbin_pad, dbin_pad_config := dbin_pad,
    dbin_pad_fourier := dbin_pad, bin_edges := [], bin_centres := [], bin_widths := [] }

/-- Declared values of the members of a `Binning`: five padded bins, padding
widths 10 in configuration space and 1/1000 in Fourier space. -/
def example_declared : BinningDeclared ℚ :=
  { scheme := "lin", space := "fourier", nbin_pad := 5, dbin_pad_config := 10,
    dbin_pad_fourier := 1 / 1000 }

/-- A catalogue of the given particles, its cached bounds as constructed. -/
def example_catalogue (particles : List (ParticleData ℚ)) : ParticleCatalogue ℚ :=
  { particles := particles, pos_min := ⟨0, 0, 0⟩, pos_max := ⟨0, 0, 0⟩ }

/-- A parameter set with a 20 x 20 x 10 box of 10 x 10 x 10 cells (cells of
size 2 x 2 x 1), aligned by padding with one grid cell. -/
def example_params (catalogue_type statistic_type npoint norm_convention : String) :
    ParameterSet ℚ :=
  { catalogue_type := catalogue_type, statistic_type := statistic_type, npoint := npoint,
    norm_convention := norm_convention, alignment := "pad", padscale := "grid",
    padfactor := 1, boxsize := ⟨20, 20, 10⟩, ngrid := ⟨10, 10, 10⟩, nmesh := ⟨10, 10, 10⟩ }

/-- The environment `example_external` with normalisation functions whose
value shows the catalogue and the alpha they are called with: the total
weight of the catalogue plus 10 times alpha for the particle-based factors,
plus 100 times alpha for the mesh-based factors, and the total weights of
both catalogues plus 1000 times alpha for the mixed-mesh factor. -/
def example_external_by_weight : External ℚ :=
  { example_external with
    calc_powspec_normalisation_from_particles := fun c alpha => c.num_wgt + 10 * alpha
    calc_powspec_normalisation_from_mesh := fun c _ alpha => c.num_wgt + 100 * alpha
    calc_powspec_normalisation_from_meshes := fun d r _ alpha _ _ _ =>
      d.num_wgt + r.num_wgt + 1000 * alpha
    calc_bispec_normalisation_from_particles := fun c alpha => c.num_wgt + 10 * alpha
    calc_bispec_normalisation_from_mesh := fun c _ alpha => c.num_wgt + 100 * alpha }

/-! ## Concrete inputs over any ordered field -/

/-- A binning with empty bin vectors over `[bin_min, bin_max]` with numbers of
the field `α`, `nbin_pad` padded bins of width `dbin_pad` in both spaces. -/
def example_binning_over (α : Type) [LinearOrderedField α] (bin_min bin_max dbin_pad : α)
    (num_bins nbin_pad : Int) : Binning α :=
  { scheme := "log", space := "fourier", bin_min := bin_min, bin_max := bin_max,
    num_bins := num_bins, nbin_pad := nbin_pad, dbin_pad_config := dbin_pad,
    dbin_pad_fourier := dbin_pad, bin_edges := [], bin_centres := [], bin_widths := [] }

/-! ## Rounded arithmetic

The definitions above read every `double` operation as the exact operation
of the field.  The definitions of this part read it as the exact operation
followed by a rounding `fl` to the set of `double` values: `x - y` in the
code is `fl (x - y)`, one rounding for each operation, in the order in which
the code evaluates (no contraction into fused operations, no extended
precision).  Comparisons and the conversion `double(n)` of an `int` are
exact.  At `fl := id` each definition is the exact one it goes with.
`round_binary64` is the rounding of IEEE 754 binary64 in the default mode
(to nearest, ties to even) on the rationals; overflow is not modelled, so it
stands for the `double` operations of a run whose values stay finite. -/

/-- Rounding to the nearest integer, a tie going to the even one. -/
def round_half_even (y : ℚ) : ℤ :=
  if y - ⌊y⌋ < 1 / 2 then ⌊y⌋
  else if 1 / 2 < y - ⌊y⌋ then ⌊y⌋ + 1
  else if ⌊y⌋ % 2 = 0 then ⌊y⌋
  else ⌊y⌋ + 1

/-- The exponent `q` of the spacing `2 ^ q` of the binary64 numbers around a
non-negative `y`: 53 significant bits above the subnormal range, whose
spacing is `2 ^ (-1074)`. -/
def binary64_spacing_exponent (y : ℚ) : ℤ :=
  max (Int.log 2 y - 52) (-1074)

/-- Rounding of a non-negative number to binary64. -/
def round_binary64_nonneg (y : ℚ) : ℚ :=
  (round_half_even (y / 2 ^ binary64_spacing_exponent y) : ℚ) * 2 ^ binary64_spacing_exponent y

/-- Rounding to binary64, to nearest with ties to even. -/
def round_binary64 (x : ℚ) : ℚ :=
  if x < 0 then -round_binary64_nonneg (-x) else round_binary64_nonneg x

section RoundedDefs

variable {α : Type} [LinearOrderedField α]

/-- What the theorems on rounded arithmetic use of a rounding: it keeps the
order, leaves its own values as they are, and 0 is one of its values. -/
def IsRounding (fl : α → α) : Prop :=
  (∀ x y, x ≤ y → fl x ≤ fl y) ∧ (∀ x, fl (fl x) = fl x) ∧ fl 0 = 0

/-- Body of the loop of the `lin` scheme (and, with `offset = nbin_pad`, of
the second loop of `linpad`), each operation rounded. -/
def Binning.lin_body_fl (fl : α → α) (bin_min dbin : α) (offset : Int) (ibin : Int)
    (b : Binning α) : Binning α :=
  let edge_left := fl (bin_min + fl (dbin * ((ibin - offset : Int) : α)))
  let centre := fl (edge_left + fl (dbin / 2))
  b.push_bin edge_left centre dbin

/-- Body of the loop of the `log` scheme (and, with `offset = nbin_pad`, of
the second loop of `logpad`), each operation rounded; `exp` returns the
`double` that `std::exp` returns. -/
def Binning.log_body_fl (fl : α → α) (exp : α → α) (bin_min dlnbin : α) (offset : Int)
    (ibin : Int) (b : Binning α) : Binning α :=
  let edge_left := fl (bin_min * exp (fl (dlnbin * ((ibin - offset : Int) : α))))
  let edge_right := fl (bin_min * exp (fl (dlnbin * ((ibin - offset + 1 : Int) : α))))
  let centre := fl (fl (edge_left + edge_right) / 2)
  b.push_bin edge_left centre (fl (edge_right - edge_left))

/-- Body of the first loop of `linpad` and `logpad`, each operation rounded. -/
def Binning.pad_body_fl (fl : α → α) (dbin_pad : α) (ibin : Int) (b : Binning α) :
    Binning α :=
  let edge_left := fl (dbin_pad * (ibin : α))
  let centre := fl (edge_left + fl (dbin_pad / 2))
  b.push_bin edge_left centre dbin_pad

/-- Method `Binning::set_bins(std::string scheme, std::string space)` with each
`double` operation rounded by `fl`; `log` and `exp` return the `double`
values that `std::log` and `std::exp` return. -/
def Binning.set_bins_fl (fl : α → α) (log exp : α → α) (dbin_pad_uninit : α) (b : Binning α)
    (scheme space : String) : Except SysError Unit × Binning α :=
  let dbin_pad := b.select_dbin_pad dbin_pad_uninit space
  if scheme = "custom" then
    (.error (.UnimplementedError
      ("Customed binning not implemented. " ++
        "Implement your own binning scheme here (\"dataobjs.cpp\").")), b)
  else if scheme = "lin" then
    let dbin := fl (fl (b.bin_max - b.bin_min) / (b.num_bins : α))
    let b₁ := for_loop 0 b.num_bins (Binning.lin_body_fl fl b.bin_min dbin 0) b
    (.ok (), b₁.push_last_edge)
  else if scheme = "log" then
    if b.bin_min = 0 then
      (.error (.InvalidParameter
        "Cannot use logarithmic binning when the lowest edge is zero."), b)
    else
      let dlnbin := fl (fl (log b.bin_max - log b.bin_min) / (b.num_bins : α))
      let b₁ := for_loop 0 b.num_bins (Binning.log_body_fl fl exp b.bin_min dlnbin 0) b
      (.ok (), b₁.push_last_edge)
  else if scheme = "linpad" then
    let b₁ := for_loop 0 b.nbin_pad (Binning.pad_body_fl fl dbin_pad) b
    let bin_min := fl (dbin_pad * (b.nbin_pad : α))
    let dbin := fl (fl (b.bin_max - bin_min) / ((b.num_bins - b.nbin_pad : Int) : α))
    let b₂ :=
      for_loop b.nbin_pad b.num_bins (Binning.lin_body_fl fl bin_min dbin b.nbin_pad) b₁
    (.ok (), b₂.push_last_edge)
  else if scheme = "logpad" then
    let b₁ := for_loop 0 b.nbin_pad (Binning.pad_body_fl fl dbin_pad) b
    let bin_min := fl (dbin_pad * (b.nbin_pad : α))
    let dlnbin :=
      fl (fl (log b.bin_max - log bin_min) / ((b.num_bins - b.nbin_pad : Int) : α))
    let b₂ :=
      for_loop b.nbin_pad b.num_bins (Binning.log_body_fl fl exp bin_min dlnbin b.nbin_pad) b₁
    (.ok (), b₂.push_last_edge)
  else
    (.error (.InvalidParameter ("Invalid binning `scheme`: " ++ scheme ++ ".")), b)

/-- One bin of the rounded loop of `lin`, as left edge, centre and width. -/
def lin_bin_fl (fl : α → α) (bin_min dbin : α) (k : Nat) : α × α × α :=
  (fl (bin_min + fl (dbin * (k : α))),
   fl (fl (bin_min + fl (dbin * (k : α))) + fl (dbin / 2)),
   dbin)

/-- One bin of the rounded loop of `log`, as left edge, centre and width. -/
def log_bin_fl (fl : α → α) (exp : α → α) (bin_min dln : α) (k : Nat) : α × α × α :=
  (fl (bin_min * exp (fl (dln * (k : α)))),
   fl (fl (fl (bin_min * exp (fl (dln * (k : α)))) +
     fl (bin_min * exp (fl (dln * ((k : α) + 1))))) / 2),
   fl (fl (bin_min * exp (fl (dln * ((k : α) + 1)))) - fl (bin_min * exp (fl (dln * (k : α))))))

/-- One bin of a rounded padded scheme: the first `pad_bins` bins are those
of the padding loop, the bins after them are those of the second loop,
counted from the first of them. -/
def padded_bin_fl (fl : α → α) (pad_bins : Nat) (pad_width : α)
    (unpadded : Nat → α × α × α) (k : Nat) : α × α × α :=
  if k < pad_bins then
    (fl (pad_width * (k : α)), fl (fl (pad_width * (k : α)) + fl (pad_width / 2)), pad_width)
  else unpadded (k - pad_bins)

/-- Method `offset_particles(dpos)` with each subtraction rounded: exit status
and the catalogue after the call. -/
def ParticleCatalogue.offset_particles_fl (fl : α → α) (c : ParticleCatalogue α)
    (dpos : Vec3 α) : Int × ParticleCatalogue α :=
  match c.particles with
  | [] => (-1, c)
  | _ :: _ =>
    (0, { c with particles := c.particles.map fun (p : ParticleData α) =>
      { p with pos := ⟨fl (p.pos.x - dpos.x), fl (p.pos.y - dpos.y), fl (p.pos.z - dpos.z)⟩ } })

/-- The offset vector `dpos` that `offset_particles_for_fft` builds from the
minimum `pos_min` of the random catalogue: `dpos[i] = pos_min[i]` followed by
`dpos[i] -= factor * params.boxsize[i] / double(params.nmesh[i])`, each
operation rounded. -/
def offset_for_fft_fl (fl : α → α) (pos_min : Vec3 α) (params : ParameterSet α)
    (factor : α) : Vec3 α :=
  ⟨fl (pos_min.x - fl (fl (factor * params.boxsize.x) / (params.nmesh.x : α))),
   fl (pos_min.y - fl (fl (factor * params.boxsize.y) / (params.nmesh.y : α))),
   fl (pos_min.z - fl (fl (factor * params.boxsize.z) / (params.nmesh.z : α)))⟩

/-- Function `offset_particles_for_fft(particles_data, particles_rand, params, factor)`
with each operation rounded: exit status and the two catalogues after the
call. -/
def offset_particles_for_fft_fl (fl : α → α)
    (particles_data particles_rand : ParticleCatalogue α)
    (params : ParameterSet α) (factor : α) :
    Int × ParticleCatalogue α × ParticleCatalogue α :=
  let data₁ := particles_data.calc_min_and_max.2
  let rand₁ := particles_rand.calc_min_and_max.2
  let dpos : Vec3 α := offset_for_fft_fl fl rand₁.pos_min params factor
  let data₂ := (data₁.offset_particles_fl fl dpos).2
  let rand₂ := (rand₁.offset_particles_fl fl dpos).2
  (0, data₂.calc_min_and_max.2, rand₂.calc_min_and_max.2)

/-- The branch made for one axis of one particle in
`offset_particles_for_periodicity`, the subtraction and the addition
rounded. -/
def wrap_coord_fl (fl : α → α) (pos boxsize : α) : α :=
  if pos ≥ boxsize then fl (pos - boxsize)
  else if pos < 0 then fl (pos + boxsize)
  else pos

/-- Method `offset_particles_for_periodicity(params)` with each operation
rounded: exit status and the catalogue after the call. -/
def ParticleCatalogue.offset_particles_for_periodicity_fl (fl : α → α)
    (c : ParticleCatalogue α) (params : ParameterSet α) : Int × ParticleCatalogue α :=
  let c₁ := { c with particles := c.particles.map fun (p : ParticleData α) =>
    { p with pos := ⟨wrap_coord_fl fl p.pos.x params.boxsize.x,
                     wrap_coord_fl fl p.pos.y params.boxsize.y,
                     wrap_coord_fl fl p.pos.z params.boxsize.z⟩ } }
  (0, c₁.calc_min_and_max.2)

/-- Body of the line-of-sight loops of section B.2 of `main` for one
particle, each division rounded: the entry written at the particle's index,
and whether the warning was logged. -/
def los_of_particle_fl (fl : α → α) (get_vec3d_magnitude : Vec3 α → α)
    (p : ParticleData α) : LineOfSight α × Bool :=
  let los_mag := get_vec3d_magnitude p.pos
  let warned : Bool := decide (los_mag = 0)
  let los_mag := if los_mag = 0 then 1 else los_mag
  (⟨⟨fl (p.pos.x / los_mag), fl (p.pos.y / los_mag), fl (p.pos.z / los_mag)⟩⟩, warned)

/-- A line-of-sight loop of section B.2 of `main`,
`for (pid = 0; pid < ntotal; pid++)`, each division rounded: the array
filled, and the warnings logged (in index order). -/
def compute_los_fl (fl : α → α) (get_vec3d_magnitude : Vec3 α → α) (warning : String)
    (catalogue : ParticleCatalogue α) : List (LineOfSight α) × List String :=
  let entries := catalogue.particles.map (los_of_particle_fl fl get_vec3d_magnitude)
  (entries.map Prod.fst, (entries.filter Prod.snd).map fun _ => warning)

/-- Section B.2 of `main`, each division rounded: the two line-of-sight
arrays, `los_data` and `los_rand`, a null pointer being `none`.  A catalogue
that `catalogue_type` does not ask for stays as constructed and has no
array. -/
def main_los_fl (fl : α → α) (ext : External α) (params : ParameterSet α)
    (loaded_data loaded_rand : ParticleCatalogue α) :
    Option (List (LineOfSight α)) × Option (List (LineOfSight α)) :=
  let flag_data : Bool :=
    decide (params.catalogue_type = "survey" ∨ params.catalogue_type = "sim")
  let flag_rand : Bool :=
    decide (params.catalogue_type = "survey" ∨ params.catalogue_type = "random")
  let catalogue_data := if flag_data then loaded_data else ParticleCatalogue.init
  let catalogue_rand := if flag_rand then loaded_rand else ParticleCatalogue.init
  (if flag_data then
      some (compute_los_fl fl ext.get_vec3d_magnitude
        "A data-catalogue particle coincides with the origin." catalogue_data).1
    else none,
   if flag_rand then
      some (compute_los_fl fl ext.get_vec3d_magnitude
        "A random-catalogue particle coincides with the origin." catalogue_rand).1
    else none)

end RoundedDefs

/-! ## Concrete inputs in binary64 -/

/-- The square root of a positive rational rounded to binary64, to nearest
with ties to even, as IEEE 754 requires of the square root (0 for an argument
that is not positive; results below the normal range do not arise from the
square of a binary64 number and are not treated apart).  With
`q = floor(log2(s) / 2) - 52` the significand is the rounding of the root of
`s / 4^q`, which lies between `2^52` and `2^53`. -/
def sqrt_binary64 (s : ℚ) : ℚ :=
  if s ≤ 0 then 0
  else
    let q : ℤ := Int.log 2 s / 2 - 52
    let k : ℕ := Nat.sqrt ⌊s / 4 ^ q⌋.toNat
    let r : ℕ :=
      if s / 4 ^ q < ((k : ℚ) + 1 / 2) ^ 2 then k
      else if ((k : ℚ) + 1 / 2) ^ 2 < s / 4 ^ q then k + 1
      else if k % 2 = 0 then k
      else k + 1
    (r : ℚ) * 2 ^ q

/-- A magnitude function to run `main` with in binary64:
`sqrt(x * x + y * y + z * z)` with every operation rounded. -/
def vec3_magnitude_binary64 (v : Vec3 ℚ) : ℚ :=
  sqrt_binary64 (round_binary64 (round_binary64
    (round_binary64 (v.x * v.x) + round_binary64 (v.y * v.y)) + round_binary64 (v.z * v.z)))

/-- The environment `example_external` with the magnitude function of
binary64. -/
def example_external_binary64 : External ℚ :=
  { example_external with get_vec3d_magnitude := vec3_magnitude_binary64 }

/-! ## The output file of section B.5 of `main` -/

/-- The value of the local `std::FILE* save_fileptr` of a branch of section
B.5: the null pointer it is initialised with, or what
`std::fopen(save_filepath, "w")` returned. -/
inductive SaveFilePointer where
  | nullptr
  | fopen_w
  deriving DecidableEq, Repr

/-- A call of section B.5 that receives `save_fileptr`. -/
inductive FileCall where
  | print_measurement_header_to_file (save_fileptr : SaveFilePointer)
  | print_measurement_datatab_to_file (save_fileptr : SaveFilePointer)
  | fclose (save_fileptr : SaveFilePointer)
  deriving DecidableEq, Repr

/-- The branch of section B.5 for one of the statistics `powspec`, `2pcf`,
`bispec` and `3pcf`, which share its shape: `save_fileptr` starts as the
null pointer and is assigned by `std::fopen` in the `survey` and in the `sim`
branch only; the data table is printed to it and it is closed after the
branches, whatever the catalogue type. -/
def main_file_calls_of_catalogue_type (catalogue_type : String) : List FileCall :=
  let save_fileptr := SaveFilePointer.nullptr
  let opened : List FileCall × SaveFilePointer :=
    if catalogue_type = "survey" then
      ([.print_measurement_header_to_file .fopen_w], .fopen_w)
    else if catalogue_type = "sim" then
      ([.print_measurement_header_to_file .fopen_w], .fopen_w)
    else ([], save_fileptr)
  opened.1 ++ [.print_measurement_datatab_to_file opened.2, .fclose opened.2]

/-- Section B.5 of `main`: the calls that receive `save_fileptr`, in program
order.  The window statistics open the file whatever the catalogue type; a
statistic type outside the seven of the chain makes no call. -/
def main_file_calls {α : Type} (params : ParameterSet α) : List FileCall :=
  if params.statistic_type = "powspec" then
    main_file_calls_of_catalogue_type params.catalogue_type
  else if params.statistic_type = "2pcf" then
    main_file_calls_of_catalogue_type params.catalogue_type
  else if params.statistic_type = "2pcf-win" then
    [.print_measurement_header_to_file .fopen_w, .print_measurement_datatab_to_file .fopen_w,
      .fclose .fopen_w]
  else if params.statistic_type = "bispec" then
    main_file_calls_of_catalogue_type params.catalogue_type
  else if params.statistic_type = "3pcf" then
    main_file_calls_of_catalogue_type params.catalogue_type
  else if params.statistic_type = "3pcf-win" then
    [.print_measurement_header_to_file .fopen_w, .print_measurement_datatab_to_file .fopen_w,
      .fclose .fopen_w]
  else if params.statistic_type = "3pcf-win-wa" then
    [.print_measurement_header_to_file .fopen_w, .print_measurement_datatab_to_file .fopen_w,
      .fclose .fopen_w]
  else []

/-- How section B.5 ends: no exception is thrown in it; `std::fclose` on a
null pointer is undefined behaviour. -/
def main_file_outcome {α : Type} (params : ParameterSet α) : Except StdFailure Unit :=
  if FileCall.fclose .nullptr ∈ main_file_calls params then .error .undefined_behaviour
  else .ok ()

/-! ## The uses of `alpha` in `main`, with the IEEE outcome of the division -/

section AlphaDefs

variable {α : Type} [LinearOrderedField α]

/-- Sections B.4 and B.5 of `main`: the calls that receive `alpha` or
`alpha_for_norm`, in program order, each with the value passed, for the
catalogues as section B.3 leaves them.  No statement between the division
and these calls tests the value. -/
def main_alpha_arguments_ieee (ext : External α) (params : ParameterSet α)
    (catalogue_data catalogue_rand : ParticleCatalogue α) :
    List (String × DoubleQuotient α) :=
  let flag_rand : Bool :=
    decide (params.catalogue_type = "survey" ∨ params.catalogue_type = "random")
  let alpha := main_alpha_ieee ext params catalogue_data catalogue_rand
  let alpha_for_norm : DoubleQuotient α := if flag_rand then alpha else .finite 1
  (if params.npoint = "2pt" then
    [("calc_powspec_normalisation_from_particles", alpha_for_norm),
     ("calc_powspec_normalisation_from_mesh", alpha_for_norm)] ++
    (if params.catalogue_type = "survey" then
      [("calc_powspec_normalisation_from_meshes", alpha)]
    else [])
  else if params.npoint = "3pt" then
    [("calc_bispec_normalisation_from_particles", alpha_for_norm),
     ("calc_bispec_normalisation_from_mesh", alpha_for_norm)]
  else []) ++
  (if params.statistic_type = "2pcf-win" then [("compute_corrfunc_window", alpha)]
  else if params.statistic_type = "3pcf-win" then [("compute_3pcf_window", alpha)]
  else if params.statistic_type = "3pcf-win-wa" then [("compute_3pcf_window", alpha)]
  else [])

end AlphaDefs

/-! ## Theorems -/

section BinningTheorems

variable {α : Type} [LinearOrderedField α]

omit [LinearOrderedField α] in
/-- A loop whose body only pushes one bin appends the pushed values, in
index order, to the three bin vectors. -/
theorem foldl_push_bin (e c w : Nat → α) (n : Nat) (b : Binning α) :
    (List.range n).foldl (fun acc k => acc.push_bin (e k) (c k) (w k)) b =
      { b with
        bin_edges := b.bin_edges ++ (List.range n).map e
        bin_centres := b.bin_centres ++ (List.range n).map c
        bin_widths := b.bin_widths ++ (List.range n).map w } := by
  induction n with
  | zero => simp
  | succ n ih =>
    rw [List.range_succ, List.foldl_append, ih]
    simp [Binning.push_bin, List.map_append]

omit [LinearOrderedField α] in
/-- The same for `for_loop`. -/
theorem for_loop_push_bin (start stop : Int) (e c w : Int → α) (b : Binning α) :
    for_loop start stop (fun i acc => acc.push_bin (e i) (c i) (w i)) b =
      { b with
        bin_edges := b.bin_edges ++
          (List.range (stop - start).toNat).map (fun (k : Nat) => e (start + (k : Int)))
        bin_centres := b.bin_centres ++
          (List.range (stop - start).toNat).map (fun (k : Nat) => c (start + (k : Int)))
        bin_widths := b.bin_widths ++
          (List.range (stop - start).toNat).map (fun (k : Nat) => w (start + (k : Int))) } := by
  unfold for_loop
  exact foldl_push_bin (fun (k : Nat) => e (start + (k : Int)))
    (fun (k : Nat) => c (start + (k : Int))) (fun (k : Nat) => w (start + (k : Int))) _ b

/-- Closed form of `set_bins` for the scheme `lin`. -/
theorem set_bins_lin_eq (log exp : α → α) (u : α) (b : Binning α) (space : String) :
    b.set_bins log exp u "lin" space =
      (.ok (), { b with
        bin_edges := b.bin_edges ++
          ((List.range b.num_bins.toNat).map
            (fun (k : Nat) => b.bin_min + (b.bin_max - b.bin_min) / (b.num_bins : α) * (k : α)) ++
          [b.bin_max])
        bin_centres := b.bin_centres ++
          (List.range b.num_bins.toNat).map
            (fun (k : Nat) => b.bin_min + (b.bin_max - b.bin_min) / (b.num_bins : α) * (k : α)
              + (b.bin_max - b.bin_min) / (b.num_bins : α) / 2)
        bin_widths := b.bin_widths ++
          (List.range b.num_bins.toNat).map
            (fun _ => (b.bin_max - b.bin_min) / (b.num_bins : α)) }) := by
  have h1 : ¬ (("lin" : String) = "custom") := by decide
  have hb : Binning.lin_body b.bin_min ((b.bin_max - b.bin_min) / (b.num_bins : α)) 0 =
      fun i acc => acc.push_bin
        (b.bin_min + (b.bin_max - b.bin_min) / (b.num_bins : α) * ((i : Int) : α))
        (b.bin_min + (b.bin_max - b.bin_min) / (b.num_bins : α) * ((i : Int) : α)
          + (b.bin_max - b.bin_min) / (b.num_bins : α) / 2)
        ((b.bin_max - b.bin_min) / (b.num_bins : α)) := by
    funext i acc
    simp [Binning.lin_body]
  simp only [Binning.set_bins, h1, if_false, if_true, hb, for_loop_push_bin,
    Binning.push_last_edge]
  simp

omit [LinearOrderedField α] in
/-- Entry `i` of a vector built as `pre ++ (f 0, ..., f (n-1)) ++ post`. -/
theorem getElem?_range_map_append (f : Nat → α) (n i : Nat) (hi : i < n) (pre post : List α) :
    (pre ++ ((List.range n).map f ++ post))[pre.length + i]? = some (f i) := by
  rw [List.getElem?_append_right (by omega)]
  simp [List.getElem?_append_left, hi]

/-- C1.  Scheme `lin`, starting from empty bin vectors, with `num_bins >= 1`
(so in particular for every configuration with `0 <= bin_min < bin_max`,
which the proof does not need): `set_bins` returns normally; `bin_edges` has
`num_bins + 1` entries, `edges[i] = bin_min + i * dbin` for `i < num_bins`,
`edges[0] = bin_min` and the last entry is `bin_max`; `bin_centres` has
`num_bins` entries with `centres[i] = edges[i] + dbin / 2`; `bin_widths` has
`num_bins` entries, all equal to `dbin = (bin_max - bin_min) / num_bins`. -/
theorem set_bins_lin_edges_centres_widths (log exp : α → α) (u : α) (b : Binning α)
    (space : String)
    (hempty : b.bin_edges = [] ∧ b.bin_centres = [] ∧ b.bin_widths = [])
    (hn : 1 ≤ b.num_bins) :
    (b.set_bins log exp u "lin" space).1 = .ok () ∧
    ((b.set_bins log exp u "lin" space).2.bin_edges.length : Int) = b.num_bins + 1 ∧
    (∀ i : Nat, (i : Int) < b.num_bins →
      (b.set_bins log exp u "lin" space).2.bin_edges[i]? =
        some (b.bin_min + (i : α) * ((b.bin_max - b.bin_min) / (b.num_bins : α)))) ∧
    (b.set_bins log exp u "lin" space).2.bin_edges[0]? = some b.bin_min ∧
    (b.set_bins log exp u "lin" space).2.bin_edges[b.num_bins.toNat]? = some b.bin_max ∧
    ((b.set_bins log exp u "lin" space).2.bin_centres.length : Int) = b.num_bins ∧
    (∀ i : Nat, (i : Int) < b.num_bins →
      ∃ e, (b.set_bins log exp u "lin" space).2.bin_edges[i]? = some e ∧
        (b.set_bins log exp u "lin" space).2.bin_centres[i]? =
          some (e + (b.bin_max - b.bin_min) / (b.num_bins : α) / 2)) ∧
    ((b.set_bins log exp u "lin" space).2.bin_widths.length : Int) = b.num_bins ∧
    (∀ i : Nat, (i : Int) < b.num_bins →
      (b.set_bins log exp u "lin" space).2.bin_widths[i]? =
        some ((b.bin_max - b.bin_min) / (b.num_bins : α))) := by
  obtain ⟨he, hc, hw⟩ := hempty
  have hcast : ((b.num_bins.toNat : Nat) : Int) = b.num_bins := Int.toNat_of_nonneg (by omega)
  have hidx : ∀ i : Nat, (i : Int) < b.num_bins → i < b.num_bins.toNat := by
    intro i hi; omega
  have hedge : ∀ i : Nat, (i : Int) < b.num_bins →
      (b.set_bins log exp u "lin" space).2.bin_edges[i]? =
        some (b.bin_min + (i : α) * ((b.bin_max - b.bin_min) / (b.num_bins : α))) := by
    intro i hi
    have h := getElem?_range_map_append
      (fun k : Nat => b.bin_min + (b.bin_max - b.bin_min) / (b.num_bins : α) * (k : α))
      b.num_bins.toNat i (hidx i hi) [] [b.bin_max]
    simp only [set_bins_lin_eq, he, List.nil_append]
    simpa [mul_comm] using h
  refine ⟨by rw [set_bins_lin_eq], ?_, hedge, ?_, ?_, ?_, ?_, ?_, ?_⟩
  · simp only [set_bins_lin_eq, he]
    simp
    omega
  · simpa using hedge 0 (by simpa using hn)
  · simp only [set_bins_lin_eq, he, List.nil_append]
    simp
  · simp only [set_bins_lin_eq, hc]
    simp
    omega
  · intro i hi
    refine ⟨_, hedge i hi, ?_⟩
    simp only [set_bins_lin_eq, hc, List.nil_append]
    simp [hidx i hi, mul_comm]
  · simp only [set_bins_lin_eq, hw]
    simp
    omega
  · intro i hi
    simp only [set_bins_lin_eq, hw, List.nil_append]
    simp [hidx i hi]

/-- C3.  Scheme `log`: when `bin_min` is exactly 0, `set_bins` throws
`InvalidParameter` whatever `bin_max` and `num_bins` are and leaves the
object, hence the three bin vectors, as it was; when `bin_min > 0` it
returns normally. -/
theorem set_bins_log_zero_bin_min (log exp : α → α) (u : α) (b : Binning α) (space : String) :
    (b.bin_min = 0 →
      ∃ err_mesg, b.set_bins log exp u "log" space =
        (.error (.InvalidParameter err_mesg), b)) ∧
    (0 < b.bin_min → (b.set_bins log exp u "log" space).1 = .ok ()) := by
  have h1 : ¬ (("log" : String) = "custom") := by decide
  have h2 : ¬ (("log" : String) = "lin") := by decide
  constructor
  · intro h0
    refine ⟨"Cannot use logarithmic binning when the lowest edge is zero.", ?_⟩
    simp only [Binning.set_bins, h1, h2, h0, if_false, if_true]
  · intro hpos
    have hne : ¬ (b.bin_min = 0) := ne_of_gt hpos
    simp only [Binning.set_bins, h1, h2, hne, if_false, if_true]

end BinningTheorems

/-- Witness for C1: four bins over `[1, 3]`. -/
theorem set_bins_lin_edges_centres_widths_witness :
    (1 : Int) ≤ (example_binning 1 3 4).num_bins ∧
    ((example_binning 1 3 4).set_bins id id 0 "lin" "fourier").2.bin_edges[0]? = some 1 ∧
    ((example_binning 1 3 4).set_bins id id 0 "lin" "fourier").2.bin_edges[4]? = some 3 ∧
    ((example_binning 1 3 4).set_bins id id 0 "lin" "fourier").2.bin_widths[3]? =
      some ((3 - 1) / ((4 : Int) : ℚ)) :=
  have h := set_bins_lin_edges_centres_widths id id 0 (example_binning 1 3 4) "fourier"
    ⟨rfl, rfl, rfl⟩ (by decide)
  ⟨by decide, h.2.2.2.1, h.2.2.2.2.1, h.2.2.2.2.2.2.2.2 3 (by decide)⟩

/-- Witness for C3: `bin_min = 0` throws and changes nothing, `bin_min = 1`
returns. -/
theorem set_bins_log_zero_bin_min_witness :
    (∃ err_mesg, (example_binning 0 3 4).set_bins id id 0 "log" "fourier" =
      (.error (.InvalidParameter err_mesg), example_binning 0 3 4)) ∧
    ((example_binning 1 3 4).set_bins id id 0 "log" "fourier").1 = .ok () :=
  ⟨(set_bins_log_zero_bin_min id id 0 (example_binning 0 3 4) "fourier").1 rfl,
    (set_bins_log_zero_bin_min id id 0 (example_binning 1 3 4) "fourier").2
      (by norm_num [example_binning])⟩


section CatalogueTheorems

variable {α : Type} [LinearOrderedField α]

/-- Running `calc_min_and_max` does not touch the particles. -/
theorem calc_min_and_max_particles (c : ParticleCatalogue α) :
    c.calc_min_and_max.2.particles = c.particles := by
  unfold ParticleCatalogue.calc_min_and_max
  cases h : c.particles <;> simp [h]

/-- Running `calc_min_and_max` again on its own result changes nothing. -/
theorem calc_min_and_max_idem (c : ParticleCatalogue α) :
    c.calc_min_and_max.2.calc_min_and_max.2 = c.calc_min_and_max.2 := by
  unfold ParticleCatalogue.calc_min_and_max
  cases hp : c.particles with
  | nil => simp [hp]
  | cons p0 t => simp [hp]

/-- A coordinate within one box length of the box is wrapped into `[0, L)`. -/
theorem wrap_coord_mem (pos boxsize : α) (hlo : -boxsize ≤ pos)
    (hhi : pos < 2 * boxsize) :
    0 ≤ wrap_coord pos boxsize ∧ wrap_coord pos boxsize < boxsize := by
  unfold wrap_coord
  split_ifs with h1 h2
  · constructor <;> linarith
  · constructor <;> linarith
  · push_neg at h1 h2
    exact ⟨h2, h1⟩

/-- The accumulated weight is the sum of the weights. -/
theorem num_wgt_eq_sum (c : ParticleCatalogue α) :
    c.num_wgt = (c.particles.map fun p => p.w).sum := by
  have h : ∀ (l : List (ParticleData α)) (a : α),
      l.foldl (fun acc p => acc + p.w) a = a + (l.map fun p => p.w).sum := by
    intro l
    induction l with
    | nil => intro a; simp
    | cons p t ih => intro a; simp [ih, add_assoc]
  simpa [ParticleCatalogue.num_wgt] using h c.particles 0

end CatalogueTheorems

/-- C4 as stated fails: with box side 20, the particle at `x = 45` goes to
`x = 25` under a first application and to `x = 5` under a second one. -/
theorem offset_particles_for_periodicity_not_idempotent :
    ((example_catalogue [⟨⟨45, 0, 0⟩, 1⟩]).offset_particles_for_periodicity
        (example_params "sim" "powspec" "2pt" "none")).2.particles = [⟨⟨25, 0, 0⟩, 1⟩] ∧
    (((example_catalogue [⟨⟨45, 0, 0⟩, 1⟩]).offset_particles_for_periodicity
        (example_params "sim" "powspec" "2pt" "none")).2.offset_particles_for_periodicity
        (example_params "sim" "powspec" "2pt" "none")).2.particles = [⟨⟨5, 0, 0⟩, 1⟩] ∧
    (((example_catalogue [⟨⟨45, 0, 0⟩, 1⟩]).offset_particles_for_periodicity
        (example_params "sim" "powspec" "2pt" "none")).2.offset_particles_for_periodicity
        (example_params "sim" "powspec" "2pt" "none")).2.particles ≠
      ((example_catalogue [⟨⟨45, 0, 0⟩, 1⟩]).offset_particles_for_periodicity
        (example_params "sim" "powspec" "2pt" "none")).2.particles := by
  decide!

section MainTheorems

variable {α : Type} [LinearOrderedField α]

/-- The data line-of-sight array of a run: filled from the catalogue as
loaded when a data catalogue exists, a null pointer otherwise. -/
theorem main_measure_los_data (ext : External α) (params : ParameterSet α)
    (binning : Binning α) (loaded_data loaded_rand : ParticleCatalogue α) :
    (main_measure ext params binning loaded_data loaded_rand).los_data =
      if params.catalogue_type = "survey" ∨ params.catalogue_type = "sim" then
        some (compute_los ext.get_vec3d_magnitude
          "A data-catalogue particle coincides with the origin." loaded_data).1
      else none := by
  unfold main_measure
  by_cases h : params.catalogue_type = "survey" ∨ params.catalogue_type = "sim" <;> simp [h]

/-- The random line-of-sight array of a run. -/
theorem main_measure_los_rand (ext : External α) (params : ParameterSet α)
    (binning : Binning α) (loaded_data loaded_rand : ParticleCatalogue α) :
    (main_measure ext params binning loaded_data loaded_rand).los_rand =
      if params.catalogue_type = "survey" ∨ params.catalogue_type = "random" then
        some (compute_los ext.get_vec3d_magnitude
          "A random-catalogue particle coincides with the origin." loaded_rand).1
      else none := by
  unfold main_measure
  by_cases h : params.catalogue_type = "survey" ∨ params.catalogue_type = "random" <;>
    simp [h]

/-- The warnings of a run are those of its two line-of-sight loops. -/
theorem main_measure_warnings (ext : External α) (params : ParameterSet α)
    (binning : Binning α) (loaded_data loaded_rand : ParticleCatalogue α) :
    (main_measure ext params binning loaded_data loaded_rand).warnings =
      (if params.catalogue_type = "survey" ∨ params.catalogue_type = "sim" then
        (compute_los ext.get_vec3d_magnitude
          "A data-catalogue particle coincides with the origin." loaded_data).2
      else []) ++
      (if params.catalogue_type = "survey" ∨ params.catalogue_type = "random" then
        (compute_los ext.get_vec3d_magnitude
          "A random-catalogue particle coincides with the origin." loaded_rand).2
      else []) := by
  unfold main_measure
  by_cases h : params.catalogue_type = "survey" ∨ params.catalogue_type = "sim" <;>
    by_cases h' : params.catalogue_type = "survey" ∨ params.catalogue_type = "random" <;>
    simp [h, h']

omit [LinearOrderedField α] in
/-- The estimator receives the normalisation factor it is called with. -/
theorem main_estimator_norm_factor (params : ParameterSet α)
    (catalogue_data catalogue_rand : ParticleCatalogue α)
    (los_data los_rand : Option (List (LineOfSight α))) (binning : Binning α)
    (alpha norm_factor : α) (call : EstimatorCall α)
    (h : main_estimator params catalogue_data catalogue_rand los_data los_rand binning alpha
      norm_factor = some call) :
    call.norm_factor = norm_factor := by
  unfold main_estimator at h
  split_ifs at h <;> cases h <;> rfl

omit [LinearOrderedField α] in
/-- The estimator receives each catalogue with the line-of-sight array kept
for it. -/
theorem main_estimator_los_pairs (params : ParameterSet α)
    (catalogue_data catalogue_rand : ParticleCatalogue α)
    (los_data los_rand : Option (List (LineOfSight α))) (binning : Binning α)
    (alpha norm_factor : α) (call : EstimatorCall α)
    (h : main_estimator params catalogue_data catalogue_rand los_data los_rand binning alpha
      norm_factor = some call) :
    ∀ pr ∈ call.los_pairs,
      pr = (catalogue_data, los_data) ∨ pr = (catalogue_rand, los_rand) := by
  unfold main_estimator at h
  split_ifs at h <;> cases h <;> simp [EstimatorCall.los_pairs]

/-- Entry `i` of a line-of-sight array is computed from particle `i`. -/
theorem compute_los_getElem? (mag : Vec3 α → α) (warning : String)
    (catalogue : ParticleCatalogue α) (i : Nat) :
    (compute_los mag warning catalogue).1[i]? =
      (catalogue.particles[i]?).map fun p => (los_of_particle mag p).1 := by
  simp [compute_los, List.getElem?_map]
  cases catalogue.particles[i]? <;> simp

/-- A line-of-sight array has one entry per particle. -/
theorem compute_los_length (mag : Vec3 α → α) (warning : String)
    (catalogue : ParticleCatalogue α) :
    (compute_los mag warning catalogue).1.length = catalogue.particles.length := by
  simp [compute_los]

/-- A vector of Euclidean length 0 is the origin. -/
theorem eq_zero_of_euclidean_norm_zero (v : Vec3 α) (h : IsEuclideanNorm 0 v) :
    v = ⟨0, 0, 0⟩ := by
  obtain ⟨-, h⟩ := h
  have hx := mul_self_nonneg v.x
  have hy := mul_self_nonneg v.y
  have hz := mul_self_nonneg v.z
  have hx0 : v.x * v.x = 0 := by linarith
  have hy0 : v.y * v.y = 0 := by linarith
  have hz0 : v.z * v.z = 0 := by linarith
  cases v
  simp_all

/-- The line-of-sight entry of a particle of magnitude 0: the position
divided by the substituted magnitude 1, with a warning. -/
theorem los_of_particle_zero (mag : Vec3 α → α) (p : ParticleData α) (h0 : mag p.pos = 0) :
    los_of_particle mag p = (⟨⟨p.pos.x / 1, p.pos.y / 1, p.pos.z / 1⟩⟩, true) := by
  simp [los_of_particle, h0]

/-- A particle of magnitude 0 at index `i` makes the loop log its warning. -/
theorem compute_los_warning (mag : Vec3 α → α) (warning : String)
    (catalogue : ParticleCatalogue α) (i : Nat) (p : ParticleData α)
    (hp : catalogue.particles[i]? = some p) (h0 : mag p.pos = 0) :
    warning ∈ (compute_los mag warning catalogue).2 := by
  have hmem : p ∈ catalogue.particles := List.getElem?_mem hp
  have hin : los_of_particle mag p ∈
      (catalogue.particles.map (los_of_particle mag)).filter Prod.snd := by
    rw [List.mem_filter]
    exact ⟨List.mem_map_of_mem _ hmem, by rw [los_of_particle_zero mag p h0]⟩
  exact List.mem_map.mpr ⟨_, hin, rfl⟩

/-- C7.  Every line-of-sight array `main` fills has exactly one entry per
particle of its catalogue, entry `i` being computed from particle `i`.  For
a particle whose magnitude is exactly 0 the entry is the position divided by
the substituted magnitude 1, the warning of the loop is recorded, and, the
magnitude being the Euclidean length, the entry is `(0, 0, 0)`. -/
theorem main_los_zero_magnitude (ext : External α) (params : ParameterSet α)
    (binning : Binning α) (loaded_data loaded_rand : ParticleCatalogue α) :
    (params.catalogue_type = "survey" ∨ params.catalogue_type = "sim" →
      ∃ los, (main_measure ext params binning loaded_data loaded_rand).los_data = some los ∧
        los.length = loaded_data.particles.length ∧
        (∀ (i : Nat) (p : ParticleData α), loaded_data.particles[i]? = some p →
          los[i]? = some (los_of_particle ext.get_vec3d_magnitude p).1) ∧
        (∀ (i : Nat) (p : ParticleData α), loaded_data.particles[i]? = some p → ext.get_vec3d_magnitude p.pos = 0 →
          los[i]? = some ⟨⟨p.pos.x / 1, p.pos.y / 1, p.pos.z / 1⟩⟩ ∧
          "A data-catalogue particle coincides with the origin." ∈
            (main_measure ext params binning loaded_data loaded_rand).warnings ∧
          (IsEuclideanNorm (ext.get_vec3d_magnitude p.pos) p.pos →
            los[i]? = some ⟨⟨0, 0, 0⟩⟩))) ∧
    (params.catalogue_type = "survey" ∨ params.catalogue_type = "random" →
      ∃ los, (main_measure ext params binning loaded_data loaded_rand).los_rand = some los ∧
        los.length = loaded_rand.particles.length ∧
        (∀ (i : Nat) (p : ParticleData α), loaded_rand.particles[i]? = some p →
          los[i]? = some (los_of_particle ext.get_vec3d_magnitude p).1) ∧
        (∀ (i : Nat) (p : ParticleData α), loaded_rand.particles[i]? = some p → ext.get_vec3d_magnitude p.pos = 0 →
          los[i]? = some ⟨⟨p.pos.x / 1, p.pos.y / 1, p.pos.z / 1⟩⟩ ∧
          "A random-catalogue particle coincides with the origin." ∈
            (main_measure ext params binning loaded_data loaded_rand).warnings ∧
          (IsEuclideanNorm (ext.get_vec3d_magnitude p.pos) p.pos →
            los[i]? = some ⟨⟨0, 0, 0⟩⟩))) := by
  have key : ∀ (warning : String) (catalogue : ParticleCatalogue α) (i : Nat)
      (p : ParticleData α), catalogue.particles[i]? = some p →
      ext.get_vec3d_magnitude p.pos = 0 →
      (compute_los ext.get_vec3d_magnitude warning catalogue).1[i]? =
          some ⟨⟨p.pos.x / 1, p.pos.y / 1, p.pos.z / 1⟩⟩ ∧
        (IsEuclideanNorm (ext.get_vec3d_magnitude p.pos) p.pos →
          (compute_los ext.get_vec3d_magnitude warning catalogue).1[i]? =
            some ⟨⟨0, 0, 0⟩⟩) := by
    intro warning catalogue i p hp h0
    have hentry : (compute_los ext.get_vec3d_magnitude warning catalogue).1[i]? =
        some ⟨⟨p.pos.x / 1, p.pos.y / 1, p.pos.z / 1⟩⟩ := by
      rw [compute_los_getElem?, hp, Option.map_some', los_of_particle_zero _ p h0]
    refine ⟨hentry, fun hmag => ?_⟩
    have hz : p.pos = ⟨0, 0, 0⟩ := eq_zero_of_euclidean_norm_zero p.pos (h0 ▸ hmag)
    rw [hentry, hz]
    simp
  constructor
  · intro hflag
    refine ⟨_, by rw [main_measure_los_data, if_pos hflag], compute_los_length _ _ _, ?_, ?_⟩
    · intro i p hp
      rw [compute_los_getElem?, hp, Option.map_some']
    · intro i p hp h0
      refine ⟨(key _ _ i p hp h0).1, ?_, (key _ _ i p hp h0).2⟩
      rw [main_measure_warnings, if_pos hflag]
      exact List.mem_append_left _ (compute_los_warning _ _ _ i p hp h0)
  · intro hflag
    refine ⟨_, by rw [main_measure_los_rand, if_pos hflag], compute_los_length _ _ _, ?_, ?_⟩
    · intro i p hp
      rw [compute_los_getElem?, hp, Option.map_some']
    · intro i p hp h0
      refine ⟨(key _ _ i p hp h0).1, ?_, (key _ _ i p hp h0).2⟩
      rw [main_measure_warnings, if_pos hflag]
      exact List.mem_append_right _ (compute_los_warning _ _ _ i p hp h0)

end MainTheorems


section MainClaims

variable {α : Type} [LinearOrderedField α]

/-- C8, amended.  When a statistic is being measured (`npoint` is not
`"none"`) and `norm_convention` is `"none"`, the normalisation factor
selected, and passed to whichever estimator is called, is exactly 1,
whatever the particle, mesh and mixed-mesh factors are.  When `npoint` is
`"none"` the convention is not consulted and the factor stays at its
initial 0. -/
theorem norm_convention_none_selects_one (ext : External α) (params : ParameterSet α)
    (binning : Binning α) (loaded_data loaded_rand : ParticleCatalogue α) :
    (params.norm_convention = "none" → params.npoint ≠ "none" →
      (∀ part mesh meshes : α,
        select_norm_factor params.npoint params.norm_convention part mesh meshes = 1) ∧
      (main_measure ext params binning loaded_data loaded_rand).norm_factor = 1 ∧
      ∀ call, (main_measure ext params binning loaded_data loaded_rand).estimator = some call →
        call.norm_factor = 1) ∧
    (params.npoint = "none" →
      (main_measure ext params binning loaded_data loaded_rand).norm_factor = 0 ∧
      ∀ call, (main_measure ext params binning loaded_data loaded_rand).estimator = some call →
        call.norm_factor = 0) := by
  constructor
  · intro hconv hnp
    have hsel : ∀ part mesh meshes : α,
        select_norm_factor params.npoint params.norm_convention part mesh meshes = 1 := by
      intro part mesh meshes
      simp [select_norm_factor, hconv, hnp]
    have hnf : (main_measure ext params binning loaded_data loaded_rand).norm_factor = 1 :=
      hsel _ _ _
    refine ⟨hsel, hnf, ?_⟩
    intro call hcall
    rw [← hnf]
    exact main_estimator_norm_factor _ _ _ _ _ _ _ _ call hcall
  · intro hnp
    have hnf : (main_measure ext params binning loaded_data loaded_rand).norm_factor = 0 := by
      show select_norm_factor params.npoint params.norm_convention _ _ _ = 0
      simp [select_norm_factor, hnp]
    refine ⟨hnf, ?_⟩
    intro call hcall
    rw [← hnf]
    exact main_estimator_norm_factor _ _ _ _ _ _ _ _ call hcall

/-- C10, amended.  In `main` every line-of-sight vector is computed before
box alignment: an estimator that is handed a catalogue with a
line-of-sight array gets the catalogue as alignment left it, and an array
whose entries are the normalised positions the particles had when loaded. -/
theorem main_los_computed_before_alignment (ext : External α) (params : ParameterSet α)
    (binning : Binning α) (loaded_data loaded_rand : ParticleCatalogue α) :
    (main_measure ext params binning loaded_data loaded_rand).catalogue_data =
      (main_align ext params
        (if params.catalogue_type = "survey" ∨ params.catalogue_type = "sim"
          then loaded_data else ParticleCatalogue.init)
        (if params.catalogue_type = "survey" ∨ params.catalogue_type = "random"
          then loaded_rand else ParticleCatalogue.init)).1 ∧
    (main_measure ext params binning loaded_data loaded_rand).catalogue_rand =
      (main_align ext params
        (if params.catalogue_type = "survey" ∨ params.catalogue_type = "sim"
          then loaded_data else ParticleCatalogue.init)
        (if params.catalogue_type = "survey" ∨ params.catalogue_type = "random"
          then loaded_rand else ParticleCatalogue.init)).2 ∧
    ∀ call, (main_measure ext params binning loaded_data loaded_rand).estimator = some call →
      ∀ (catalogue : ParticleCatalogue α) (los : List (LineOfSight α)),
        (catalogue, some los) ∈ call.los_pairs →
        (catalogue = (main_measure ext params binning loaded_data loaded_rand).catalogue_data ∧
          los = (compute_los ext.get_vec3d_magnitude
            "A data-catalogue particle coincides with the origin." loaded_data).1) ∨
        (catalogue = (main_measure ext params binning loaded_data loaded_rand).catalogue_rand ∧
          los = (compute_los ext.get_vec3d_magnitude
            "A random-catalogue particle coincides with the origin." loaded_rand).1) := by
  refine ⟨?_, ?_, ?_⟩
  · unfold main_measure
    by_cases h : params.catalogue_type = "survey" ∨ params.catalogue_type = "sim" <;>
      by_cases h' : params.catalogue_type = "survey" ∨ params.catalogue_type = "random" <;>
      simp [h, h']
  · unfold main_measure
    by_cases h : params.catalogue_type = "survey" ∨ params.catalogue_type = "sim" <;>
      by_cases h' : params.catalogue_type = "survey" ∨ params.catalogue_type = "random" <;>
      simp [h, h']
  · intro call hcall catalogue los hmem
    have hpairs := main_estimator_los_pairs _ _ _ _ _ _ _ _ call hcall _ hmem
    rcases hpairs with hpair | hpair
    · left
      have h1 := congrArg Prod.fst hpair
      have h2 := congrArg Prod.snd hpair
      simp only at h1 h2
      refine ⟨h1, ?_⟩
      have h3 : (main_measure ext params binning loaded_data loaded_rand).los_data = some los :=
        h2.symm
      rw [main_measure_los_data] at h3
      split_ifs at h3
      exact (Option.some.inj h3).symm
    · right
      have h1 := congrArg Prod.fst hpair
      have h2 := congrArg Prod.snd hpair
      simp only at h1 h2
      refine ⟨h1, ?_⟩
      have h3 : (main_measure ext params binning loaded_data loaded_rand).los_rand = some los :=
        h2.symm
      rw [main_measure_los_rand] at h3
      split_ifs at h3
      exact (Option.some.inj h3).symm

end MainClaims

/-- The example magnitude of `(3, 0, 0)`. -/
theorem vec3_magnitude_rat_three : vec3_magnitude_rat ⟨3, 0, 0⟩ = 3 := by decide!

/-- The example magnitude of the origin. -/
theorem vec3_magnitude_rat_origin : vec3_magnitude_rat ⟨0, 0, 0⟩ = 0 := by decide!

/-- Witness for C7: a particle at the origin, second in a `sim` catalogue,
gets `(0, 0, 0)` at index 1 and a warning. -/
theorem main_los_zero_magnitude_witness :
    ∃ los, (main_measure example_external (example_params "sim" "powspec" "2pt" "none")
        (example_binning 1 3 4) (example_catalogue [⟨⟨3, 0, 0⟩, 1⟩, ⟨⟨0, 0, 0⟩, 1⟩])
        ParticleCatalogue.init).los_data = some los ∧
      los.length = 2 ∧ los[1]? = some ⟨⟨0, 0, 0⟩⟩ ∧
      "A data-catalogue particle coincides with the origin." ∈
        (main_measure example_external (example_params "sim" "powspec" "2pt" "none")
          (example_binning 1 3 4) (example_catalogue [⟨⟨3, 0, 0⟩, 1⟩, ⟨⟨0, 0, 0⟩, 1⟩])
          ParticleCatalogue.init).warnings := by
  have hm : example_external.get_vec3d_magnitude (⟨⟨0, 0, 0⟩, 1⟩ : ParticleData ℚ).pos = 0 :=
    vec3_magnitude_rat_origin
  obtain ⟨los, h1, h2, -, h3⟩ :=
    (main_los_zero_magnitude example_external (example_params "sim" "powspec" "2pt" "none")
      (example_binning 1 3 4) (example_catalogue [⟨⟨3, 0, 0⟩, 1⟩, ⟨⟨0, 0, 0⟩, 1⟩])
      ParticleCatalogue.init).1 (Or.inr rfl)
  obtain ⟨-, hw, h0⟩ := h3 1 ⟨⟨0, 0, 0⟩, 1⟩ rfl hm
  refine ⟨los, h1, h2, h0 ?_, hw⟩
  rw [hm]
  constructor <;> norm_num

/-- C8 as stated fails: with `norm_convention = "none"` and `npoint = "none"`
the power-spectrum estimator of a `sim` run is called with the factor 0. -/
theorem norm_convention_none_npoint_none_selects_zero :
    (example_params "sim" "powspec" "none" "none").norm_convention = "none" ∧
    (main_measure example_external (example_params "sim" "powspec" "none" "none")
        (example_binning 1 3 4) (example_catalogue [⟨⟨3, 0, 0⟩, 1⟩])
        ParticleCatalogue.init).estimator =
      some (.compute_powspec_in_gpp_box
        { particles := [⟨⟨3, 0, 0⟩, 1⟩], pos_min := ⟨3, 0, 0⟩, pos_max := ⟨3, 0, 0⟩ }
        (example_binning 1 3 4) 0) ∧
    (EstimatorCall.compute_powspec_in_gpp_box
        ({ particles := [⟨⟨3, 0, 0⟩, 1⟩], pos_min := ⟨3, 0, 0⟩, pos_max := ⟨3, 0, 0⟩ } :
          ParticleCatalogue ℚ)
        (example_binning 1 3 4) 0).norm_factor ≠ 1 := by
  decide!

/-- Witness for C8, amended: a `sim` power-spectrum run with `npoint = "2pt"`
and another with `npoint = "none"`. -/
theorem norm_convention_none_selects_one_witness :
    (main_measure example_external (example_params "sim" "powspec" "2pt" "none")
        (example_binning 1 3 4) (example_catalogue [⟨⟨3, 0, 0⟩, 1⟩])
        ParticleCatalogue.init).norm_factor = 1 ∧
    (main_measure example_external (example_params "sim" "powspec" "none" "none")
        (example_binning 1 3 4) (example_catalogue [⟨⟨3, 0, 0⟩, 1⟩])
        ParticleCatalogue.init).norm_factor = 0 :=
  ⟨((norm_convention_none_selects_one example_external
      (example_params "sim" "powspec" "2pt" "none") (example_binning 1 3 4)
      (example_catalogue [⟨⟨3, 0, 0⟩, 1⟩]) ParticleCatalogue.init).1 rfl (by decide)).2.1,
    ((norm_convention_none_selects_one example_external
      (example_params "sim" "powspec" "none" "none") (example_binning 1 3 4)
      (example_catalogue [⟨⟨3, 0, 0⟩, 1⟩]) ParticleCatalogue.init).2 rfl).1⟩

/-- C10 as stated fails: in a `survey` run aligned by padding, the particle
loaded at `(3, 0, 0)` is at `(2, 2, 1)` when `compute_powspec` is called; the
line-of-sight vector passed for it is `(1, 0, 0)`, while its position at
that moment normalises to `(2/3, 2/3, 1/3)`. -/
theorem main_los_not_from_aligned_positions :
    (main_measure example_external (example_params "survey" "powspec" "2pt" "none")
        (example_binning 1 3 4) (example_catalogue [⟨⟨3, 0, 0⟩, 1⟩])
        (example_catalogue [⟨⟨3, 0, 0⟩, 1⟩])).estimator =
      some (.compute_powspec
        { particles := [⟨⟨2, 2, 1⟩, 1⟩], pos_min := ⟨2, 2, 1⟩, pos_max := ⟨2, 2, 1⟩ }
        { particles := [⟨⟨2, 2, 1⟩, 1⟩], pos_min := ⟨2, 2, 1⟩, pos_max := ⟨2, 2, 1⟩ }
        (some [⟨⟨1, 0, 0⟩⟩]) (some [⟨⟨1, 0, 0⟩⟩]) (example_binning 1 3 4) 1) ∧
    (compute_los example_external.get_vec3d_magnitude
        "A data-catalogue particle coincides with the origin."
        { particles := [⟨⟨2, 2, 1⟩, 1⟩], pos_min := ⟨2, 2, 1⟩, pos_max := ⟨2, 2, 1⟩ }).1 =
      [⟨⟨2 / 3, 2 / 3, 1 / 3⟩⟩] ∧
    ([⟨⟨1, 0, 0⟩⟩] : List (LineOfSight ℚ)) ≠ [⟨⟨2 / 3, 2 / 3, 1 / 3⟩⟩] := by
  decide!

/-- Witness for C10, amended: in the same run the array passed with the data
catalogue is the one computed from the catalogue as loaded. -/
theorem main_los_computed_before_alignment_witness :
    (({ particles := [⟨⟨2, 2, 1⟩, 1⟩], pos_min := ⟨2, 2, 1⟩, pos_max := ⟨2, 2, 1⟩ } :
          ParticleCatalogue ℚ) =
        (main_measure example_external (example_params "survey" "powspec" "2pt" "none")
          (example_binning 1 3 4) (example_catalogue [⟨⟨3, 0, 0⟩, 1⟩])
          (example_catalogue [⟨⟨3, 0, 0⟩, 1⟩])).catalogue_data ∧
      [⟨⟨1, 0, 0⟩⟩] = (compute_los example_external.get_vec3d_magnitude
        "A data-catalogue particle coincides with the origin."
        (example_catalogue [⟨⟨3, 0, 0⟩, 1⟩])).1) ∨
    (({ particles := [⟨⟨2, 2, 1⟩, 1⟩], pos_min := ⟨2, 2, 1⟩, pos_max := ⟨2, 2, 1⟩ } :
          ParticleCatalogue ℚ) =
        (main_measure example_external (example_params "survey" "powspec" "2pt" "none")
          (example_binning 1 3 4) (example_catalogue [⟨⟨3, 0, 0⟩, 1⟩])
          (example_catalogue [⟨⟨3, 0, 0⟩, 1⟩])).catalogue_rand ∧
      [⟨⟨1, 0, 0⟩⟩] = (compute_los example_external.get_vec3d_magnitude
        "A random-catalogue particle coincides with the origin."
        (example_catalogue [⟨⟨3, 0, 0⟩, 1⟩])).1) :=
  (main_los_computed_before_alignment example_external
    (example_params "survey" "powspec" "2pt" "none") (example_binning 1 3 4)
    (example_catalogue [⟨⟨3, 0, 0⟩, 1⟩]) (example_catalogue [⟨⟨3, 0, 0⟩, 1⟩])).2.2
    (.compute_powspec
      { particles := [⟨⟨2, 2, 1⟩, 1⟩], pos_min := ⟨2, 2, 1⟩, pos_max := ⟨2, 2, 1⟩ }
      { particles := [⟨⟨2, 2, 1⟩, 1⟩], pos_min := ⟨2, 2, 1⟩, pos_max := ⟨2, 2, 1⟩ }
      (some [⟨⟨1, 0, 0⟩⟩]) (some [⟨⟨1, 0, 0⟩⟩]) (example_binning 1 3 4) 1)
    (by decide!) _ _ (by simp [EstimatorCall.los_pairs])


section ReadTheorems

variable {α : Type} [LinearOrderedField α]

omit [LinearOrderedField α] in
/-- What `sscanf` returns and stores, in terms of the four leading numbers of
the line. -/
theorem sscanf_4lf_eq (strtod : List Char → Option (α × List Char)) (str_line : String) :
    (∃ p, leading_four_numbers strtod str_line = some p ∧
      sscanf_4lf strtod str_line = (4, [p.pos.x, p.pos.y, p.pos.z, p.w])) ∨
    (leading_four_numbers strtod str_line = none ∧ (sscanf_4lf strtod str_line).1 ≠ 4) := by
  unfold leading_four_numbers sscanf_4lf
  simp only [scan_lf]
  cases h1 : strtod (str_line.toList.dropWhile isspace) with
  | none =>
    right
    refine ⟨rfl, ?_⟩
    simp only [List.isEmpty_nil, Bool.true_and]
    split_ifs <;> simp
  | some r1 =>
    obtain ⟨x, rest₁⟩ := r1
    cases h2 : strtod (rest₁.dropWhile isspace) with
    | none => right; simp [h2]
    | some r2 =>
      obtain ⟨y, rest₂⟩ := r2
      cases h3 : strtod (rest₂.dropWhile isspace) with
      | none => right; simp [h2, h3]
      | some r3 =>
        obtain ⟨z, rest₃⟩ := r3
        cases h4 : strtod (rest₃.dropWhile isspace) with
        | none => right; simp [h2, h3, h4]
        | some r4 =>
          obtain ⟨w, rest₄⟩ := r4
          left
          exact ⟨⟨⟨x, y, z⟩, w⟩, by simp [h2, h3, h4], by simp [h2, h3, h4]⟩

omit [LinearOrderedField α] in
/-- The counting loop counts the lines that start with four numbers. -/
theorem count_line_eq (strtod : List Char → Option (α × List Char)) (num_lines : Int)
    (str_line : String) :
    count_line strtod num_lines str_line =
      num_lines + ((leading_four_numbers strtod str_line).toList.length : Int) := by
  unfold count_line
  rcases sscanf_4lf_eq strtod str_line with ⟨p, hp, hs⟩ | ⟨hp, hs⟩
  · simp [hp, hs]
  · simp [hp, hs]

omit [LinearOrderedField α] in
/-- The filling loop stores the four leading numbers of such a line at the
current index and skips every other line. -/
theorem fill_line_eq (strtod : List Char → Option (α × List Char))
    (st : Int × List (ParticleData α)) (str_line : String) :
    fill_line strtod st str_line =
      match leading_four_numbers strtod str_line with
      | some p => (st.1 + 1, st.2.set st.1.toNat p)
      | none => st := by
  unfold fill_line
  rcases sscanf_4lf_eq strtod str_line with ⟨p, hp, hs⟩ | ⟨hp, hs⟩
  · simp [hp, hs]
  · rw [hp]
    split
    · rename_i x y z w heq
      exact absurd (congrArg Prod.fst heq) hs
    · rfl

omit [LinearOrderedField α] in
/-- The counting loop over a whole file. -/
theorem foldl_count_line (strtod : List Char → Option (α × List Char)) (lines : List String)
    (num_lines : Int) :
    lines.foldl (count_line strtod) num_lines =
      num_lines + ((lines.filterMap (leading_four_numbers strtod)).length : Int) := by
  induction lines generalizing num_lines with
  | nil => simp
  | cons line rest ih =>
    rw [List.foldl_cons, ih, count_line_eq]
    cases h : leading_four_numbers strtod line <;> simp [List.filterMap_cons, h]
    omega

omit [LinearOrderedField α] in
/-- The filling loop over a whole file, started at index `pre.length` of an
array `pre ++ post` whose part `post` has room for the accepted lines:
their particles replace the first entries of `post`, in file order. -/
theorem foldl_fill_line (strtod : List Char → Option (α × List Char)) (lines : List String)
    (pre post : List (ParticleData α))
    (hroom : (lines.filterMap (leading_four_numbers strtod)).length ≤ post.length) :
    lines.foldl (fill_line strtod) ((pre.length : Int), pre ++ post) =
      (((pre.length + (lines.filterMap (leading_four_numbers strtod)).length : Nat) : Int),
        pre ++ lines.filterMap (leading_four_numbers strtod) ++
          post.drop (lines.filterMap (leading_four_numbers strtod)).length) := by
  induction lines generalizing pre post with
  | nil => simp
  | cons line rest ih =>
    rw [List.foldl_cons, fill_line_eq]
    cases h : leading_four_numbers strtod line with
    | none =>
      simp only [List.filterMap_cons, h] at hroom ⊢
      exact ih pre post hroom
    | some p =>
      simp only [List.filterMap_cons, h, List.length_cons] at hroom ⊢
      cases post with
      | nil => simp at hroom
      | cons q post' =>
        have hset : (pre ++ q :: post').set ((pre.length : Int)).toNat p =
            (pre ++ [p]) ++ post' := by
          simp [List.set_append]
        have hidx : ((pre.length : Int) + 1) = (((pre ++ [p]).length : Nat) : Int) := by
          simp
        rw [hset, hidx, ih (pre ++ [p]) post' (by simpa using hroom)]
        simp [Nat.add_assoc, Nat.add_comm 1]

end ReadTheorems


section ReadClaims

variable {α : Type} [LinearOrderedField α]

omit [LinearOrderedField α] in
/-- As many values are kept by `filterMap` as there are entries with a value. -/
theorem length_filterMap_eq_length_filter_isSome {β : Type} (f : β → Option α) (l : List β) :
    (l.filterMap f).length = (l.filter fun a => (f a).isSome).length := by
  induction l with
  | nil => rfl
  | cons a rest ih =>
    cases h : f a <;> simp [List.filterMap_cons, List.filter_cons, h, ih]

/-- C9, amended.  `read_particles_catalogue` on a readable file, for a
catalogue that holds no particles yet or a file with at least one accepted
line, returns 0 and yields exactly as many particles as the file has
accepted lines, a line being accepted iff four numbers can be read one after
the other from its start (each after optional white space), whatever
follows the fourth; the particles carry these numbers as x, y, z, w in file
order, and every other line is skipped. -/
theorem read_particles_catalogue_leading_four
    (strtod : List Char → Option (α × List Char)) (c : ParticleCatalogue α)
    (lines : List String)
    (hfresh : c.particles = [] ∨
      ∃ line ∈ lines, (leading_four_numbers strtod line).isSome = true) :
    (c.read_particles_catalogue strtod (some lines)).1 = 0 ∧
    (c.read_particles_catalogue strtod (some lines)).2.particles =
      lines.filterMap (leading_four_numbers strtod) ∧
    (c.read_particles_catalogue strtod (some lines)).2.nparticles =
      ((lines.filter fun line => (leading_four_numbers strtod line).isSome).length : Int) := by
  have hparts : (c.read_particles_catalogue strtod (some lines)).2.particles =
      lines.filterMap (leading_four_numbers strtod) := by
    simp only [ParticleCatalogue.read_particles_catalogue, foldl_count_line, zero_add]
    by_cases hn : (lines.filterMap (leading_four_numbers strtod)).length = 0
    · have hnil : lines.filterMap (leading_four_numbers strtod) = [] :=
        List.length_eq_zero.mp hn
      have hc : c.particles = [] := by
        rcases hfresh with h | ⟨line, hmem, hsome⟩
        · exact h
        · obtain ⟨p, hp⟩ := Option.isSome_iff_exists.mp hsome
          have : p ∈ lines.filterMap (leading_four_numbers strtod) :=
            List.mem_filterMap.mpr ⟨line, hmem, hp⟩
          rw [hnil] at this
          exact absurd this (List.not_mem_nil p)
      have h := foldl_fill_line strtod lines [] c.particles (by simp [hn])
      simp only [ParticleCatalogue.initialise_particles, hn, Nat.cast_zero, le_refl, if_true]
      simp only [List.length_nil, Nat.cast_zero, List.nil_append, zero_add] at h
      rw [h, hnil, hc]
      rfl
    · have hpos : ¬ (((lines.filterMap (leading_four_numbers strtod)).length : Int) ≤ 0) := by
        omega
      have h := foldl_fill_line strtod lines []
        (List.replicate (lines.filterMap (leading_four_numbers strtod)).length
          (⟨⟨0, 0, 0⟩, 0⟩ : ParticleData α)) (by simp)
      simp only [ParticleCatalogue.initialise_particles, hpos, if_false, Int.toNat_ofNat]
      simp only [List.length_nil, Nat.cast_zero, List.nil_append, zero_add] at h
      rw [h]
      simp
  refine ⟨rfl, hparts, ?_⟩
  rw [ParticleCatalogue.nparticles, hparts]
  congr 1
  exact length_filterMap_eq_length_filter_isSome _ _

end ReadClaims

/-- C9 as stated fails: the line `1 2 3 4 5` has five fields, so it is not a
line of exactly four numeric fields, yet it is read as the particle
`(1, 2, 3)` of weight 4; the file made of this line and of the four-field
line `6 7 8 9` yields two particles although only one of its lines consists
of exactly four numeric fields. -/
theorem read_particles_catalogue_accepts_five_fields :
    exactly_four_numeric_fields strtod_decimal "1 2 3 4 5" = false ∧
    ((["1 2 3 4 5", "6 7 8 9"] : List String).filter
      (exactly_four_numeric_fields strtod_decimal)).length = 1 ∧
    (ParticleCatalogue.init : ParticleCatalogue ℚ).read_particles_catalogue strtod_decimal
        (some ["1 2 3 4 5", "6 7 8 9"]) =
      (0, { particles := [⟨⟨1, 2, 3⟩, 4⟩, ⟨⟨6, 7, 8⟩, 9⟩], pos_min := ⟨0, 0, 0⟩,
            pos_max := ⟨0, 0, 0⟩ }) := by
  decide!

/-- Witness for C9, amended: two accepted lines and one malformed line give
exactly two particles. -/
theorem read_particles_catalogue_leading_four_witness :
    ((ParticleCatalogue.init : ParticleCatalogue ℚ).particles = [] ∨
      ∃ line ∈ (["1 2 3 4", "# x y z w", "5 6 7 0.5"] : List String),
        (leading_four_numbers strtod_decimal line).isSome = true) ∧
    ((ParticleCatalogue.init : ParticleCatalogue ℚ).read_particles_catalogue strtod_decimal
        (some ["1 2 3 4", "# x y z w", "5 6 7 0.5"])).2.particles =
      [⟨⟨1, 2, 3⟩, 4⟩, ⟨⟨5, 6, 7⟩, 1 / 2⟩] ∧
    ((ParticleCatalogue.init : ParticleCatalogue ℚ).read_particles_catalogue strtod_decimal
        (some ["1 2 3 4", "# x y z w", "5 6 7 0.5"])).2.nparticles = 2 :=
  have h := read_particles_catalogue_leading_four strtod_decimal
    (ParticleCatalogue.init : ParticleCatalogue ℚ) ["1 2 3 4", "# x y z w", "5 6 7 0.5"]
    (Or.inl rfl)
  ⟨Or.inl rfl, h.2.1.trans (by decide!), h.2.2.trans (by decide!)⟩

section NormalisationClaims

variable {α : Type} [LinearOrderedField α]

/-- C11.  When a statistic is being measured (`npoint` is not `"none"`), the
normalisation factor selected in `main`, which is the one any estimator
called receives, is the particle-based factor for the convention
`"particle"`, the mesh-based factor for `"mesh"`, the mixed-mesh factor for
`"mesh-mixed"`, and 0 for every convention string other than `"none"`,
`"particle"`, `"mesh"` and `"mesh-mixed"`; the selection has no failing
branch, whatever the three factors are. -/
theorem norm_convention_selects_factor (ext : External α) (params : ParameterSet α)
    (binning : Binning α) (loaded_data loaded_rand : ParticleCatalogue α)
    (hnp : params.npoint ≠ "none") :
    (params.norm_convention = "particle" →
      (∀ part mesh meshes : α,
        select_norm_factor params.npoint params.norm_convention part mesh meshes = part) ∧
      (main_measure ext params binning loaded_data loaded_rand).norm_factor =
        (main_measure ext params binning loaded_data loaded_rand).norm_factor_part) ∧
    (params.norm_convention = "mesh" →
      (∀ part mesh meshes : α,
        select_norm_factor params.npoint params.norm_convention part mesh meshes = mesh) ∧
      (main_measure ext params binning loaded_data loaded_rand).norm_factor =
        (main_measure ext params binning loaded_data loaded_rand).norm_factor_mesh) ∧
    (params.norm_convention = "mesh-mixed" →
      (∀ part mesh meshes : α,
        select_norm_factor params.npoint params.norm_convention part mesh meshes = meshes) ∧
      (main_measure ext params binning loaded_data loaded_rand).norm_factor =
        (main_measure ext params binning loaded_data loaded_rand).norm_factor_meshes) ∧
    (params.norm_convention ≠ "none" → params.norm_convention ≠ "particle" →
      params.norm_convention ≠ "mesh" → params.norm_convention ≠ "mesh-mixed" →
      (∀ part mesh meshes : α,
        select_norm_factor params.npoint params.norm_convention part mesh meshes = 0) ∧
      (main_measure ext params binning loaded_data loaded_rand).norm_factor = 0) ∧
    (∀ call, (main_measure ext params binning loaded_data loaded_rand).estimator = some call →
      call.norm_factor =
        (main_measure ext params binning loaded_data loaded_rand).norm_factor) := by
  have hrun : (main_measure ext params binning loaded_data loaded_rand).norm_factor =
      select_norm_factor params.npoint params.norm_convention
        (main_measure ext params binning loaded_data loaded_rand).norm_factor_part
        (main_measure ext params binning loaded_data loaded_rand).norm_factor_mesh
        (main_measure ext params binning loaded_data loaded_rand).norm_factor_meshes := rfl
  refine ⟨?_, ?_, ?_, ?_, ?_⟩
  · intro hc
    have hsel : ∀ part mesh meshes : α,
        select_norm_factor params.npoint params.norm_convention part mesh meshes = part := by
      intro part mesh meshes
      simp [select_norm_factor, hnp, hc]
    exact ⟨hsel, by rw [hrun, hsel]⟩
  · intro hc
    have hsel : ∀ part mesh meshes : α,
        select_norm_factor params.npoint params.norm_convention part mesh meshes = mesh := by
      intro part mesh meshes
      simp [select_norm_factor, hnp, hc]
    exact ⟨hsel, by rw [hrun, hsel]⟩
  · intro hc
    have hsel : ∀ part mesh meshes : α,
        select_norm_factor params.npoint params.norm_convention part mesh meshes = meshes := by
      intro part mesh meshes
      simp [select_norm_factor, hnp, hc]
    exact ⟨hsel, by rw [hrun, hsel]⟩
  · intro h1 h2 h3 h4
    have hsel : ∀ part mesh meshes : α,
        select_norm_factor params.npoint params.norm_convention part mesh meshes = 0 := by
      intro part mesh meshes
      simp [select_norm_factor, hnp, h1, h2, h3, h4]
    exact ⟨hsel, by rw [hrun, hsel]⟩
  · intro call hcall
    exact main_estimator_norm_factor _ _ _ _ _ _ _ _ call hcall

omit [LinearOrderedField α] in
/-- Section B.5 calls no estimator exactly for the combinations listed. -/
theorem main_estimator_eq_none_iff (params : ParameterSet α)
    (catalogue_data catalogue_rand : ParticleCatalogue α)
    (los_data los_rand : Option (List (LineOfSight α))) (binning : Binning α)
    (alpha norm_factor : α) :
    main_estimator params catalogue_data catalogue_rand los_data los_rand binning alpha
        norm_factor = none ↔
      ¬ (((params.statistic_type = "powspec" ∨ params.statistic_type = "2pcf" ∨
            params.statistic_type = "bispec" ∨ params.statistic_type = "3pcf") ∧
          (params.catalogue_type = "survey" ∨ params.catalogue_type = "sim")) ∨
        params.statistic_type = "2pcf-win" ∨ params.statistic_type = "3pcf-win" ∨
        params.statistic_type = "3pcf-win-wa") := by
  unfold main_estimator
  split_ifs <;> simp_all

end NormalisationClaims

/-- Witness for C11: a `survey` power-spectrum run whose particle-based,
mesh-based and mixed-mesh factors are 2, 3 and 5, under the conventions
`particle`, `mesh`, `mesh-mixed` and an unknown one. -/
theorem norm_convention_selects_factor_witness :
    (main_measure (example_external_with_factors 2 3 5)
        (example_params "survey" "powspec" "2pt" "particle") (example_binning 1 3 4)
        (example_catalogue [⟨⟨3, 0, 0⟩, 1⟩]) (example_catalogue [⟨⟨3, 0, 0⟩, 1⟩])).norm_factor
      = 2 ∧
    (main_measure (example_external_with_factors 2 3 5)
        (example_params "survey" "powspec" "2pt" "mesh") (example_binning 1 3 4)
        (example_catalogue [⟨⟨3, 0, 0⟩, 1⟩]) (example_catalogue [⟨⟨3, 0, 0⟩, 1⟩])).norm_factor
      = 3 ∧
    (main_measure (example_external_with_factors 2 3 5)
        (example_params "survey" "powspec" "2pt" "mesh-mixed") (example_binning 1 3 4)
        (example_catalogue [⟨⟨3, 0, 0⟩, 1⟩]) (example_catalogue [⟨⟨3, 0, 0⟩, 1⟩])).norm_factor
      = 5 ∧
    (main_measure (example_external_with_factors 2 3 5)
        (example_params "survey" "powspec" "2pt" "nbodykit") (example_binning 1 3 4)
        (example_catalogue [⟨⟨3, 0, 0⟩, 1⟩]) (example_catalogue [⟨⟨3, 0, 0⟩, 1⟩])).norm_factor
      = 0 :=
  ⟨((norm_convention_selects_factor (example_external_with_factors 2 3 5)
      (example_params "survey" "powspec" "2pt" "particle") (example_binning 1 3 4)
      (example_catalogue [⟨⟨3, 0, 0⟩, 1⟩]) (example_catalogue [⟨⟨3, 0, 0⟩, 1⟩])
      (by decide)).1 rfl).2.trans (by decide!),
    ((norm_convention_selects_factor (example_external_with_factors 2 3 5)
      (example_params "survey" "powspec" "2pt" "mesh") (example_binning 1 3 4)
      (example_catalogue [⟨⟨3, 0, 0⟩, 1⟩]) (example_catalogue [⟨⟨3, 0, 0⟩, 1⟩])
      (by decide)).2.1 rfl).2.trans (by decide!),
    ((norm_convention_selects_factor (example_external_with_factors 2 3 5)
      (example_params "survey" "powspec" "2pt" "mesh-mixed") (example_binning 1 3 4)
      (example_catalogue [⟨⟨3, 0, 0⟩, 1⟩]) (example_catalogue [⟨⟨3, 0, 0⟩, 1⟩])
      (by decide)).2.2.1 rfl).2.trans (by decide!),
    ((norm_convention_selects_factor (example_external_with_factors 2 3 5)
      (example_params "survey" "powspec" "2pt" "nbodykit") (example_binning 1 3 4)
      (example_catalogue [⟨⟨3, 0, 0⟩, 1⟩]) (example_catalogue [⟨⟨3, 0, 0⟩, 1⟩])
      (by decide)).2.2.2.1 (by decide) (by decide) (by decide) (by decide)).2⟩

/-- C15 as stated fails: with data weights `[1]` and random weights `[0]`,
`calc_alpha_ratio` returns plus infinity. -/
theorem calc_alpha_ratio_returns_infinity :
    ((example_catalogue [⟨⟨0, 0, 0⟩, 0⟩]).particles.map fun p => p.w).sum = 0 ∧
    calc_alpha_ratio_ieee (example_catalogue [⟨⟨1, 2, 3⟩, 1⟩])
      (example_catalogue [⟨⟨0, 0, 0⟩, 0⟩]) = .pos_infinity := by
  decide!

section BoundsTheorems

variable {α : Type} [LinearOrderedField α]

/-- A running minimum over a list, started at `m`: it is at most `m`, at most
every entry, and it is `m` or one of the entries. -/
theorem foldl_running_min (l : List α) (m : α) :
    l.foldl (fun acc v => if acc > v then v else acc) m ≤ m ∧
    (∀ v ∈ l, l.foldl (fun acc v => if acc > v then v else acc) m ≤ v) ∧
    (l.foldl (fun acc v => if acc > v then v else acc) m = m ∨
      l.foldl (fun acc v => if acc > v then v else acc) m ∈ l) := by
  induction l generalizing m with
  | nil => simp
  | cons a t ih =>
    rw [List.foldl_cons]
    obtain ⟨h1, h2, h3⟩ := ih (if m > a then a else m)
    have hstep : (if m > a then a else m) ≤ m ∧ (if m > a then a else m) ≤ a ∧
        ((if m > a then a else m) = m ∨ (if m > a then a else m) = a) := by
      split_ifs with h
      · exact ⟨le_of_lt h, le_refl _, Or.inr rfl⟩
      · exact ⟨le_refl _, not_lt.mp h, Or.inl rfl⟩
    refine ⟨le_trans h1 hstep.1, ?_, ?_⟩
    · intro v hv
      rcases List.mem_cons.mp hv with rfl | hv
      · exact le_trans h1 hstep.2.1
      · exact h2 v hv
    · rcases h3 with h3 | h3
      · rcases hstep.2.2 with h4 | h4
        · left; rw [h3, h4]
        · right; rw [h3, h4]; exact List.mem_cons_self _ _
      · right; exact List.mem_cons_of_mem _ h3

/-- A running maximum over a list, started at `m`. -/
theorem foldl_running_max (l : List α) (m : α) :
    m ≤ l.foldl (fun acc v => if acc < v then v else acc) m ∧
    (∀ v ∈ l, v ≤ l.foldl (fun acc v => if acc < v then v else acc) m) ∧
    (l.foldl (fun acc v => if acc < v then v else acc) m = m ∨
      l.foldl (fun acc v => if acc < v then v else acc) m ∈ l) := by
  induction l generalizing m with
  | nil => simp
  | cons a t ih =>
    rw [List.foldl_cons]
    obtain ⟨h1, h2, h3⟩ := ih (if m < a then a else m)
    have hstep : m ≤ (if m < a then a else m) ∧ a ≤ (if m < a then a else m) ∧
        ((if m < a then a else m) = m ∨ (if m < a then a else m) = a) := by
      split_ifs with h
      · exact ⟨le_of_lt h, le_refl _, Or.inr rfl⟩
      · exact ⟨le_refl _, not_lt.mp h, Or.inl rfl⟩
    refine ⟨le_trans hstep.1 h1, ?_, ?_⟩
    · intro v hv
      rcases List.mem_cons.mp hv with rfl | hv
      · exact le_trans hstep.2.1 h1
      · exact h2 v hv
    · rcases h3 with h3 | h3
      · rcases hstep.2.2 with h4 | h4
        · left; rw [h3, h4]
        · right; rw [h3, h4]; exact List.mem_cons_self _ _
      · right; exact List.mem_cons_of_mem _ h3

/-- The scan of `calc_min_and_max` keeps, in each of its six components, a
running minimum or maximum of one coordinate. -/
theorem foldl_min_max_step_components (l : List (ParticleData α)) (acc : Vec3 α × Vec3 α) :
    (l.foldl min_max_step acc).1.x =
      (l.map fun p => p.pos.x).foldl (fun m v => if m > v then v else m) acc.1.x ∧
    (l.foldl min_max_step acc).1.y =
      (l.map fun p => p.pos.y).foldl (fun m v => if m > v then v else m) acc.1.y ∧
    (l.foldl min_max_step acc).1.z =
      (l.map fun p => p.pos.z).foldl (fun m v => if m > v then v else m) acc.1.z ∧
    (l.foldl min_max_step acc).2.x =
      (l.map fun p => p.pos.x).foldl (fun m v => if m < v then v else m) acc.2.x ∧
    (l.foldl min_max_step acc).2.y =
      (l.map fun p => p.pos.y).foldl (fun m v => if m < v then v else m) acc.2.y ∧
    (l.foldl min_max_step acc).2.z =
      (l.map fun p => p.pos.z).foldl (fun m v => if m < v then v else m) acc.2.z := by
  induction l generalizing acc with
  | nil => simp
  | cons p t ih =>
    simp only [List.foldl_cons, List.map_cons]
    exact ih (min_max_step acc p)

/-- The bounds `calc_min_and_max` stores, component by component, for a
catalogue whose first particle is `p0`. -/
theorem calc_min_and_max_bounds (c : ParticleCatalogue α) (p0 : ParticleData α)
    (t : List (ParticleData α)) (hp : c.particles = p0 :: t) :
    c.calc_min_and_max.2.pos_min = (c.particles.foldl min_max_step (p0.pos, p0.pos)).1 ∧
    c.calc_min_and_max.2.pos_max = (c.particles.foldl min_max_step (p0.pos, p0.pos)).2 := by
  unfold ParticleCatalogue.calc_min_and_max
  simp [hp]

/-- The bounds `calc_min_and_max` stores enclose every particle and are each
attained by some particle, on each axis. -/
theorem calc_min_and_max_extremes (c : ParticleCatalogue α) (hne : c.particles ≠ []) :
    (∀ p ∈ c.particles,
      (c.calc_min_and_max.2.pos_min.x ≤ p.pos.x ∧ p.pos.x ≤ c.calc_min_and_max.2.pos_max.x) ∧
      (c.calc_min_and_max.2.pos_min.y ≤ p.pos.y ∧ p.pos.y ≤ c.calc_min_and_max.2.pos_max.y) ∧
      (c.calc_min_and_max.2.pos_min.z ≤ p.pos.z ∧ p.pos.z ≤ c.calc_min_and_max.2.pos_max.z)) ∧
    ((∃ p ∈ c.particles, p.pos.x = c.calc_min_and_max.2.pos_min.x) ∧
      (∃ p ∈ c.particles, p.pos.x = c.calc_min_and_max.2.pos_max.x)) ∧
    ((∃ p ∈ c.particles, p.pos.y = c.calc_min_and_max.2.pos_min.y) ∧
      (∃ p ∈ c.particles, p.pos.y = c.calc_min_and_max.2.pos_max.y)) ∧
    ((∃ p ∈ c.particles, p.pos.z = c.calc_min_and_max.2.pos_min.z) ∧
      (∃ p ∈ c.particles, p.pos.z = c.calc_min_and_max.2.pos_max.z)) := by
  obtain ⟨p0, t, hp⟩ := List.exists_cons_of_ne_nil hne
  obtain ⟨hmin, hmax⟩ := calc_min_and_max_bounds c p0 t hp
  obtain ⟨hx1, hy1, hz1, hx2, hy2, hz2⟩ :=
    foldl_min_max_step_components c.particles (p0.pos, p0.pos)
  have hp0 : p0 ∈ c.particles := by rw [hp]; exact List.mem_cons_self _ _
  have lower : ∀ (f : ParticleData α → α),
      (∀ p ∈ c.particles,
        (c.particles.map f).foldl (fun m v => if m > v then v else m) (f p0) ≤ f p) ∧
      ∃ p ∈ c.particles,
        f p = (c.particles.map f).foldl (fun m v => if m > v then v else m) (f p0) := by
    intro f
    obtain ⟨-, h2, h3⟩ := foldl_running_min (c.particles.map f) (f p0)
    refine ⟨fun p hmem => h2 _ (List.mem_map_of_mem f hmem), ?_⟩
    rcases h3 with h3 | h3
    · exact ⟨p0, hp0, h3.symm⟩
    · obtain ⟨p, hmem, hfp⟩ := List.mem_map.mp h3
      exact ⟨p, hmem, hfp⟩
  have upper : ∀ (f : ParticleData α → α),
      (∀ p ∈ c.particles,
        f p ≤ (c.particles.map f).foldl (fun m v => if m < v then v else m) (f p0)) ∧
      ∃ p ∈ c.particles,
        f p = (c.particles.map f).foldl (fun m v => if m < v then v else m) (f p0) := by
    intro f
    obtain ⟨-, h2, h3⟩ := foldl_running_max (c.particles.map f) (f p0)
    refine ⟨fun p hmem => h2 _ (List.mem_map_of_mem f hmem), ?_⟩
    rcases h3 with h3 | h3
    · exact ⟨p0, hp0, h3.symm⟩
    · obtain ⟨p, hmem, hfp⟩ := List.mem_map.mp h3
      exact ⟨p, hmem, hfp⟩
  rw [hmin, hmax, hx1, hy1, hz1, hx2, hy2, hz2]
  refine ⟨fun p hmem => ⟨⟨(lower fun q => q.pos.x).1 p hmem, (upper fun q => q.pos.x).1 p hmem⟩,
    ⟨(lower fun q => q.pos.y).1 p hmem, (upper fun q => q.pos.y).1 p hmem⟩,
    ⟨(lower fun q => q.pos.z).1 p hmem, (upper fun q => q.pos.z).1 p hmem⟩⟩,
    ⟨(lower fun q => q.pos.x).2, (upper fun q => q.pos.x).2⟩,
    ⟨(lower fun q => q.pos.y).2, (upper fun q => q.pos.y).2⟩,
    ⟨(lower fun q => q.pos.z).2, (upper fun q => q.pos.z).2⟩⟩

/-- C16.  After `calc_min_and_max` on a catalogue with at least one
particle, every particle lies within `[pos_min, pos_max]` on each axis, and
on each axis each of the two bounds is the coordinate of some particle. -/
theorem calc_min_and_max_exact (c : ParticleCatalogue α) (hne : c.particles ≠ []) :
    (∀ p ∈ c.particles,
      (c.calc_min_and_max.2.pos_min.x ≤ p.pos.x ∧ p.pos.x ≤ c.calc_min_and_max.2.pos_max.x) ∧
      (c.calc_min_and_max.2.pos_min.y ≤ p.pos.y ∧ p.pos.y ≤ c.calc_min_and_max.2.pos_max.y) ∧
      (c.calc_min_and_max.2.pos_min.z ≤ p.pos.z ∧ p.pos.z ≤ c.calc_min_and_max.2.pos_max.z)) ∧
    ((∃ p ∈ c.particles, p.pos.x = c.calc_min_and_max.2.pos_min.x) ∧
      (∃ p ∈ c.particles, p.pos.x = c.calc_min_and_max.2.pos_max.x)) ∧
    ((∃ p ∈ c.particles, p.pos.y = c.calc_min_and_max.2.pos_min.y) ∧
      (∃ p ∈ c.particles, p.pos.y = c.calc_min_and_max.2.pos_max.y)) ∧
    ((∃ p ∈ c.particles, p.pos.z = c.calc_min_and_max.2.pos_min.z) ∧
      (∃ p ∈ c.particles, p.pos.z = c.calc_min_and_max.2.pos_max.z)) :=
  calc_min_and_max_extremes c hne

/-- C17.  On a catalogue without particle storage `calc_min_and_max` returns
-1 and leaves the catalogue, hence `pos_min` and `pos_max`, unchanged; on a
catalogue with particles it returns 0. -/
theorem calc_min_and_max_status (c : ParticleCatalogue α) :
    (c.particles = [] →
      c.calc_min_and_max.1 = -1 ∧ c.calc_min_and_max.2 = c ∧
      c.calc_min_and_max.2.pos_min = c.pos_min ∧ c.calc_min_and_max.2.pos_max = c.pos_max) ∧
    (c.particles ≠ [] → c.calc_min_and_max.1 = 0) := by
  unfold ParticleCatalogue.calc_min_and_max
  constructor
  · intro h
    simp [h]
  · intro h
    obtain ⟨p0, t, hp⟩ := List.exists_cons_of_ne_nil h
    simp [hp]

/-- C18.  On a catalogue with particles `offset_particles(dpos)` returns 0
and replaces the position `p` of every particle by `p - dpos` component by
component, keeping each weight, the number and the order of the particles
and the cached `pos_min` and `pos_max`; on a catalogue without particle
storage it returns -1 and changes nothing. -/
theorem offset_particles_frame (c : ParticleCatalogue α) (dpos : Vec3 α) :
    (c.particles ≠ [] →
      (c.offset_particles dpos).1 = 0 ∧
      (c.offset_particles dpos).2.nparticles = c.nparticles ∧
      (∀ (i : Nat) (p : ParticleData α), c.particles[i]? = some p →
        (c.offset_particles dpos).2.particles[i]? =
          some ⟨⟨p.pos.x - dpos.x, p.pos.y - dpos.y, p.pos.z - dpos.z⟩, p.w⟩) ∧
      (c.offset_particles dpos).2.pos_min = c.pos_min ∧
      (c.offset_particles dpos).2.pos_max = c.pos_max) ∧
    (c.particles = [] → c.offset_particles dpos = (-1, c)) := by
  unfold ParticleCatalogue.offset_particles
  constructor
  · intro h
    obtain ⟨p0, t, hp⟩ := List.exists_cons_of_ne_nil h
    simp only [hp]
    refine ⟨trivial, ?_, ?_, trivial, trivial⟩
    · simp [ParticleCatalogue.nparticles, hp]
    · intro i p hi
      rw [List.getElem?_map, hi]
      rfl
  · intro h
    simp [h]

end BoundsTheorems


/-- Witness for C16: particles at `(3, 0, 0)` and `(1, 5, -2)`. -/
theorem calc_min_and_max_exact_witness :
    (example_catalogue [⟨⟨3, 0, 0⟩, 1⟩, ⟨⟨1, 5, -2⟩, 1⟩]).particles ≠ [] ∧
    ((∃ p ∈ (example_catalogue [⟨⟨3, 0, 0⟩, 1⟩, ⟨⟨1, 5, -2⟩, 1⟩]).particles,
        p.pos.x =
          (example_catalogue [⟨⟨3, 0, 0⟩, 1⟩, ⟨⟨1, 5, -2⟩, 1⟩]).calc_min_and_max.2.pos_min.x) ∧
      (∃ p ∈ (example_catalogue [⟨⟨3, 0, 0⟩, 1⟩, ⟨⟨1, 5, -2⟩, 1⟩]).particles,
        p.pos.x =
          (example_catalogue [⟨⟨3, 0, 0⟩, 1⟩, ⟨⟨1, 5, -2⟩, 1⟩]).calc_min_and_max.2.pos_max.x)) ∧
    (example_catalogue [⟨⟨3, 0, 0⟩, 1⟩, ⟨⟨1, 5, -2⟩, 1⟩]).calc_min_and_max.2.pos_min =
      ⟨1, 0, -2⟩ ∧
    (example_catalogue [⟨⟨3, 0, 0⟩, 1⟩, ⟨⟨1, 5, -2⟩, 1⟩]).calc_min_and_max.2.pos_max =
      ⟨3, 5, 0⟩ :=
  have h : (example_catalogue [⟨⟨3, 0, 0⟩, 1⟩, ⟨⟨1, 5, -2⟩, 1⟩]).particles ≠ [] := by
    decide
  ⟨h, (calc_min_and_max_exact _ h).2.1, by decide!, by decide!⟩

/-- Witness for C17: the catalogue as constructed, and one particle. -/
theorem calc_min_and_max_status_witness :
    ((ParticleCatalogue.init : ParticleCatalogue ℚ).calc_min_and_max.1 = -1 ∧
      (ParticleCatalogue.init : ParticleCatalogue ℚ).calc_min_and_max.2 =
        ParticleCatalogue.init) ∧
    (example_catalogue [⟨⟨3, 0, 0⟩, 1⟩]).calc_min_and_max.1 = 0 :=
  ⟨⟨((calc_min_and_max_status (ParticleCatalogue.init : ParticleCatalogue ℚ)).1 rfl).1,
      ((calc_min_and_max_status (ParticleCatalogue.init : ParticleCatalogue ℚ)).1 rfl).2.1⟩,
    (calc_min_and_max_status (example_catalogue [⟨⟨3, 0, 0⟩, 1⟩])).2 (by decide)⟩

/-- Witness for C18: the particle at `(3, 0, 0)` offset by `(1, -2, -1)`, and
the catalogue as constructed. -/
theorem offset_particles_frame_witness :
    ((example_catalogue [⟨⟨3, 0, 0⟩, 7⟩]).offset_particles ⟨1, -2, -1⟩).1 = 0 ∧
    ((example_catalogue [⟨⟨3, 0, 0⟩, 7⟩]).offset_particles ⟨1, -2, -1⟩).2.particles[0]? =
      some ⟨⟨3 - 1, 0 - -2, 0 - -1⟩, 7⟩ ∧
    (ParticleCatalogue.init : ParticleCatalogue ℚ).offset_particles ⟨1, -2, -1⟩ =
      (-1, ParticleCatalogue.init) :=
  have h := (offset_particles_frame (example_catalogue [⟨⟨3, 0, 0⟩, 7⟩]) ⟨1, -2, -1⟩).1
    (by decide)
  ⟨h.1, h.2.2.1 0 ⟨⟨3, 0, 0⟩, 7⟩ rfl,
    (offset_particles_frame (ParticleCatalogue.init : ParticleCatalogue ℚ) ⟨1, -2, -1⟩).2 rfl⟩

/-- C20 fails on the code when the cached bounds are not those of the
particles.  A catalogue read from the one-line file `3 0 0 1` holds the
particle `(3, 0, 0)` with `pos_min = pos_max = (0, 0, 0)` as constructed;
`offset_particles_for_window` with the box `20 x 20 x 10` then moves the
particle to `(13, 10, 5)`, so the midpoint of the new bounding box is
`(13, 10, 5)` and not `(10, 10, 5)`. -/
theorem offset_particles_for_window_stale_bounds :
    ((ParticleCatalogue.init : ParticleCatalogue ℚ).read_particles_catalogue strtod_decimal
        (some ["3 0 0 1"])).2 = example_catalogue [⟨⟨3, 0, 0⟩, 1⟩] ∧
    (example_catalogue [⟨⟨3, 0, 0⟩, 1⟩]).offset_particles_for_window
        (example_params "random" "2pcf-win" "2pt" "none") =
      (0, { particles := [⟨⟨13, 10, 5⟩, 1⟩], pos_min := ⟨13, 10, 5⟩,
            pos_max := ⟨13, 10, 5⟩ }) ∧
    (13 : ℚ) + (13 - 13) / 2 ≠ (example_params "random" "2pcf-win" "2pt" "none").boxsize.x / 2 := by
  decide!


section WindowTheorems

variable {α : Type} [LinearOrderedField α]

/-- The least of the values shifted by `d` is the least value shifted by `d`. -/
theorem exact_min_shift (l : List (ParticleData α)) (f g : ParticleData α → α)
    (s : ParticleData α → ParticleData α) (d m m' : α) (hs : ∀ p, g (s p) = f p + d)
    (h1 : ∀ p ∈ l, m ≤ f p) (h2 : ∃ p ∈ l, f p = m)
    (h1' : ∀ q ∈ l.map s, m' ≤ g q) (h2' : ∃ q ∈ l.map s, g q = m') : m' = m + d := by
  obtain ⟨p, hp, hfp⟩ := h2
  obtain ⟨q, hq, hgq⟩ := h2'
  obtain ⟨p', hp', rfl⟩ := List.mem_map.mp hq
  have ha : m' ≤ m + d := by
    have := h1' (s p) (List.mem_map_of_mem s hp)
    rw [hs, hfp] at this
    exact this
  have hb : m + d ≤ m' := by
    rw [← hgq, hs]
    linarith [h1 p' hp']
  exact le_antisymm ha hb

/-- The greatest of the values shifted by `d` is the greatest value shifted
by `d`. -/
theorem exact_max_shift (l : List (ParticleData α)) (f g : ParticleData α → α)
    (s : ParticleData α → ParticleData α) (d m m' : α) (hs : ∀ p, g (s p) = f p + d)
    (h1 : ∀ p ∈ l, f p ≤ m) (h2 : ∃ p ∈ l, f p = m)
    (h1' : ∀ q ∈ l.map s, g q ≤ m') (h2' : ∃ q ∈ l.map s, g q = m') : m' = m + d := by
  obtain ⟨p, hp, hfp⟩ := h2
  obtain ⟨q, hq, hgq⟩ := h2'
  obtain ⟨p', hp', rfl⟩ := List.mem_map.mp hq
  have ha : m + d ≤ m' := by
    have := h1' (s p) (List.mem_map_of_mem s hp)
    rw [hs, hfp] at this
    exact this
  have hb : m' ≤ m + d := by
    rw [← hgq, hs]
    linarith [h1 p' hp']
  exact le_antisymm hb ha

/-- When the cached bounds of a catalogue with particles are those of its
particles (recomputing them changes nothing), `offset_particles_for_window`
does centre: the midpoint of the new bounds is `boxsize / 2` on each axis. -/
theorem offset_particles_for_window_centres_of_fresh_bounds (c : ParticleCatalogue α)
    (params : ParameterSet α) (hne : c.particles ≠ [])
    (hfresh : c.calc_min_and_max.2 = c) :
    (c.offset_particles_for_window params).2.pos_min.x +
      ((c.offset_particles_for_window params).2.pos_max.x -
        (c.offset_particles_for_window params).2.pos_min.x) / 2 = params.boxsize.x / 2 ∧
    (c.offset_particles_for_window params).2.pos_min.y +
      ((c.offset_particles_for_window params).2.pos_max.y -
        (c.offset_particles_for_window params).2.pos_min.y) / 2 = params.boxsize.y / 2 ∧
    (c.offset_particles_for_window params).2.pos_min.z +
      ((c.offset_particles_for_window params).2.pos_max.z -
        (c.offset_particles_for_window params).2.pos_min.z) / 2 = params.boxsize.z / 2 := by
  obtain ⟨hin, ⟨hxl, hxu⟩, ⟨hyl, hyu⟩, ⟨hzl, hzu⟩⟩ := calc_min_and_max_extremes c hne
  rw [hfresh] at hin hxl hxu hyl hyu hzl hzu
  have hne' : (c.particles.map fun (p : ParticleData α) =>
      ({ p with pos := ⟨p.pos.x + (params.boxsize.x / 2 -
            (c.pos_min.x + (c.pos_max.x - c.pos_min.x) / 2)),
          p.pos.y + (params.boxsize.y / 2 - (c.pos_min.y + (c.pos_max.y - c.pos_min.y) / 2)),
          p.pos.z + (params.boxsize.z / 2 -
            (c.pos_min.z + (c.pos_max.z - c.pos_min.z) / 2))⟩ } : ParticleData α)) ≠ [] := by
    simpa using hne
  obtain ⟨hin', ⟨hxl', hxu'⟩, ⟨hyl', hyu'⟩, ⟨hzl', hzu'⟩⟩ :=
    calc_min_and_max_extremes
      ({ c with particles := c.particles.map fun (p : ParticleData α) =>
        { p with pos := ⟨p.pos.x + (params.boxsize.x / 2 -
              (c.pos_min.x + (c.pos_max.x - c.pos_min.x) / 2)),
            p.pos.y + (params.boxsize.y / 2 -
              (c.pos_min.y + (c.pos_max.y - c.pos_min.y) / 2)),
            p.pos.z + (params.boxsize.z / 2 -
              (c.pos_min.z + (c.pos_max.z - c.pos_min.z) / 2))⟩ } } : ParticleCatalogue α)
      hne'
  have hminx := exact_min_shift c.particles (fun p => p.pos.x) (fun p => p.pos.x) _ _ _ _
    (fun _ => rfl) (fun p hp => (hin p hp).1.1) hxl (fun q hq => (hin' q hq).1.1) hxl'
  have hmaxx := exact_max_shift c.particles (fun p => p.pos.x) (fun p => p.pos.x) _ _ _ _
    (fun _ => rfl) (fun p hp => (hin p hp).1.2) hxu (fun q hq => (hin' q hq).1.2) hxu'
  have hminy := exact_min_shift c.particles (fun p => p.pos.y) (fun p => p.pos.y) _ _ _ _
    (fun _ => rfl) (fun p hp => (hin p hp).2.1.1) hyl (fun q hq => (hin' q hq).2.1.1) hyl'
  have hmaxy := exact_max_shift c.particles (fun p => p.pos.y) (fun p => p.pos.y) _ _ _ _
    (fun _ => rfl) (fun p hp => (hin p hp).2.1.2) hyu (fun q hq => (hin' q hq).2.1.2) hyu'
  have hminz := exact_min_shift c.particles (fun p => p.pos.z) (fun p => p.pos.z) _ _ _ _
    (fun _ => rfl) (fun p hp => (hin p hp).2.2.1) hzl (fun q hq => (hin' q hq).2.2.1) hzl'
  have hmaxz := exact_max_shift c.particles (fun p => p.pos.z) (fun p => p.pos.z) _ _ _ _
    (fun _ => rfl) (fun p hp => (hin p hp).2.2.2) hzu (fun q hq => (hin' q hq).2.2.2) hzu'
  refine ⟨?_, ?_, ?_⟩
  · show _ + (_ - _) / 2 = _
    simp only [ParticleCatalogue.offset_particles_for_window]
    rw [hminx, hmaxx]
    ring
  · simp only [ParticleCatalogue.offset_particles_for_window]
    rw [hminy, hmaxy]
    ring
  · simp only [ParticleCatalogue.offset_particles_for_window]
    rw [hminz, hmaxz]
    ring

end WindowTheorems

section ConstructorClaims

variable {α : Type} [LinearOrderedField α]

/-- C22.  The constructor `Binning(coord_min, coord_max, nbin)` throws
`InvalidParameter` if and only if `coord_min < 0`; otherwise it returns an
object with `bin_min = coord_min`, `bin_max = coord_max` and
`num_bins = nbin`. -/
theorem binning_constructor_rejects_negative_min (declared : BinningDeclared α)
    (coord_min coord_max : α) (nbin : Int) :
    ((∃ err_mesg, Binning.construct declared coord_min coord_max nbin =
        .error (.InvalidParameter err_mesg)) ↔ coord_min < 0) ∧
    (¬ coord_min < 0 →
      ∃ b, Binning.construct declared coord_min coord_max nbin = .ok b ∧
        b.bin_min = coord_min ∧ b.bin_max = coord_max ∧ b.num_bins = nbin) := by
  unfold Binning.construct
  constructor
  · constructor
    · rintro ⟨err_mesg, h⟩
      by_contra hneg
      rw [if_neg hneg] at h
      cases h
    · intro h
      exact ⟨_, if_pos h⟩
  · intro h
    exact ⟨_, if_neg h, rfl, rfl, rfl⟩

/-- C23.  For the scheme `custom`, `set_bins` throws `UnimplementedError`; for
every scheme string other than `custom`, `lin`, `log`, `linpad` and `logpad`
it throws `InvalidParameter`; in both cases the object, hence each of the
three bin vectors, is left as it was. -/
theorem set_bins_rejects_other_schemes (log exp : α → α) (u : α) (b : Binning α)
    (scheme space : String) :
    (scheme = "custom" →
      ∃ err_mesg, b.set_bins log exp u scheme space =
        (.error (.UnimplementedError err_mesg), b)) ∧
    (scheme ≠ "custom" → scheme ≠ "lin" → scheme ≠ "log" → scheme ≠ "linpad" →
      scheme ≠ "logpad" →
      ∃ err_mesg, b.set_bins log exp u scheme space =
        (.error (.InvalidParameter err_mesg), b)) := by
  constructor
  · intro h
    refine ⟨"Customed binning not implemented. " ++
      "Implement your own binning scheme here (\"dataobjs.cpp\").", ?_⟩
    simp only [Binning.set_bins, h, if_true]
  · intro h1 h2 h3 h4 h5
    refine ⟨"Invalid binning `scheme`: " ++ scheme ++ ".", ?_⟩
    simp only [Binning.set_bins, h1, h2, h3, h4, h5, if_false]

end ConstructorClaims

/-- Witness for C22: the range `[-1, 3]` is rejected, the range `[1, 3]` with
4 bins is accepted and stored. -/
theorem binning_constructor_rejects_negative_min_witness :
    (∃ err_mesg, Binning.construct example_declared (-1) 3 4 =
      .error (.InvalidParameter err_mesg)) ∧
    ∃ b, Binning.construct example_declared 1 3 4 = .ok b ∧
      b.bin_min = 1 ∧ b.bin_max = 3 ∧ b.num_bins = 4 :=
  ⟨(binning_constructor_rejects_negative_min example_declared (-1) 3 4).1.mpr (by norm_num),
    (binning_constructor_rejects_negative_min example_declared 1 3 4).2 (by norm_num)⟩

/-- Witness for C23: the schemes `custom` and `cubic`. -/
theorem set_bins_rejects_other_schemes_witness :
    (∃ err_mesg, (example_binning 1 3 4).set_bins id id 0 "custom" "fourier" =
      (.error (.UnimplementedError err_mesg), example_binning 1 3 4)) ∧
    ∃ err_mesg, (example_binning 1 3 4).set_bins id id 0 "cubic" "fourier" =
      (.error (.InvalidParameter err_mesg), example_binning 1 3 4) :=
  ⟨(set_bins_rejects_other_schemes id id 0 (example_binning 1 3 4) "custom" "fourier").1 rfl,
    (set_bins_rejects_other_schemes id id 0 (example_binning 1 3 4) "cubic" "fourier").2
      (by decide) (by decide) (by decide) (by decide) (by decide)⟩

section SchemeTheorems

variable {α : Type} [LinearOrderedField α]

omit [LinearOrderedField α] in
/-- A loop whose body pushes the bin `bin k` at its `k`-th turn appends these
bins. -/
theorem for_loop_push_bins (start stop : Int) (bin : Nat → α × α × α)
    (body : Int → Binning α → Binning α)
    (hbody : ∀ (k : Nat) (acc : Binning α),
      body (start + (k : Int)) acc = acc.push_bin (bin k).1 (bin k).2.1 (bin k).2.2)
    (b : Binning α) :
    for_loop start stop body b =
      { b with
        bin_edges := b.bin_edges ++ ((List.range (stop - start).toNat).map bin).map
          (fun t => t.1)
        bin_centres := b.bin_centres ++ ((List.range (stop - start).toNat).map bin).map
          (fun t => t.2.1)
        bin_widths := b.bin_widths ++ ((List.range (stop - start).toNat).map bin).map
          (fun t => t.2.2) } := by
  unfold for_loop
  have hfun : (fun (acc : Binning α) (k : Nat) => body (start + (k : Int)) acc) =
      (fun acc k => acc.push_bin (bin k).1 (bin k).2.1 (bin k).2.2) := by
    funext acc k
    exact hbody k acc
  rw [hfun, foldl_push_bin (fun k => (bin k).1) (fun k => (bin k).2.1) (fun k => (bin k).2.2)]
  simp only [List.map_map, Function.comp_def]

omit [LinearOrderedField α] in
/-- Two runs of bins, the second counted from its own start, are one run of
bins chosen by position. -/
theorem range_map_append_range_map {β : Type} (p q : Nat) (f g : Nat → β) :
    (List.range p).map f ++ (List.range q).map g =
      (List.range (p + q)).map (fun k => if k < p then f k else g (k - p)) := by
  rw [List.range_add, List.map_append, List.map_map]
  congr 1
  · apply List.map_congr_left
    intro k hk
    rw [List.mem_range] at hk
    simp [hk]
  · apply List.map_congr_left
    intro k _
    simp

/-- The bins of the scheme `lin` are those of the spec. -/
theorem set_bins_lin_bins (log exp : α → α) (u : α) (b : Binning α) (space : String) :
    b.set_bins log exp u "lin" space =
      (.ok (), b.append_bins ((List.range b.num_bins.toNat).map
        (spec_lin_bin b.bin_min ((b.bin_max - b.bin_min) / (b.num_bins : α))))) := by
  have h1 : ¬ (("lin" : String) = "custom") := by decide
  have hloop := for_loop_push_bins 0 b.num_bins
    (spec_lin_bin b.bin_min ((b.bin_max - b.bin_min) / (b.num_bins : α)))
    (Binning.lin_body b.bin_min ((b.bin_max - b.bin_min) / (b.num_bins : α)) 0)
    (by intro k acc; simp [Binning.lin_body, spec_lin_bin]) b
  simp only [Binning.set_bins, h1, if_false, if_true, hloop, Binning.push_last_edge,
    Binning.append_bins, sub_zero, List.append_assoc]

/-- The bins of the scheme `log`, when the lowest edge is not zero, are those
of the spec. -/
theorem set_bins_log_bins (log exp : α → α) (u : α) (b : Binning α) (space : String)
    (hmin : b.bin_min ≠ 0) :
    b.set_bins log exp u "log" space =
      (.ok (), b.append_bins ((List.range b.num_bins.toNat).map
        (spec_log_bin exp b.bin_min
          ((log b.bin_max - log b.bin_min) / (b.num_bins : α))))) := by
  have h1 : ¬ (("log" : String) = "custom") := by decide
  have h2 : ¬ (("log" : String) = "lin") := by decide
  have hloop := for_loop_push_bins 0 b.num_bins
    (spec_log_bin exp b.bin_min ((log b.bin_max - log b.bin_min) / (b.num_bins : α)))
    (Binning.log_body exp b.bin_min ((log b.bin_max - log b.bin_min) / (b.num_bins : α)) 0)
    (by intro k acc; simp [Binning.log_body, spec_log_bin]) b
  simp only [Binning.set_bins, h1, h2, hmin, if_false, if_true, hloop,
    Binning.push_last_edge, Binning.append_bins, sub_zero, List.append_assoc]

/-- The bins of a padded scheme, as a run of padding bins followed by the
unpadded bins. -/
theorem map_spec_padded_bin (p q : Nat) (w : α) (unpadded : Nat → α × α × α) :
    (List.range (p + q)).map (spec_padded_bin p w unpadded) =
      (List.range p).map (fun (k : Nat) => (w * (k : α), w * (k : α) + w / 2, w)) ++
        (List.range q).map unpadded := by
  rw [range_map_append_range_map]
  rfl

/-- The bins of the scheme `linpad` are the padding bins of the spec followed
by its `lin` bins from `dbin_pad * nbin_pad`. -/
theorem set_bins_linpad_bins (log exp : α → α) (u : α) (b : Binning α) (space : String) :
    b.set_bins log exp u "linpad" space =
      (.ok (), b.append_bins
        ((List.range (b.nbin_pad.toNat + (b.num_bins - b.nbin_pad).toNat)).map
          (spec_padded_bin b.nbin_pad.toNat (b.select_dbin_pad u space)
            (spec_lin_bin (b.select_dbin_pad u space * (b.nbin_pad : α))
              ((b.bin_max - b.select_dbin_pad u space * (b.nbin_pad : α)) /
                ((b.num_bins - b.nbin_pad : Int) : α)))))) := by
  have h1 : ¬ (("linpad" : String) = "custom") := by decide
  have h2 : ¬ (("linpad" : String) = "lin") := by decide
  have h3 : ¬ (("linpad" : String) = "log") := by decide
  have hloop1 := for_loop_push_bins 0 b.nbin_pad
    (fun (k : Nat) => (b.select_dbin_pad u space * (k : α),
      b.select_dbin_pad u space * (k : α) + b.select_dbin_pad u space / 2,
      b.select_dbin_pad u space))
    (Binning.pad_body (b.select_dbin_pad u space))
    (by intro k acc; simp [Binning.pad_body]) b
  have hloop2 := for_loop_push_bins b.nbin_pad b.num_bins
    (spec_lin_bin (b.select_dbin_pad u space * (b.nbin_pad : α))
      ((b.bin_max - b.select_dbin_pad u space * (b.nbin_pad : α)) /
        ((b.num_bins - b.nbin_pad : Int) : α)))
    (Binning.lin_body (b.select_dbin_pad u space * (b.nbin_pad : α))
      ((b.bin_max - b.select_dbin_pad u space * (b.nbin_pad : α)) /
        ((b.num_bins - b.nbin_pad : Int) : α)) b.nbin_pad)
    (by intro k acc; simp [Binning.lin_body, spec_lin_bin])
  simp only [Binning.set_bins, h1, h2, h3, if_false, if_true, hloop1, hloop2,
    Binning.push_last_edge, Binning.append_bins, map_spec_padded_bin, List.map_append,
    List.append_assoc, sub_zero]

/-- The bins of the scheme `logpad` are the padding bins of the spec followed
by the bins of its `log` formulas from `dbin_pad * nbin_pad`. -/
theorem set_bins_logpad_bins (log exp : α → α) (u : α) (b : Binning α) (space : String) :
    b.set_bins log exp u "logpad" space =
      (.ok (), b.append_bins
        ((List.range (b.nbin_pad.toNat + (b.num_bins - b.nbin_pad).toNat)).map
          (spec_padded_bin b.nbin_pad.toNat (b.select_dbin_pad u space)
            (spec_log_bin exp (b.select_dbin_pad u space * (b.nbin_pad : α))
              ((log b.bin_max - log (b.select_dbin_pad u space * (b.nbin_pad : α))) /
                ((b.num_bins - b.nbin_pad : Int) : α)))))) := by
  have h1 : ¬ (("logpad" : String) = "custom") := by decide
  have h2 : ¬ (("logpad" : String) = "lin") := by decide
  have h3 : ¬ (("logpad" : String) = "log") := by decide
  have h4 : ¬ (("logpad" : String) = "linpad") := by decide
  have hloop1 := for_loop_push_bins 0 b.nbin_pad
    (fun (k : Nat) => (b.select_dbin_pad u space * (k : α),
      b.select_dbin_pad u space * (k : α) + b.select_dbin_pad u space / 2,
      b.select_dbin_pad u space))
    (Binning.pad_body (b.select_dbin_pad u space))
    (by intro k acc; simp [Binning.pad_body]) b
  have hloop2 := for_loop_push_bins b.nbin_pad b.num_bins
    (spec_log_bin exp (b.select_dbin_pad u space * (b.nbin_pad : α))
      ((log b.bin_max - log (b.select_dbin_pad u space * (b.nbin_pad : α))) /
        ((b.num_bins - b.nbin_pad : Int) : α)))
    (Binning.log_body exp (b.select_dbin_pad u space * (b.nbin_pad : α))
      ((log b.bin_max - log (b.select_dbin_pad u space * (b.nbin_pad : α))) /
        ((b.num_bins - b.nbin_pad : Int) : α)) b.nbin_pad)
    (by intro k acc; simp [Binning.log_body, spec_log_bin])
  simp only [Binning.set_bins, h1, h2, h3, h4, if_false, if_true, hloop1, hloop2,
    Binning.push_last_edge, Binning.append_bins, map_spec_padded_bin, List.map_append,
    List.append_assoc, sub_zero]

end SchemeTheorems

section ShapeTheorems

variable {α : Type} [LinearOrderedField α]

omit [LinearOrderedField α] in
/-- The three bin vectors after `m` bins and the closing edge have been
appended to empty vectors. -/
theorem append_bins_range (b : Binning α)
    (hempty : b.bin_edges = [] ∧ b.bin_centres = [] ∧ b.bin_widths = [])
    (m : Nat) (bin : Nat → α × α × α) :
    (b.append_bins ((List.range m).map bin)).bin_edges =
        (List.range m).map (fun k => (bin k).1) ++ [b.bin_max] ∧
      (b.append_bins ((List.range m).map bin)).bin_centres =
        (List.range m).map (fun k => (bin k).2.1) ∧
      (b.append_bins ((List.range m).map bin)).bin_widths =
        (List.range m).map (fun k => (bin k).2.2) := by
  obtain ⟨he, hc, hw⟩ := hempty
  simp [Binning.append_bins, he, hc, hw, Function.comp_def]

omit [LinearOrderedField α] in
/-- Entry `i < m` of `(F 0, ..., F (m-1), last)`. -/
theorem getElem?_range_map_last (F : Nat → α) (m i : Nat) (hi : i < m) (last : α) :
    ((List.range m).map F ++ [last])[i]? = some (F i) := by
  simp [List.getElem?_append_left, hi]

omit [LinearOrderedField α] in
/-- Entry `m` of `(F 0, ..., F (m-1), last)`. -/
theorem getElem?_range_map_last_last (F : Nat → α) (m : Nat) (last : α) :
    ((List.range m).map F ++ [last])[m]? = some last := by
  simp

omit [LinearOrderedField α] in
/-- Entry `i < m` of `(F 0, ..., F (m-1))`. -/
theorem getElem?_range_map (F : Nat → α) (m i : Nat) (hi : i < m) :
    ((List.range m).map F)[i]? = some (F i) := by
  simp [hi]

/-- A run `(F 0, ..., F (m-1), last)` whose adjacent entries increase is
strictly increasing. -/
theorem pairwise_range_map_last (F : Nat → α) (m : Nat) (last : α)
    (hstep : ∀ k, k + 1 < m → F k < F (k + 1))
    (hlast : ∀ k, k + 1 = m → F k < last) :
    ((List.range m).map F ++ [last]).Pairwise (· < ·) := by
  have hmono : ∀ c a, a < c → c < m → F a < F c := by
    intro c
    induction c with
    | zero => intro a ha; omega
    | succ c ih =>
      intro a ha hc
      by_cases hac : a = c
      · subst hac
        exact hstep a hc
      · exact lt_trans (ih a (by omega) (by omega)) (hstep c hc)
  rw [List.pairwise_append]
  refine ⟨?_, List.pairwise_singleton _ _, ?_⟩
  · rw [List.pairwise_map]
    have hr : (List.range m).Pairwise (fun a c => a < c ∧ c < m) := by
      have h1 := List.pairwise_lt_range m
      have h2 : ∀ x ∈ List.range m, x < m := fun x hx => List.mem_range.mp hx
      exact (List.pairwise_and_iff.mpr ⟨h1, List.pairwise_of_forall_mem_list
        (fun a _ c hc => h2 c hc)⟩)
    exact hr.imp (fun h => hmono _ _ h.1 h.2)
  · intro a ha c hc
    rw [List.mem_singleton] at hc
    rw [List.mem_map] at ha
    obtain ⟨k, hk, rfl⟩ := ha
    rw [List.mem_range] at hk
    rw [hc]
    by_cases hkm : k + 1 = m
    · exact hlast k hkm
    · exact lt_trans (hmono (m - 1) k (by omega) (by omega)) (hlast (m - 1) (by omega))

end ShapeTheorems

section BinFacts

variable {α : Type} [LinearOrderedField α]

/-- The number of turns of a loop of `n >= 1` turns, as a number of the field. -/
theorem cast_toNat_of_pos (n : Int) (hn : 1 ≤ n) : ((n.toNat : Nat) : α) = (n : α) := by
  have h : ((n.toNat : Nat) : Int) = n := Int.toNat_of_nonneg (by omega)
  rw [← Int.cast_natCast, h]

/-- The width of a `lin` bin is the distance of its left edge from the next
left edge and, for the last of `n >= 1` bins, from `bin_max`. -/
theorem spec_lin_bin_width (bin_min bin_max : α) (n : Int) (hn : 1 ≤ n) (k : Nat) :
    (spec_lin_bin bin_min ((bin_max - bin_min) / (n : α)) k).2.2 =
        (spec_lin_bin bin_min ((bin_max - bin_min) / (n : α)) (k + 1)).1 -
          (spec_lin_bin bin_min ((bin_max - bin_min) / (n : α)) k).1 ∧
      (k + 1 = n.toNat →
        (spec_lin_bin bin_min ((bin_max - bin_min) / (n : α)) k).2.2 =
          bin_max - (spec_lin_bin bin_min ((bin_max - bin_min) / (n : α)) k).1) := by
  have hnpos : (0 : α) < (n : α) := by
    have : (0 : Int) < n := by omega
    exact_mod_cast this
  constructor
  · simp only [spec_lin_bin]
    push_cast
    ring
  · intro hk
    have hcast : ((k : α) + 1) = (n : α) := by
      rw [← cast_toNat_of_pos n hn, ← hk]
      push_cast
      rfl
    have hk' : (k : α) = (n : α) - 1 := by rw [← hcast]; ring
    simp only [spec_lin_bin]
    rw [hk']
    field_simp
    ring

/-- The left edges of the `lin` bins increase, and the last of `n >= 1` lies
below `bin_max`, when `bin_min < bin_max`. -/
theorem spec_lin_bin_edge_lt (bin_min bin_max : α) (n : Int) (hn : 1 ≤ n)
    (hlt : bin_min < bin_max) (k : Nat) :
    (spec_lin_bin bin_min ((bin_max - bin_min) / (n : α)) k).1 <
        (spec_lin_bin bin_min ((bin_max - bin_min) / (n : α)) (k + 1)).1 ∧
      (k + 1 = n.toNat →
        (spec_lin_bin bin_min ((bin_max - bin_min) / (n : α)) k).1 < bin_max) := by
  have hnpos : (0 : α) < (n : α) := by
    have : (0 : Int) < n := by omega
    exact_mod_cast this
  have hd : 0 < (bin_max - bin_min) / (n : α) := div_pos (sub_pos.mpr hlt) hnpos
  constructor
  · simp only [spec_lin_bin]
    push_cast
    linarith
  · intro hk
    have h := (spec_lin_bin_width bin_min bin_max n hn k).2 hk
    simp only [spec_lin_bin] at h ⊢
    linarith

end BinFacts

section PaddedFacts

variable {α : Type} [LinearOrderedField α]

/-- When every bin is as wide as the distance of its left edge from the next
left edge, and the last as the distance from `bin_max`, each width in the
vectors filled from empty is the difference of the two edges around it. -/
theorem append_bins_widths (b : Binning α)
    (hempty : b.bin_edges = [] ∧ b.bin_centres = [] ∧ b.bin_widths = [])
    (m : Nat) (bin : Nat → α × α × α)
    (hwidth : ∀ k, k + 1 < m → (bin k).2.2 = (bin (k + 1)).1 - (bin k).1)
    (hlast : ∀ k, k + 1 = m → (bin k).2.2 = b.bin_max - (bin k).1) (i : Nat) (hi : i < m) :
    ∃ e₀ e₁ w, (b.append_bins ((List.range m).map bin)).bin_edges[i]? = some e₀ ∧
      (b.append_bins ((List.range m).map bin)).bin_edges[i + 1]? = some e₁ ∧
      (b.append_bins ((List.range m).map bin)).bin_widths[i]? = some w ∧ w = e₁ - e₀ := by
  obtain ⟨hedges, -, hwidths⟩ := append_bins_range b hempty m bin
  rw [hedges, hwidths]
  by_cases hnext : i + 1 < m
  · exact ⟨_, _, _, getElem?_range_map_last _ m i hi _,
      getElem?_range_map_last _ m (i + 1) hnext _, getElem?_range_map _ m i hi,
      hwidth i hnext⟩
  · have him : i + 1 = m := by omega
    refine ⟨_, _, _, getElem?_range_map_last _ m i hi _, ?_, getElem?_range_map _ m i hi,
      hlast i him⟩
    rw [him]
    exact getElem?_range_map_last_last _ m _

/-- When the left edges increase from bin to bin and the last lies below
`bin_max`, the edges filled from empty are strictly increasing. -/
theorem append_bins_pairwise (b : Binning α)
    (hempty : b.bin_edges = [] ∧ b.bin_centres = [] ∧ b.bin_widths = [])
    (m : Nat) (bin : Nat → α × α × α)
    (hstep : ∀ k, k + 1 < m → (bin k).1 < (bin (k + 1)).1)
    (hlast : ∀ k, k + 1 = m → (bin k).1 < b.bin_max) :
    (b.append_bins ((List.range m).map bin)).bin_edges.Pairwise (· < ·) := by
  rw [(append_bins_range b hempty m bin).1]
  exact pairwise_range_map_last _ m _ hstep hlast

/-- Widths of the bins of a padded scheme with at least one unpadded bin,
from those of its unpadded bins. -/
theorem spec_padded_bin_width (p q : Nat) (w bin_max : α) (unpadded : Nat → α × α × α)
    (hq : 1 ≤ q) (hstart : (unpadded 0).1 = w * (p : α))
    (hwidth : ∀ j, (unpadded j).2.2 = (unpadded (j + 1)).1 - (unpadded j).1)
    (hlast : ∀ j, j + 1 = q → (unpadded j).2.2 = bin_max - (unpadded j).1) :
    (∀ k, k + 1 < p + q →
      (spec_padded_bin p w unpadded k).2.2 =
        (spec_padded_bin p w unpadded (k + 1)).1 - (spec_padded_bin p w unpadded k).1) ∧
    (∀ k, k + 1 = p + q →
      (spec_padded_bin p w unpadded k).2.2 = bin_max - (spec_padded_bin p w unpadded k).1) := by
  constructor
  · intro k hk
    unfold spec_padded_bin
    by_cases h1 : k + 1 < p
    · have h2 : k < p := by omega
      simp only [h1, h2, if_true]
      push_cast
      ring
    · by_cases h2 : k < p
      · have h3 : k + 1 = p := by omega
        have h4 : k + 1 - p = 0 := by omega
        have h5 : (p : α) = (k : α) + 1 := by rw [← h3]; push_cast; rfl
        simp only [h1, h2, if_true, if_false, h4, hstart, h5]
        ring
      · have h4 : k + 1 - p = (k - p) + 1 := by omega
        simp only [h1, h2, if_false, h4]
        exact hwidth _
  · intro k hk
    unfold spec_padded_bin
    have h2 : ¬ k < p := by omega
    simp only [h2, if_false]
    exact hlast _ (by omega)

/-- Order of the left edges of the bins of a padded scheme, from that of its
unpadded bins. -/
theorem spec_padded_bin_edge_lt (p q : Nat) (w bin_max : α) (unpadded : Nat → α × α × α)
    (hw : 0 < w) (hpad : w * (p : α) < bin_max)
    (hstart : 1 ≤ q → (unpadded 0).1 = w * (p : α))
    (hstep : 1 ≤ q → ∀ j, (unpadded j).1 < (unpadded (j + 1)).1)
    (hlast : ∀ j, j + 1 = q → (unpadded j).1 < bin_max) :
    (∀ k, k + 1 < p + q →
      (spec_padded_bin p w unpadded k).1 < (spec_padded_bin p w unpadded (k + 1)).1) ∧
    (∀ k, k + 1 = p + q → (spec_padded_bin p w unpadded k).1 < bin_max) := by
  have hpadstep : ∀ k : Nat, w * (k : α) < w * ((k : α) + 1) := fun k =>
    mul_lt_mul_of_pos_left (lt_add_one _) hw
  constructor
  · intro k hk
    unfold spec_padded_bin
    by_cases h1 : k + 1 < p
    · have h2 : k < p := by omega
      simp only [h1, h2, if_true]
      push_cast
      exact hpadstep k
    · by_cases h2 : k < p
      · have h3 : k + 1 = p := by omega
        have h4 : k + 1 - p = 0 := by omega
        have h5 : (p : α) = (k : α) + 1 := by rw [← h3]; push_cast; rfl
        simp only [h1, h2, if_true, if_false, h4, hstart (by omega), h5]
        exact hpadstep k
      · have h4 : k + 1 - p = (k - p) + 1 := by omega
        simp only [h1, h2, if_false, h4]
        exact hstep (by omega) _
  · intro k hk
    unfold spec_padded_bin
    by_cases h2 : k < p
    · have h3 : k + 1 = p := by omega
      have h5 : (p : α) = (k : α) + 1 := by rw [← h3]; push_cast; rfl
      simp only [h2, if_true]
      rw [h5] at hpad
      exact lt_trans (hpadstep k) hpad
    · simp only [h2, if_false]
      exact hlast _ (by omega)

end PaddedFacts

section LogSchemeTheorems

variable {α : Type} [LinearOrderedField α]

/-- C24.  Scheme `log`, starting from empty bin vectors, with
`0 < bin_min < bin_max` and `num_bins >= 1`: `set_bins` returns normally and,
for every `i < num_bins`, `edges[i] = bin_min * exp(i * dln)` with
`dln = (log(bin_max) - log(bin_min)) / num_bins`, and `centres[i]` is the
arithmetic mean `(bin_min * exp(i * dln) + bin_min * exp((i + 1) * dln)) / 2`
of the two edge formulas. -/
theorem set_bins_log_edges_centres (log exp : α → α) (u : α) (b : Binning α)
    (space : String)
    (hempty : b.bin_edges = [] ∧ b.bin_centres = [] ∧ b.bin_widths = [])
    (hrange : 0 < b.bin_min ∧ b.bin_min < b.bin_max) (hn : 1 ≤ b.num_bins) :
    (b.set_bins log exp u "log" space).1 = .ok () ∧
    ∀ i : Nat, (i : Int) < b.num_bins →
      (b.set_bins log exp u "log" space).2.bin_edges[i]? =
        some (b.bin_min *
          exp ((i : α) * ((log b.bin_max - log b.bin_min) / (b.num_bins : α)))) ∧
      (b.set_bins log exp u "log" space).2.bin_centres[i]? =
        some ((b.bin_min *
            exp ((i : α) * ((log b.bin_max - log b.bin_min) / (b.num_bins : α))) +
          b.bin_min *
            exp (((i : α) + 1) * ((log b.bin_max - log b.bin_min) / (b.num_bins : α)))) / 2) := by
  obtain ⟨hmin, -⟩ := hrange
  have hclosed := set_bins_log_bins log exp u b space (ne_of_gt hmin)
  obtain ⟨hedges, hcentres, -⟩ := append_bins_range b hempty b.num_bins.toNat
    (spec_log_bin exp b.bin_min ((log b.bin_max - log b.bin_min) / (b.num_bins : α)))
  refine ⟨by rw [hclosed], ?_⟩
  intro i hi
  have hi' : i < b.num_bins.toNat := by omega
  rw [hclosed]
  constructor
  · show (b.append_bins _).bin_edges[i]? = _
    rw [hedges, getElem?_range_map_last _ _ i hi']
    simp only [spec_log_bin, mul_comm]
  · show (b.append_bins _).bin_centres[i]? = _
    rw [hcentres, getElem?_range_map _ _ i hi']
    simp only [spec_log_bin, mul_comm]

end LogSchemeTheorems

/-- Witness for C24: three bins over `[1, 8]` with the real logarithm and
exponential. -/
theorem set_bins_log_edges_centres_witness :
    ((0 : ℝ) < (example_binning_over ℝ 1 8 0 3 0).bin_min ∧
      (example_binning_over ℝ 1 8 0 3 0).bin_min < (example_binning_over ℝ 1 8 0 3 0).bin_max) ∧
    (1 : Int) ≤ (example_binning_over ℝ 1 8 0 3 0).num_bins ∧
    ((example_binning_over ℝ 1 8 0 3 0).set_bins Real.log Real.exp 0 "log"
        "fourier").2.bin_edges[2]? =
      some ((example_binning_over ℝ 1 8 0 3 0).bin_min *
        Real.exp (((2 : Nat) : ℝ) *
          ((Real.log (example_binning_over ℝ 1 8 0 3 0).bin_max -
            Real.log (example_binning_over ℝ 1 8 0 3 0).bin_min) /
              ((example_binning_over ℝ 1 8 0 3 0).num_bins : ℝ)))) :=
  have hr : (0 : ℝ) < (example_binning_over ℝ 1 8 0 3 0).bin_min ∧
      (example_binning_over ℝ 1 8 0 3 0).bin_min <
        (example_binning_over ℝ 1 8 0 3 0).bin_max := by
    constructor <;> norm_num [example_binning_over]
  ⟨hr, by decide,
    ((set_bins_log_edges_centres Real.log Real.exp 0 (example_binning_over ℝ 1 8 0 3 0)
      "fourier" ⟨rfl, rfl, rfl⟩ hr (by decide)).2 2 (by decide)).1⟩

section PaddedSchemeTheorems

variable {α : Type} [LinearOrderedField α]

/-- C25.  Schemes `linpad` and `logpad`, starting from empty bin vectors, with
`0 <= nbin_pad <= num_bins`.  The padding width `w` is `dbin_pad_fourier`
when `space` is `fourier` and `dbin_pad_config` when it is `config`.
`linpad` returns normally; its first `nbin_pad` bins have `edges[i] = w * i`,
`centres[i] = w * i + w / 2` and width `w`, and what follows in the three
vectors is exactly what the scheme `lin` produces for the residual range
`[w * nbin_pad, bin_max]` with `num_bins - nbin_pad` bins, closing edge
`bin_max` included.  `logpad` does the same with the scheme `log` when
`w * nbin_pad` is not zero.  When `w * nbin_pad` is zero, `logpad` still
returns normally with `num_bins` bins, although the scheme `log` refuses the
same residual range with `InvalidParameter`. -/
theorem set_bins_padded_residual (log exp : α → α) (u : α) (b : Binning α) (space : String)
    (hempty : b.bin_edges = [] ∧ b.bin_centres = [] ∧ b.bin_widths = [])
    (hpad : 0 ≤ b.nbin_pad ∧ b.nbin_pad ≤ b.num_bins) :
    (space = "fourier" → b.select_dbin_pad u space = b.dbin_pad_fourier) ∧
    (space = "config" → b.select_dbin_pad u space = b.dbin_pad_config) ∧
    b.set_bins log exp u "linpad" space =
      (.ok (), { b with
        bin_edges :=
          (List.range b.nbin_pad.toNat).map
              (fun (i : Nat) => b.select_dbin_pad u space * (i : α)) ++
            ((b.residual (b.select_dbin_pad u space)).set_bins log exp u "lin"
              space).2.bin_edges
        bin_centres :=
          (List.range b.nbin_pad.toNat).map
              (fun (i : Nat) => b.select_dbin_pad u space * (i : α) +
                b.select_dbin_pad u space / 2) ++
            ((b.residual (b.select_dbin_pad u space)).set_bins log exp u "lin"
              space).2.bin_centres
        bin_widths :=
          (List.range b.nbin_pad.toNat).map (fun _ => b.select_dbin_pad u space) ++
            ((b.residual (b.select_dbin_pad u space)).set_bins log exp u "lin"
              space).2.bin_widths }) ∧
    (b.select_dbin_pad u space * (b.nbin_pad : α) ≠ 0 →
      b.set_bins log exp u "logpad" space =
        (.ok (), { b with
          bin_edges :=
            (List.range b.nbin_pad.toNat).map
                (fun (i : Nat) => b.select_dbin_pad u space * (i : α)) ++
              ((b.residual (b.select_dbin_pad u space)).set_bins log exp u "log"
                space).2.bin_edges
          bin_centres :=
            (List.range b.nbin_pad.toNat).map
                (fun (i : Nat) => b.select_dbin_pad u space * (i : α) +
                  b.select_dbin_pad u space / 2) ++
              ((b.residual (b.select_dbin_pad u space)).set_bins log exp u "log"
                space).2.bin_centres
          bin_widths :=
            (List.range b.nbin_pad.toNat).map (fun _ => b.select_dbin_pad u space) ++
              ((b.residual (b.select_dbin_pad u space)).set_bins log exp u "log"
                space).2.bin_widths })) ∧
    (b.select_dbin_pad u space * (b.nbin_pad : α) = 0 →
      (b.set_bins log exp u "logpad" space).1 = .ok () ∧
      ((b.set_bins log exp u "logpad" space).2.bin_widths.length : Int) = b.num_bins ∧
      ∃ err_mesg,
        (b.residual (b.select_dbin_pad u space)).set_bins log exp u "log" space =
          (.error (.InvalidParameter err_mesg), b.residual (b.select_dbin_pad u space))) := by
  obtain ⟨he, hc, hw⟩ := hempty
  have hne : ¬ (("config" : String) = "fourier") := by decide
  refine ⟨?_, ?_, ?_, ?_, ?_⟩
  · intro hs
    simp [Binning.select_dbin_pad, hs]
  · intro hs
    simp [Binning.select_dbin_pad, hs, hne]
  · rw [set_bins_linpad_bins, set_bins_lin_bins]
    simp only [Binning.append_bins, Binning.residual, map_spec_padded_bin, he, hc, hw,
      List.map_append, List.map_map, List.nil_append, List.append_assoc, Function.comp_def]
  · intro hres
    rw [set_bins_logpad_bins, set_bins_log_bins log exp u _ space hres]
    simp only [Binning.append_bins, Binning.residual, map_spec_padded_bin, he, hc, hw,
      List.map_append, List.map_map, List.nil_append, List.append_assoc, Function.comp_def]
  · intro hres
    have h1 : ¬ (("log" : String) = "custom") := by decide
    have h2 : ¬ (("log" : String) = "lin") := by decide
    refine ⟨by rw [set_bins_logpad_bins], ?_,
      "Cannot use logarithmic binning when the lowest edge is zero.", ?_⟩
    · rw [set_bins_logpad_bins]
      simp only [Binning.append_bins, hw, List.nil_append, List.length_map, List.length_range]
      omega
    · simp only [Binning.set_bins, Binning.residual, h1, h2, hres, if_false, if_true]

end PaddedSchemeTheorems

/-- Witness for C25: four bins up to 10, the first two padded with width 1
(`linpad`), and two bins up to 10 without padded bins (`logpad`, residual
range from 0). -/
theorem set_bins_padded_residual_witness :
    ((0 : Int) ≤ (example_binning_padded 0 10 1 4 2).nbin_pad ∧
      (example_binning_padded 0 10 1 4 2).nbin_pad ≤
        (example_binning_padded 0 10 1 4 2).num_bins) ∧
    ((example_binning_padded 0 10 1 4 2).set_bins id id 0 "linpad" "fourier").2.bin_edges =
      [0, 1] ++ (((example_binning_padded 0 10 1 4 2).residual 1).set_bins id id 0 "lin"
        "fourier").2.bin_edges ∧
    ((example_binning_padded 0 10 1 4 2).set_bins id id 0 "linpad" "fourier").2.bin_edges =
      [0, 1, 2, 6, 10] ∧
    (((example_binning_padded 0 10 1 2 0).set_bins id id 0 "logpad" "fourier").1 = .ok () ∧
      (((example_binning_padded 0 10 1 2 0).set_bins id id 0 "logpad"
        "fourier").2.bin_widths.length : Int) = (example_binning_padded 0 10 1 2 0).num_bins ∧
      ∃ err_mesg,
        ((example_binning_padded 0 10 1 2 0).residual
            ((example_binning_padded 0 10 1 2 0).select_dbin_pad 0 "fourier")).set_bins id id 0
            "log" "fourier" =
          (.error (.InvalidParameter err_mesg),
            (example_binning_padded 0 10 1 2 0).residual
              ((example_binning_padded 0 10 1 2 0).select_dbin_pad 0 "fourier"))) :=
  have h := set_bins_padded_residual id id 0 (example_binning_padded 0 10 1 4 2) "fourier"
    ⟨rfl, rfl, rfl⟩ ⟨by decide, by decide⟩
  have h0 := set_bins_padded_residual id id 0 (example_binning_padded 0 10 1 2 0) "fourier"
    ⟨rfl, rfl, rfl⟩ ⟨by decide, by decide⟩
  ⟨⟨by decide, by decide⟩,
    by
      have he := congrArg (fun r => r.2.bin_edges) h.2.2.1
      simpa [Binning.select_dbin_pad, example_binning_padded, List.range_succ] using he,
    by
      rw [h.2.2.1]
      have h2 : Int.toNat 2 = 2 := rfl
      norm_num [Binning.select_dbin_pad, example_binning_padded, h2, List.range_succ,
        set_bins_lin_bins, Binning.residual, Binning.append_bins, spec_lin_bin],
    h0.2.2.2.2 (by simp [example_binning_padded])⟩

/-- C27 as stated fails: the constructor accepts the range with
`coord_min = 3` above `coord_max = 1` (only `coord_min < 0` is refused), and
`set_bins` under `lin` then returns normally with the edges 3, 2, 1, which
decrease. -/
theorem binning_constructor_accepts_reversed_range :
    ∃ b : Binning ℚ, Binning.construct example_declared 3 1 2 = .ok b ∧
      (b.set_bins id id 0 "lin" "fourier").1 = .ok () ∧
      (b.set_bins id id 0 "lin" "fourier").2.bin_edges = [3, 2, 1] ∧
      ¬ (b.set_bins id id 0 "lin" "fourier").2.bin_edges.Pairwise (· < ·) := by
  have h2 : Int.toNat 2 = 2 := rfl
  refine ⟨{ scheme := "lin", space := "fourier", bin_min := 3, bin_max := 1, num_bins := 2,
            nbin_pad := 5, dbin_pad_config := 10, dbin_pad_fourier := 1 / 1000,
            bin_edges := [], bin_centres := [], bin_widths := [] }, ?_, ?_, ?_, ?_⟩
  · norm_num [Binning.construct, example_declared]
  · rw [set_bins_lin_bins]
  · rw [set_bins_lin_bins]
    norm_num [h2, List.range_succ, Binning.append_bins, spec_lin_bin]
  · rw [set_bins_lin_bins]
    norm_num [h2, List.range_succ, Binning.append_bins, spec_lin_bin]

section LengthTheorems

variable {α : Type} [LinearOrderedField α]

omit [LinearOrderedField α] in
/-- Lengths of the three bin vectors after `m` bins and the closing edge have
been appended to empty vectors, and the entry at the end of the edges. -/
theorem append_bins_lengths (b : Binning α)
    (hempty : b.bin_edges = [] ∧ b.bin_centres = [] ∧ b.bin_widths = [])
    (m : Nat) (bin : Nat → α × α × α) :
    (b.append_bins ((List.range m).map bin)).bin_edges.length = m + 1 ∧
    (b.append_bins ((List.range m).map bin)).bin_centres.length = m ∧
    (b.append_bins ((List.range m).map bin)).bin_widths.length = m ∧
    (b.append_bins ((List.range m).map bin)).bin_edges[m]? = some b.bin_max := by
  obtain ⟨hedges, hcentres, hwidths⟩ := append_bins_range b hempty m bin
  rw [hedges, hcentres, hwidths]
  refine ⟨by simp, by simp, by simp, getElem?_range_map_last_last _ m _⟩

/-- C28, amended.  Whenever `set_bins` returns normally (which it does for
the schemes `lin`, `linpad` and `logpad`, and for `log` with a non-zero
lowest edge, and for no other scheme), starting from empty bin vectors, with
`num_bins >= 0` and, for the padded schemes, `0 <= nbin_pad <= num_bins`:
`bin_edges` has `num_bins + 1` entries, `bin_centres` and `bin_widths` have
`num_bins` entries, and `edges[num_bins]` is `bin_max`. -/
theorem set_bins_vector_lengths (log exp : α → α) (u : α) (b : Binning α)
    (scheme space : String)
    (hempty : b.bin_edges = [] ∧ b.bin_centres = [] ∧ b.bin_widths = [])
    (hok : (b.set_bins log exp u scheme space).1 = .ok ())
    (hn : 0 ≤ b.num_bins)
    (hpad : scheme = "linpad" ∨ scheme = "logpad" →
      0 ≤ b.nbin_pad ∧ b.nbin_pad ≤ b.num_bins) :
    (scheme = "lin" ∨ scheme = "log" ∨ scheme = "linpad" ∨ scheme = "logpad") ∧
    ((b.set_bins log exp u scheme space).2.bin_edges.length : Int) = b.num_bins + 1 ∧
    ((b.set_bins log exp u scheme space).2.bin_centres.length : Int) = b.num_bins ∧
    ((b.set_bins log exp u scheme space).2.bin_widths.length : Int) = b.num_bins ∧
    (b.set_bins log exp u scheme space).2.bin_edges[b.num_bins.toNat]? = some b.bin_max := by
  have hshape : ∀ (m : Nat) (bin : Nat → α × α × α), (m : Int) = b.num_bins →
      b.set_bins log exp u scheme space =
        (.ok (), b.append_bins ((List.range m).map bin)) →
      ((b.set_bins log exp u scheme space).2.bin_edges.length : Int) = b.num_bins + 1 ∧
      ((b.set_bins log exp u scheme space).2.bin_centres.length : Int) = b.num_bins ∧
      ((b.set_bins log exp u scheme space).2.bin_widths.length : Int) = b.num_bins ∧
      (b.set_bins log exp u scheme space).2.bin_edges[b.num_bins.toNat]? =
        some b.bin_max := by
    intro m bin hm hclosed
    obtain ⟨h1, h2, h3, h4⟩ := append_bins_lengths b hempty m bin
    have hm' : b.num_bins.toNat = m := by omega
    rw [hclosed, hm']
    refine ⟨?_, ?_, ?_, h4⟩
    · show ((b.append_bins _).bin_edges.length : Int) = _
      rw [h1, ← hm]
      push_cast
      rfl
    · show ((b.append_bins _).bin_centres.length : Int) = _
      rw [h2, ← hm]
    · show ((b.append_bins _).bin_widths.length : Int) = _
      rw [h3, ← hm]
  by_cases hlin : scheme = "lin"
  · subst hlin
    exact ⟨Or.inl rfl, hshape _ _ (Int.toNat_of_nonneg hn) (set_bins_lin_bins log exp u b space)⟩
  by_cases hlog : scheme = "log"
  · subst hlog
    have hmin : b.bin_min ≠ 0 := by
      intro h0
      have h1 : ¬ (("log" : String) = "custom") := by decide
      have h2 : ¬ (("log" : String) = "lin") := by decide
      simp [Binning.set_bins, h1, h2, h0] at hok
    exact ⟨Or.inr (Or.inl rfl),
      hshape _ _ (Int.toNat_of_nonneg hn) (set_bins_log_bins log exp u b space hmin)⟩
  by_cases hlinpad : scheme = "linpad"
  · subst hlinpad
    obtain ⟨hp0, hpn⟩ := hpad (Or.inl rfl)
    exact ⟨Or.inr (Or.inr (Or.inl rfl)),
      hshape _ _ (by omega) (set_bins_linpad_bins log exp u b space)⟩
  by_cases hlogpad : scheme = "logpad"
  · subst hlogpad
    obtain ⟨hp0, hpn⟩ := hpad (Or.inr rfl)
    exact ⟨Or.inr (Or.inr (Or.inr rfl)),
      hshape _ _ (by omega) (set_bins_logpad_bins log exp u b space)⟩
  · exfalso
    by_cases hcustom : scheme = "custom"
    · simp [Binning.set_bins, hcustom] at hok
    · simp [Binning.set_bins, hcustom, hlin, hlog, hlinpad, hlogpad] at hok

end LengthTheorems

/-- Witness for C28, amended: four bins up to 10, the first two padded with width 1. -/
theorem set_bins_vector_lengths_witness :
    ((example_binning_padded 0 10 1 4 2).set_bins id id 0 "linpad" "fourier").1 = .ok () ∧
    (0 : Int) ≤ (example_binning_padded 0 10 1 4 2).num_bins ∧
    ((0 : Int) ≤ (example_binning_padded 0 10 1 4 2).nbin_pad ∧
      (example_binning_padded 0 10 1 4 2).nbin_pad ≤
        (example_binning_padded 0 10 1 4 2).num_bins) ∧
    (((example_binning_padded 0 10 1 4 2).set_bins id id 0 "linpad"
      "fourier").2.bin_edges.length : Int) = (example_binning_padded 0 10 1 4 2).num_bins + 1 ∧
    ((example_binning_padded 0 10 1 4 2).set_bins id id 0 "linpad"
      "fourier").2.bin_edges[(example_binning_padded 0 10 1 4 2).num_bins.toNat]? =
        some (example_binning_padded 0 10 1 4 2).bin_max :=
  have hok : ((example_binning_padded 0 10 1 4 2).set_bins id id 0 "linpad" "fourier").1 =
      .ok () := by
    rw [set_bins_linpad_bins]
  have h := set_bins_vector_lengths id id 0 (example_binning_padded 0 10 1 4 2) "linpad"
    "fourier" ⟨rfl, rfl, rfl⟩ hok (by decide) (fun _ => ⟨by decide, by decide⟩)
  ⟨hok, by decide, ⟨by decide, by decide⟩, h.2.1, h.2.2.2.2⟩

/-- C28 as stated fails: three bins up to 10 with five padded bins of width
1.  `set_bins` returns normally under `linpad`, having pushed the five
padded bins and the closing edge: six edges, not four, and `edges[3]` is 3,
not `bin_max`. -/
theorem set_bins_more_padded_bins_than_bins :
    ((example_binning_padded 0 10 1 3 5).set_bins id id 0 "linpad" "fourier").1 = .ok () ∧
    ((example_binning_padded 0 10 1 3 5).set_bins id id 0 "linpad" "fourier").2.bin_edges =
      [0, 1, 2, 3, 4, 10] ∧
    ((example_binning_padded 0 10 1 3 5).set_bins id id 0 "linpad" "fourier").2.bin_widths =
      [1, 1, 1, 1, 1] ∧
    (((example_binning_padded 0 10 1 3 5).set_bins id id 0 "linpad"
      "fourier").2.bin_edges.length : Int) ≠ (example_binning_padded 0 10 1 3 5).num_bins + 1 ∧
    ((example_binning_padded 0 10 1 3 5).set_bins id id 0 "linpad"
      "fourier").2.bin_edges[(example_binning_padded 0 10 1 3 5).num_bins.toNat]? ≠
        some (example_binning_padded 0 10 1 3 5).bin_max := by
  have h5 : Int.toNat 5 = 5 := rfl
  have h3 : Int.toNat 3 = 3 := rfl
  have hq : Int.toNat (-2) = 0 := rfl
  rw [set_bins_linpad_bins]
  norm_num [Binning.select_dbin_pad, example_binning_padded, h5, h3, hq, List.range_succ,
    Binning.append_bins, spec_padded_bin]

section LoadTheorems

variable {α : Type} [LinearOrderedField α]

omit [LinearOrderedField α] in
/-- The counting loop over lines for none of which `sscanf` returns 4 leaves
the count as it was. -/
theorem foldl_count_line_of_no_valid_row (strtod : List Char → Option (α × List Char))
    (lines : List String) (hrows : ∀ line ∈ lines, (sscanf_4lf strtod line).1 ≠ 4)
    (num_lines : Int) :
    lines.foldl (count_line strtod) num_lines = num_lines := by
  induction lines generalizing num_lines with
  | nil => rfl
  | cons line rest ih =>
    rw [List.foldl_cons, ih (fun l hl => hrows l (List.mem_cons_of_mem _ hl))]
    simp [count_line, hrows line (List.mem_cons_self _ _)]

omit [LinearOrderedField α] in
/-- The filling loop over lines for none of which `sscanf` returns 4 stores
nothing. -/
theorem foldl_fill_line_of_no_valid_row (strtod : List Char → Option (α × List Char))
    (lines : List String) (hrows : ∀ line ∈ lines, (sscanf_4lf strtod line).1 ≠ 4)
    (st : Int × List (ParticleData α)) :
    lines.foldl (fill_line strtod) st = st := by
  induction lines generalizing st with
  | nil => rfl
  | cons line rest ih =>
    rw [List.foldl_cons, ih (fun l hl => hrows l (List.mem_cons_of_mem _ hl))]
    rw [fill_line_eq]
    rcases sscanf_4lf_eq strtod line with ⟨p, -, hs⟩ | ⟨hp, -⟩
    · exact absurd (congrArg Prod.fst hs) (hrows line (List.mem_cons_self _ _))
    · rw [hp]

/-- C29, amended.  Method `read_particles_catalogue` returns the status -1,
leaving the catalogue as it was, when the file cannot be opened, and the
status 0 whenever the file can be opened; when the file can be opened and
`sscanf` returns 4 for none of its lines, the status is 0 and the catalogue
is left as it was.  With this load, section A.2 of `main` throws `IOError`
on the task 0 exactly when the file cannot be opened, and never on another
task. -/
theorem load_fails_only_when_file_cannot_be_opened
    (strtod : List Char → Option (α × List Char)) (c : ParticleCatalogue α)
    (particles_file : Option (List String)) (err_mesg : String) :
    (particles_file = none → c.read_particles_catalogue strtod particles_file = (-1, c)) ∧
    (particles_file ≠ none → (c.read_particles_catalogue strtod particles_file).1 = 0) ∧
    (∀ lines, particles_file = some lines →
      (∀ line ∈ lines, (sscanf_4lf strtod line).1 ≠ 4) →
      c.read_particles_catalogue strtod particles_file = (0, c)) ∧
    (main_load_catalogue 0
        (fun c₀ => c₀.read_particles_catalogue strtod particles_file) err_mesg =
      .error (.IOError err_mesg) ↔ particles_file = none) ∧
    (particles_file ≠ none →
      main_load_catalogue 0
          (fun c₀ => c₀.read_particles_catalogue strtod particles_file) err_mesg =
        .ok ((ParticleCatalogue.init : ParticleCatalogue α).read_particles_catalogue strtod
          particles_file).2) ∧
    (∀ currTask : Int, currTask ≠ 0 →
      main_load_catalogue currTask
          (fun c₀ => c₀.read_particles_catalogue strtod particles_file) err_mesg =
        .ok ((ParticleCatalogue.init : ParticleCatalogue α).read_particles_catalogue strtod
          particles_file).2) := by
  refine ⟨?_, ?_, ?_, ?_, ?_, ?_⟩
  · intro h
    rw [h]
    rfl
  · intro h
    cases particles_file with
    | none => exact absurd rfl h
    | some lines => rfl
  · intro lines h hrows
    rw [h]
    simp only [ParticleCatalogue.read_particles_catalogue]
    rw [foldl_count_line_of_no_valid_row strtod lines hrows,
      foldl_fill_line_of_no_valid_row strtod lines hrows]
    simp [ParticleCatalogue.initialise_particles]
  · cases particles_file with
    | none => simp [main_load_catalogue, ParticleCatalogue.read_particles_catalogue]
    | some lines => simp [main_load_catalogue, ParticleCatalogue.read_particles_catalogue]
  · intro h
    cases particles_file with
    | none => exact absurd rfl h
    | some lines => simp [main_load_catalogue, ParticleCatalogue.read_particles_catalogue]
  · intro currTask hc
    cases particles_file with
    | none => simp [main_load_catalogue, ParticleCatalogue.read_particles_catalogue, hc]
    | some lines => simp [main_load_catalogue, ParticleCatalogue.read_particles_catalogue]

end LoadTheorems

/-- Witness for C29, amended: a file that cannot be opened, and a file of one line
that is not a row of four numbers. -/
theorem load_fails_only_when_file_cannot_be_opened_witness :
    (ParticleCatalogue.init : ParticleCatalogue ℚ).read_particles_catalogue strtod_decimal none =
      (-1, ParticleCatalogue.init) ∧
    main_load_catalogue 0
        (fun (c₀ : ParticleCatalogue ℚ) => c₀.read_particles_catalogue strtod_decimal none)
        "unloadable data-source catalogue file" =
      .error (.IOError "unloadable data-source catalogue file") ∧
    (ParticleCatalogue.init : ParticleCatalogue ℚ).read_particles_catalogue strtod_decimal
        (some ["1 2 3"]) = (0, ParticleCatalogue.init) :=
  ⟨(load_fails_only_when_file_cannot_be_opened strtod_decimal ParticleCatalogue.init none
      "unloadable data-source catalogue file").1 rfl,
    (load_fails_only_when_file_cannot_be_opened strtod_decimal ParticleCatalogue.init none
      "unloadable data-source catalogue file").2.2.2.1.mpr rfl,
    (load_fails_only_when_file_cannot_be_opened strtod_decimal ParticleCatalogue.init
      (some ["1 2 3"]) "unloadable data-source catalogue file").2.2.1 ["1 2 3"] rfl
      (by decide)⟩

/-- C29 as stated fails: a readable file of a header line and a line of
three numbers has no row of four numbers.  `read_particles_catalogue`
returns the status 0 for it, leaving the catalogue without particles, and
section A.2 of `main` goes on with this catalogue instead of throwing
`IOError`. -/
theorem main_goes_on_without_valid_rows :
    (∀ line ∈ ["# x y z w", "1 2 3"], (sscanf_4lf strtod_decimal line).1 ≠ 4) ∧
    (ParticleCatalogue.init : ParticleCatalogue ℚ).read_particles_catalogue strtod_decimal
        (some ["# x y z w", "1 2 3"]) = (0, ParticleCatalogue.init) ∧
    main_load_catalogue 0
        (fun (c₀ : ParticleCatalogue ℚ) =>
          c₀.read_particles_catalogue strtod_decimal (some ["# x y z w", "1 2 3"]))
        "unloadable data-source catalogue file" =
      .ok ParticleCatalogue.init := by
  have hread : (ParticleCatalogue.init : ParticleCatalogue ℚ).read_particles_catalogue
      strtod_decimal (some ["# x y z w", "1 2 3"]) = (0, ParticleCatalogue.init) := by
    decide
  refine ⟨by decide, hread, ?_⟩
  simp only [main_load_catalogue, hread]
  rfl

/-- C30 as stated fails: two bins up to 4, both padded with width 1
(`num_bins >= 1`, `nbin_pad = num_bins`, width `1 > 0`, `2 * 1 < 4`).  Under
`linpad` the edges are 0, 1, 4 and the widths 1, 1: the last bin has width 1
between edges that are 3 apart. -/
theorem set_bins_all_bins_padded :
    ((1 : Int) ≤ (example_binning_padded 0 4 1 2 2).num_bins ∧
      (0 : Int) ≤ (example_binning_padded 0 4 1 2 2).nbin_pad ∧
      (example_binning_padded 0 4 1 2 2).nbin_pad ≤ (example_binning_padded 0 4 1 2 2).num_bins ∧
      (0 : ℚ) < (example_binning_padded 0 4 1 2 2).select_dbin_pad 0 "fourier" ∧
      (example_binning_padded 0 4 1 2 2).select_dbin_pad 0 "fourier" *
          ((example_binning_padded 0 4 1 2 2).nbin_pad : ℚ) <
        (example_binning_padded 0 4 1 2 2).bin_max) ∧
    ((example_binning_padded 0 4 1 2 2).set_bins id id 0 "linpad" "fourier").1 = .ok () ∧
    ((example_binning_padded 0 4 1 2 2).set_bins id id 0 "linpad" "fourier").2.bin_edges =
      [0, 1, 4] ∧
    ((example_binning_padded 0 4 1 2 2).set_bins id id 0 "linpad" "fourier").2.bin_widths =
      [1, 1] ∧
    (1 : ℚ) ≠ 4 - 1 := by
  have h2 : Int.toNat 2 = 2 := rfl
  have h0 : Int.toNat 0 = 0 := rfl
  rw [set_bins_linpad_bins]
  norm_num [Binning.select_dbin_pad, example_binning_padded, h2, h0, List.range_succ,
    Binning.append_bins, spec_padded_bin]

section ConstantsClaims

variable {α : Type} [LinearOrderedField α]

/-- C31.  In section B.4 of `main`: alpha is the total weight of the data
catalogue divided by that of the random catalogue (when this is not zero)
for the catalogue type `survey`, the only one for which both catalogues are
loaded, and 1 for every other type.  When a random catalogue is loaded
(types `survey` and `random`) the particle-based and the mesh-based
normalisation factors, two-point and three-point, are computed from the
random catalogue with this alpha; otherwise they are computed from the data
catalogue with alpha 1. -/
theorem main_catalogue_and_alpha_for_norm (ext : External α) (params : ParameterSet α)
    (binning : Binning α) (loaded_data loaded_rand : ParticleCatalogue α) (run : MainRun α)
    (hrun : run = main_measure ext params binning loaded_data loaded_rand) :
    (params.catalogue_type = "survey" → ext.wstotal run.catalogue_rand ≠ 0 →
      run.alpha = ext.wstotal run.catalogue_data / ext.wstotal run.catalogue_rand) ∧
    (params.catalogue_type ≠ "survey" → run.alpha = 1) ∧
    (params.catalogue_type = "survey" ∨ params.catalogue_type = "random" →
      (params.npoint = "2pt" →
        run.norm_factor_part =
            ext.calc_powspec_normalisation_from_particles run.catalogue_rand run.alpha ∧
          run.norm_factor_mesh =
            ext.calc_powspec_normalisation_from_mesh run.catalogue_rand params run.alpha) ∧
      (params.npoint = "3pt" →
        run.norm_factor_part =
            ext.calc_bispec_normalisation_from_particles run.catalogue_rand run.alpha ∧
          run.norm_factor_mesh =
            ext.calc_bispec_normalisation_from_mesh run.catalogue_rand params run.alpha)) ∧
    (params.catalogue_type ≠ "survey" → params.catalogue_type ≠ "random" →
      (params.npoint = "2pt" →
        run.norm_factor_part =
            ext.calc_powspec_normalisation_from_particles run.catalogue_data 1 ∧
          run.norm_factor_mesh =
            ext.calc_powspec_normalisation_from_mesh run.catalogue_data params 1) ∧
      (params.npoint = "3pt" →
        run.norm_factor_part =
            ext.calc_bispec_normalisation_from_particles run.catalogue_data 1 ∧
          run.norm_factor_mesh =
            ext.calc_bispec_normalisation_from_mesh run.catalogue_data params 1)) := by
  have h23 : ¬ (("3pt" : String) = "2pt") := by decide
  have hsr : ¬ (("random" : String) = "survey") := by decide
  have hrs : ¬ (("random" : String) = "sim") := by decide
  subst hrun
  refine ⟨?_, ?_, ?_, ?_⟩
  · intro ht _
    simp [main_measure, ht]
  · intro ht
    by_cases hsim : params.catalogue_type = "sim"
    · simp [main_measure, hsim]
    · simp [main_measure, ht, hsim]
  · intro ht
    rcases ht with ht | ht
    · refine ⟨fun hn => ?_, fun hn => ?_⟩
      · simp [main_measure, ht, hn]
      · simp [main_measure, ht, hn, h23]
    · refine ⟨fun hn => ?_, fun hn => ?_⟩
      · simp [main_measure, ht, hn, hsr, hrs]
      · simp [main_measure, ht, hn, h23, hsr, hrs]
  · intro ht1 ht2
    refine ⟨fun hn => ?_, fun hn => ?_⟩
    · simp [main_measure, ht1, ht2, hn]
    · simp [main_measure, ht1, ht2, hn, h23]

/-- C32.  In section B.4 of `main` the mixed-mesh normalisation factor is
computed when `npoint` is `2pt` and the catalogue type is `survey`; in every
other configuration it is 0, and the factor selected under the convention
`mesh-mixed` is then 0.  (Section B.4 throws nowhere: the run goes on with
this factor.) -/
theorem main_mixed_mesh_only_for_survey_two_point (ext : External α)
    (params : ParameterSet α) (binning : Binning α)
    (loaded_data loaded_rand : ParticleCatalogue α) (run : MainRun α)
    (hrun : run = main_measure ext params binning loaded_data loaded_rand) :
    (params.npoint = "2pt" → params.catalogue_type = "survey" →
      run.norm_factor_meshes =
        ext.calc_powspec_normalisation_from_meshes run.catalogue_data run.catalogue_rand
          params run.alpha 0.1 10 "cic") ∧
    (¬ (params.npoint = "2pt" ∧ params.catalogue_type = "survey") →
      run.norm_factor_meshes = 0 ∧
      (params.norm_convention = "mesh-mixed" → run.norm_factor = 0) ∧
      run.estimator = main_estimator params run.catalogue_data run.catalogue_rand
        run.los_data run.los_rand binning run.alpha run.norm_factor) := by
  have hmn : ¬ (("mesh-mixed" : String) = "none") := by decide
  have hmp : ¬ (("mesh-mixed" : String) = "particle") := by decide
  have hmm : ¬ (("mesh-mixed" : String) = "mesh") := by decide
  subst hrun
  constructor
  · intro hn ht
    simp [main_measure, hn, ht]
  · intro hcfg
    have hmeshes : (main_measure ext params binning loaded_data loaded_rand).norm_factor_meshes
        = 0 := by
      by_cases hn : params.npoint = "2pt"
      · have ht : params.catalogue_type ≠ "survey" := fun ht => hcfg ⟨hn, ht⟩
        simp [main_measure, hn, ht]
      · by_cases hn3 : params.npoint = "3pt"
        · simp [main_measure, hn, hn3]
        · simp [main_measure, hn, hn3]
    refine ⟨hmeshes, ?_, rfl⟩
    intro hc
    have hsel : (main_measure ext params binning loaded_data loaded_rand).norm_factor =
        select_norm_factor params.npoint params.norm_convention
          (main_measure ext params binning loaded_data loaded_rand).norm_factor_part
          (main_measure ext params binning loaded_data loaded_rand).norm_factor_mesh
          (main_measure ext params binning loaded_data loaded_rand).norm_factor_meshes := rfl
    rw [hsel, hmeshes]
    by_cases hnone : params.npoint = "none"
    · simp [select_norm_factor, hnone]
    · simp [select_norm_factor, hnone, hc, hmn, hmp, hmm]

end ConstantsClaims

/-- Witness for C31: data weights `[1, 1]` and random weights `[1, 3]`, with
normalisation functions that return the total weight of their catalogue plus
10 times their alpha.  A `survey` run has alpha `1/2` and the particle-based
factor `4 + 10 * (1/2) = 9`, from the random catalogue; a `sim` run has
alpha 1 and the factor `2 + 10 * 1 = 12`, from the data catalogue. -/
theorem main_catalogue_and_alpha_for_norm_witness :
    ((main_measure example_external_by_weight (example_params "survey" "powspec" "2pt" "particle")
        (example_binning 1 3 4) (example_catalogue [⟨⟨1, 2, 3⟩, 1⟩, ⟨⟨2, 1, 4⟩, 1⟩])
        (example_catalogue [⟨⟨1, 2, 3⟩, 1⟩, ⟨⟨2, 1, 4⟩, 3⟩])).alpha = 1 / 2 ∧
      (main_measure example_external_by_weight (example_params "survey" "powspec" "2pt" "particle")
        (example_binning 1 3 4) (example_catalogue [⟨⟨1, 2, 3⟩, 1⟩, ⟨⟨2, 1, 4⟩, 1⟩])
        (example_catalogue [⟨⟨1, 2, 3⟩, 1⟩, ⟨⟨2, 1, 4⟩, 3⟩])).norm_factor_part = 9) ∧
    ((main_measure example_external_by_weight (example_params "sim" "powspec" "2pt" "particle")
        (example_binning 1 3 4) (example_catalogue [⟨⟨1, 2, 3⟩, 1⟩, ⟨⟨2, 1, 4⟩, 1⟩])
        (example_catalogue [⟨⟨1, 2, 3⟩, 1⟩, ⟨⟨2, 1, 4⟩, 3⟩])).alpha = 1 ∧
      (main_measure example_external_by_weight (example_params "sim" "powspec" "2pt" "particle")
        (example_binning 1 3 4) (example_catalogue [⟨⟨1, 2, 3⟩, 1⟩, ⟨⟨2, 1, 4⟩, 1⟩])
        (example_catalogue [⟨⟨1, 2, 3⟩, 1⟩, ⟨⟨2, 1, 4⟩, 3⟩])).norm_factor_part = 12) :=
  have hsurvey := main_catalogue_and_alpha_for_norm example_external_by_weight
    (example_params "survey" "powspec" "2pt" "particle") (example_binning 1 3 4)
    (example_catalogue [⟨⟨1, 2, 3⟩, 1⟩, ⟨⟨2, 1, 4⟩, 1⟩])
    (example_catalogue [⟨⟨1, 2, 3⟩, 1⟩, ⟨⟨2, 1, 4⟩, 3⟩]) _ rfl
  have hsim := main_catalogue_and_alpha_for_norm example_external_by_weight
    (example_params "sim" "powspec" "2pt" "particle") (example_binning 1 3 4)
    (example_catalogue [⟨⟨1, 2, 3⟩, 1⟩, ⟨⟨2, 1, 4⟩, 1⟩])
    (example_catalogue [⟨⟨1, 2, 3⟩, 1⟩, ⟨⟨2, 1, 4⟩, 3⟩]) _ rfl
  have hws : example_external_by_weight.wstotal
      (main_measure example_external_by_weight (example_params "survey" "powspec" "2pt" "particle")
        (example_binning 1 3 4) (example_catalogue [⟨⟨1, 2, 3⟩, 1⟩, ⟨⟨2, 1, 4⟩, 1⟩])
        (example_catalogue [⟨⟨1, 2, 3⟩, 1⟩, ⟨⟨2, 1, 4⟩, 3⟩])).catalogue_rand = 4 := by
    decide!
  have hwd : example_external_by_weight.wstotal
      (main_measure example_external_by_weight (example_params "survey" "powspec" "2pt" "particle")
        (example_binning 1 3 4) (example_catalogue [⟨⟨1, 2, 3⟩, 1⟩, ⟨⟨2, 1, 4⟩, 1⟩])
        (example_catalogue [⟨⟨1, 2, 3⟩, 1⟩, ⟨⟨2, 1, 4⟩, 3⟩])).catalogue_data = 2 := by
    decide!
  have halpha := hsurvey.1 rfl (by rw [hws]; norm_num)
  ⟨⟨by rw [halpha, hws, hwd]; norm_num, by
      rw [((hsurvey.2.2.1 (Or.inl rfl)).1 rfl).1, halpha, hws, hwd]
      show (main_measure _ _ _ _ _).catalogue_rand.num_wgt + 10 * (2 / 4 : ℚ) = 9
      have : (main_measure example_external_by_weight
          (example_params "survey" "powspec" "2pt" "particle")
          (example_binning 1 3 4) (example_catalogue [⟨⟨1, 2, 3⟩, 1⟩, ⟨⟨2, 1, 4⟩, 1⟩])
          (example_catalogue [⟨⟨1, 2, 3⟩, 1⟩, ⟨⟨2, 1, 4⟩, 3⟩])).catalogue_rand.num_wgt = 4 := hws
      rw [this]
      norm_num⟩,
    ⟨hsim.2.1 (by decide), by
      rw [((hsim.2.2.2 (by decide) (by decide)).1 rfl).1]
      decide!⟩⟩

/-- Witness for C32: with the convention `mesh-mixed`, a two-point `sim` run
and a three-point `survey` run select the factor 0, and a two-point `survey`
run computes the mixed-mesh factor from both catalogues. -/
theorem main_mixed_mesh_only_for_survey_two_point_witness :
    ((main_measure example_external_by_weight (example_params "sim" "powspec" "2pt" "mesh-mixed")
        (example_binning 1 3 4) (example_catalogue [⟨⟨1, 2, 3⟩, 1⟩, ⟨⟨2, 1, 4⟩, 1⟩])
        (example_catalogue [⟨⟨1, 2, 3⟩, 1⟩, ⟨⟨2, 1, 4⟩, 3⟩])).norm_factor_meshes = 0 ∧
      (main_measure example_external_by_weight (example_params "sim" "powspec" "2pt" "mesh-mixed")
        (example_binning 1 3 4) (example_catalogue [⟨⟨1, 2, 3⟩, 1⟩, ⟨⟨2, 1, 4⟩, 1⟩])
        (example_catalogue [⟨⟨1, 2, 3⟩, 1⟩, ⟨⟨2, 1, 4⟩, 3⟩])).norm_factor = 0) ∧
    (main_measure example_external_by_weight (example_params "survey" "bispec" "3pt" "mesh-mixed")
      (example_binning 1 3 4) (example_catalogue [⟨⟨1, 2, 3⟩, 1⟩, ⟨⟨2, 1, 4⟩, 1⟩])
      (example_catalogue [⟨⟨1, 2, 3⟩, 1⟩, ⟨⟨2, 1, 4⟩, 3⟩])).norm_factor = 0 ∧
    (main_measure example_external_by_weight
      (example_params "survey" "powspec" "2pt" "mesh-mixed")
      (example_binning 1 3 4) (example_catalogue [⟨⟨1, 2, 3⟩, 1⟩, ⟨⟨2, 1, 4⟩, 1⟩])
      (example_catalogue [⟨⟨1, 2, 3⟩, 1⟩, ⟨⟨2, 1, 4⟩, 3⟩])).norm_factor_meshes = 506 :=
  have hsim := (main_mixed_mesh_only_for_survey_two_point example_external_by_weight
    (example_params "sim" "powspec" "2pt" "mesh-mixed") (example_binning 1 3 4)
    (example_catalogue [⟨⟨1, 2, 3⟩, 1⟩, ⟨⟨2, 1, 4⟩, 1⟩])
    (example_catalogue [⟨⟨1, 2, 3⟩, 1⟩, ⟨⟨2, 1, 4⟩, 3⟩]) _ rfl).2 (by decide)
  have hthree := (main_mixed_mesh_only_for_survey_two_point example_external_by_weight
    (example_params "survey" "bispec" "3pt" "mesh-mixed") (example_binning 1 3 4)
    (example_catalogue [⟨⟨1, 2, 3⟩, 1⟩, ⟨⟨2, 1, 4⟩, 1⟩])
    (example_catalogue [⟨⟨1, 2, 3⟩, 1⟩, ⟨⟨2, 1, 4⟩, 3⟩]) _ rfl).2 (by decide)
  have hsurvey := (main_mixed_mesh_only_for_survey_two_point example_external_by_weight
    (example_params "survey" "powspec" "2pt" "mesh-mixed") (example_binning 1 3 4)
    (example_catalogue [⟨⟨1, 2, 3⟩, 1⟩, ⟨⟨2, 1, 4⟩, 1⟩])
    (example_catalogue [⟨⟨1, 2, 3⟩, 1⟩, ⟨⟨2, 1, 4⟩, 3⟩]) _ rfl).1 rfl rfl
  ⟨⟨hsim.1, hsim.2.1 rfl⟩, hthree.2.1 rfl, by
    rw [hsurvey]
    decide!⟩

section ElapsedTimeTheorems

/-- The character of a digit below ten is a decimal digit of that value. -/
theorem digitChar_decimal (k : Nat) (hk : k < 10) :
    (Nat.digitChar k).isDigit = true ∧ (Nat.digitChar k).toNat - '0'.toNat = k := by
  interval_cases k <;> decide

/-- Appending one digit multiplies the value by ten and adds the digit. -/
theorem decimal_value_append_singleton (digits : List Char) (c : Char) :
    decimal_value (digits ++ [c]) = 10 * decimal_value digits + (c.toNat - '0'.toNat) := by
  simp [decimal_value, List.foldl_append]

/-- Leading zeros do not change the value. -/
theorem decimal_value_replicate_zero (k : Nat) (digits : List Char) :
    decimal_value (List.replicate k '0' ++ digits) = decimal_value digits := by
  induction k with
  | zero => rfl
  | succ k ih =>
    rw [List.replicate_succ, List.cons_append]
    unfold decimal_value at ih ⊢
    rw [List.foldl_cons]
    exact ih

/-- The digits `Nat.toDigitsCore` puts in front of its accumulator are
decimal digits that denote the number converted. -/
theorem toDigitsCore_decimal (fuel : Nat) :
    ∀ (n : Nat) (acc : List Char), n < fuel →
      ∃ digits, Nat.toDigitsCore 10 fuel n acc = digits ++ acc ∧ digits ≠ [] ∧
        (∀ c ∈ digits, c.isDigit = true) ∧ decimal_value digits = n := by
  induction fuel with
  | zero => intro n acc h; omega
  | succ fuel ih =>
    intro n acc hn
    obtain ⟨hd1, hd2⟩ := digitChar_decimal (n % 10) (Nat.mod_lt _ (by decide))
    by_cases h0 : n / 10 = 0
    · refine ⟨[Nat.digitChar (n % 10)], ?_, by simp, ?_, ?_⟩
      · simp [Nat.toDigitsCore, h0]
      · intro c hc
        rw [List.mem_singleton] at hc
        rw [hc]
        exact hd1
      · have h := decimal_value_append_singleton [] (Nat.digitChar (n % 10))
        rw [List.nil_append] at h
        rw [h, hd2]
        have : decimal_value [] = 0 := rfl
        omega
    · obtain ⟨digits, h1, -, h3, h4⟩ := ih (n / 10) (Nat.digitChar (n % 10) :: acc) (by omega)
      refine ⟨digits ++ [Nat.digitChar (n % 10)], ?_, by simp, ?_, ?_⟩
      · simp [Nat.toDigitsCore, h0, h1]
      · intro c hc
        rw [List.mem_append, List.mem_singleton] at hc
        rcases hc with hc | hc
        · exact h3 c hc
        · rw [hc]
          exact hd1
      · rw [decimal_value_append_singleton, h4, hd2]
        omega

/-- The string `std::to_string` gives for a natural number. -/
theorem to_string_natCast (n : Nat) :
    (to_string (n : Int)).data ≠ [] ∧ (∀ c ∈ (to_string (n : Int)).data, c.isDigit = true) ∧
      decimal_value (to_string (n : Int)).data = n ∧
      (∀ e : Nat, 0 < e → n < 10 ^ e → (to_string (n : Int)).length ≤ e) := by
  have hneg : ¬ ((n : Int) < 0) := by omega
  have hrepr : to_string (n : Int) = Nat.repr n := by
    simp [to_string, hneg]
  obtain ⟨digits, h1, h2, h3, h4⟩ := toDigitsCore_decimal (n + 1) n [] (by omega)
  have hdata : (Nat.repr n).data = digits := by
    simp [Nat.repr, Nat.toDigits, List.asString, h1]
  rw [hrepr, hdata]
  exact ⟨h2, h3, h4, fun e he hn => Nat.repr_length n e he hn⟩

/-- A number below one hundred is padded to exactly two decimal digits. -/
theorem pad_to_two_natCast (n : Nat) (hn : n < 100) :
    ∃ padded, pad_to_two (to_string (n : Int)) = .ok padded ∧ padded.length = 2 ∧
      (∀ c ∈ padded.data, c.isDigit = true) ∧ decimal_value padded.data = n := by
  obtain ⟨h1, h2, h3, h4⟩ := to_string_natCast n
  have hlen : (to_string (n : Int)).length ≤ 2 := h4 2 (by decide) (by omega)
  refine ⟨String.mk (List.replicate (2 - (to_string (n : Int)).length) '0') ++
    to_string (n : Int), ?_, ?_, ?_, ?_⟩
  · simp [pad_to_two, hlen]
  · rw [String.length_append]
    simp only [String.length, List.length_replicate] at hlen ⊢
    omega
  · intro c hc
    simp only [String.data_append, List.mem_append, List.mem_replicate] at hc
    rcases hc with ⟨-, hc⟩ | hc
    · rw [hc]
      decide
    · exact h2 c hc
  · simp only [String.data_append]
    rw [decimal_value_replicate_zero, h3]

end ElapsedTimeTheorems

section ElapsedTimeClaims

variable {α : Type} [LinearOrderedField α] [FloorRing α]

/-- C33, amended.  For a positive `CLOCKS_PER_SEC` and a non-negative clock
duration whose whole number of seconds `floor(duration / CLOCKS_PER_SEC)` is
representable in `int` (at most 2147483647), `show_elapsed_time` returns a
string `HH:MM:SS` in which `HH`, `MM` and `SS` are strings of decimal
digits, `MM` and `SS` of exactly two digits with value below 60, `HH` of at
least two digits, and `3600 * HH + 60 * MM + SS` is that number of seconds. -/
theorem show_elapsed_time_format (CLOCKS_PER_SEC clock_duration : α)
    (hclock : 0 < CLOCKS_PER_SEC) (hduration : 0 ≤ clock_duration)
    (hint : ⌊clock_duration / CLOCKS_PER_SEC⌋ ≤ 2147483647) :
    ∃ hh mm ss : String,
      show_elapsed_time CLOCKS_PER_SEC clock_duration = .ok (hh ++ ":" ++ mm ++ ":" ++ ss) ∧
      2 ≤ hh.length ∧ mm.length = 2 ∧ ss.length = 2 ∧
      (∀ c ∈ hh.data ++ mm.data ++ ss.data, c.isDigit = true) ∧
      decimal_value mm.data < 60 ∧ decimal_value ss.data < 60 ∧
      ((3600 * decimal_value hh.data + 60 * decimal_value mm.data + decimal_value ss.data :
        Nat) : Int) = ⌊clock_duration / CLOCKS_PER_SEC⌋ := by
  have hx : 0 ≤ clock_duration / CLOCKS_PER_SEC := div_nonneg hduration (le_of_lt hclock)
  have hfloor : 0 ≤ ⌊clock_duration / CLOCKS_PER_SEC⌋ := Int.floor_nonneg.mpr hx
  obtain ⟨t, ht⟩ := Int.eq_ofNat_of_zero_le hfloor
  have hconv : double_to_int (clock_duration / CLOCKS_PER_SEC) = some (t : Int) := by
    have hbounds : (-2147483648 : Int) ≤ (t : Int) ∧ (t : Int) ≤ 2147483647 := by
      rw [← ht]
      exact ⟨by omega, hint⟩
    simp only [double_to_int, hx, if_true, ht, hbounds, and_self]
  obtain ⟨hh1, hh2, hh3, -⟩ := to_string_natCast (t / 3600)
  obtain ⟨mm, hm1, hm2, hm3, hm4⟩ := pad_to_two_natCast (t % 3600 / 60) (by omega)
  obtain ⟨ss, hs1, hs2, hs3, hs4⟩ := pad_to_two_natCast (t % 60) (by omega)
  have hrun : show_elapsed_time CLOCKS_PER_SEC clock_duration =
      .ok ((if (to_string ((t / 3600 : Nat) : Int)).length < 2 then
          String.mk (List.replicate (2 - (to_string ((t / 3600 : Nat) : Int)).length) '0') ++
            to_string ((t / 3600 : Nat) : Int)
        else to_string ((t / 3600 : Nat) : Int)) ++ ":" ++ mm ++ ":" ++ ss) := by
    have e1 : (t : Int).tdiv 3600 = ((t / 3600 : Nat) : Int) := (Int.ofNat_tdiv t 3600).symm
    have e2 : (t : Int).tmod 3600 = ((t % 3600 : Nat) : Int) := (Int.ofNat_tmod t 3600).symm
    have e3 : ((t % 3600 : Nat) : Int).tdiv 60 = ((t % 3600 / 60 : Nat) : Int) :=
      (Int.ofNat_tdiv (t % 3600) 60).symm
    have e4 : (t : Int).tmod 60 = ((t % 60 : Nat) : Int) := (Int.ofNat_tmod t 60).symm
    simp only [show_elapsed_time, hconv, e1, e2, e3, e4, hm1, hs1]
  refine ⟨_, mm, ss, hrun, ?_, hm2, hs2, ?_, ?_, ?_, ?_⟩
  · split_ifs with hlen
    · rw [String.length_append]
      simp only [String.length, List.length_replicate] at hlen ⊢
      omega
    · omega
  · intro c hc
    rw [List.mem_append, List.mem_append] at hc
    rcases hc with (hc | hc) | hc
    · split_ifs at hc with hlen
      · simp only [String.data_append, List.mem_append, List.mem_replicate] at hc
        rcases hc with ⟨-, hc⟩ | hc
        · rw [hc]
          decide
        · exact hh2 c hc
      · exact hh2 c hc
    · exact hm3 c hc
    · exact hs3 c hc
  · rw [hm4]
    omega
  · rw [hs4]
    omega
  · have hval : decimal_value (if (to_string ((t / 3600 : Nat) : Int)).length < 2 then
          String.mk (List.replicate (2 - (to_string ((t / 3600 : Nat) : Int)).length) '0') ++
            to_string ((t / 3600 : Nat) : Int)
        else to_string ((t / 3600 : Nat) : Int)).data = t / 3600 := by
      split_ifs with hlen
      · simp only [String.data_append]
        rw [decimal_value_replicate_zero, hh3]
      · exact hh3
    rw [hval, hm4, hs4, ht]
    omega

end ElapsedTimeClaims

/-- Witness for C33, amended: 3723.5 seconds at a million clocks per second. -/
theorem show_elapsed_time_format_witness :
    ((0 : ℚ) < 1000000 ∧ (0 : ℚ) ≤ 3723500000 ∧ ⌊(3723500000 : ℚ) / 1000000⌋ ≤ 2147483647) ∧
    (∃ hh mm ss : String,
      show_elapsed_time (1000000 : ℚ) 3723500000 = .ok (hh ++ ":" ++ mm ++ ":" ++ ss) ∧
      2 ≤ hh.length ∧ mm.length = 2 ∧ ss.length = 2 ∧
      (∀ c ∈ hh.data ++ mm.data ++ ss.data, c.isDigit = true) ∧
      decimal_value mm.data < 60 ∧ decimal_value ss.data < 60 ∧
      ((3600 * decimal_value hh.data + 60 * decimal_value mm.data + decimal_value ss.data :
        Nat) : Int) = ⌊(3723500000 : ℚ) / 1000000⌋) ∧
    show_elapsed_time (1000000 : ℚ) 3723500000 = .ok "01:02:03" :=
  have hint : ⌊(3723500000 : ℚ) / 1000000⌋ ≤ 2147483647 := by norm_num
  ⟨⟨by norm_num, by norm_num, hint⟩,
    show_elapsed_time_format (1000000 : ℚ) 3723500000 (by norm_num) (by norm_num) hint,
    by
      norm_num [show_elapsed_time, double_to_int]
      rfl⟩

/-- C33 as stated fails: at a million clocks per second, the non-negative
duration of 2147483648 seconds' worth of clocks has a whole number of
seconds that no `int` holds, so the conversion `int(...)` has no defined
result and no string `HH:MM:SS` is returned for it. -/
theorem show_elapsed_time_beyond_int :
    (0 : ℚ) ≤ 2147483648000000 ∧
    ⌊(2147483648000000 : ℚ) / 1000000⌋ = 2147483648 ∧
    double_to_int ((2147483648000000 : ℚ) / 1000000) = none ∧
    show_elapsed_time (1000000 : ℚ) 2147483648000000 = .error .undefined_behaviour := by
  refine ⟨by norm_num, by norm_num, ?_, ?_⟩
  · norm_num [double_to_int]
  · norm_num [show_elapsed_time, double_to_int]

section PaddedIndependenceClaims

variable {α : Type} [LinearOrderedField α]

/-- C34.  Schemes `linpad` and `logpad`, `space` one of `fourier` and
`config`: a `Binning` and the same `Binning` with any other `bin_min` get
the same outcome and the same edges, centres and widths from `set_bins`
(whether or not the two values of `bin_min` are non-negative); and, starting
from empty bin vectors with `nbin_pad >= 1`, the first edge is 0. -/
theorem set_bins_padded_ignores_bin_min (log exp : α → α) (u₁ u₂ : α) (b : Binning α)
    (other_bin_min : α) (scheme space : String)
    (hscheme : scheme = "linpad" ∨ scheme = "logpad")
    (hspace : space = "fourier" ∨ space = "config") :
    (({ b with bin_min := other_bin_min } : Binning α).set_bins log exp u₂ scheme space).1 =
        (b.set_bins log exp u₁ scheme space).1 ∧
      (({ b with bin_min := other_bin_min } : Binning α).set_bins log exp u₂ scheme
          space).2.bin_edges = (b.set_bins log exp u₁ scheme space).2.bin_edges ∧
      (({ b with bin_min := other_bin_min } : Binning α).set_bins log exp u₂ scheme
          space).2.bin_centres = (b.set_bins log exp u₁ scheme space).2.bin_centres ∧
      (({ b with bin_min := other_bin_min } : Binning α).set_bins log exp u₂ scheme
          space).2.bin_widths = (b.set_bins log exp u₁ scheme space).2.bin_widths ∧
      (b.bin_edges = [] ∧ b.bin_centres = [] ∧ b.bin_widths = [] → 1 ≤ b.nbin_pad →
        (b.set_bins log exp u₁ scheme space).2.bin_edges[0]? = some 0) := by
  have hpad : ∀ (u : α) (b' : Binning α), b'.dbin_pad_fourier = b.dbin_pad_fourier →
      b'.dbin_pad_config = b.dbin_pad_config →
      b'.select_dbin_pad u space = b.select_dbin_pad u₁ space := by
    intro u b' hf hc
    rcases hspace with hs | hs
    · simp [Binning.select_dbin_pad, hs, hf]
    · have hne : ¬ (("config" : String) = "fourier") := by decide
      simp [Binning.select_dbin_pad, hs, hne, hc]
  have hfirst : ∀ unpadded : Nat → α × α × α,
      b.bin_edges = [] ∧ b.bin_centres = [] ∧ b.bin_widths = [] → 1 ≤ b.nbin_pad →
      (b.append_bins ((List.range (b.nbin_pad.toNat + (b.num_bins - b.nbin_pad).toNat)).map
        (spec_padded_bin b.nbin_pad.toNat (b.select_dbin_pad u₁ space)
          unpadded))).bin_edges[0]? = some 0 := by
    intro unpadded hempty hp
    have hp' : 0 < b.nbin_pad.toNat := by omega
    rw [(append_bins_range b hempty _ _).1,
      getElem?_range_map_last _ _ 0 (by omega)]
    simp [spec_padded_bin, hp']
  rcases hscheme with hs | hs
  · subst hs
    rw [set_bins_linpad_bins, set_bins_linpad_bins]
    rw [hpad u₂ ({ b with bin_min := other_bin_min } : Binning α) rfl rfl]
    exact ⟨rfl, rfl, rfl, rfl, hfirst _⟩
  · subst hs
    rw [set_bins_logpad_bins, set_bins_logpad_bins]
    rw [hpad u₂ ({ b with bin_min := other_bin_min } : Binning α) rfl rfl]
    exact ⟨rfl, rfl, rfl, rfl, hfirst _⟩

end PaddedIndependenceClaims

/-- Witness for C34: four bins up to 10 of which two are padded with width 1,
with `bin_min` 0 and with `bin_min` 3. -/
theorem set_bins_padded_ignores_bin_min_witness :
    (({ example_binning_padded 0 10 1 4 2 with bin_min := 3 } : Binning ℚ).set_bins id id 0
        "linpad" "fourier").2.bin_edges =
      ((example_binning_padded 0 10 1 4 2).set_bins id id 0 "linpad" "fourier").2.bin_edges ∧
    ((example_binning_padded 0 10 1 4 2).set_bins id id 0 "linpad" "fourier").2.bin_edges[0]? =
      some 0 ∧
    ({ example_binning_padded 0 10 1 4 2 with bin_min := 3 } : Binning ℚ) =
      example_binning_padded 3 10 1 4 2 :=
  have h := set_bins_padded_ignores_bin_min id id (0 : ℚ) 0 (example_binning_padded 0 10 1 4 2)
    3 "linpad" "fourier" (Or.inl rfl) (Or.inl rfl)
  ⟨h.2.1, h.2.2.2.2 ⟨rfl, rfl, rfl⟩ (by decide), rfl⟩

section AlignmentClaims

variable {α : Type} [LinearOrderedField α]

/-- After `calc_min_and_max` on a catalogue with particles the cached bounds
are exact, whatever they were before. -/
theorem calc_min_and_max_bounds_exact (c : ParticleCatalogue α) (hne : c.particles ≠ []) :
    c.calc_min_and_max.2.bounds_exact := by
  have h := calc_min_and_max_extremes c hne
  unfold ParticleCatalogue.bounds_exact
  rw [calc_min_and_max_particles]
  exact h

/-- Method `offset_particles` keeps a catalogue with particles non-empty. -/
theorem offset_particles_ne_nil (c : ParticleCatalogue α) (dpos : Vec3 α)
    (hne : c.particles ≠ []) : (c.offset_particles dpos).2.particles ≠ [] := by
  obtain ⟨p0, t, hp⟩ := List.exists_cons_of_ne_nil hne
  simp [ParticleCatalogue.offset_particles, hp]

/-- C35.  For a catalogue with particles, whatever its cached bounds are
before the call: after `offset_particles_for_periodicity`, after
`offset_particles_for_window`, and for each of the two catalogues of
`offset_particles_for_fft` that has particles, the cached `pos_min` and
`pos_max` are exact for the new positions: on each axis every particle lies
within them and each of them is the coordinate of some particle. -/
theorem alignment_leaves_exact_bounds (c other : ParticleCatalogue α) (params : ParameterSet α)
    (factor : α) (hne : c.particles ≠ []) :
    (c.offset_particles_for_periodicity params).2.bounds_exact ∧
    (c.offset_particles_for_window params).2.bounds_exact ∧
    (offset_particles_for_fft c other params factor).2.1.bounds_exact ∧
    (offset_particles_for_fft other c params factor).2.2.bounds_exact := by
  refine ⟨?_, ?_, ?_, ?_⟩
  · unfold ParticleCatalogue.offset_particles_for_periodicity
    exact calc_min_and_max_bounds_exact _ (by simpa using hne)
  · unfold ParticleCatalogue.offset_particles_for_window
    exact calc_min_and_max_bounds_exact _ (by simpa using hne)
  · unfold offset_particles_for_fft
    apply calc_min_and_max_bounds_exact
    apply offset_particles_ne_nil
    rw [calc_min_and_max_particles]
    exact hne
  · unfold offset_particles_for_fft
    apply calc_min_and_max_bounds_exact
    apply offset_particles_ne_nil
    rw [calc_min_and_max_particles]
    exact hne

end AlignmentClaims

/-- Witness for C35: two particles whose cached bounds are those of the
constructor, centred in the box of sides `(20, 20, 10)`: the bounds after the
call are those of the new positions. -/
theorem alignment_leaves_exact_bounds_witness :
    (example_catalogue [⟨⟨3, 0, 0⟩, 1⟩, ⟨⟨1, 5, -2⟩, 1⟩]).particles ≠ [] ∧
    ((example_catalogue [⟨⟨3, 0, 0⟩, 1⟩, ⟨⟨1, 5, -2⟩, 1⟩]).offset_particles_for_window
      (example_params "random" "2pcf-win" "2pt" "none")).2.bounds_exact ∧
    ((example_catalogue [⟨⟨3, 0, 0⟩, 1⟩, ⟨⟨1, 5, -2⟩, 1⟩]).offset_particles_for_window
      (example_params "random" "2pcf-win" "2pt" "none")).2 =
        { particles := [⟨⟨13, 10, 5⟩, 1⟩, ⟨⟨11, 15, 3⟩, 1⟩], pos_min := ⟨11, 10, 3⟩,
          pos_max := ⟨13, 15, 5⟩ } :=
  ⟨by decide,
    (alignment_leaves_exact_bounds (example_catalogue [⟨⟨3, 0, 0⟩, 1⟩, ⟨⟨1, 5, -2⟩, 1⟩])
      (example_catalogue []) (example_params "random" "2pcf-win" "2pt" "none") 1
      (by decide)).2.1,
    by
      norm_num [ParticleCatalogue.offset_particles_for_window,
        ParticleCatalogue.calc_min_and_max, example_catalogue, example_params, min_max_step]⟩

section FrameClaims

variable {α : Type} [LinearOrderedField α]

omit [LinearOrderedField α] in
/-- The accumulated weight is a function of the list of weights. -/
theorem num_wgt_of_weights [Add α] [Zero α] (l l' : List (ParticleData α))
    (h : l'.map (fun p => p.w) = l.map (fun p => p.w)) (a : α) :
    l'.foldl (fun acc p => acc + p.w) a = l.foldl (fun acc p => acc + p.w) a := by
  have hfold : ∀ (m : List (ParticleData α)) (a : α),
      m.foldl (fun acc p => acc + p.w) a = (m.map (fun p => p.w)).foldl (fun acc w => acc + w) a := by
    intro m
    induction m with
    | nil => intro a; rfl
    | cons p t ih => intro a; simp only [List.foldl_cons, List.map_cons, ih]
  rw [hfold l', hfold l, h]

/-- What depends on the weights only is the same for two catalogues with the
same weights in the same order: the number of particles, the accumulated
weight and the particle-based normalisation factors. -/
theorem same_weights_same_factors (c c' : ParticleCatalogue α)
    (h : c'.particles.map (fun p => p.w) = c.particles.map (fun p => p.w)) :
    c'.nparticles = c.nparticles ∧ c'.num_wgt = c.num_wgt ∧
      (∀ survey_vol_norm : α,
        calc_norm_for_power_spec_sugiyama c' survey_vol_norm =
            calc_norm_for_power_spec_sugiyama c survey_vol_norm ∧
          calc_norm_for_bispec c' survey_vol_norm = calc_norm_for_bispec c survey_vol_norm) := by
  have hw : c'.num_wgt = c.num_wgt := num_wgt_of_weights c.particles c'.particles h 0
  refine ⟨?_, hw, ?_⟩
  · have hlen := congrArg List.length h
    simp only [List.length_map] at hlen
    simp [ParticleCatalogue.nparticles, hlen]
  · intro v
    simp only [calc_norm_for_power_spec_sugiyama, calc_norm_for_bispec, hw, and_self]

/-- C36.  The alignment operations `offset_particles_for_periodicity`,
`offset_particles_for_window` and `offset_particles_for_fft` leave the
weights of the particles as they were, in the same order (so the number of
particles too); hence the accumulated weight, the alpha ratio and the
particle-based normalisation factors of the catalogues are the same after
the call as before. -/
theorem alignment_changes_positions_only (particles_data particles_rand : ParticleCatalogue α)
    (params : ParameterSet α) (factor : α) (aligned_data aligned_rand : ParticleCatalogue α)
    (halign :
      (aligned_data = (particles_data.offset_particles_for_periodicity params).2 ∧
        aligned_rand = particles_rand) ∨
      (aligned_data = (particles_data.offset_particles_for_window params).2 ∧
        aligned_rand = (particles_rand.offset_particles_for_window params).2) ∨
      (aligned_data = (offset_particles_for_fft particles_data particles_rand params factor).2.1 ∧
        aligned_rand =
          (offset_particles_for_fft particles_data particles_rand params factor).2.2)) :
    (aligned_data.particles.map (fun p => p.w) = particles_data.particles.map (fun p => p.w) ∧
      aligned_rand.particles.map (fun p => p.w) = particles_rand.particles.map (fun p => p.w)) ∧
    (aligned_data.nparticles = particles_data.nparticles ∧
      aligned_rand.nparticles = particles_rand.nparticles) ∧
    (aligned_data.num_wgt = particles_data.num_wgt ∧
      aligned_rand.num_wgt = particles_rand.num_wgt) ∧
    calc_alpha_ratio aligned_data aligned_rand = calc_alpha_ratio particles_data particles_rand ∧
    (∀ survey_vol_norm : α,
      (calc_norm_for_power_spec_sugiyama aligned_data survey_vol_norm =
          calc_norm_for_power_spec_sugiyama particles_data survey_vol_norm ∧
        calc_norm_for_bispec aligned_data survey_vol_norm =
          calc_norm_for_bispec particles_data survey_vol_norm) ∧
      (calc_norm_for_power_spec_sugiyama aligned_rand survey_vol_norm =
          calc_norm_for_power_spec_sugiyama particles_rand survey_vol_norm ∧
        calc_norm_for_bispec aligned_rand survey_vol_norm =
          calc_norm_for_bispec particles_rand survey_vol_norm)) := by
  have hperiod : ∀ c : ParticleCatalogue α,
      (c.offset_particles_for_periodicity params).2.particles.map (fun p => p.w) =
        c.particles.map (fun p => p.w) := by
    intro c
    unfold ParticleCatalogue.offset_particles_for_periodicity
    rw [calc_min_and_max_particles]
    simp [List.map_map, Function.comp_def]
  have hwindow : ∀ c : ParticleCatalogue α,
      (c.offset_particles_for_window params).2.particles.map (fun p => p.w) =
        c.particles.map (fun p => p.w) := by
    intro c
    unfold ParticleCatalogue.offset_particles_for_window
    rw [calc_min_and_max_particles]
    simp [List.map_map, Function.comp_def]
  have hoffset : ∀ (c : ParticleCatalogue α) (dpos : Vec3 α),
      (c.offset_particles dpos).2.particles.map (fun p => p.w) =
        c.particles.map (fun p => p.w) := by
    intro c dpos
    unfold ParticleCatalogue.offset_particles
    cases hp : c.particles with
    | nil => simp [hp]
    | cons p0 t => simp [List.map_map, Function.comp_def]
  have hfft : (offset_particles_for_fft particles_data particles_rand params
        factor).2.1.particles.map (fun p => p.w) = particles_data.particles.map (fun p => p.w) ∧
      (offset_particles_for_fft particles_data particles_rand params
        factor).2.2.particles.map (fun p => p.w) =
          particles_rand.particles.map (fun p => p.w) := by
    unfold offset_particles_for_fft
    constructor
    · rw [calc_min_and_max_particles, hoffset, calc_min_and_max_particles]
    · rw [calc_min_and_max_particles, hoffset, calc_min_and_max_particles]
  have hweights :
      aligned_data.particles.map (fun p => p.w) = particles_data.particles.map (fun p => p.w) ∧
      aligned_rand.particles.map (fun p => p.w) =
        particles_rand.particles.map (fun p => p.w) := by
    rcases halign with ⟨hd, hr⟩ | ⟨hd, hr⟩ | ⟨hd, hr⟩
    · rw [hd, hr]
      exact ⟨hperiod _, rfl⟩
    · rw [hd, hr]
      exact ⟨hwindow _, hwindow _⟩
    · rw [hd, hr]
      exact hfft
  obtain ⟨hd1, hd2, hd3⟩ := same_weights_same_factors particles_data aligned_data hweights.1
  obtain ⟨hr1, hr2, hr3⟩ := same_weights_same_factors particles_rand aligned_rand hweights.2
  refine ⟨hweights, ⟨hd1, hr1⟩, ⟨hd2, hr2⟩, ?_, fun v => ⟨hd3 v, hr3 v⟩⟩
  simp only [calc_alpha_ratio, hd2, hr2]

end FrameClaims

/-- Witness for C36: data weights `[2, 5]` and random weights `[3, 4]` padded
by one cell in the box of sides `(20, 20, 10)` with 10 mesh cells a side. -/
theorem alignment_changes_positions_only_witness :
    ((offset_particles_for_fft (example_catalogue [⟨⟨3, 4, 5⟩, 2⟩, ⟨⟨0, 1, 2⟩, 5⟩])
        (example_catalogue [⟨⟨1, 2, 3⟩, 3⟩, ⟨⟨2, 1, 4⟩, 4⟩])
        (example_params "survey" "powspec" "2pt" "particle") 1).2.1.particles.map
          (fun p => p.w) = [2, 5]) ∧
    calc_alpha_ratio
        (offset_particles_for_fft (example_catalogue [⟨⟨3, 4, 5⟩, 2⟩, ⟨⟨0, 1, 2⟩, 5⟩])
          (example_catalogue [⟨⟨1, 2, 3⟩, 3⟩, ⟨⟨2, 1, 4⟩, 4⟩])
          (example_params "survey" "powspec" "2pt" "particle") 1).2.1
        (offset_particles_for_fft (example_catalogue [⟨⟨3, 4, 5⟩, 2⟩, ⟨⟨0, 1, 2⟩, 5⟩])
          (example_catalogue [⟨⟨1, 2, 3⟩, 3⟩, ⟨⟨2, 1, 4⟩, 4⟩])
          (example_params "survey" "powspec" "2pt" "particle") 1).2.2 =
      calc_alpha_ratio (example_catalogue [⟨⟨3, 4, 5⟩, 2⟩, ⟨⟨0, 1, 2⟩, 5⟩])
        (example_catalogue [⟨⟨1, 2, 3⟩, 3⟩, ⟨⟨2, 1, 4⟩, 4⟩]) ∧
    (offset_particles_for_fft (example_catalogue [⟨⟨3, 4, 5⟩, 2⟩, ⟨⟨0, 1, 2⟩, 5⟩])
        (example_catalogue [⟨⟨1, 2, 3⟩, 3⟩, ⟨⟨2, 1, 4⟩, 4⟩])
        (example_params "survey" "powspec" "2pt" "particle") 1).2.1.particles ≠
      (example_catalogue [⟨⟨3, 4, 5⟩, 2⟩, ⟨⟨0, 1, 2⟩, 5⟩]).particles :=
  have h := alignment_changes_positions_only
    (example_catalogue [⟨⟨3, 4, 5⟩, 2⟩, ⟨⟨0, 1, 2⟩, 5⟩])
    (example_catalogue [⟨⟨1, 2, 3⟩, 3⟩, ⟨⟨2, 1, 4⟩, 4⟩])
    (example_params "survey" "powspec" "2pt" "particle") 1 _ _ (Or.inr (Or.inr ⟨rfl, rfl⟩))
  ⟨h.1.1, h.2.2.2.1, by
    norm_num [offset_particles_for_fft, ParticleCatalogue.calc_min_and_max,
      ParticleCatalogue.offset_particles, example_catalogue, example_params, min_max_step]⟩

/-! ### The rounding of binary64 -/

section Binary64Theorems

/-- The rounded integer is the floor or the floor plus one. -/
theorem round_half_even_bounds (y : ℚ) :
    ⌊y⌋ ≤ round_half_even y ∧ round_half_even y ≤ ⌊y⌋ + 1 := by
  unfold round_half_even
  split_ifs <;> constructor <;> omega

/-- An integer rounds to itself. -/
theorem round_half_even_intCast (n : ℤ) : round_half_even (n : ℚ) = n := by
  simp [round_half_even]

/-- Rounding to the nearest integer keeps the order. -/
theorem round_half_even_mono (y y' : ℚ) (h : y ≤ y') :
    round_half_even y ≤ round_half_even y' := by
  have hf : ⌊y⌋ ≤ ⌊y'⌋ := Int.floor_mono h
  rcases lt_or_eq_of_le hf with hlt | heq
  · have h1 := (round_half_even_bounds y).2
    have h2 := (round_half_even_bounds y').1
    omega
  · unfold round_half_even
    rw [← heq]
    have hr : y - ⌊y⌋ ≤ y' - ⌊y⌋ := by linarith
    split_ifs <;> first | omega | (exfalso; linarith)

/-- The spacing exponent of a number bracketed by two consecutive powers of two. -/
theorem binary64_spacing_exponent_eq (y : ℚ) (e : ℤ) (h1 : (2 : ℚ) ^ e ≤ y)
    (h2 : y < (2 : ℚ) ^ (e + 1)) : binary64_spacing_exponent y = max (e - 52) (-1074) := by
  have hy : 0 < y := lt_of_lt_of_le (zpow_pos (by norm_num) e) h1
  have hlog : Int.log 2 y = e := by
    apply le_antisymm
    · have := (Int.lt_zpow_iff_log_lt (by norm_num : 1 < 2) hy).mp (by exact_mod_cast h2)
      omega
    · exact (Int.zpow_le_iff_le_log (by norm_num : 1 < 2) hy).mp (by exact_mod_cast h1)
  rw [binary64_spacing_exponent, hlog]

/-- Zero rounds to zero. -/
theorem round_binary64_nonneg_zero : round_binary64_nonneg 0 = 0 := by
  simp [round_binary64_nonneg, round_half_even]

/-- A non-negative number rounds to a non-negative number. -/
theorem round_binary64_nonneg_nonneg (y : ℚ) (hy : 0 ≤ y) : 0 ≤ round_binary64_nonneg y := by
  unfold round_binary64_nonneg
  have hpos : (0 : ℚ) < 2 ^ binary64_spacing_exponent y := zpow_pos (by norm_num) _
  have hq : 0 ≤ y / 2 ^ binary64_spacing_exponent y := div_nonneg hy (le_of_lt hpos)
  have hfl : 0 ≤ ⌊y / 2 ^ binary64_spacing_exponent y⌋ := Int.floor_nonneg.mpr hq
  have hr := (round_half_even_bounds (y / 2 ^ binary64_spacing_exponent y)).1
  have : (0 : ℚ) ≤ (round_half_even (y / 2 ^ binary64_spacing_exponent y) : ℚ) := by
    exact_mod_cast le_trans hfl hr
  exact mul_nonneg this (le_of_lt hpos)

/-- The bracket of a positive number by powers of two. -/
theorem log_bracket (y : ℚ) (hy : 0 < y) :
    (2 : ℚ) ^ Int.log 2 y ≤ y ∧ y < (2 : ℚ) ^ (Int.log 2 y + 1) := by
  constructor
  · exact_mod_cast Int.zpow_log_le_self (by norm_num : 1 < 2) hy
  · exact_mod_cast Int.lt_zpow_succ_log_self (by norm_num : 1 < 2) y

/-- A power of two with a non-negative exponent is an integer. -/
theorem two_zpow_eq_intCast (k : ℤ) (hk : 0 ≤ k) : ((2 : ℚ) ^ k) = (((2 : ℤ) ^ k.toNat : ℤ) : ℚ) := by
  obtain ⟨n, rfl⟩ := Int.eq_ofNat_of_zero_le hk
  simp

/-- A number at most `2 ^ e`, on a grid of spacing `2 ^ q` with `q <= e`,
rounds to at most `2 ^ e`. -/
theorem round_on_grid_le (y : ℚ) (q e : ℤ) (hq : q ≤ e) (hy : y ≤ (2 : ℚ) ^ e) :
    (round_half_even (y / 2 ^ q) : ℚ) * 2 ^ q ≤ 2 ^ e := by
  have hpos : (0 : ℚ) < 2 ^ q := zpow_pos (by norm_num) _
  have hdiv : y / 2 ^ q ≤ (2 : ℚ) ^ (e - q) := by
    rw [zpow_sub₀ (by norm_num : (2 : ℚ) ≠ 0)]
    exact div_le_div_of_nonneg_right hy (le_of_lt hpos)
  rw [two_zpow_eq_intCast (e - q) (by omega)] at hdiv
  have hr := round_half_even_mono _ _ hdiv
  rw [round_half_even_intCast] at hr
  have hr' : (round_half_even (y / 2 ^ q) : ℚ) ≤ (((2 : ℤ) ^ (e - q).toNat : ℤ) : ℚ) := by
    exact_mod_cast hr
  rw [← two_zpow_eq_intCast (e - q) (by omega)] at hr'
  calc (round_half_even (y / 2 ^ q) : ℚ) * 2 ^ q ≤ 2 ^ (e - q) * 2 ^ q :=
        mul_le_mul_of_nonneg_right hr' (le_of_lt hpos)
    _ = 2 ^ e := by rw [← zpow_add₀ (by norm_num : (2 : ℚ) ≠ 0)]; congr 1; ring

/-- A number at least `2 ^ e`, on a grid of spacing `2 ^ q` with `q <= e`,
rounds to at least `2 ^ e`. -/
theorem le_round_on_grid (y : ℚ) (q e : ℤ) (hq : q ≤ e) (hy : (2 : ℚ) ^ e ≤ y) :
    (2 : ℚ) ^ e ≤ (round_half_even (y / 2 ^ q) : ℚ) * 2 ^ q := by
  have hpos : (0 : ℚ) < 2 ^ q := zpow_pos (by norm_num) _
  have hdiv : (2 : ℚ) ^ (e - q) ≤ y / 2 ^ q := by
    rw [zpow_sub₀ (by norm_num : (2 : ℚ) ≠ 0)]
    exact div_le_div_of_nonneg_right hy (le_of_lt hpos)
  rw [two_zpow_eq_intCast (e - q) (by omega)] at hdiv
  have hr := round_half_even_mono _ _ hdiv
  rw [round_half_even_intCast] at hr
  have hr' : (((2 : ℤ) ^ (e - q).toNat : ℤ) : ℚ) ≤ (round_half_even (y / 2 ^ q) : ℚ) := by
    exact_mod_cast hr
  rw [← two_zpow_eq_intCast (e - q) (by omega)] at hr'
  calc (2 : ℚ) ^ e = 2 ^ (e - q) * 2 ^ q := by
        rw [← zpow_add₀ (by norm_num : (2 : ℚ) ≠ 0)]; congr 1; ring
    _ ≤ (round_half_even (y / 2 ^ q) : ℚ) * 2 ^ q :=
        mul_le_mul_of_nonneg_right hr' (le_of_lt hpos)

/-- Rounding of non-negative numbers to binary64 keeps their order. -/
theorem round_binary64_nonneg_mono (y y' : ℚ) (hy : 0 ≤ y) (h : y ≤ y') :
    round_binary64_nonneg y ≤ round_binary64_nonneg y' := by
  rcases eq_or_lt_of_le hy with h0 | hpos
  · rw [← h0, round_binary64_nonneg_zero]
    exact round_binary64_nonneg_nonneg y' (le_trans hy h)
  have hpos' : 0 < y' := lt_of_lt_of_le hpos h
  have hlog : Int.log 2 y ≤ Int.log 2 y' := Int.log_mono_right hpos h
  have hq : binary64_spacing_exponent y ≤ binary64_spacing_exponent y' := by
    unfold binary64_spacing_exponent
    omega
  rcases eq_or_lt_of_le hq with heq | hlt
  · unfold round_binary64_nonneg
    rw [← heq]
    have hp : (0 : ℚ) < 2 ^ binary64_spacing_exponent y := zpow_pos (by norm_num) _
    have hdiv : y / 2 ^ binary64_spacing_exponent y ≤ y' / 2 ^ binary64_spacing_exponent y :=
      div_le_div_of_nonneg_right h (le_of_lt hp)
    have hr := round_half_even_mono _ _ hdiv
    have hr' : (round_half_even (y / 2 ^ binary64_spacing_exponent y) : ℚ) ≤
        (round_half_even (y' / 2 ^ binary64_spacing_exponent y) : ℚ) := by exact_mod_cast hr
    exact mul_le_mul_of_nonneg_right hr' (le_of_lt hp)
  · have hq' : binary64_spacing_exponent y' = Int.log 2 y' - 52 := by
      unfold binary64_spacing_exponent at hlt ⊢
      omega
    have hlt' : Int.log 2 y + 1 ≤ Int.log 2 y' := by
      unfold binary64_spacing_exponent at hlt
      omega
    obtain ⟨-, hy2⟩ := log_bracket y hpos
    obtain ⟨hy1', -⟩ := log_bracket y' hpos'
    have hle : y ≤ (2 : ℚ) ^ Int.log 2 y' :=
      le_trans (le_of_lt hy2) (zpow_le_zpow_right₀ (by norm_num) hlt')
    have h1 := round_on_grid_le y (binary64_spacing_exponent y) (Int.log 2 y')
      (by rw [hq'] at hlt; omega) hle
    have h2 := le_round_on_grid y' (binary64_spacing_exponent y') (Int.log 2 y')
      (by rw [hq']; omega) hy1'
    exact le_trans h1 h2

/-- Rounding to binary64 keeps the order. -/
theorem round_binary64_mono (x y : ℚ) (h : x ≤ y) : round_binary64 x ≤ round_binary64 y := by
  unfold round_binary64
  by_cases hx : x < 0
  · by_cases hy : y < 0
    · rw [if_pos hx, if_pos hy]
      have := round_binary64_nonneg_mono (-y) (-x) (by linarith) (by linarith)
      linarith
    · rw [if_pos hx, if_neg hy]
      have h1 := round_binary64_nonneg_nonneg (-x) (by linarith)
      have h2 := round_binary64_nonneg_nonneg y (by linarith)
      linarith
  · have hy : ¬ y < 0 := by linarith
    rw [if_neg hx, if_neg hy]
    exact round_binary64_nonneg_mono x y (by linarith) h

/-- A dyadic number with a significand below `2 ^ 53` and an exponent of at
least `-1074` is a binary64 number: rounding leaves it as it is. -/
theorem round_binary64_nonneg_dyadic (m q : ℤ) (hm0 : 0 ≤ m) (hm : m < 2 ^ 53)
    (hq : -1074 ≤ q) : round_binary64_nonneg ((m : ℚ) * 2 ^ q) = (m : ℚ) * 2 ^ q := by
  rcases eq_or_lt_of_le hm0 with h0 | hpos
  · rw [← h0]
    simp [round_binary64_nonneg_zero]
  have h2q : (0 : ℚ) < 2 ^ q := zpow_pos (by norm_num) _
  have hy : (0 : ℚ) < (m : ℚ) * 2 ^ q := mul_pos (by exact_mod_cast hpos) h2q
  have hlt : (m : ℚ) * 2 ^ q < 2 ^ (q + 53) := by
    rw [zpow_add₀ (by norm_num : (2 : ℚ) ≠ 0), mul_comm ((2 : ℚ) ^ q)]
    have : (m : ℚ) < 2 ^ (53 : ℤ) := by
      have h : ((m : ℤ) : ℚ) < (((2 : ℤ) ^ 53 : ℤ) : ℚ) := by exact_mod_cast hm
      norm_num at h ⊢
      exact h
    exact mul_lt_mul_of_pos_right this h2q
  have hlog : Int.log 2 ((m : ℚ) * 2 ^ q) < q + 53 :=
    (Int.lt_zpow_iff_log_lt (by norm_num : 1 < 2) hy).mp (by exact_mod_cast hlt)
  have hs : binary64_spacing_exponent ((m : ℚ) * 2 ^ q) ≤ q := by
    unfold binary64_spacing_exponent
    omega
  unfold round_binary64_nonneg
  generalize binary64_spacing_exponent ((m : ℚ) * 2 ^ q) = s at hs
  have hdiv : (m : ℚ) * 2 ^ q / 2 ^ s = ((m * (2 : ℤ) ^ (q - s).toNat : ℤ) : ℚ) := by
    rw [mul_div_assoc, ← zpow_sub₀ (by norm_num : (2 : ℚ) ≠ 0),
      two_zpow_eq_intCast (q - s) (by omega)]
    push_cast
    rfl
  rw [hdiv, round_half_even_intCast, ← hdiv]
  have h2s : (2 : ℚ) ^ s ≠ 0 := ne_of_gt (zpow_pos (by norm_num) _)
  field_simp

/-- The significand that rounding picks is at most `2 ^ 53`. -/
theorem round_half_even_significand_le (y : ℚ) (hy : 0 < y) :
    round_half_even (y / 2 ^ binary64_spacing_exponent y) ≤ 2 ^ 53 := by
  obtain ⟨-, h2⟩ := log_bracket y hy
  have hq : Int.log 2 y + 1 ≤ binary64_spacing_exponent y + 53 := by
    unfold binary64_spacing_exponent
    omega
  have hpos : (0 : ℚ) < 2 ^ binary64_spacing_exponent y := zpow_pos (by norm_num) _
  have hle : y ≤ (2 : ℚ) ^ (binary64_spacing_exponent y + 53) :=
    le_trans (le_of_lt h2) (zpow_le_zpow_right₀ (by norm_num) hq)
  have hdiv : y / 2 ^ binary64_spacing_exponent y ≤ (((2 : ℤ) ^ 53 : ℤ) : ℚ) := by
    rw [div_le_iff₀ hpos]
    rw [zpow_add₀ (by norm_num : (2 : ℚ) ≠ 0), mul_comm] at hle
    push_cast
    exact_mod_cast hle
  have hr := round_half_even_mono _ _ hdiv
  rw [round_half_even_intCast] at hr
  exact hr

/-- Rounding a non-negative number to binary64 a second time changes nothing. -/
theorem round_binary64_nonneg_idem (y : ℚ) (hy : 0 ≤ y) :
    round_binary64_nonneg (round_binary64_nonneg y) = round_binary64_nonneg y := by
  rcases eq_or_lt_of_le hy with h0 | hpos
  · rw [← h0, round_binary64_nonneg_zero, round_binary64_nonneg_zero]
  have hle := round_half_even_significand_le y hpos
  have hnn : 0 ≤ round_half_even (y / 2 ^ binary64_spacing_exponent y) := by
    have hp : (0 : ℚ) < 2 ^ binary64_spacing_exponent y := zpow_pos (by norm_num) _
    have hq : 0 ≤ y / 2 ^ binary64_spacing_exponent y := div_nonneg hy (le_of_lt hp)
    exact le_trans (Int.floor_nonneg.mpr hq) (round_half_even_bounds _).1
  have hq : -1074 ≤ binary64_spacing_exponent y := by
    unfold binary64_spacing_exponent
    omega
  rcases eq_or_lt_of_le hle with heq | hlt
  · have hr : round_binary64_nonneg y =
        ((1 : ℤ) : ℚ) * 2 ^ (binary64_spacing_exponent y + 53) := by
      unfold round_binary64_nonneg
      rw [heq, zpow_add₀ (by norm_num : (2 : ℚ) ≠ 0)]
      push_cast
      ring
    rw [hr]
    exact round_binary64_nonneg_dyadic 1 _ (by norm_num) (by norm_num) (by omega)
  · have hr : round_binary64_nonneg y =
        ((round_half_even (y / 2 ^ binary64_spacing_exponent y) : ℤ) : ℚ) *
          2 ^ binary64_spacing_exponent y := rfl
    rw [hr]
    exact round_binary64_nonneg_dyadic _ _ hnn hlt hq

/-- Rounding to binary64 a second time changes nothing. -/
theorem round_binary64_idem (x : ℚ) : round_binary64 (round_binary64 x) = round_binary64 x := by
  unfold round_binary64
  by_cases hx : x < 0
  · rw [if_pos hx]
    have hnn := round_binary64_nonneg_nonneg (-x) (by linarith)
    rcases eq_or_lt_of_le hnn with h0 | hpos
    · rw [← h0]
      simp [round_binary64_nonneg_zero]
    · rw [if_pos (by linarith), neg_neg, round_binary64_nonneg_idem (-x) (by linarith)]
  · rw [if_neg hx]
    have hnn := round_binary64_nonneg_nonneg x (by linarith)
    rw [if_neg (by linarith), round_binary64_nonneg_idem x (by linarith)]

/-- Rounding to binary64 is a rounding: monotone, idempotent, and exact at 0. -/
theorem round_binary64_isRounding : IsRounding round_binary64 :=
  ⟨round_binary64_mono, round_binary64_idem, by
    simp [round_binary64, round_binary64_nonneg_zero]⟩

/-- An integer below `2 ^ 53` in size is a binary64 number. -/
theorem round_binary64_intCast (m : ℤ) (h1 : -2 ^ 53 < m) (h2 : m < 2 ^ 53) :
    round_binary64 (m : ℚ) = m := by
  unfold round_binary64
  by_cases hm : (m : ℚ) < 0
  · rw [if_pos hm]
    have hm' : m < 0 := by exact_mod_cast hm
    have := round_binary64_nonneg_dyadic (-m) 0 (by omega) (by omega) (by norm_num)
    simp only [zpow_zero, mul_one, Int.cast_neg] at this
    rw [this, neg_neg]
  · rw [if_neg hm]
    have hm' : 0 ≤ m := by
      by_contra hc
      exact hm (by exact_mod_cast (not_le.mp hc))
    have := round_binary64_nonneg_dyadic m 0 hm' h2 (by norm_num)
    simpa using this

end Binary64Theorems

/-! ### Values of the rounding of binary64 -/

/-- The value `round_binary64` gives a positive number whose bracket by
powers of two and whose rounded significand are known. -/
theorem round_binary64_eval (x : ℚ) (e r : ℤ) (h1 : (2 : ℚ) ^ e ≤ x)
    (h2 : x < (2 : ℚ) ^ (e + 1))
    (hr : round_half_even (x / 2 ^ max (e - 52) (-1074)) = r) :
    round_binary64 x = (r : ℚ) * 2 ^ max (e - 52) (-1074) := by
  have hx : ¬ x < 0 := not_lt.mpr (le_trans (le_of_lt (zpow_pos (by norm_num) e)) h1)
  rw [round_binary64, if_neg hx, round_binary64_nonneg, binary64_spacing_exponent_eq x e h1 h2,
    hr]

/-- Rounding to binary64 commutes with the change of sign. -/
theorem round_binary64_neg (x : ℚ) : round_binary64 (-x) = -round_binary64 x := by
  unfold round_binary64
  rcases lt_trichotomy x 0 with h | h | h
  · rw [if_neg (by linarith : ¬ -x < 0), if_pos h, neg_neg]
  · rw [h]
    simp [round_binary64_nonneg_zero]
  · rw [if_pos (by linarith : -x < 0), if_neg (by linarith : ¬ x < 0), neg_neg]

/-- A natural number below `2 ^ 53` is a binary64 number. -/
theorem round_binary64_natCast (n : ℕ) (h : n < 2 ^ 53) : round_binary64 (n : ℚ) = n := by
  have := round_binary64_intCast (n : ℤ) (by
    have : (0 : ℤ) ≤ (n : ℤ) := Int.natCast_nonneg n
    omega) (by exact_mod_cast h)
  simpa using this

/-- The numbers 0 to 10 are binary64 numbers. -/
theorem round_binary64_upto_ten :
    round_binary64 0 = 0 ∧ round_binary64 1 = 1 ∧ round_binary64 2 = 2 ∧
    round_binary64 3 = 3 ∧ round_binary64 4 = 4 ∧ round_binary64 5 = 5 ∧
    round_binary64 6 = 6 ∧ round_binary64 7 = 7 ∧ round_binary64 8 = 8 ∧
    round_binary64 9 = 9 ∧ round_binary64 10 = 10 := by
  have hv : ∀ n : ℕ, n ≤ 10 → round_binary64 (n : ℚ) = n := fun n hn =>
    round_binary64_natCast n (lt_of_le_of_lt hn (by norm_num))
  refine ⟨?_, ?_, ?_, ?_, ?_, ?_, ?_, ?_, ?_, ?_, ?_⟩
  · simpa using hv 0 (by norm_num)
  · simpa using hv 1 (by norm_num)
  · simpa using hv 2 (by norm_num)
  · simpa using hv 3 (by norm_num)
  · simpa using hv 4 (by norm_num)
  · simpa using hv 5 (by norm_num)
  · simpa using hv 6 (by norm_num)
  · simpa using hv 7 (by norm_num)
  · simpa using hv 8 (by norm_num)
  · simpa using hv 9 (by norm_num)
  · simpa using hv 10 (by norm_num)

/-- One half is a binary64 number. -/
theorem round_binary64_half : round_binary64 (1 / 2) = 1 / 2 := by
  rw [round_binary64_eval (1 / 2) (-1) 4503599627370496 (by norm_num) (by norm_num)
    (by norm_num [round_half_even])]
  norm_num

/-- The sides 20 and 10 of the example box, and the numbers 5 and 15, are
binary64 numbers. -/
theorem round_binary64_box_values :
    round_binary64 20 = 20 ∧ round_binary64 10 = 10 ∧ round_binary64 5 = 5 ∧
    round_binary64 15 = 15 := by
  refine ⟨?_, ?_, ?_, ?_⟩
  · simpa using round_binary64_natCast 20 (by norm_num)
  · simpa using round_binary64_natCast 10 (by norm_num)
  · simpa using round_binary64_natCast 5 (by norm_num)
  · simpa using round_binary64_natCast 15 (by norm_num)

/-! ### Rounded binning -/

section RoundedSchemeTheorems

variable {α : Type} [LinearOrderedField α]

/-- With no rounding, the rounded `set_bins` is the exact one. -/
theorem set_bins_fl_id (log exp : α → α) (u : α) (b : Binning α) (scheme space : String) :
    b.set_bins_fl id log exp u scheme space = b.set_bins log exp u scheme space := rfl

/-- The bins of the rounded scheme `lin`. -/
theorem set_bins_fl_lin_bins (fl log exp : α → α) (u : α) (b : Binning α) (space : String) :
    b.set_bins_fl fl log exp u "lin" space =
      (.ok (), b.append_bins ((List.range b.num_bins.toNat).map
        (lin_bin_fl fl b.bin_min (fl (fl (b.bin_max - b.bin_min) / (b.num_bins : α)))))) := by
  have h1 : ¬ (("lin" : String) = "custom") := by decide
  have hloop := for_loop_push_bins 0 b.num_bins
    (lin_bin_fl fl b.bin_min (fl (fl (b.bin_max - b.bin_min) / (b.num_bins : α))))
    (Binning.lin_body_fl fl b.bin_min (fl (fl (b.bin_max - b.bin_min) / (b.num_bins : α))) 0)
    (by intro k acc; simp [Binning.lin_body_fl, lin_bin_fl]) b
  simp only [Binning.set_bins_fl, h1, if_false, if_true, hloop, Binning.push_last_edge,
    Binning.append_bins, sub_zero, List.append_assoc]

/-- The bins of the rounded scheme `log`, when the lowest edge is not zero. -/
theorem set_bins_fl_log_bins (fl log exp : α → α) (u : α) (b : Binning α) (space : String)
    (hmin : b.bin_min ≠ 0) :
    b.set_bins_fl fl log exp u "log" space =
      (.ok (), b.append_bins ((List.range b.num_bins.toNat).map
        (log_bin_fl fl exp b.bin_min
          (fl (fl (log b.bin_max - log b.bin_min) / (b.num_bins : α)))))) := by
  have h1 : ¬ (("log" : String) = "custom") := by decide
  have h2 : ¬ (("log" : String) = "lin") := by decide
  have hloop := for_loop_push_bins 0 b.num_bins
    (log_bin_fl fl exp b.bin_min (fl (fl (log b.bin_max - log b.bin_min) / (b.num_bins : α))))
    (Binning.log_body_fl fl exp b.bin_min
      (fl (fl (log b.bin_max - log b.bin_min) / (b.num_bins : α))) 0)
    (by intro k acc; simp [Binning.log_body_fl, log_bin_fl]) b
  simp only [Binning.set_bins_fl, h1, h2, hmin, if_false, if_true, hloop,
    Binning.push_last_edge, Binning.append_bins, sub_zero, List.append_assoc]

/-- The bins of a rounded padded scheme, as a run of padding bins followed by
the bins of the second loop. -/
theorem map_padded_bin_fl (fl : α → α) (p q : Nat) (w : α) (unpadded : Nat → α × α × α) :
    (List.range (p + q)).map (padded_bin_fl fl p w unpadded) =
      (List.range p).map (fun (k : Nat) =>
        (fl (w * (k : α)), fl (fl (w * (k : α)) + fl (w / 2)), w)) ++
        (List.range q).map unpadded := by
  rw [range_map_append_range_map]
  rfl

/-- The bins of the rounded scheme `linpad`. -/
theorem set_bins_fl_linpad_bins (fl log exp : α → α) (u : α) (b : Binning α)
    (space : String) :
    b.set_bins_fl fl log exp u "linpad" space =
      (.ok (), b.append_bins
        ((List.range (b.nbin_pad.toNat + (b.num_bins - b.nbin_pad).toNat)).map
          (padded_bin_fl fl b.nbin_pad.toNat (b.select_dbin_pad u space)
            (lin_bin_fl fl (fl (b.select_dbin_pad u space * (b.nbin_pad : α)))
              (fl (fl (b.bin_max - fl (b.select_dbin_pad u space * (b.nbin_pad : α))) /
                ((b.num_bins - b.nbin_pad : Int) : α))))))) := by
  have h1 : ¬ (("linpad" : String) = "custom") := by decide
  have h2 : ¬ (("linpad" : String) = "lin") := by decide
  have h3 : ¬ (("linpad" : String) = "log") := by decide
  have hloop1 := for_loop_push_bins 0 b.nbin_pad
    (fun (k : Nat) => (fl (b.select_dbin_pad u space * (k : α)),
      fl (fl (b.select_dbin_pad u space * (k : α)) + fl (b.select_dbin_pad u space / 2)),
      b.select_dbin_pad u space))
    (Binning.pad_body_fl fl (b.select_dbin_pad u space))
    (by intro k acc; simp [Binning.pad_body_fl]) b
  have hloop2 := for_loop_push_bins b.nbin_pad b.num_bins
    (lin_bin_fl fl (fl (b.select_dbin_pad u space * (b.nbin_pad : α)))
      (fl (fl (b.bin_max - fl (b.select_dbin_pad u space * (b.nbin_pad : α))) /
        ((b.num_bins - b.nbin_pad : Int) : α))))
    (Binning.lin_body_fl fl (fl (b.select_dbin_pad u space * (b.nbin_pad : α)))
      (fl (fl (b.bin_max - fl (b.select_dbin_pad u space * (b.nbin_pad : α))) /
        ((b.num_bins - b.nbin_pad : Int) : α))) b.nbin_pad)
    (by intro k acc; simp [Binning.lin_body_fl, lin_bin_fl])
  simp only [Binning.set_bins_fl, h1, h2, h3, if_false, if_true, hloop1, hloop2,
    Binning.push_last_edge, Binning.append_bins, map_padded_bin_fl, List.map_append,
    List.append_assoc, sub_zero]

/-- The bins of the rounded scheme `logpad`. -/
theorem set_bins_fl_logpad_bins (fl log exp : α → α) (u : α) (b : Binning α)
    (space : String) :
    b.set_bins_fl fl log exp u "logpad" space =
      (.ok (), b.append_bins
        ((List.range (b.nbin_pad.toNat + (b.num_bins - b.nbin_pad).toNat)).map
          (padded_bin_fl fl b.nbin_pad.toNat (b.select_dbin_pad u space)
            (log_bin_fl fl exp (fl (b.select_dbin_pad u space * (b.nbin_pad : α)))
              (fl (fl (log b.bin_max - log (fl (b.select_dbin_pad u space * (b.nbin_pad : α)))) /
                ((b.num_bins - b.nbin_pad : Int) : α))))))) := by
  have h1 : ¬ (("logpad" : String) = "custom") := by decide
  have h2 : ¬ (("logpad" : String) = "lin") := by decide
  have h3 : ¬ (("logpad" : String) = "log") := by decide
  have h4 : ¬ (("logpad" : String) = "linpad") := by decide
  have hloop1 := for_loop_push_bins 0 b.nbin_pad
    (fun (k : Nat) => (fl (b.select_dbin_pad u space * (k : α)),
      fl (fl (b.select_dbin_pad u space * (k : α)) + fl (b.select_dbin_pad u space / 2)),
      b.select_dbin_pad u space))
    (Binning.pad_body_fl fl (b.select_dbin_pad u space))
    (by intro k acc; simp [Binning.pad_body_fl]) b
  have hloop2 := for_loop_push_bins b.nbin_pad b.num_bins
    (log_bin_fl fl exp (fl (b.select_dbin_pad u space * (b.nbin_pad : α)))
      (fl (fl (log b.bin_max - log (fl (b.select_dbin_pad u space * (b.nbin_pad : α)))) /
        ((b.num_bins - b.nbin_pad : Int) : α))))
    (Binning.log_body_fl fl exp (fl (b.select_dbin_pad u space * (b.nbin_pad : α)))
      (fl (fl (log b.bin_max - log (fl (b.select_dbin_pad u space * (b.nbin_pad : α)))) /
        ((b.num_bins - b.nbin_pad : Int) : α))) b.nbin_pad)
    (by intro k acc; simp [Binning.log_body_fl, log_bin_fl])
  simp only [Binning.set_bins_fl, h1, h2, h3, h4, if_false, if_true, hloop1, hloop2,
    Binning.push_last_edge, Binning.append_bins, map_padded_bin_fl, List.map_append,
    List.append_assoc, sub_zero]

/-- A rounding of a non-negative number is non-negative. -/
theorem IsRounding.nonneg {fl : α → α} (h : IsRounding fl) {x : α} (hx : 0 ≤ x) :
    0 ≤ fl x := by
  have := h.1 0 x hx
  rwa [h.2.2] at this

/-- A rounding of a non-positive number is non-positive. -/
theorem IsRounding.nonpos {fl : α → α} (h : IsRounding fl) {x : α} (hx : x ≤ 0) :
    fl x ≤ 0 := by
  have := h.1 x 0 hx
  rwa [h.2.2] at this

/-- The left edges of the rounded `lin` loop do not decrease when the width
is not negative. -/
theorem lin_bin_fl_edge_mono (fl : α → α) (hfl : IsRounding fl) (bin_min dbin : α)
    (hd : 0 ≤ dbin) (i j : Nat) (hij : i ≤ j) :
    (lin_bin_fl fl bin_min dbin i).1 ≤ (lin_bin_fl fl bin_min dbin j).1 := by
  unfold lin_bin_fl
  have hc : (i : α) ≤ (j : α) := by exact_mod_cast hij
  have h1 : dbin * (i : α) ≤ dbin * (j : α) := mul_le_mul_of_nonneg_left hc hd
  have h2 := hfl.1 _ _ h1
  exact hfl.1 _ _ (by linarith)

/-- The first left edge of the rounded `lin` loop is the rounded lowest edge. -/
theorem lin_bin_fl_edge_zero (fl : α → α) (hfl : IsRounding fl) (bin_min dbin : α) :
    (lin_bin_fl fl bin_min dbin 0).1 = fl bin_min := by
  simp [lin_bin_fl, hfl.2.2]

/-- The width the rounded `lin` scheme computes is not negative when the
range is not reversed. -/
theorem lin_dbin_fl_nonneg (fl : α → α) (hfl : IsRounding fl) (bin_min bin_max : α) (n : Int)
    (hn : 0 ≤ n) (hrange : bin_min ≤ bin_max) : 0 ≤ fl (fl (bin_max - bin_min) / (n : α)) := by
  apply hfl.nonneg
  apply div_nonneg (hfl.nonneg (by linarith))
  exact_mod_cast hn

omit [LinearOrderedField α] in
/-- Entries `i` and `i + 1` of the edges filled from empty, both left edges. -/
theorem append_bins_left_edges (b : Binning α)
    (hempty : b.bin_edges = [] ∧ b.bin_centres = [] ∧ b.bin_widths = [])
    (m : Nat) (bin : Nat → α × α × α) (i : Nat) (hi : i + 1 < m) :
    (b.append_bins ((List.range m).map bin)).bin_edges[i]? = some (bin i).1 ∧
    (b.append_bins ((List.range m).map bin)).bin_edges[i + 1]? = some (bin (i + 1)).1 := by
  rw [(append_bins_range b hempty m bin).1]
  exact ⟨getElem?_range_map_last _ m i (by omega) _, getElem?_range_map_last _ m (i + 1) hi _⟩

omit [LinearOrderedField α] in
/-- Entry `i` of the edges and of the widths filled from empty. -/
theorem append_bins_entry (b : Binning α)
    (hempty : b.bin_edges = [] ∧ b.bin_centres = [] ∧ b.bin_widths = [])
    (m : Nat) (bin : Nat → α × α × α) (i : Nat) (hi : i < m) :
    (b.append_bins ((List.range m).map bin)).bin_edges[i]? = some (bin i).1 ∧
    (b.append_bins ((List.range m).map bin)).bin_widths[i]? = some (bin i).2.2 ∧
    (b.append_bins ((List.range m).map bin)).bin_edges[m]? = some b.bin_max := by
  obtain ⟨he, -, hw⟩ := append_bins_range b hempty m bin
  rw [he, hw]
  exact ⟨getElem?_range_map_last _ m i hi _, getElem?_range_map _ m i hi,
    getElem?_range_map_last_last _ m _⟩

end RoundedSchemeTheorems

/-- Five bins over `[0, 10]` under `lin` in binary64: no operation rounds. -/
theorem set_bins_fl_lin_binary64_exact :
    (example_binning 0 10 5).set_bins_fl round_binary64 id id 0 "lin" "fourier" =
      (example_binning 0 10 5).set_bins id id 0 "lin" "fourier" := by
  have h5 : Int.toNat 5 = 5 := rfl
  obtain ⟨h0, h1, h2, h3, h4, h5', h6, h7, h8, h9, h10⟩ := round_binary64_upto_ten
  rw [set_bins_fl_lin_bins, set_bins_lin_bins]
  norm_num [example_binning, h5, List.range_succ, lin_bin_fl, spec_lin_bin, h0, h1, h2, h3,
    h4, h5', h6, h7, h8, h9, h10]

/-- Four bins up to 7, of which one is padded with width 1, under `linpad` in
binary64: no operation rounds. -/
theorem set_bins_fl_linpad_binary64_exact :
    (example_binning_padded 0 7 1 4 1).set_bins_fl round_binary64 id id 0 "linpad" "fourier" =
      (example_binning_padded 0 7 1 4 1).set_bins id id 0 "linpad" "fourier" := by
  have h1n : Int.toNat 1 = 1 := rfl
  have h3n : Int.toNat 3 = 3 := rfl
  obtain ⟨h0, h1, h2, h3, h4, h5, h6, h7, h8, h9, h10⟩ := round_binary64_upto_ten
  rw [set_bins_fl_linpad_bins, set_bins_linpad_bins]
  norm_num [example_binning_padded, Binning.select_dbin_pad, h1n, h3n, List.range_succ,
    padded_bin_fl, spec_padded_bin, lin_bin_fl, spec_lin_bin, h0, h1, h2, h3, h4, h5, h6, h7,
    round_binary64_half]

section RoundedLinClaims

variable {α : Type} [LinearOrderedField α]

/-- C2, amended.  Scheme `lin` in rounded arithmetic, starting from empty bin
vectors, with `num_bins >= 1`, `0 <= bin_min <= bin_max` and `bin_min` a
value of the rounding: the first edge is `bin_min`, the last is the stored `bin_max`,
and the left edges the loop computes do not decrease, `edges[i] <=
edges[i+1]` for `i + 1 < num_bins`.  When no operation of the run rounds
(the rounded run gives what the exact one gives) and `bin_min < bin_max`,
the edges are strictly increasing, `edges[i] < edges[i+1]` for every
`i < num_bins`, the pair that ends in the stored `bin_max` included. -/
theorem set_bins_fl_lin_edges_ordered (fl log exp : α → α) (u : α) (b : Binning α)
    (space : String) (hfl : IsRounding fl)
    (hempty : b.bin_edges = [] ∧ b.bin_centres = [] ∧ b.bin_widths = [])
    (hn : 1 ≤ b.num_bins) (hrange : 0 ≤ b.bin_min ∧ b.bin_min ≤ b.bin_max)
    (hmin : fl b.bin_min = b.bin_min) :
    (b.set_bins_fl fl log exp u "lin" space).2.bin_edges[0]? = some b.bin_min ∧
    (b.set_bins_fl fl log exp u "lin" space).2.bin_edges[b.num_bins.toNat]? =
      some b.bin_max ∧
    (∀ i : Nat, (i : Int) + 1 < b.num_bins →
      ∃ e₀ e₁, (b.set_bins_fl fl log exp u "lin" space).2.bin_edges[i]? = some e₀ ∧
        (b.set_bins_fl fl log exp u "lin" space).2.bin_edges[i + 1]? = some e₁ ∧ e₀ ≤ e₁) ∧
    (b.set_bins_fl fl log exp u "lin" space = b.set_bins log exp u "lin" space →
      b.bin_min < b.bin_max →
      (∀ i : Nat, (i : Int) < b.num_bins →
        ∃ e₀ e₁, (b.set_bins_fl fl log exp u "lin" space).2.bin_edges[i]? = some e₀ ∧
          (b.set_bins_fl fl log exp u "lin" space).2.bin_edges[i + 1]? = some e₁ ∧ e₀ < e₁) ∧
      (b.set_bins_fl fl log exp u "lin" space).2.bin_edges.Pairwise (· < ·)) := by
  have hd := lin_dbin_fl_nonneg fl hfl b.bin_min b.bin_max b.num_bins (by omega) hrange.2
  refine ⟨?_, ?_, ?_, ?_⟩
  · rw [set_bins_fl_lin_bins]
    rw [(append_bins_entry b hempty b.num_bins.toNat _ 0 (by omega)).1,
      lin_bin_fl_edge_zero fl hfl, hmin]
  · rw [set_bins_fl_lin_bins]
    exact (append_bins_entry b hempty b.num_bins.toNat _ 0 (by omega)).2.2
  · intro i hi
    rw [set_bins_fl_lin_bins]
    obtain ⟨h0, h1⟩ := append_bins_left_edges b hempty b.num_bins.toNat
      (lin_bin_fl fl b.bin_min (fl (fl (b.bin_max - b.bin_min) / (b.num_bins : α)))) i
      (by omega)
    exact ⟨_, _, h0, h1, lin_bin_fl_edge_mono fl hfl _ _ hd i (i + 1) (by omega)⟩
  · intro hexact hlt
    rw [hexact, set_bins_lin_bins]
    have hstep := fun k =>
      spec_lin_bin_edge_lt b.bin_min b.bin_max b.num_bins (by omega) hlt k
    constructor
    · intro i hi
      obtain ⟨he, -, hlast⟩ := append_bins_entry b hempty b.num_bins.toNat
        (spec_lin_bin b.bin_min ((b.bin_max - b.bin_min) / (b.num_bins : α))) i (by omega)
      by_cases hnext : i + 1 < b.num_bins.toNat
      · obtain ⟨h0, h1⟩ := append_bins_left_edges b hempty b.num_bins.toNat
          (spec_lin_bin b.bin_min ((b.bin_max - b.bin_min) / (b.num_bins : α))) i hnext
        exact ⟨_, _, h0, h1, (hstep i).1⟩
      · have him : i + 1 = b.num_bins.toNat := by omega
        refine ⟨_, _, he, ?_, (hstep i).2 him⟩
        rw [him]
        exact hlast
    · exact append_bins_pairwise b hempty _ _ (fun k _ => (hstep k).1)
        (fun k hk => (hstep k).2 hk)

end RoundedLinClaims

/-- C2 as stated fails in binary64: three bins over `[10^16, 10^16 + 2]`,
where the spacing of the binary64 numbers is 2 and the width is the rounded
2/3.  The first two edges coincide, and so do the last two. -/
theorem set_bins_lin_edges_repeat_in_binary64 :
    (1 : Int) ≤ (example_binning (10 ^ 16) (10 ^ 16 + 2) 3).num_bins ∧
    ((0 : ℚ) ≤ (example_binning (10 ^ 16) (10 ^ 16 + 2) 3).bin_min ∧
      (example_binning (10 ^ 16) (10 ^ 16 + 2) 3).bin_min <
        (example_binning (10 ^ 16) (10 ^ 16 + 2) 3).bin_max) ∧
    round_binary64 (10 ^ 16) = 10 ^ 16 ∧ round_binary64 (10 ^ 16 + 2) = 10 ^ 16 + 2 ∧
    ((example_binning (10 ^ 16) (10 ^ 16 + 2) 3).set_bins_fl round_binary64 id id 0 "lin"
      "fourier").2.bin_edges = [10 ^ 16, 10 ^ 16, 10 ^ 16 + 2, 10 ^ 16 + 2] := by
  have h3 : Int.toNat 3 = 3 := rfl
  have hA : round_binary64 (10 ^ 16) = 10 ^ 16 := by
    rw [round_binary64_eval (10 ^ 16) 53 5000000000000000 (by norm_num) (by norm_num)
      (by norm_num [round_half_even])]
    norm_num
  have hB : round_binary64 (10 ^ 16 + 2) = 10 ^ 16 + 2 := by
    rw [round_binary64_eval (10 ^ 16 + 2) 53 5000000000000001 (by norm_num) (by norm_num)
      (by norm_num [round_half_even])]
    norm_num
  have hD : round_binary64 2 = 2 := by
    simpa using round_binary64_intCast 2 (by norm_num) (by norm_num)
  have h0 : round_binary64 0 = 0 := round_binary64_isRounding.2.2
  have hd : round_binary64 (2 / 3) = 6004799503160661 / 9007199254740992 := by
    rw [round_binary64_eval (2 / 3) (-1) 6004799503160661 (by norm_num) (by norm_num)
      (by norm_num [round_half_even])]
    norm_num
  have hd1 : round_binary64 (6004799503160661 / 9007199254740992) =
      6004799503160661 / 9007199254740992 := by
    rw [round_binary64_eval (6004799503160661 / 9007199254740992) (-1) 6004799503160661
      (by norm_num) (by norm_num) (by norm_num [round_half_even])]
    norm_num
  have hd2 : round_binary64 (6004799503160661 / 4503599627370496) =
      6004799503160661 / 4503599627370496 := by
    rw [round_binary64_eval (6004799503160661 / 4503599627370496) 0 6004799503160661
      (by norm_num) (by norm_num) (by norm_num [round_half_even])]
    norm_num
  have he1 : round_binary64 (10 ^ 16 + 6004799503160661 / 9007199254740992) = 10 ^ 16 := by
    rw [round_binary64_eval (10 ^ 16 + 6004799503160661 / 9007199254740992) 53
      5000000000000000 (by norm_num) (by norm_num) (by norm_num [round_half_even])]
    norm_num
  have he2 : round_binary64 (10 ^ 16 + 6004799503160661 / 4503599627370496) =
      10 ^ 16 + 2 := by
    rw [round_binary64_eval (10 ^ 16 + 6004799503160661 / 4503599627370496) 53
      5000000000000001 (by norm_num) (by norm_num) (by norm_num [round_half_even])]
    norm_num
  refine ⟨by decide, ⟨by norm_num [example_binning], by norm_num [example_binning]⟩, hA, hB, ?_⟩
  rw [set_bins_fl_lin_bins]
  have hsub : ((10 : ℚ) ^ 16 + 2 - 10 ^ 16) = 2 := by norm_num
  have hmul2 : (6004799503160661 / 9007199254740992 : ℚ) * 2 =
      6004799503160661 / 4503599627370496 := by norm_num
  simp only [example_binning, Binning.append_bins, h3, List.range_succ, List.range_zero,
    List.nil_append, List.map_append, List.map_cons, List.map_nil, lin_bin_fl, hsub, hD,
    Int.cast_ofNat, hd, Nat.cast_zero, Nat.cast_one, Nat.cast_ofNat, mul_zero, mul_one, h0,
    add_zero, hA, hd1, he1, hmul2, hd2, he2, List.cons_append, List.singleton_append]

/-- Witness for C2, amended: five bins over `[0, 10]` in binary64, a run in
which no operation rounds. -/
theorem set_bins_fl_lin_edges_ordered_witness :
    IsRounding round_binary64 ∧
    (1 : Int) ≤ (example_binning 0 10 5).num_bins ∧
    (0 ≤ (example_binning 0 10 5).bin_min ∧
      (example_binning 0 10 5).bin_min ≤ (example_binning 0 10 5).bin_max) ∧
    round_binary64 (example_binning 0 10 5).bin_min = (example_binning 0 10 5).bin_min ∧
    ((example_binning 0 10 5).set_bins_fl round_binary64 id id 0 "lin" "fourier").2.bin_edges[0]?
      = some 0 ∧
    (∃ e₀ e₁,
      ((example_binning 0 10 5).set_bins_fl round_binary64 id id 0 "lin"
        "fourier").2.bin_edges[3]? = some e₀ ∧
      ((example_binning 0 10 5).set_bins_fl round_binary64 id id 0 "lin"
        "fourier").2.bin_edges[3 + 1]? = some e₁ ∧ e₀ ≤ e₁) ∧
    (example_binning 0 10 5).set_bins_fl round_binary64 id id 0 "lin" "fourier" =
      (example_binning 0 10 5).set_bins id id 0 "lin" "fourier" ∧
    ((example_binning 0 10 5).set_bins_fl round_binary64 id id 0 "lin"
      "fourier").2.bin_edges.Pairwise (· < ·) := by
  have h0 : round_binary64 0 = 0 := round_binary64_upto_ten.1
  have hr : 0 ≤ (example_binning 0 10 5).bin_min ∧
      (example_binning 0 10 5).bin_min ≤ (example_binning 0 10 5).bin_max :=
    ⟨by norm_num [example_binning], by norm_num [example_binning]⟩
  have h := set_bins_fl_lin_edges_ordered round_binary64 id id 0 (example_binning 0 10 5)
    "fourier" round_binary64_isRounding ⟨rfl, rfl, rfl⟩ (by decide) hr h0
  exact ⟨round_binary64_isRounding, by decide, hr, h0, h.1,
    h.2.2.1 3 (by decide), set_bins_fl_lin_binary64_exact,
    (h.2.2.2 set_bins_fl_lin_binary64_exact (by norm_num [example_binning])).2⟩

section RoundedWidthClaims

variable {α : Type} [LinearOrderedField α]

/-- C26, amended.  Rounded arithmetic, starting from empty bin vectors with
`num_bins >= 1`.  Scheme `lin`: every width is the one rounded quotient
`dbin`; it is the difference `edges[i+1] - edges[i]` for every
`i < num_bins`, the last bin included, when no operation of the run rounds
(the rounded run gives what the exact one gives).  Scheme `log` with
`bin_min` not zero: for `i + 1 < num_bins` the width is the rounded
difference of the edges around the bin, `widths[i] = fl (edges[i+1] -
edges[i])`; the width of the last bin is taken from the right edge the loop
computes, `bin_min * exp (dlnbin * num_bins)`, and not from the stored
`bin_max` that closes the edges. -/
theorem set_bins_fl_lin_log_widths (fl log exp : α → α) (u : α) (b : Binning α)
    (space : String)
    (hempty : b.bin_edges = [] ∧ b.bin_centres = [] ∧ b.bin_widths = [])
    (hn : 1 ≤ b.num_bins) :
    (∀ i : Nat, (i : Int) < b.num_bins →
      (b.set_bins_fl fl log exp u "lin" space).2.bin_widths[i]? =
        some (fl (fl (b.bin_max - b.bin_min) / (b.num_bins : α)))) ∧
    (b.set_bins_fl fl log exp u "lin" space = b.set_bins log exp u "lin" space →
      ∀ i : Nat, (i : Int) < b.num_bins →
        ∃ e₀ e₁ w, (b.set_bins_fl fl log exp u "lin" space).2.bin_edges[i]? = some e₀ ∧
          (b.set_bins_fl fl log exp u "lin" space).2.bin_edges[i + 1]? = some e₁ ∧
          (b.set_bins_fl fl log exp u "lin" space).2.bin_widths[i]? = some w ∧
          w = e₁ - e₀) ∧
    (b.bin_min ≠ 0 → ∀ i : Nat, (i : Int) + 1 < b.num_bins →
      ∃ e₀ e₁ w, (b.set_bins_fl fl log exp u "log" space).2.bin_edges[i]? = some e₀ ∧
        (b.set_bins_fl fl log exp u "log" space).2.bin_edges[i + 1]? = some e₁ ∧
        (b.set_bins_fl fl log exp u "log" space).2.bin_widths[i]? = some w ∧
        w = fl (e₁ - e₀)) ∧
    (b.bin_min ≠ 0 → ∀ i : Nat, (i : Int) + 1 = b.num_bins →
      ∃ e₀ w, (b.set_bins_fl fl log exp u "log" space).2.bin_edges[i]? = some e₀ ∧
        (b.set_bins_fl fl log exp u "log" space).2.bin_edges[i + 1]? = some b.bin_max ∧
        (b.set_bins_fl fl log exp u "log" space).2.bin_widths[i]? = some w ∧
        w = fl (fl (b.bin_min * exp (fl (fl (fl (log b.bin_max - log b.bin_min) /
          (b.num_bins : α)) * (b.num_bins : α)))) - e₀)) := by
  refine ⟨?_, ?_, ?_, ?_⟩
  · intro i hi
    rw [set_bins_fl_lin_bins]
    exact (append_bins_entry b hempty b.num_bins.toNat _ i (by omega)).2.1
  · intro hexact i hi
    rw [hexact, set_bins_lin_bins]
    exact append_bins_widths b hempty b.num_bins.toNat _
      (fun k _ => (spec_lin_bin_width b.bin_min b.bin_max b.num_bins hn k).1)
      (fun k hk => (spec_lin_bin_width b.bin_min b.bin_max b.num_bins hn k).2 hk)
      i (by omega)
  · intro hmin i hi
    rw [set_bins_fl_log_bins fl log exp u b space hmin]
    obtain ⟨h0, h1⟩ := append_bins_left_edges b hempty b.num_bins.toNat
      (log_bin_fl fl exp b.bin_min (fl (fl (log b.bin_max - log b.bin_min) / (b.num_bins : α))))
      i (by omega)
    refine ⟨_, _, _, h0, h1,
      (append_bins_entry b hempty b.num_bins.toNat _ i (by omega)).2.1, ?_⟩
    simp only [log_bin_fl]
    push_cast
    rfl
  · intro hmin i hi
    rw [set_bins_fl_log_bins fl log exp u b space hmin]
    obtain ⟨h0, hw, hlast⟩ := append_bins_entry b hempty b.num_bins.toNat
      (log_bin_fl fl exp b.bin_min (fl (fl (log b.bin_max - log b.bin_min) / (b.num_bins : α))))
      i (by omega)
    have him : i + 1 = b.num_bins.toNat := by omega
    refine ⟨_, _, h0, by rw [him]; exact hlast, hw, ?_⟩
    have hc : ((i : α) + 1) = (b.num_bins : α) := by
      have : ((i : Int) + 1 : Int) = b.num_bins := hi
      exact_mod_cast this
    simp only [log_bin_fl, hc]

end RoundedWidthClaims

/-- C26 as stated fails in binary64: ten bins over `[0, 1]` under `lin`.  The
width stored for the bin of index 2 is the rounded 1/10, while the edges
around it, the rounded `2 * dbin` and `3 * dbin`, differ by more. -/
theorem set_bins_lin_width_differs_in_binary64 :
    (1 : Int) ≤ (example_binning 0 1 10).num_bins ∧
    ((0 : ℚ) ≤ (example_binning 0 1 10).bin_min ∧
      (example_binning 0 1 10).bin_min < (example_binning 0 1 10).bin_max) ∧
    ((example_binning 0 1 10).set_bins_fl round_binary64 id id 0 "lin" "fourier").2.bin_edges[2]?
      = some (3602879701896397 / 2 ^ 54) ∧
    ((example_binning 0 1 10).set_bins_fl round_binary64 id id 0 "lin" "fourier").2.bin_edges[3]?
      = some (5404319552844596 / 2 ^ 54) ∧
    ((example_binning 0 1 10).set_bins_fl round_binary64 id id 0 "lin"
      "fourier").2.bin_widths[2]? = some (3602879701896397 / 2 ^ 55) ∧
    (3602879701896397 / 2 ^ 55 : ℚ) ≠ 5404319552844596 / 2 ^ 54 - 3602879701896397 / 2 ^ 54 := by
  have h10 : Int.toNat 10 = 10 := rfl
  have h1 : round_binary64 1 = 1 := by
    simpa using round_binary64_intCast 1 (by norm_num) (by norm_num)
  have hd : round_binary64 (1 / 10) = 3602879701896397 / 2 ^ 55 := by
    rw [round_binary64_eval (1 / 10) (-4) 7205759403792794 (by norm_num) (by norm_num)
      (by norm_num [round_half_even])]
    norm_num
  have hp2 : round_binary64 (3602879701896397 / 2 ^ 55 * 2) = 3602879701896397 / 2 ^ 54 := by
    rw [round_binary64_eval (3602879701896397 / 2 ^ 55 * 2) (-3) 7205759403792794
      (by norm_num) (by norm_num) (by norm_num [round_half_even])]
    norm_num
  have hp3 : round_binary64 (3602879701896397 / 2 ^ 55 * 3) = 5404319552844596 / 2 ^ 54 := by
    rw [round_binary64_eval (3602879701896397 / 2 ^ 55 * 3) (-2) 5404319552844596
      (by norm_num) (by norm_num) (by norm_num [round_half_even])]
    norm_num
  have he2 : round_binary64 (3602879701896397 / 2 ^ 54) = 3602879701896397 / 2 ^ 54 := by
    rw [round_binary64_eval (3602879701896397 / 2 ^ 54) (-3) 7205759403792794
      (by norm_num) (by norm_num) (by norm_num [round_half_even])]
    norm_num
  have he3 : round_binary64 (5404319552844596 / 2 ^ 54) = 5404319552844596 / 2 ^ 54 := by
    rw [round_binary64_eval (5404319552844596 / 2 ^ 54) (-2) 5404319552844596
      (by norm_num) (by norm_num) (by norm_num [round_half_even])]
    norm_num
  have hdbin : round_binary64 (round_binary64 ((1 : ℚ) - 0) / ((10 : Int) : ℚ)) =
      3602879701896397 / 2 ^ 55 := by
    rw [sub_zero, h1]
    simpa using hd
  have hentry := fun i hi => append_bins_entry (example_binning 0 1 10) ⟨rfl, rfl, rfl⟩ 10
    (lin_bin_fl round_binary64 0 (3602879701896397 / 2 ^ 55)) i hi
  have hform : (example_binning 0 1 10).set_bins_fl round_binary64 id id 0 "lin" "fourier" =
      (.ok (), (example_binning 0 1 10).append_bins ((List.range 10).map
        (lin_bin_fl round_binary64 0 (3602879701896397 / 2 ^ 55)))) := by
    rw [set_bins_fl_lin_bins]
    simp only [example_binning, h10]
    rw [hdbin]
  refine ⟨by decide, ⟨by norm_num [example_binning], by norm_num [example_binning]⟩,
    ?_, ?_, ?_, by norm_num⟩
  · rw [hform, (hentry 2 (by norm_num)).1]
    simp only [lin_bin_fl, Nat.cast_ofNat, hp2, zero_add, he2]
  · rw [hform, (hentry 3 (by norm_num)).1]
    simp only [lin_bin_fl, Nat.cast_ofNat, hp3, zero_add, he3]
  · rw [hform, (hentry 2 (by norm_num)).2.1]
    simp only [lin_bin_fl]

/-- Witness for C26, amended, in binary64: three bins over `[1, 8]` under
`lin` and `log` (with stand-ins for the two library functions), and five
bins over `[0, 10]` under `lin`, a run in which no operation rounds. -/
theorem set_bins_fl_lin_log_widths_witness :
    (1 : Int) ≤ (example_binning 1 8 3).num_bins ∧
    ((example_binning 1 8 3).set_bins_fl round_binary64 id id 0 "lin" "fourier").2.bin_widths[2]?
      = some (round_binary64 (round_binary64 (8 - 1) / 3)) ∧
    (∃ e₀ e₁ w,
      ((example_binning 1 8 3).set_bins_fl round_binary64 id id 0 "log"
        "fourier").2.bin_edges[0]? = some e₀ ∧
      ((example_binning 1 8 3).set_bins_fl round_binary64 id id 0 "log"
        "fourier").2.bin_edges[0 + 1]? = some e₁ ∧
      ((example_binning 1 8 3).set_bins_fl round_binary64 id id 0 "log"
        "fourier").2.bin_widths[0]? = some w ∧ w = round_binary64 (e₁ - e₀)) ∧
    (∃ e₀ e₁ w,
      ((example_binning 0 10 5).set_bins_fl round_binary64 id id 0 "lin"
        "fourier").2.bin_edges[4]? = some e₀ ∧
      ((example_binning 0 10 5).set_bins_fl round_binary64 id id 0 "lin"
        "fourier").2.bin_edges[4 + 1]? = some e₁ ∧
      ((example_binning 0 10 5).set_bins_fl round_binary64 id id 0 "lin"
        "fourier").2.bin_widths[4]? = some w ∧ w = e₁ - e₀) :=
  have h := set_bins_fl_lin_log_widths round_binary64 id id 0 (example_binning 1 8 3)
    "fourier" ⟨rfl, rfl, rfl⟩ (by decide)
  have h' := set_bins_fl_lin_log_widths round_binary64 id id 0 (example_binning 0 10 5)
    "fourier" ⟨rfl, rfl, rfl⟩ (by decide)
  ⟨by decide, h.1 2 (by decide), h.2.2.1 (by norm_num [example_binning]) 0 (by decide),
    h'.2.1 set_bins_fl_lin_binary64_exact 4 (by decide)⟩

section RoundedOrderTheorems

variable {α : Type} [LinearOrderedField α]

/-- The left edges of the rounded `log` loop do not decrease when `exp` does
not, the lowest edge is not negative and the step is not negative. -/
theorem log_bin_fl_edge_mono (fl exp : α → α) (hfl : IsRounding fl)
    (hexp : ∀ x y, x ≤ y → exp x ≤ exp y) (bin_min dln : α) (hb : 0 ≤ bin_min)
    (hd : 0 ≤ dln) (k : Nat) :
    (log_bin_fl fl exp bin_min dln k).1 ≤ (log_bin_fl fl exp bin_min dln (k + 1)).1 := by
  unfold log_bin_fl
  have hc : (k : α) ≤ ((k + 1 : Nat) : α) := by exact_mod_cast Nat.le_succ k
  have h1 : dln * (k : α) ≤ dln * ((k + 1 : Nat) : α) := mul_le_mul_of_nonneg_left hc hd
  exact hfl.1 _ _ (mul_le_mul_of_nonneg_left (hexp _ _ (hfl.1 _ _ h1)) hb)

/-- The first left edge of the rounded `log` loop is the rounded lowest edge
when `exp 0 = 1`. -/
theorem log_bin_fl_edge_zero (fl exp : α → α) (hfl : IsRounding fl) (hexp0 : exp 0 = 1)
    (bin_min dln : α) : (log_bin_fl fl exp bin_min dln 0).1 = fl bin_min := by
  simp [log_bin_fl, hfl.2.2, hexp0]

/-- Order of the left edges of the bins of a rounded padded scheme, from that
of the bins of its second loop. -/
theorem padded_bin_fl_edge_mono (fl : α → α) (hfl : IsRounding fl) (p : Nat) (w : α)
    (unpadded : Nat → α × α × α) (hw : 0 ≤ w) (hstart : (unpadded 0).1 = fl (w * (p : α)))
    (hstep : ∀ j, (unpadded j).1 ≤ (unpadded (j + 1)).1) (k : Nat) :
    (padded_bin_fl fl p w unpadded k).1 ≤ (padded_bin_fl fl p w unpadded (k + 1)).1 := by
  have hpadstep : ∀ i j : Nat, i ≤ j → fl (w * (i : α)) ≤ fl (w * (j : α)) := by
    intro i j hij
    have hc : (i : α) ≤ (j : α) := by exact_mod_cast hij
    exact hfl.1 _ _ (mul_le_mul_of_nonneg_left hc hw)
  unfold padded_bin_fl
  by_cases h1 : k + 1 < p
  · have h2 : k < p := by omega
    simp only [h1, h2, if_true]
    exact hpadstep k (k + 1) (by omega)
  · by_cases h2 : k < p
    · have h4 : k + 1 - p = 0 := by omega
      simp only [h1, h2, if_true, if_false, h4, hstart]
      exact hpadstep k p (by omega)
    · have h4 : k + 1 - p = (k - p) + 1 := by omega
      simp only [h1, h2, if_false, h4]
      exact hstep _

end RoundedOrderTheorems

section RoundedOrderClaims

variable {α : Type} [LinearOrderedField α]

/-- C27, amended.  Rounded arithmetic, starting from empty bin vectors.  The
left edges `set_bins` computes (every entry of `bin_edges` but the stored
`bin_max` that closes it) do not decrease, `edges[i] <= edges[i+1]` for
`i + 1 < num_bins`: under `lin` when `0 <= bin_min <= bin_max`; under `log` when
`0 < bin_min <= bin_max`; under `linpad` when `0 <= nbin_pad <= num_bins`,
the padding width is not negative and the rounded `width * nbin_pad` is at
most `bin_max`; under `logpad` when moreover that product is positive; for
the two logarithmic schemes with `exp` and `log` functions that do not
decrease (and `exp 0 = 1` for `logpad`), and for the two padded schemes with
`space` one of `fourier` and `config`.  Under `lin` with `bin_min < bin_max`
and under `linpad` with a positive width and `width * nbin_pad < bin_max`,
when no operation of the run rounds (the rounded run gives what the exact one
gives), all the edges, the closing `bin_max` included, are strictly
increasing. -/
theorem set_bins_fl_edges_ordered (fl log exp : α → α) (u : α) (b : Binning α)
    (space : String) (hfl : IsRounding fl)
    (hempty : b.bin_edges = [] ∧ b.bin_centres = [] ∧ b.bin_widths = []) :
    (0 ≤ b.bin_min → b.bin_min ≤ b.bin_max → ∀ i : Nat, (i : Int) + 1 < b.num_bins →
      ∃ e₀ e₁, (b.set_bins_fl fl log exp u "lin" space).2.bin_edges[i]? = some e₀ ∧
        (b.set_bins_fl fl log exp u "lin" space).2.bin_edges[i + 1]? = some e₁ ∧ e₀ ≤ e₁) ∧
    ((∀ x y, x ≤ y → exp x ≤ exp y) → (∀ x y, 0 < x → x ≤ y → log x ≤ log y) →
      0 < b.bin_min → b.bin_min ≤ b.bin_max → ∀ i : Nat, (i : Int) + 1 < b.num_bins →
      ∃ e₀ e₁, (b.set_bins_fl fl log exp u "log" space).2.bin_edges[i]? = some e₀ ∧
        (b.set_bins_fl fl log exp u "log" space).2.bin_edges[i + 1]? = some e₁ ∧ e₀ ≤ e₁) ∧
    (space = "fourier" ∨ space = "config" → 0 ≤ b.nbin_pad → b.nbin_pad ≤ b.num_bins →
      0 ≤ b.select_dbin_pad u space →
      fl (b.select_dbin_pad u space * (b.nbin_pad : α)) ≤ b.bin_max →
      ∀ i : Nat, (i : Int) + 1 < b.num_bins →
      ∃ e₀ e₁, (b.set_bins_fl fl log exp u "linpad" space).2.bin_edges[i]? = some e₀ ∧
        (b.set_bins_fl fl log exp u "linpad" space).2.bin_edges[i + 1]? = some e₁ ∧
        e₀ ≤ e₁) ∧
    ((∀ x y, x ≤ y → exp x ≤ exp y) → (∀ x y, 0 < x → x ≤ y → log x ≤ log y) →
      exp 0 = 1 → space = "fourier" ∨ space = "config" → 0 ≤ b.nbin_pad →
      b.nbin_pad ≤ b.num_bins → 0 ≤ b.select_dbin_pad u space →
      0 < fl (b.select_dbin_pad u space * (b.nbin_pad : α)) →
      fl (b.select_dbin_pad u space * (b.nbin_pad : α)) ≤ b.bin_max →
      ∀ i : Nat, (i : Int) + 1 < b.num_bins →
      ∃ e₀ e₁, (b.set_bins_fl fl log exp u "logpad" space).2.bin_edges[i]? = some e₀ ∧
        (b.set_bins_fl fl log exp u "logpad" space).2.bin_edges[i + 1]? = some e₁ ∧
        e₀ ≤ e₁) ∧
    (b.set_bins_fl fl log exp u "lin" space = b.set_bins log exp u "lin" space →
      b.bin_min < b.bin_max →
      (b.set_bins_fl fl log exp u "lin" space).2.bin_edges.Pairwise (· < ·)) ∧
    (b.set_bins_fl fl log exp u "linpad" space = b.set_bins log exp u "linpad" space →
      space = "fourier" ∨ space = "config" → 0 ≤ b.nbin_pad →
      0 < b.select_dbin_pad u space →
      b.select_dbin_pad u space * (b.nbin_pad : α) < b.bin_max →
      (b.set_bins_fl fl log exp u "linpad" space).2.bin_edges.Pairwise (· < ·)) := by
  have hcast : 0 ≤ b.nbin_pad → ((b.nbin_pad.toNat : Nat) : α) = (b.nbin_pad : α) := by
    intro h0
    rw [← Int.cast_natCast, Int.toNat_of_nonneg h0]
  have hcount : 0 ≤ b.nbin_pad → b.nbin_pad ≤ b.num_bins →
      b.nbin_pad.toNat + (b.num_bins - b.nbin_pad).toNat = b.num_bins.toNat := by
    intro h0 h1
    omega
  refine ⟨?_, ?_, ?_, ?_, ?_, ?_⟩
  · intro _ hrange i hi
    have hd := lin_dbin_fl_nonneg fl hfl b.bin_min b.bin_max b.num_bins (by omega) hrange
    rw [set_bins_fl_lin_bins]
    obtain ⟨h0, h1⟩ := append_bins_left_edges b hempty b.num_bins.toNat
      (lin_bin_fl fl b.bin_min (fl (fl (b.bin_max - b.bin_min) / (b.num_bins : α)))) i
      (by omega)
    exact ⟨_, _, h0, h1, lin_bin_fl_edge_mono fl hfl _ _ hd i (i + 1) (by omega)⟩
  · intro hexp hlog hmin hrange i hi
    have hd := lin_dbin_fl_nonneg fl hfl (log b.bin_min) (log b.bin_max) b.num_bins
      (by omega) (hlog _ _ hmin hrange)
    rw [set_bins_fl_log_bins fl log exp u b space (ne_of_gt hmin)]
    obtain ⟨h0, h1⟩ := append_bins_left_edges b hempty b.num_bins.toNat
      (log_bin_fl fl exp b.bin_min (fl (fl (log b.bin_max - log b.bin_min) / (b.num_bins : α))))
      i (by omega)
    exact ⟨_, _, h0, h1, log_bin_fl_edge_mono fl exp hfl hexp _ _ (le_of_lt hmin) hd i⟩
  · intro _ hp0 hpn hw hres i hi
    have hd := lin_dbin_fl_nonneg fl hfl (fl (b.select_dbin_pad u space * (b.nbin_pad : α)))
      b.bin_max (b.num_bins - b.nbin_pad) (by omega) hres
    rw [set_bins_fl_linpad_bins, hcount hp0 hpn]
    obtain ⟨h0, h1⟩ := append_bins_left_edges b hempty b.num_bins.toNat
      (padded_bin_fl fl b.nbin_pad.toNat (b.select_dbin_pad u space)
        (lin_bin_fl fl (fl (b.select_dbin_pad u space * (b.nbin_pad : α)))
          (fl (fl (b.bin_max - fl (b.select_dbin_pad u space * (b.nbin_pad : α))) /
            ((b.num_bins - b.nbin_pad : Int) : α))))) i (by omega)
    refine ⟨_, _, h0, h1, padded_bin_fl_edge_mono fl hfl _ _ _ hw ?_ ?_ i⟩
    · rw [lin_bin_fl_edge_zero fl hfl, hfl.2.1, hcast hp0]
    · intro j
      exact lin_bin_fl_edge_mono fl hfl _ _ hd j (j + 1) (by omega)
  · intro hexp hlog hexp0 _ hp0 hpn hw hpos hres i hi
    have hd := lin_dbin_fl_nonneg fl hfl
      (log (fl (b.select_dbin_pad u space * (b.nbin_pad : α)))) (log b.bin_max)
      (b.num_bins - b.nbin_pad) (by omega) (hlog _ _ hpos hres)
    rw [set_bins_fl_logpad_bins, hcount hp0 hpn]
    obtain ⟨h0, h1⟩ := append_bins_left_edges b hempty b.num_bins.toNat
      (padded_bin_fl fl b.nbin_pad.toNat (b.select_dbin_pad u space)
        (log_bin_fl fl exp (fl (b.select_dbin_pad u space * (b.nbin_pad : α)))
          (fl (fl (log b.bin_max - log (fl (b.select_dbin_pad u space * (b.nbin_pad : α)))) /
            ((b.num_bins - b.nbin_pad : Int) : α))))) i (by omega)
    refine ⟨_, _, h0, h1, padded_bin_fl_edge_mono fl hfl _ _ _ hw ?_ ?_ i⟩
    · rw [log_bin_fl_edge_zero fl exp hfl hexp0, hfl.2.1, hcast hp0]
    · intro j
      exact log_bin_fl_edge_mono fl exp hfl hexp _ _ (le_of_lt hpos) hd j
  · intro hexact hlt
    rw [hexact, set_bins_lin_bins]
    exact append_bins_pairwise b hempty _ _
      (fun k hk => (spec_lin_bin_edge_lt b.bin_min b.bin_max b.num_bins (by omega) hlt k).1)
      (fun k hk => (spec_lin_bin_edge_lt b.bin_min b.bin_max b.num_bins (by omega) hlt k).2 hk)
  · intro hexact _ hp0 hw hres
    rw [hexact, set_bins_linpad_bins]
    obtain ⟨h1, h2⟩ := spec_padded_bin_edge_lt b.nbin_pad.toNat (b.num_bins - b.nbin_pad).toNat
      (b.select_dbin_pad u space) b.bin_max
      (spec_lin_bin (b.select_dbin_pad u space * (b.nbin_pad : α))
        ((b.bin_max - b.select_dbin_pad u space * (b.nbin_pad : α)) /
          ((b.num_bins - b.nbin_pad : Int) : α)))
      hw (by rw [hcast hp0]; exact hres)
      (fun _ => by simp [spec_lin_bin, hcast hp0])
      (fun hq j => (spec_lin_bin_edge_lt _ b.bin_max (b.num_bins - b.nbin_pad) (by omega)
        hres j).1)
      (fun j hj => (spec_lin_bin_edge_lt _ b.bin_max (b.num_bins - b.nbin_pad) (by omega)
        hres j).2 hj)
    exact append_bins_pairwise b hempty _ _ h1 h2

end RoundedOrderClaims

/-- Witness for C27, amended, in binary64: four bins over `[1, 8]`, of which
one is padded with width 1 under `linpad` and `logpad` (with non-decreasing
stand-ins for the two library functions), and two runs in which no operation
rounds. -/
theorem set_bins_fl_edges_ordered_witness :
    IsRounding round_binary64 ∧
    ((∀ x y : ℚ, x ≤ y → x + 1 ≤ y + 1) ∧ (∀ x y : ℚ, 0 < x → x ≤ y → x - 1 ≤ y - 1) ∧
      (0 : ℚ) + 1 = 1) ∧
    ((0 : ℚ) < (example_binning_padded 1 8 1 4 1).bin_min ∧
      (example_binning_padded 1 8 1 4 1).bin_min ≤ (example_binning_padded 1 8 1 4 1).bin_max) ∧
    ((0 : Int) ≤ (example_binning_padded 1 8 1 4 1).nbin_pad ∧
      (example_binning_padded 1 8 1 4 1).nbin_pad ≤ (example_binning_padded 1 8 1 4 1).num_bins ∧
      (0 : ℚ) < round_binary64 ((example_binning_padded 1 8 1 4 1).select_dbin_pad 0 "fourier" *
        ((example_binning_padded 1 8 1 4 1).nbin_pad : ℚ)) ∧
      round_binary64 ((example_binning_padded 1 8 1 4 1).select_dbin_pad 0 "fourier" *
        ((example_binning_padded 1 8 1 4 1).nbin_pad : ℚ)) ≤
          (example_binning_padded 1 8 1 4 1).bin_max) ∧
    (∃ e₀ e₁,
      ((example_binning_padded 1 8 1 4 1).set_bins_fl round_binary64 (fun x => x - 1)
        (fun x => x + 1) 0 "lin" "fourier").2.bin_edges[2]? = some e₀ ∧
      ((example_binning_padded 1 8 1 4 1).set_bins_fl round_binary64 (fun x => x - 1)
        (fun x => x + 1) 0 "lin" "fourier").2.bin_edges[2 + 1]? = some e₁ ∧ e₀ ≤ e₁) ∧
    (∃ e₀ e₁,
      ((example_binning_padded 1 8 1 4 1).set_bins_fl round_binary64 (fun x => x - 1)
        (fun x => x + 1) 0 "log" "fourier").2.bin_edges[2]? = some e₀ ∧
      ((example_binning_padded 1 8 1 4 1).set_bins_fl round_binary64 (fun x => x - 1)
        (fun x => x + 1) 0 "log" "fourier").2.bin_edges[2 + 1]? = some e₁ ∧ e₀ ≤ e₁) ∧
    (∃ e₀ e₁,
      ((example_binning_padded 1 8 1 4 1).set_bins_fl round_binary64 (fun x => x - 1)
        (fun x => x + 1) 0 "linpad" "fourier").2.bin_edges[0]? = some e₀ ∧
      ((example_binning_padded 1 8 1 4 1).set_bins_fl round_binary64 (fun x => x - 1)
        (fun x => x + 1) 0 "linpad" "fourier").2.bin_edges[0 + 1]? = some e₁ ∧ e₀ ≤ e₁) ∧
    (∃ e₀ e₁,
      ((example_binning_padded 1 8 1 4 1).set_bins_fl round_binary64 (fun x => x - 1)
        (fun x => x + 1) 0 "logpad" "fourier").2.bin_edges[0]? = some e₀ ∧
      ((example_binning_padded 1 8 1 4 1).set_bins_fl round_binary64 (fun x => x - 1)
        (fun x => x + 1) 0 "logpad" "fourier").2.bin_edges[0 + 1]? = some e₁ ∧ e₀ ≤ e₁) ∧
    ((example_binning 0 10 5).set_bins_fl round_binary64 id id 0 "lin"
      "fourier").2.bin_edges.Pairwise (· < ·) ∧
    ((example_binning_padded 0 7 1 4 1).set_bins_fl round_binary64 id id 0 "linpad"
      "fourier").2.bin_edges.Pairwise (· < ·) := by
  have hexp : ∀ x y : ℚ, x ≤ y → x + 1 ≤ y + 1 := fun x y h => by linarith
  have hlog : ∀ x y : ℚ, 0 < x → x ≤ y → x - 1 ≤ y - 1 := fun x y _ h => by linarith
  have h1 : round_binary64 1 = 1 := round_binary64_upto_ten.2.1
  have hprod : round_binary64 ((example_binning_padded 1 8 1 4 1).select_dbin_pad 0 "fourier" *
      ((example_binning_padded 1 8 1 4 1).nbin_pad : ℚ)) = 1 := by
    norm_num [example_binning_padded, Binning.select_dbin_pad, h1]
  have hw : (0 : ℚ) ≤ (example_binning_padded 1 8 1 4 1).select_dbin_pad 0 "fourier" := by
    norm_num [example_binning_padded, Binning.select_dbin_pad]
  have hmin : (0 : ℚ) < (example_binning_padded 1 8 1 4 1).bin_min := by
    norm_num [example_binning_padded]
  have hrange : (example_binning_padded 1 8 1 4 1).bin_min ≤
      (example_binning_padded 1 8 1 4 1).bin_max := by
    norm_num [example_binning_padded]
  have hpos : (0 : ℚ) < round_binary64
      ((example_binning_padded 1 8 1 4 1).select_dbin_pad 0 "fourier" *
        ((example_binning_padded 1 8 1 4 1).nbin_pad : ℚ)) := by
    rw [hprod]; norm_num
  have hres : round_binary64 ((example_binning_padded 1 8 1 4 1).select_dbin_pad 0 "fourier" *
      ((example_binning_padded 1 8 1 4 1).nbin_pad : ℚ)) ≤
        (example_binning_padded 1 8 1 4 1).bin_max := by
    rw [hprod]; norm_num [example_binning_padded]
  have h := set_bins_fl_edges_ordered round_binary64 (fun x => x - 1) (fun x => x + 1) 0
    (example_binning_padded 1 8 1 4 1) "fourier" round_binary64_isRounding ⟨rfl, rfl, rfl⟩
  have hl := set_bins_fl_edges_ordered round_binary64 id id 0 (example_binning 0 10 5)
    "fourier" round_binary64_isRounding ⟨rfl, rfl, rfl⟩
  have hp := set_bins_fl_edges_ordered round_binary64 id id 0
    (example_binning_padded 0 7 1 4 1) "fourier" round_binary64_isRounding ⟨rfl, rfl, rfl⟩
  exact ⟨round_binary64_isRounding, ⟨hexp, hlog, by norm_num⟩, ⟨hmin, hrange⟩,
    ⟨by decide, by decide, hpos, hres⟩,
    h.1 (le_of_lt hmin) hrange 2 (by decide),
    h.2.1 hexp hlog hmin hrange 2 (by decide),
    h.2.2.1 (Or.inl rfl) (by decide) (by decide) hw hres 0 (by decide),
    h.2.2.2.1 hexp hlog (by norm_num) (Or.inl rfl) (by decide) (by decide) hw hpos hres 0
      (by decide),
    hl.2.2.2.2.1 set_bins_fl_lin_binary64_exact (by norm_num [example_binning]),
    hp.2.2.2.2.2 set_bins_fl_linpad_binary64_exact (Or.inl rfl) (by decide)
      (by norm_num [example_binning_padded, Binning.select_dbin_pad])
      (by norm_num [example_binning_padded, Binning.select_dbin_pad])⟩

section RoundedPaddedClaims

variable {α : Type} [LinearOrderedField α]

/-- The width of a bin of the rounded `log` loop is the rounded difference of
its left edge and the next. -/
theorem log_bin_fl_width (fl exp : α → α) (bin_min dln : α) (k : Nat) :
    (log_bin_fl fl exp bin_min dln k).2.2 =
      fl ((log_bin_fl fl exp bin_min dln (k + 1)).1 - (log_bin_fl fl exp bin_min dln k).1) := by
  simp only [log_bin_fl]
  push_cast
  rfl

/-- C30, amended.  Rounded arithmetic, starting from empty bin vectors, under
`linpad` and `logpad` with `0 <= nbin_pad`.  A padded bin (`i < nbin_pad`) has
the left edge `fl (width * i)` and the padding width as its width.  Under
`linpad` every unpadded bin has the one rounded quotient `dbin` as its width.
Under `logpad` an unpadded bin other than the last has the rounded
difference of the edges around it as its width, `widths[i] = fl (edges[i+1]
- edges[i])`.  Under `linpad` with `nbin_pad < num_bins`, when no operation of
the run rounds (the rounded run gives what the exact one gives),
`widths[i] = edges[i+1] - edges[i]` for every `i < num_bins`, the bin at the
boundary between the padded and the unpadded part and the last bin included.
When `1 <= nbin_pad = num_bins`, under either scheme, the last bin has the
padding width as its width, the left edge `fl (width * (num_bins - 1))` and
the right edge `bin_max`. -/
theorem set_bins_fl_padded_widths (fl log exp : α → α) (u : α) (b : Binning α)
    (space : String)
    (hempty : b.bin_edges = [] ∧ b.bin_centres = [] ∧ b.bin_widths = [])
    (hpad : 0 ≤ b.nbin_pad) :
    (∀ scheme : String, scheme = "linpad" ∨ scheme = "logpad" →
      ∀ i : Nat, (i : Int) < b.nbin_pad →
        (b.set_bins_fl fl log exp u scheme space).2.bin_edges[i]? =
          some (fl (b.select_dbin_pad u space * (i : α))) ∧
        (b.set_bins_fl fl log exp u scheme space).2.bin_widths[i]? =
          some (b.select_dbin_pad u space)) ∧
    (∀ i : Nat, b.nbin_pad ≤ (i : Int) → (i : Int) < b.num_bins →
      (b.set_bins_fl fl log exp u "linpad" space).2.bin_widths[i]? =
        some (fl (fl (b.bin_max - fl (b.select_dbin_pad u space * (b.nbin_pad : α))) /
          ((b.num_bins - b.nbin_pad : Int) : α)))) ∧
    (∀ i : Nat, b.nbin_pad ≤ (i : Int) → (i : Int) + 1 < b.num_bins →
      ∃ e₀ e₁ w, (b.set_bins_fl fl log exp u "logpad" space).2.bin_edges[i]? = some e₀ ∧
        (b.set_bins_fl fl log exp u "logpad" space).2.bin_edges[i + 1]? = some e₁ ∧
        (b.set_bins_fl fl log exp u "logpad" space).2.bin_widths[i]? = some w ∧
        w = fl (e₁ - e₀)) ∧
    (b.set_bins_fl fl log exp u "linpad" space = b.set_bins log exp u "linpad" space →
      b.nbin_pad < b.num_bins →
      ∀ i : Nat, (i : Int) < b.num_bins →
        ∃ e₀ e₁ w, (b.set_bins_fl fl log exp u "linpad" space).2.bin_edges[i]? = some e₀ ∧
          (b.set_bins_fl fl log exp u "linpad" space).2.bin_edges[i + 1]? = some e₁ ∧
          (b.set_bins_fl fl log exp u "linpad" space).2.bin_widths[i]? = some w ∧
          w = e₁ - e₀) ∧
    (∀ scheme : String, scheme = "linpad" ∨ scheme = "logpad" →
      1 ≤ b.nbin_pad ∧ b.nbin_pad = b.num_bins →
      (b.set_bins_fl fl log exp u scheme space).2.bin_widths[(b.num_bins - 1).toNat]? =
          some (b.select_dbin_pad u space) ∧
        (b.set_bins_fl fl log exp u scheme space).2.bin_edges[(b.num_bins - 1).toNat]? =
          some (fl (b.select_dbin_pad u space * ((b.num_bins : α) - 1))) ∧
        (b.set_bins_fl fl log exp u scheme space).2.bin_edges[(b.num_bins - 1).toNat + 1]? =
          some b.bin_max) := by
  have hcast : ((b.nbin_pad.toNat : Nat) : α) = (b.nbin_pad : α) := by
    rw [← Int.cast_natCast, Int.toNat_of_nonneg hpad]
  have hform : ∀ scheme : String, scheme = "linpad" ∨ scheme = "logpad" →
      ∃ unpadded : Nat → α × α × α, b.set_bins_fl fl log exp u scheme space =
        (.ok (), b.append_bins
          ((List.range (b.nbin_pad.toNat + (b.num_bins - b.nbin_pad).toNat)).map
            (padded_bin_fl fl b.nbin_pad.toNat (b.select_dbin_pad u space) unpadded))) := by
    intro scheme hscheme
    rcases hscheme with hs | hs
    · exact ⟨_, by rw [hs, set_bins_fl_linpad_bins]⟩
    · exact ⟨_, by rw [hs, set_bins_fl_logpad_bins]⟩
  refine ⟨?_, ?_, ?_, ?_, ?_⟩
  · intro scheme hscheme i hi
    obtain ⟨unpadded, hrun⟩ := hform scheme hscheme
    rw [hrun]
    obtain ⟨he, hw, -⟩ := append_bins_entry b hempty
      (b.nbin_pad.toNat + (b.num_bins - b.nbin_pad).toNat)
      (padded_bin_fl fl b.nbin_pad.toNat (b.select_dbin_pad u space) unpadded) i (by omega)
    have hip : i < b.nbin_pad.toNat := by omega
    rw [he, hw]
    simp only [padded_bin_fl, hip, if_true, and_self]
  · intro i hlo hhi
    rw [set_bins_fl_linpad_bins]
    have hip : ¬ i < b.nbin_pad.toNat := by omega
    rw [(append_bins_entry b hempty (b.nbin_pad.toNat + (b.num_bins - b.nbin_pad).toNat) _ i
      (by omega)).2.1]
    simp only [padded_bin_fl, hip, if_false, lin_bin_fl]
  · intro i hlo hhi
    rw [set_bins_fl_logpad_bins]
    have hip : ¬ i < b.nbin_pad.toNat := by omega
    have hip1 : ¬ i + 1 < b.nbin_pad.toNat := by omega
    have hsub : i + 1 - b.nbin_pad.toNat = (i - b.nbin_pad.toNat) + 1 := by omega
    obtain ⟨h0, h1⟩ := append_bins_left_edges b hempty
      (b.nbin_pad.toNat + (b.num_bins - b.nbin_pad).toNat)
      (padded_bin_fl fl b.nbin_pad.toNat (b.select_dbin_pad u space)
        (log_bin_fl fl exp (fl (b.select_dbin_pad u space * (b.nbin_pad : α)))
          (fl (fl (log b.bin_max - log (fl (b.select_dbin_pad u space * (b.nbin_pad : α)))) /
            ((b.num_bins - b.nbin_pad : Int) : α))))) i (by omega)
    refine ⟨_, _, _, h0, h1, (append_bins_entry b hempty
      (b.nbin_pad.toNat + (b.num_bins - b.nbin_pad).toNat) _ i (by omega)).2.1, ?_⟩
    simp only [padded_bin_fl, hip, hip1, if_false, hsub]
    exact log_bin_fl_width fl exp _ _ _
  · intro hexact hpn i hi
    rw [hexact, set_bins_linpad_bins]
    obtain ⟨h1, h2⟩ := spec_padded_bin_width b.nbin_pad.toNat (b.num_bins - b.nbin_pad).toNat
      (b.select_dbin_pad u space) b.bin_max
      (spec_lin_bin (b.select_dbin_pad u space * (b.nbin_pad : α))
        ((b.bin_max - b.select_dbin_pad u space * (b.nbin_pad : α)) /
          ((b.num_bins - b.nbin_pad : Int) : α)))
      (by omega) (by simp [spec_lin_bin, hcast])
      (fun j => (spec_lin_bin_width _ b.bin_max (b.num_bins - b.nbin_pad) (by omega) j).1)
      (fun j hj => (spec_lin_bin_width _ b.bin_max (b.num_bins - b.nbin_pad) (by omega) j).2 hj)
    exact append_bins_widths b hempty _ _ h1 h2 i (by omega)
  · intro scheme hscheme hall
    obtain ⟨hp1, hpn⟩ := hall
    obtain ⟨unpadded, hrun⟩ := hform scheme hscheme
    have hq : b.nbin_pad.toNat + (b.num_bins - b.nbin_pad).toNat = b.nbin_pad.toNat := by omega
    have hlastidx : (b.num_bins - 1).toNat < b.nbin_pad.toNat := by omega
    have hidx : (((b.num_bins - 1).toNat : Nat) : α) = (b.num_bins : α) - 1 := by
      rw [← Int.cast_natCast, Int.toNat_of_nonneg (by omega)]
      push_cast
      rfl
    have hlen : (b.num_bins - 1).toNat + 1 = b.nbin_pad.toNat := by omega
    rw [hrun, hq]
    obtain ⟨he, hw, hlast⟩ := append_bins_entry b hempty b.nbin_pad.toNat
      (padded_bin_fl fl b.nbin_pad.toNat (b.select_dbin_pad u space) unpadded)
      (b.num_bins - 1).toNat hlastidx
    refine ⟨?_, ?_, ?_⟩
    · rw [hw]
      simp only [padded_bin_fl, hlastidx, if_true]
    · rw [he]
      simp only [padded_bin_fl, hlastidx, if_true, hidx]
    · rw [hlen]
      exact hlast

end RoundedPaddedClaims

/-- Witness for C30, amended, in binary64: four bins up to 8 of which one is
padded with width 1, under `linpad` and `logpad` (with stand-ins for the two
library functions); four bins up to 7 of which one is padded, a run in which
no operation rounds, at the bin on the boundary; and two bins up to 4, both
padded. -/
theorem set_bins_fl_padded_widths_witness :
    (0 : Int) ≤ (example_binning_padded 0 8 1 4 1).nbin_pad ∧
    (((example_binning_padded 0 8 1 4 1).set_bins_fl round_binary64 id id 0 "logpad"
        "fourier").2.bin_edges[0]? =
        some (round_binary64
          ((example_binning_padded 0 8 1 4 1).select_dbin_pad 0 "fourier" * ((0 : Nat) : ℚ))) ∧
      ((example_binning_padded 0 8 1 4 1).set_bins_fl round_binary64 id id 0 "logpad"
        "fourier").2.bin_widths[0]? =
        some ((example_binning_padded 0 8 1 4 1).select_dbin_pad 0 "fourier")) ∧
    (∃ e₀ e₁ w,
      ((example_binning_padded 0 8 1 4 1).set_bins_fl round_binary64 id id 0 "logpad"
        "fourier").2.bin_edges[1]? = some e₀ ∧
      ((example_binning_padded 0 8 1 4 1).set_bins_fl round_binary64 id id 0 "logpad"
        "fourier").2.bin_edges[1 + 1]? = some e₁ ∧
      ((example_binning_padded 0 8 1 4 1).set_bins_fl round_binary64 id id 0 "logpad"
        "fourier").2.bin_widths[1]? = some w ∧ w = round_binary64 (e₁ - e₀)) ∧
    (∃ e₀ e₁ w,
      ((example_binning_padded 0 7 1 4 1).set_bins_fl round_binary64 id id 0 "linpad"
        "fourier").2.bin_edges[0]? = some e₀ ∧
      ((example_binning_padded 0 7 1 4 1).set_bins_fl round_binary64 id id 0 "linpad"
        "fourier").2.bin_edges[0 + 1]? = some e₁ ∧
      ((example_binning_padded 0 7 1 4 1).set_bins_fl round_binary64 id id 0 "linpad"
        "fourier").2.bin_widths[0]? = some w ∧ w = e₁ - e₀) ∧
    ((example_binning_padded 0 4 1 2 2).set_bins_fl round_binary64 id id 0 "linpad"
        "fourier").2.bin_edges[(2 - 1 : Int).toNat + 1]? = some 4 :=
  have h := set_bins_fl_padded_widths round_binary64 id id 0 (example_binning_padded 0 8 1 4 1)
    "fourier" ⟨rfl, rfl, rfl⟩ (by decide)
  have he := set_bins_fl_padded_widths round_binary64 id id 0
    (example_binning_padded 0 7 1 4 1) "fourier" ⟨rfl, rfl, rfl⟩ (by decide)
  have ha := set_bins_fl_padded_widths round_binary64 id id 0
    (example_binning_padded 0 4 1 2 2) "fourier" ⟨rfl, rfl, rfl⟩ (by decide)
  ⟨by decide, h.1 "logpad" (Or.inr rfl) 0 (by decide),
    h.2.2.1 1 (by decide) (by decide),
    he.2.2.2.1 set_bins_fl_linpad_binary64_exact (by decide) 0 (by decide),
    (ha.2.2.2.2 "linpad" (Or.inl rfl) ⟨by decide, by decide⟩).2.2⟩

/-! ### Rounded periodic wrap -/

section RoundedWrapTheorems

variable {α : Type} [LinearOrderedField α]

/-- With no rounding, the rounded wrap is the exact one. -/
theorem wrap_coord_fl_id (pos boxsize : α) : wrap_coord_fl id pos boxsize = wrap_coord pos boxsize :=
  rfl

/-- The rounded wrap of a coordinate within one box length of the box lies in
the closed interval `[0, L]`. -/
theorem wrap_coord_fl_mem (fl : α → α) (hfl : IsRounding fl) (pos boxsize : α)
    (hbox : fl boxsize = boxsize) (hlo : -boxsize ≤ pos) (hhi : pos < 2 * boxsize) :
    0 ≤ wrap_coord_fl fl pos boxsize ∧ wrap_coord_fl fl pos boxsize ≤ boxsize := by
  unfold wrap_coord_fl
  split_ifs with h1 h2
  · constructor
    · exact hfl.nonneg (by linarith)
    · have := hfl.1 (pos - boxsize) boxsize (by linarith)
      rwa [hbox] at this
  · constructor
    · exact hfl.nonneg (by linarith)
    · have := hfl.1 (pos + boxsize) boxsize (by linarith)
      rwa [hbox] at this
  · push_neg at h1 h2
    exact ⟨h2, le_of_lt h1⟩

/-- A coordinate in `[0, L)` is left where it is. -/
theorem wrap_coord_fl_of_mem (fl : α → α) (pos boxsize : α) (hlo : 0 ≤ pos)
    (hhi : pos < boxsize) : wrap_coord_fl fl pos boxsize = pos := by
  unfold wrap_coord_fl
  rw [if_neg (not_le.mpr hhi), if_neg (not_lt.mpr hlo)]

/-- A coordinate equal to the box side is wrapped to 0. -/
theorem wrap_coord_fl_boxsize (fl : α → α) (hfl : IsRounding fl) (boxsize : α) :
    wrap_coord_fl fl boxsize boxsize = 0 := by
  unfold wrap_coord_fl
  rw [if_pos (le_refl _), sub_self, hfl.2.2]

/-- The rounded wrap of a coordinate of `[0, L]` lies in `[0, L)`. -/
theorem wrap_coord_fl_of_mem_closed (fl : α → α) (hfl : IsRounding fl) (pos boxsize : α)
    (hbox : 0 < boxsize) (hlo : 0 ≤ pos) (hhi : pos ≤ boxsize) :
    0 ≤ wrap_coord_fl fl pos boxsize ∧ wrap_coord_fl fl pos boxsize < boxsize := by
  rcases eq_or_lt_of_le hhi with heq | hlt
  · rw [heq, wrap_coord_fl_boxsize fl hfl]
    exact ⟨le_refl _, hbox⟩
  · rw [wrap_coord_fl_of_mem fl pos boxsize hlo hlt]
    exact ⟨hlo, hlt⟩

/-- The particles after the rounded `offset_particles_for_periodicity`. -/
theorem offset_particles_for_periodicity_fl_particles (fl : α → α) (c : ParticleCatalogue α)
    (params : ParameterSet α) :
    (c.offset_particles_for_periodicity_fl fl params).2.particles =
      c.particles.map fun (p : ParticleData α) =>
        { p with pos := ⟨wrap_coord_fl fl p.pos.x params.boxsize.x,
                         wrap_coord_fl fl p.pos.y params.boxsize.y,
                         wrap_coord_fl fl p.pos.z params.boxsize.z⟩ } := by
  simp only [ParticleCatalogue.offset_particles_for_periodicity_fl, calc_min_and_max_particles]

/-- When the rounded `offset_particles_for_periodicity` has put every
coordinate in `[0, L)`, a second application changes nothing. -/
theorem offset_particles_for_periodicity_fl_fixed (fl : α → α) (c : ParticleCatalogue α)
    (params : ParameterSet α)
    (hin : ∀ p ∈ (c.offset_particles_for_periodicity_fl fl params).2.particles,
      (0 ≤ p.pos.x ∧ p.pos.x < params.boxsize.x) ∧
      (0 ≤ p.pos.y ∧ p.pos.y < params.boxsize.y) ∧
      (0 ≤ p.pos.z ∧ p.pos.z < params.boxsize.z)) :
    ((c.offset_particles_for_periodicity_fl fl params).2.offset_particles_for_periodicity_fl fl
        params).2 = (c.offset_particles_for_periodicity_fl fl params).2 := by
  have hfix : ((c.offset_particles_for_periodicity_fl fl params).2.particles.map
      fun (p : ParticleData α) =>
        { p with pos := ⟨wrap_coord_fl fl p.pos.x params.boxsize.x,
                         wrap_coord_fl fl p.pos.y params.boxsize.y,
                         wrap_coord_fl fl p.pos.z params.boxsize.z⟩ }) =
      (c.offset_particles_for_periodicity_fl fl params).2.particles := by
    conv_rhs => rw [← List.map_id (c.offset_particles_for_periodicity_fl fl params).2.particles]
    apply List.map_congr_left
    intro p hp
    obtain ⟨⟨hx1, hx2⟩, ⟨hy1, hy2⟩, ⟨hz1, hz2⟩⟩ := hin p hp
    simp only [wrap_coord_fl_of_mem fl _ _ hx1 hx2, wrap_coord_fl_of_mem fl _ _ hy1 hy2,
      wrap_coord_fl_of_mem fl _ _ hz1 hz2, id]
  have hstep : ∀ d : ParticleCatalogue α,
      (d.offset_particles_for_periodicity_fl fl params).2 =
        ({ d with particles := d.particles.map fun (p : ParticleData α) =>
            { p with pos := ⟨wrap_coord_fl fl p.pos.x params.boxsize.x,
                             wrap_coord_fl fl p.pos.y params.boxsize.y,
                             wrap_coord_fl fl p.pos.z params.boxsize.z⟩ } } :
          ParticleCatalogue α).calc_min_and_max.2 := fun _ => rfl
  rw [hstep (c.offset_particles_for_periodicity_fl fl params).2, hfix]
  exact calc_min_and_max_idem _

end RoundedWrapTheorems

section RoundedWrapClaims

variable {α : Type} [LinearOrderedField α]

/-- C19, amended.  The rounded `offset_particles_for_periodicity` returns 0
and replaces each coordinate of each particle by its wrap, keeping weight and
index.  For a box side `L > 0` that is a value of the rounding, the wrap of a
coordinate `x` with `-L <= x < 2L` lies in the closed interval `[0, L]` and
is the rounded `x - L` if `x >= L`, the rounded `x + L` if `x < 0` and `x`
otherwise; it lies in `[0, L)` whenever the operation made does not round
(the rounded wrap is the exact one).  The wrap of a coordinate `x >= 2L` is
at least `L`, outside `[0, L)`; the wrap of a coordinate `x < -L` is at most
0, and negative whenever the addition does not round. -/
theorem offset_particles_for_periodicity_fl_wraps (fl : α → α) (hfl : IsRounding fl)
    (c : ParticleCatalogue α) (params : ParameterSet α) :
    (c.offset_particles_for_periodicity_fl fl params).1 = 0 ∧
    (∀ (i : Nat) (p : ParticleData α), c.particles[i]? = some p →
      (c.offset_particles_for_periodicity_fl fl params).2.particles[i]? =
        some ⟨⟨wrap_coord_fl fl p.pos.x params.boxsize.x,
          wrap_coord_fl fl p.pos.y params.boxsize.y,
          wrap_coord_fl fl p.pos.z params.boxsize.z⟩, p.w⟩) ∧
    (∀ L x : α, 0 < L → fl L = L → -L ≤ x → x < 2 * L →
      (0 ≤ wrap_coord_fl fl x L ∧ wrap_coord_fl fl x L ≤ L) ∧
      (L ≤ x → wrap_coord_fl fl x L = fl (x - L)) ∧
      (x < 0 → wrap_coord_fl fl x L = fl (x + L)) ∧
      (0 ≤ x → x < L → wrap_coord_fl fl x L = x) ∧
      (wrap_coord_fl fl x L = wrap_coord x L → wrap_coord_fl fl x L < L)) ∧
    (∀ L x : α, 0 < L → fl L = L → 2 * L ≤ x → L ≤ wrap_coord_fl fl x L) ∧
    (∀ L x : α, 0 < L → x < -L →
      wrap_coord_fl fl x L ≤ 0 ∧
      (wrap_coord_fl fl x L = wrap_coord x L → wrap_coord_fl fl x L < 0)) := by
  refine ⟨rfl, ?_, ?_, ?_, ?_⟩
  · intro i p hi
    rw [offset_particles_for_periodicity_fl_particles, List.getElem?_map, hi]
    rfl
  · intro L x hL hrep hlo hhi
    refine ⟨wrap_coord_fl_mem fl hfl x L hrep hlo hhi, ?_, ?_, ?_, ?_⟩
    · intro h
      simp [wrap_coord_fl, h]
    · intro h
      have h' : ¬ (L ≤ x) := by
        intro hle
        linarith
      simp [wrap_coord_fl, h, h']
    · intro h0 h1
      exact wrap_coord_fl_of_mem fl x L h0 h1
    · intro hexact
      rw [hexact]
      exact (wrap_coord_mem x L hlo hhi).2
  · intro L x hL hrep hx
    have h1 : L ≤ x := by linarith
    have h2 := hfl.1 L (x - L) (by linarith)
    rw [hrep] at h2
    simpa [wrap_coord_fl, h1] using h2
  · intro L x hL hx
    have h1 : ¬ (L ≤ x) := by
      intro hle
      linarith
    have h2 : x < 0 := by linarith
    constructor
    · simpa [wrap_coord_fl, h1, h2] using hfl.nonpos (le_of_lt (by linarith : x + L < 0))
    · intro hexact
      rw [hexact]
      simp only [wrap_coord, ge_iff_le, h1, h2, if_false, if_true]
      linarith

/-- C4, amended.  In rounded arithmetic, with box sides `L > 0` that are
values of the rounding, on a catalogue whose coordinates are displaced by at
most one box length (`-L <= x < 2L` on each axis): the first application of
`offset_particles_for_periodicity` puts every coordinate in `[0, L]`; when it
puts none at `L` itself, a second application leaves the catalogue (positions
and cached bounds) as the first one made it; and in every case a third
application leaves the catalogue as the second one made it. -/
theorem offset_particles_for_periodicity_fl_idempotent_within_one_box (fl : α → α)
    (hfl : IsRounding fl) (c : ParticleCatalogue α) (params : ParameterSet α)
    (hbox : 0 < params.boxsize.x ∧ 0 < params.boxsize.y ∧ 0 < params.boxsize.z)
    (hrep : fl params.boxsize.x = params.boxsize.x ∧ fl params.boxsize.y = params.boxsize.y ∧
      fl params.boxsize.z = params.boxsize.z)
    (hpos : ∀ p ∈ c.particles,
      (-params.boxsize.x ≤ p.pos.x ∧ p.pos.x < 2 * params.boxsize.x) ∧
      (-params.boxsize.y ≤ p.pos.y ∧ p.pos.y < 2 * params.boxsize.y) ∧
      (-params.boxsize.z ≤ p.pos.z ∧ p.pos.z < 2 * params.boxsize.z)) :
    (∀ p ∈ (c.offset_particles_for_periodicity_fl fl params).2.particles,
      (0 ≤ p.pos.x ∧ p.pos.x ≤ params.boxsize.x) ∧
      (0 ≤ p.pos.y ∧ p.pos.y ≤ params.boxsize.y) ∧
      (0 ≤ p.pos.z ∧ p.pos.z ≤ params.boxsize.z)) ∧
    ((∀ p ∈ (c.offset_particles_for_periodicity_fl fl params).2.particles,
        p.pos.x ≠ params.boxsize.x ∧ p.pos.y ≠ params.boxsize.y ∧
          p.pos.z ≠ params.boxsize.z) →
      ((c.offset_particles_for_periodicity_fl fl params).2.offset_particles_for_periodicity_fl
        fl params).2 = (c.offset_particles_for_periodicity_fl fl params).2) ∧
    ((((c.offset_particles_for_periodicity_fl fl params).2.offset_particles_for_periodicity_fl
        fl params).2.offset_particles_for_periodicity_fl fl params).2 =
      ((c.offset_particles_for_periodicity_fl fl params).2.offset_particles_for_periodicity_fl
        fl params).2) := by
  obtain ⟨hbx, hby, hbz⟩ := hbox
  obtain ⟨hrx, hry, hrz⟩ := hrep
  have hfirst : ∀ p ∈ (c.offset_particles_for_periodicity_fl fl params).2.particles,
      (0 ≤ p.pos.x ∧ p.pos.x ≤ params.boxsize.x) ∧
      (0 ≤ p.pos.y ∧ p.pos.y ≤ params.boxsize.y) ∧
      (0 ≤ p.pos.z ∧ p.pos.z ≤ params.boxsize.z) := by
    intro p hp
    rw [offset_particles_for_periodicity_fl_particles, List.mem_map] at hp
    obtain ⟨q, hq, rfl⟩ := hp
    obtain ⟨⟨hx1, hx2⟩, ⟨hy1, hy2⟩, ⟨hz1, hz2⟩⟩ := hpos q hq
    exact ⟨wrap_coord_fl_mem fl hfl _ _ hrx hx1 hx2, wrap_coord_fl_mem fl hfl _ _ hry hy1 hy2,
      wrap_coord_fl_mem fl hfl _ _ hrz hz1 hz2⟩
  refine ⟨hfirst, ?_, ?_⟩
  · intro hne
    apply offset_particles_for_periodicity_fl_fixed
    intro p hp
    obtain ⟨⟨hx1, hx2⟩, ⟨hy1, hy2⟩, ⟨hz1, hz2⟩⟩ := hfirst p hp
    obtain ⟨hnx, hny, hnz⟩ := hne p hp
    exact ⟨⟨hx1, lt_of_le_of_ne hx2 hnx⟩, ⟨hy1, lt_of_le_of_ne hy2 hny⟩,
      ⟨hz1, lt_of_le_of_ne hz2 hnz⟩⟩
  · apply offset_particles_for_periodicity_fl_fixed
    intro p hp
    rw [offset_particles_for_periodicity_fl_particles, List.mem_map] at hp
    obtain ⟨q, hq, rfl⟩ := hp
    obtain ⟨⟨hx1, hx2⟩, ⟨hy1, hy2⟩, ⟨hz1, hz2⟩⟩ := hfirst q hq
    exact ⟨wrap_coord_fl_of_mem_closed fl hfl _ _ hbx hx1 hx2,
      wrap_coord_fl_of_mem_closed fl hfl _ _ hby hy1 hy2,
      wrap_coord_fl_of_mem_closed fl hfl _ _ hbz hz1 hz2⟩

end RoundedWrapClaims

/-- In binary64 the number `-2^(-57)` is a value, and adding 20 to it gives
20: the wrap of this coordinate in a box of side 20 is the box side. -/
theorem wrap_coord_fl_binary64_boxsize :
    round_binary64 (-(1 / 2 ^ 57)) = -(1 / 2 ^ 57) ∧
    wrap_coord_fl round_binary64 (-(1 / 2 ^ 57)) 20 = 20 := by
  have hx : round_binary64 (1 / 2 ^ 57) = 1 / 2 ^ 57 := by
    rw [round_binary64_eval (1 / 2 ^ 57) (-57) 4503599627370496 (by norm_num) (by norm_num)
      (by norm_num [round_half_even])]
    norm_num
  have hsum : round_binary64 (-(1 / 2 ^ 57) + 20) = 20 := by
    rw [round_binary64_eval (-(1 / 2 ^ 57) + 20) 4 5629499534213120 (by norm_num)
      (by norm_num) (by norm_num [round_half_even])]
    norm_num
  refine ⟨by rw [round_binary64_neg, hx], ?_⟩
  have h1 : ¬ ((20 : ℚ) ≤ -(1 / 2 ^ 57)) := by norm_num
  have h2 : (-(1 / 2 ^ 57) : ℚ) < 0 := by norm_num
  simp only [wrap_coord_fl, ge_iff_le, h1, h2, if_false, if_true, hsum]

/-- C19 as stated fails in binary64: in a box of side 20 the coordinate
`x = -2^(-57)`, which lies within one box length of the box, is moved to
`x + 20`, which rounds to 20, outside `[0, 20)`. -/
theorem offset_particles_for_periodicity_leaves_box_in_binary64 :
    ((0 : ℚ) < 20 ∧ -(20 : ℚ) ≤ -(1 / 2 ^ 57) ∧ (-(1 / 2 ^ 57) : ℚ) < 2 * 20) ∧
    (round_binary64 (-(1 / 2 ^ 57)) = -(1 / 2 ^ 57) ∧ round_binary64 20 = 20) ∧
    ((example_catalogue [⟨⟨-(1 / 2 ^ 57), 0, 0⟩, 1⟩]).offset_particles_for_periodicity_fl
      round_binary64 (example_params "sim" "powspec" "2pt" "none")).2.particles =
        [⟨⟨20, 0, 0⟩, 1⟩] ∧
    ¬ ((20 : ℚ) < (example_params "sim" "powspec" "2pt" "none").boxsize.x) := by
  refine ⟨⟨by norm_num, by norm_num, by norm_num⟩,
    ⟨wrap_coord_fl_binary64_boxsize.1, round_binary64_box_values.1⟩, ?_,
    by norm_num [example_params]⟩
  rw [offset_particles_for_periodicity_fl_particles]
  have h0 : ∀ L : ℚ, 0 < L → wrap_coord_fl round_binary64 0 L = 0 := fun L hL =>
    wrap_coord_fl_of_mem round_binary64 0 L (le_refl _) hL
  simp only [example_catalogue, example_params, List.map_cons, List.map_nil,
    wrap_coord_fl_binary64_boxsize.2, h0 20 (by norm_num), h0 10 (by norm_num)]

/-- Witness for C19, amended, in binary64: box side 20 with the coordinates
25, -5, 45 and -25, and the particle at `(25, -5, 7)`. -/
theorem offset_particles_for_periodicity_fl_wraps_witness :
    IsRounding round_binary64 ∧
    ((example_catalogue [⟨⟨25, -5, 7⟩, 1⟩]).offset_particles_for_periodicity_fl round_binary64
      (example_params "sim" "powspec" "2pt" "none")).2.particles[0]? =
        some ⟨⟨wrap_coord_fl round_binary64 25 20, wrap_coord_fl round_binary64 (-5) 20,
          wrap_coord_fl round_binary64 7 10⟩, 1⟩ ∧
    ((0 ≤ wrap_coord_fl round_binary64 25 20 ∧ wrap_coord_fl round_binary64 25 20 ≤ 20) ∧
      wrap_coord_fl round_binary64 25 20 = round_binary64 (25 - 20)) ∧
    wrap_coord_fl round_binary64 (-5) 20 = round_binary64 (-5 + 20) ∧
    (20 : ℚ) ≤ wrap_coord_fl round_binary64 45 20 ∧
    wrap_coord_fl round_binary64 (-25) 20 ≤ 0 :=
  have h := offset_particles_for_periodicity_fl_wraps round_binary64 round_binary64_isRounding
    (example_catalogue [⟨⟨25, -5, 7⟩, 1⟩]) (example_params "sim" "powspec" "2pt" "none")
  have h20 : round_binary64 20 = 20 := round_binary64_box_values.1
  have h25 := h.2.2.1 20 25 (by norm_num) h20 (by norm_num) (by norm_num)
  have h5 := h.2.2.1 20 (-5) (by norm_num) h20 (by norm_num) (by norm_num)
  ⟨round_binary64_isRounding, h.2.1 0 ⟨⟨25, -5, 7⟩, 1⟩ rfl,
    ⟨h25.1, h25.2.1 (by norm_num)⟩, h5.2.2.1 (by norm_num),
    h.2.2.2.1 20 45 (by norm_num) h20 (by norm_num),
    (h.2.2.2.2 20 (-25) (by norm_num) (by norm_num)).1⟩

/-- Witness for C4, amended, in binary64: particles at `x = 25`, `x = -5` and
`x = 7` in a box of side 20 (and 10 along `z`), which the first application
moves to 5, 15 and 7. -/
theorem offset_particles_for_periodicity_fl_idempotent_within_one_box_witness :
    IsRounding round_binary64 ∧
    (round_binary64 (example_params "sim" "powspec" "2pt" "none").boxsize.x =
        (example_params "sim" "powspec" "2pt" "none").boxsize.x ∧
      round_binary64 (example_params "sim" "powspec" "2pt" "none").boxsize.y =
        (example_params "sim" "powspec" "2pt" "none").boxsize.y ∧
      round_binary64 (example_params "sim" "powspec" "2pt" "none").boxsize.z =
        (example_params "sim" "powspec" "2pt" "none").boxsize.z) ∧
    ((example_catalogue [⟨⟨25, 0, 0⟩, 1⟩, ⟨⟨-5, 0, 0⟩, 1⟩,
        ⟨⟨7, 0, 0⟩, 1⟩]).offset_particles_for_periodicity_fl round_binary64
        (example_params "sim" "powspec" "2pt" "none")).2.particles =
      [⟨⟨5, 0, 0⟩, 1⟩, ⟨⟨15, 0, 0⟩, 1⟩, ⟨⟨7, 0, 0⟩, 1⟩] ∧
    (((example_catalogue [⟨⟨25, 0, 0⟩, 1⟩, ⟨⟨-5, 0, 0⟩, 1⟩,
        ⟨⟨7, 0, 0⟩, 1⟩]).offset_particles_for_periodicity_fl round_binary64
        (example_params "sim" "powspec" "2pt" "none")).2.offset_particles_for_periodicity_fl
        round_binary64 (example_params "sim" "powspec" "2pt" "none")).2 =
      ((example_catalogue [⟨⟨25, 0, 0⟩, 1⟩, ⟨⟨-5, 0, 0⟩, 1⟩,
        ⟨⟨7, 0, 0⟩, 1⟩]).offset_particles_for_periodicity_fl round_binary64
        (example_params "sim" "powspec" "2pt" "none")).2 := by
  obtain ⟨h20, h10, h5, h15⟩ := round_binary64_box_values
  have hrep : round_binary64 (example_params "sim" "powspec" "2pt" "none").boxsize.x =
        (example_params "sim" "powspec" "2pt" "none").boxsize.x ∧
      round_binary64 (example_params "sim" "powspec" "2pt" "none").boxsize.y =
        (example_params "sim" "powspec" "2pt" "none").boxsize.y ∧
      round_binary64 (example_params "sim" "powspec" "2pt" "none").boxsize.z =
        (example_params "sim" "powspec" "2pt" "none").boxsize.z := ⟨h20, h20, h10⟩
  have h0 : ∀ L : ℚ, 0 < L → wrap_coord_fl round_binary64 0 L = 0 := fun L hL =>
    wrap_coord_fl_of_mem round_binary64 0 L (le_refl _) hL
  have hw25 : wrap_coord_fl round_binary64 25 20 = 5 := by
    have : ((25 : ℚ) - 20) = 5 := by norm_num
    have h1 : (20 : ℚ) ≤ 25 := by norm_num
    simp only [wrap_coord_fl, ge_iff_le, h1, if_true, this, h5]
  have hw5 : wrap_coord_fl round_binary64 (-5) 20 = 15 := by
    have : ((-5 : ℚ) + 20) = 15 := by norm_num
    have h1 : ¬ ((20 : ℚ) ≤ -5) := by norm_num
    simp only [wrap_coord_fl, ge_iff_le, h1, if_false, this, h15]
    norm_num
  have hw7 : wrap_coord_fl round_binary64 7 20 = 7 :=
    wrap_coord_fl_of_mem round_binary64 7 20 (by norm_num) (by norm_num)
  have hparts : ((example_catalogue [⟨⟨25, 0, 0⟩, 1⟩, ⟨⟨-5, 0, 0⟩, 1⟩,
        ⟨⟨7, 0, 0⟩, 1⟩]).offset_particles_for_periodicity_fl round_binary64
        (example_params "sim" "powspec" "2pt" "none")).2.particles =
      [⟨⟨5, 0, 0⟩, 1⟩, ⟨⟨15, 0, 0⟩, 1⟩, ⟨⟨7, 0, 0⟩, 1⟩] := by
    rw [offset_particles_for_periodicity_fl_particles]
    simp only [example_catalogue, example_params, List.map_cons, List.map_nil, hw25, hw5, hw7,
      h0 20 (by norm_num), h0 10 (by norm_num)]
  have h := offset_particles_for_periodicity_fl_idempotent_within_one_box round_binary64
    round_binary64_isRounding
    (example_catalogue [⟨⟨25, 0, 0⟩, 1⟩, ⟨⟨-5, 0, 0⟩, 1⟩, ⟨⟨7, 0, 0⟩, 1⟩])
    (example_params "sim" "powspec" "2pt" "none")
    (by norm_num [example_params]) hrep
    (by
      intro p hp
      simp only [example_catalogue, List.mem_cons, List.mem_singleton, List.not_mem_nil,
        or_false] at hp
      rcases hp with rfl | rfl | rfl <;> norm_num [example_params])
  refine ⟨round_binary64_isRounding, hrep, hparts, h.2.1 ?_⟩
  intro p hp
  rw [hparts] at hp
  simp only [List.mem_cons, List.mem_singleton, List.not_mem_nil, or_false] at hp
  rcases hp with rfl | rfl | rfl <;> norm_num [example_params]

/-! ### Rounded padding of the grid -/

section RoundedPadGridsTheorems

variable {α : Type} [LinearOrderedField α]

/-- The least of the values mapped by a function that keeps the order is the
least value mapped. -/
theorem exact_min_map (l : List (ParticleData α)) (f g : ParticleData α → α)
    (s : ParticleData α → ParticleData α) (φ : α → α) (m m' : α)
    (hφ : ∀ x y, x ≤ y → φ x ≤ φ y) (hs : ∀ p, g (s p) = φ (f p))
    (h1 : ∀ p ∈ l, m ≤ f p) (h2 : ∃ p ∈ l, f p = m)
    (h1' : ∀ q ∈ l.map s, m' ≤ g q) (h2' : ∃ q ∈ l.map s, g q = m') : m' = φ m := by
  obtain ⟨p, hp, hfp⟩ := h2
  obtain ⟨q, hq, hgq⟩ := h2'
  obtain ⟨p', hp', rfl⟩ := List.mem_map.mp hq
  have ha : m' ≤ φ m := by
    have := h1' (s p) (List.mem_map_of_mem s hp)
    rw [hs, hfp] at this
    exact this
  have hb : φ m ≤ m' := by
    rw [← hgq, hs]
    exact hφ _ _ (h1 p' hp')
  exact le_antisymm ha hb

/-- The rounded `offset_particles_for_fft` on catalogues that hold particles:
both catalogues have their bounds computed, their positions moved by the one
vector `dpos` and their bounds computed again. -/
theorem offset_particles_for_fft_fl_eq (fl : α → α)
    (particles_data particles_rand : ParticleCatalogue α) (params : ParameterSet α)
    (factor : α) (hdata : particles_data.particles ≠ [])
    (hrand : particles_rand.particles ≠ []) :
    offset_particles_for_fft_fl fl particles_data particles_rand params factor =
      (0,
        ({ particles_data.calc_min_and_max.2 with
          particles := particles_data.particles.map (fun (p : ParticleData α) =>
            ⟨⟨fl (p.pos.x -
                (offset_for_fft_fl fl particles_rand.calc_min_and_max.2.pos_min params factor).x),
              fl (p.pos.y -
                (offset_for_fft_fl fl particles_rand.calc_min_and_max.2.pos_min params factor).y),
              fl (p.pos.z -
                (offset_for_fft_fl fl particles_rand.calc_min_and_max.2.pos_min params
                  factor).z)⟩, p.w⟩) } : ParticleCatalogue α).calc_min_and_max.2,
        ({ particles_rand.calc_min_and_max.2 with
          particles := particles_rand.particles.map (fun (p : ParticleData α) =>
            ⟨⟨fl (p.pos.x -
                (offset_for_fft_fl fl particles_rand.calc_min_and_max.2.pos_min params factor).x),
              fl (p.pos.y -
                (offset_for_fft_fl fl particles_rand.calc_min_and_max.2.pos_min params factor).y),
              fl (p.pos.z -
                (offset_for_fft_fl fl particles_rand.calc_min_and_max.2.pos_min params
                  factor).z)⟩, p.w⟩) } : ParticleCatalogue α).calc_min_and_max.2) := by
  have hoff : ∀ (c : ParticleCatalogue α) (dpos : Vec3 α), c.particles ≠ [] →
      (c.calc_min_and_max.2.offset_particles_fl fl dpos).2 =
        { c.calc_min_and_max.2 with particles := c.particles.map (fun (p : ParticleData α) =>
          ⟨⟨fl (p.pos.x - dpos.x), fl (p.pos.y - dpos.y), fl (p.pos.z - dpos.z)⟩, p.w⟩) } := by
    intro c dpos hne
    obtain ⟨p0, t, hp⟩ := List.exists_cons_of_ne_nil hne
    simp [ParticleCatalogue.offset_particles_fl, ParticleCatalogue.calc_min_and_max, hp]
  simp only [offset_particles_for_fft_fl, hoff _ _ hdata, hoff _ _ hrand]

end RoundedPadGridsTheorems

section RoundedPadGridsClaims

variable {α : Type} [LinearOrderedField α]

/-- C21, amended.  Rounded arithmetic, on catalogues that both hold
particles, with non-zero mesh counts (the quotient by a zero count is not a
finite number).  `offset_particles_for_fft` returns 0
and subtracts one and the same vector `dpos` from every position of both
catalogues, rounding each difference and keeping weights, number and order;
`dpos[i]` is the rounded difference of the minimum of the random catalogue
and the padding `pad[i]`, the rounded `factor * boxsize[i] / nmesh[i]`.
Afterwards the minimum coordinate stored for the random catalogue is, on each
axis, the rounded difference of its old minimum and `dpos[i]`, and it is
attained by a particle of the random catalogue; it is the padding `pad[i]`
whenever the subtraction that gives `dpos[i]` does not round, and so it is
`factor * boxsize[i] / nmesh[i]` when moreover the product and the quotient
do not round (stated for the first axis). -/
theorem offset_particles_for_fft_fl_common_shift (fl : α → α) (hfl : IsRounding fl)
    (particles_data particles_rand : ParticleCatalogue α)
    (params : ParameterSet α) (factor : α)
    (hdata : particles_data.particles ≠ []) (hrand : particles_rand.particles ≠ [])
    (hmesh : params.nmesh.x ≠ 0 ∧ params.nmesh.y ≠ 0 ∧ params.nmesh.z ≠ 0) :
    (offset_particles_for_fft_fl fl particles_data particles_rand params factor).1 = 0 ∧
    (∃ dpos : Vec3 α,
      dpos = offset_for_fft_fl fl particles_rand.calc_min_and_max.2.pos_min params factor ∧
      (offset_particles_for_fft_fl fl particles_data particles_rand params factor).2.1.particles =
        particles_data.particles.map (fun (p : ParticleData α) =>
          ⟨⟨fl (p.pos.x - dpos.x), fl (p.pos.y - dpos.y), fl (p.pos.z - dpos.z)⟩, p.w⟩) ∧
      (offset_particles_for_fft_fl fl particles_data particles_rand params factor).2.2.particles =
        particles_rand.particles.map (fun (p : ParticleData α) =>
          ⟨⟨fl (p.pos.x - dpos.x), fl (p.pos.y - dpos.y), fl (p.pos.z - dpos.z)⟩, p.w⟩) ∧
      ((offset_particles_for_fft_fl fl particles_data particles_rand params factor).2.2.pos_min.x =
          fl (particles_rand.calc_min_and_max.2.pos_min.x - dpos.x) ∧
        (offset_particles_for_fft_fl fl particles_data particles_rand params
            factor).2.2.pos_min.y =
          fl (particles_rand.calc_min_and_max.2.pos_min.y - dpos.y) ∧
        (offset_particles_for_fft_fl fl particles_data particles_rand params
            factor).2.2.pos_min.z =
          fl (particles_rand.calc_min_and_max.2.pos_min.z - dpos.z))) ∧
    ((∃ p ∈ (offset_particles_for_fft_fl fl particles_data particles_rand params
          factor).2.2.particles,
        p.pos.x = (offset_particles_for_fft_fl fl particles_data particles_rand params
          factor).2.2.pos_min.x) ∧
      (∃ p ∈ (offset_particles_for_fft_fl fl particles_data particles_rand params
          factor).2.2.particles,
        p.pos.y = (offset_particles_for_fft_fl fl particles_data particles_rand params
          factor).2.2.pos_min.y) ∧
      (∃ p ∈ (offset_particles_for_fft_fl fl particles_data particles_rand params
          factor).2.2.particles,
        p.pos.z = (offset_particles_for_fft_fl fl particles_data particles_rand params
          factor).2.2.pos_min.z)) ∧
    ((fl (particles_rand.calc_min_and_max.2.pos_min.x -
          fl (fl (factor * params.boxsize.x) / (params.nmesh.x : α))) =
        particles_rand.calc_min_and_max.2.pos_min.x -
          fl (fl (factor * params.boxsize.x) / (params.nmesh.x : α)) →
      (offset_particles_for_fft_fl fl particles_data particles_rand params factor).2.2.pos_min.x =
        fl (fl (factor * params.boxsize.x) / (params.nmesh.x : α))) ∧
      (fl (particles_rand.calc_min_and_max.2.pos_min.y -
          fl (fl (factor * params.boxsize.y) / (params.nmesh.y : α))) =
        particles_rand.calc_min_and_max.2.pos_min.y -
          fl (fl (factor * params.boxsize.y) / (params.nmesh.y : α)) →
      (offset_particles_for_fft_fl fl particles_data particles_rand params factor).2.2.pos_min.y =
        fl (fl (factor * params.boxsize.y) / (params.nmesh.y : α))) ∧
      (fl (particles_rand.calc_min_and_max.2.pos_min.z -
          fl (fl (factor * params.boxsize.z) / (params.nmesh.z : α))) =
        particles_rand.calc_min_and_max.2.pos_min.z -
          fl (fl (factor * params.boxsize.z) / (params.nmesh.z : α)) →
      (offset_particles_for_fft_fl fl particles_data particles_rand params factor).2.2.pos_min.z =
        fl (fl (factor * params.boxsize.z) / (params.nmesh.z : α)))) ∧
    (fl (factor * params.boxsize.x) = factor * params.boxsize.x →
      fl (factor * params.boxsize.x / (params.nmesh.x : α)) =
        factor * params.boxsize.x / (params.nmesh.x : α) →
      fl (particles_rand.calc_min_and_max.2.pos_min.x -
          factor * params.boxsize.x / (params.nmesh.x : α)) =
        particles_rand.calc_min_and_max.2.pos_min.x -
          factor * params.boxsize.x / (params.nmesh.x : α) →
      (offset_particles_for_fft_fl fl particles_data particles_rand params factor).2.2.pos_min.x =
        factor * params.boxsize.x / (params.nmesh.x : α)) := by
  obtain ⟨-, -, -⟩ := hmesh
  have hfft := offset_particles_for_fft_fl_eq fl particles_data particles_rand params factor
    hdata hrand
  obtain ⟨hin, ⟨hxl, -⟩, ⟨hyl, -⟩, ⟨hzl, -⟩⟩ := calc_min_and_max_extremes particles_rand hrand
  have hne' : (particles_rand.particles.map (fun (p : ParticleData α) =>
      (⟨⟨fl (p.pos.x -
          (offset_for_fft_fl fl particles_rand.calc_min_and_max.2.pos_min params factor).x),
        fl (p.pos.y -
          (offset_for_fft_fl fl particles_rand.calc_min_and_max.2.pos_min params factor).y),
        fl (p.pos.z -
          (offset_for_fft_fl fl particles_rand.calc_min_and_max.2.pos_min params factor).z)⟩,
        p.w⟩ : ParticleData α))) ≠ [] := by
    simpa using hrand
  obtain ⟨hin', ⟨hxl', -⟩, ⟨hyl', -⟩, ⟨hzl', -⟩⟩ :=
    calc_min_and_max_extremes
      ({ particles_rand.calc_min_and_max.2 with
          particles := particles_rand.particles.map (fun (p : ParticleData α) =>
            ⟨⟨fl (p.pos.x -
                (offset_for_fft_fl fl particles_rand.calc_min_and_max.2.pos_min params factor).x),
              fl (p.pos.y -
                (offset_for_fft_fl fl particles_rand.calc_min_and_max.2.pos_min params factor).y),
              fl (p.pos.z -
                (offset_for_fft_fl fl particles_rand.calc_min_and_max.2.pos_min params
                  factor).z)⟩, p.w⟩) } : ParticleCatalogue α) hne'
  have hmono : ∀ d : α, ∀ x y : α, x ≤ y → fl (x - d) ≤ fl (y - d) := fun d x y hxy =>
    hfl.1 _ _ (by linarith)
  have hminx := exact_min_map particles_rand.particles (fun p => p.pos.x) (fun p => p.pos.x)
    _ (fun t => fl (t -
      (offset_for_fft_fl fl particles_rand.calc_min_and_max.2.pos_min params factor).x)) _ _
    (hmono _) (fun _ => rfl) (fun p hp => (hin p hp).1.1) hxl
    (fun q hq => (hin' q hq).1.1) hxl'
  have hminy := exact_min_map particles_rand.particles (fun p => p.pos.y) (fun p => p.pos.y)
    _ (fun t => fl (t -
      (offset_for_fft_fl fl particles_rand.calc_min_and_max.2.pos_min params factor).y)) _ _
    (hmono _) (fun _ => rfl) (fun p hp => (hin p hp).2.1.1) hyl
    (fun q hq => (hin' q hq).2.1.1) hyl'
  have hminz := exact_min_map particles_rand.particles (fun p => p.pos.z) (fun p => p.pos.z)
    _ (fun t => fl (t -
      (offset_for_fft_fl fl particles_rand.calc_min_and_max.2.pos_min params factor).z)) _ _
    (hmono _) (fun _ => rfl) (fun p hp => (hin p hp).2.2.1) hzl
    (fun q hq => (hin' q hq).2.2.1) hzl'
  have hx : (offset_particles_for_fft_fl fl particles_data particles_rand params
      factor).2.2.pos_min.x = fl (particles_rand.calc_min_and_max.2.pos_min.x -
        (offset_for_fft_fl fl particles_rand.calc_min_and_max.2.pos_min params factor).x) := by
    rw [hfft]
    exact hminx
  have hy : (offset_particles_for_fft_fl fl particles_data particles_rand params
      factor).2.2.pos_min.y = fl (particles_rand.calc_min_and_max.2.pos_min.y -
        (offset_for_fft_fl fl particles_rand.calc_min_and_max.2.pos_min params factor).y) := by
    rw [hfft]
    exact hminy
  have hz : (offset_particles_for_fft_fl fl particles_data particles_rand params
      factor).2.2.pos_min.z = fl (particles_rand.calc_min_and_max.2.pos_min.z -
        (offset_for_fft_fl fl particles_rand.calc_min_and_max.2.pos_min params factor).z) := by
    rw [hfft]
    exact hminz
  have hpad : ∀ m pad : α, fl (m - fl pad) = m - fl pad →
      fl (m - fl (m - fl pad)) = fl pad := by
    intro m pad hex
    rw [hex, sub_sub_cancel, hfl.2.1]
  refine ⟨by rw [hfft], ⟨_, rfl, ?_, ?_, hx, hy, hz⟩, ⟨?_, ?_, ?_⟩, ⟨?_, ?_, ?_⟩, ?_⟩
  · rw [hfft, calc_min_and_max_particles]
  · rw [hfft, calc_min_and_max_particles]
  · rw [hfft, calc_min_and_max_particles]
    exact hxl'
  · rw [hfft, calc_min_and_max_particles]
    exact hyl'
  · rw [hfft, calc_min_and_max_particles]
    exact hzl'
  · intro hex
    rw [hx]
    exact hpad _ _ hex
  · intro hex
    rw [hy]
    exact hpad _ _ hex
  · intro hex
    rw [hz]
    exact hpad _ _ hex
  · intro hprod hquot hsub
    have hp : fl (fl (factor * params.boxsize.x) / (params.nmesh.x : α)) =
        factor * params.boxsize.x / (params.nmesh.x : α) := by rw [hprod, hquot]
    rw [hx]
    show fl (particles_rand.calc_min_and_max.2.pos_min.x -
      fl (particles_rand.calc_min_and_max.2.pos_min.x -
        fl (fl (factor * params.boxsize.x) / (params.nmesh.x : α)))) = _
    rw [hp, hsub, sub_sub_cancel, hquot]

end RoundedPadGridsClaims

/-- C21 as stated fails in binary64: a random catalogue whose minimum along
the first axis is `10^17`, where the spacing of the binary64 numbers is 16,
padded by one cell of size 2.  The subtraction of the padding from the
minimum rounds to the minimum itself, so that the catalogue is shifted by
`10^17` and its new minimum along this axis is 0, not the padding 2. -/
theorem offset_particles_for_fft_loses_padding_in_binary64 :
    ((example_catalogue [⟨⟨10 ^ 17, 3, 3⟩, 1⟩]).particles ≠ [] ∧
      (example_params "survey" "powspec" "2pt" "particle").nmesh.x ≠ 0 ∧
      (example_params "survey" "powspec" "2pt" "particle").nmesh.y ≠ 0 ∧
      (example_params "survey" "powspec" "2pt" "particle").nmesh.z ≠ 0) ∧
    round_binary64 (10 ^ 17) = 10 ^ 17 ∧
    (offset_particles_for_fft_fl round_binary64 (example_catalogue [⟨⟨10 ^ 17, 3, 3⟩, 1⟩])
        (example_catalogue [⟨⟨10 ^ 17, 3, 3⟩, 1⟩])
        (example_params "survey" "powspec" "2pt" "particle") 1).2.2 =
      { particles := [⟨⟨0, 2, 1⟩, 1⟩], pos_min := ⟨0, 2, 1⟩, pos_max := ⟨0, 2, 1⟩ } ∧
    (0 : ℚ) ≠ 1 * (example_params "survey" "powspec" "2pt" "particle").boxsize.x /
      ((example_params "survey" "powspec" "2pt" "particle").nmesh.x : ℚ) := by
  obtain ⟨h0, h1, h2, h3, -, -, -, -, -, -, h10⟩ := round_binary64_upto_ten
  have h20 : round_binary64 20 = 20 := round_binary64_box_values.1
  have hA : round_binary64 100000000000000000 = 100000000000000000 := by
    rw [round_binary64_eval 100000000000000000 56 6250000000000000 (by norm_num)
      (by norm_num) (by norm_num [round_half_even])]
    norm_num
  have hB : round_binary64 99999999999999998 = 100000000000000000 := by
    rw [round_binary64_eval 99999999999999998 56 6250000000000000 (by norm_num)
      (by norm_num) (by norm_num [round_half_even])]
    norm_num
  refine ⟨⟨by simp [example_catalogue], by decide, by decide, by decide⟩,
    by norm_num [hA], ?_, by norm_num [example_params]⟩
  norm_num [offset_particles_for_fft_fl, offset_for_fft_fl, ParticleCatalogue.calc_min_and_max,
    ParticleCatalogue.offset_particles_fl, example_catalogue, example_params, min_max_step,
    h0, h1, h2, h3, h10, h20, hA, hB]

/-- Witness for C21, amended, in binary64: one data particle and two random
particles in the box of sides `(20, 20, 10)` with 10 mesh cells a side,
padded by one cell; no operation rounds. -/
theorem offset_particles_for_fft_fl_common_shift_witness :
    IsRounding round_binary64 ∧
    ((example_catalogue [⟨⟨3, 4, 5⟩, 1⟩]).particles ≠ [] ∧
      (example_catalogue [⟨⟨1, 2, 3⟩, 1⟩, ⟨⟨2, 1, 4⟩, 1⟩]).particles ≠ [] ∧
      (example_params "survey" "powspec" "2pt" "particle").nmesh.x ≠ 0 ∧
      (example_params "survey" "powspec" "2pt" "particle").nmesh.y ≠ 0 ∧
      (example_params "survey" "powspec" "2pt" "particle").nmesh.z ≠ 0) ∧
    (offset_particles_for_fft_fl round_binary64 (example_catalogue [⟨⟨3, 4, 5⟩, 1⟩])
        (example_catalogue [⟨⟨1, 2, 3⟩, 1⟩, ⟨⟨2, 1, 4⟩, 1⟩])
        (example_params "survey" "powspec" "2pt" "particle") 1).2.2.pos_min.x =
      1 * (example_params "survey" "powspec" "2pt" "particle").boxsize.x /
        ((example_params "survey" "powspec" "2pt" "particle").nmesh.x : ℚ) ∧
    (offset_particles_for_fft_fl round_binary64 (example_catalogue [⟨⟨3, 4, 5⟩, 1⟩])
        (example_catalogue [⟨⟨1, 2, 3⟩, 1⟩, ⟨⟨2, 1, 4⟩, 1⟩])
        (example_params "survey" "powspec" "2pt" "particle") 1) =
      (0, { particles := [⟨⟨4, 5, 3⟩, 1⟩], pos_min := ⟨4, 5, 3⟩, pos_max := ⟨4, 5, 3⟩ },
        { particles := [⟨⟨2, 3, 1⟩, 1⟩, ⟨⟨3, 2, 2⟩, 1⟩], pos_min := ⟨2, 2, 1⟩,
          pos_max := ⟨3, 3, 2⟩ }) := by
  obtain ⟨h0, h1, h2, h3, h4, h5, -, -, -, -, h10⟩ := round_binary64_upto_ten
  have h20 : round_binary64 20 = 20 := round_binary64_box_values.1
  have hm1 : round_binary64 (-1) = -1 := by rw [round_binary64_neg, h1]
  have hmin : (example_catalogue [⟨⟨1, 2, 3⟩, 1⟩, ⟨⟨2, 1, 4⟩, 1⟩]).calc_min_and_max.2.pos_min.x
      = 1 := by
    norm_num [ParticleCatalogue.calc_min_and_max, example_catalogue, min_max_step]
  have h := offset_particles_for_fft_fl_common_shift round_binary64 round_binary64_isRounding
    (example_catalogue [⟨⟨3, 4, 5⟩, 1⟩]) (example_catalogue [⟨⟨1, 2, 3⟩, 1⟩, ⟨⟨2, 1, 4⟩, 1⟩])
    (example_params "survey" "powspec" "2pt" "particle") 1 (by simp [example_catalogue])
    (by simp [example_catalogue]) ⟨by decide, by decide, by decide⟩
  refine ⟨round_binary64_isRounding,
    ⟨by simp [example_catalogue], by simp [example_catalogue], by decide, by decide, by decide⟩,
    h.2.2.2.2 ?_ ?_ ?_, ?_⟩
  · norm_num [example_params, h20]
  · norm_num [example_params, h2]
  · rw [hmin]
    norm_num [example_params, hm1]
  · norm_num [offset_particles_for_fft_fl, offset_for_fft_fl,
      ParticleCatalogue.calc_min_and_max, ParticleCatalogue.offset_particles_fl,
      example_catalogue, example_params, min_max_step, h0, h1, h2, h3, h4, h5, h10, h20, hm1]

/-! ### Rounded lines of sight -/

section RoundedLosTheorems

variable {α : Type} [LinearOrderedField α]

/-- Entry `i` of a rounded line-of-sight array is computed from particle `i`. -/
theorem compute_los_fl_getElem? (fl : α → α) (mag : Vec3 α → α) (warning : String)
    (catalogue : ParticleCatalogue α) (i : Nat) :
    (compute_los_fl fl mag warning catalogue).1[i]? =
      (catalogue.particles[i]?).map fun p => (los_of_particle_fl fl mag p).1 := by
  simp [compute_los_fl, List.getElem?_map]
  cases catalogue.particles[i]? <;> simp

/-- With no rounding, the rounded line-of-sight arrays of `main` are those of
`main_measure`. -/
theorem main_los_fl_id (ext : External α) (params : ParameterSet α) (binning : Binning α)
    (loaded_data loaded_rand : ParticleCatalogue α) :
    main_los_fl id ext params loaded_data loaded_rand =
      ((main_measure ext params binning loaded_data loaded_rand).los_data,
        (main_measure ext params binning loaded_data loaded_rand).los_rand) := by
  unfold main_los_fl main_measure
  by_cases h1 : params.catalogue_type = "survey" ∨ params.catalogue_type = "sim" <;>
    by_cases h2 : params.catalogue_type = "survey" ∨ params.catalogue_type = "random" <;>
    simp [h1, h2] <;> (try constructor) <;> rfl

/-- The rounded line-of-sight entry of a particle of non-zero magnitude. -/
theorem los_of_particle_fl_entry (fl : α → α) (mag : Vec3 α → α) (p : ParticleData α)
    (hm : mag p.pos ≠ 0) :
    (los_of_particle_fl fl mag p).1 =
      ⟨⟨fl (p.pos.x / mag p.pos), fl (p.pos.y / mag p.pos), fl (p.pos.z / mag p.pos)⟩⟩ := by
  simp [los_of_particle_fl, hm]

end RoundedLosTheorems

/-- No rational number has three times its square equal to 1. -/
theorem three_squares_ne_one (d : ℚ) : d * d + d * d + d * d ≠ 1 := by
  intro h
  have hirr : Irrational (√((3 : ℕ) : ℝ)) := Nat.prime_three.irrational_sqrt
  have hsq : (((3 * d : ℚ) : ℝ)) ^ 2 = ((3 : ℕ) : ℝ) := by
    have h' : ((3 * d : ℚ)) ^ 2 = 3 := by linear_combination 3 * h
    have := congrArg (fun q : ℚ => (q : ℝ)) h'
    push_cast at this ⊢
    linarith
  have hroot : √((3 : ℕ) : ℝ) = ((|3 * d| : ℚ) : ℝ) := by
    rw [← hsq, Real.sqrt_sq_eq_abs]
    push_cast
    rfl
  exact hirr ⟨|3 * d|, hroot.symm⟩

section RoundedLosClaims

variable {α : Type} [LinearOrderedField α]

/-- C6, amended.  Section B.2 of `main` in rounded arithmetic.  For a particle
of a loaded catalogue for whose position `p` the function
`get_vec3d_magnitude` returns a magnitude `m` that is not zero, the entry
`main` writes at the particle's index of `los_data` (when a data catalogue is
loaded) and of `los_rand` (when a random catalogue is loaded) has the three
rounded quotients `p[k] / m` as its components.  It is a unit vector (its
squared components add up to 1) when `m` is the Euclidean length of `p` and
none of the three divisions rounds. -/
theorem main_los_fl_entry (fl : α → α) (ext : External α) (params : ParameterSet α)
    (loaded_data loaded_rand : ParticleCatalogue α) (i : Nat) (p : ParticleData α)
    (hmag : ext.get_vec3d_magnitude p.pos ≠ 0) :
    (params.catalogue_type = "survey" ∨ params.catalogue_type = "sim" →
      loaded_data.particles[i]? = some p →
      ∃ los, (main_los_fl fl ext params loaded_data loaded_rand).1 = some los ∧
        los[i]? = some ⟨⟨fl (p.pos.x / ext.get_vec3d_magnitude p.pos),
          fl (p.pos.y / ext.get_vec3d_magnitude p.pos),
          fl (p.pos.z / ext.get_vec3d_magnitude p.pos)⟩⟩) ∧
    (params.catalogue_type = "survey" ∨ params.catalogue_type = "random" →
      loaded_rand.particles[i]? = some p →
      ∃ los, (main_los_fl fl ext params loaded_data loaded_rand).2 = some los ∧
        los[i]? = some ⟨⟨fl (p.pos.x / ext.get_vec3d_magnitude p.pos),
          fl (p.pos.y / ext.get_vec3d_magnitude p.pos),
          fl (p.pos.z / ext.get_vec3d_magnitude p.pos)⟩⟩) ∧
    (IsEuclideanNorm (ext.get_vec3d_magnitude p.pos) p.pos →
      fl (p.pos.x / ext.get_vec3d_magnitude p.pos) = p.pos.x / ext.get_vec3d_magnitude p.pos →
      fl (p.pos.y / ext.get_vec3d_magnitude p.pos) = p.pos.y / ext.get_vec3d_magnitude p.pos →
      fl (p.pos.z / ext.get_vec3d_magnitude p.pos) = p.pos.z / ext.get_vec3d_magnitude p.pos →
      fl (p.pos.x / ext.get_vec3d_magnitude p.pos) *
          fl (p.pos.x / ext.get_vec3d_magnitude p.pos) +
        fl (p.pos.y / ext.get_vec3d_magnitude p.pos) *
          fl (p.pos.y / ext.get_vec3d_magnitude p.pos) +
        fl (p.pos.z / ext.get_vec3d_magnitude p.pos) *
          fl (p.pos.z / ext.get_vec3d_magnitude p.pos) = 1) := by
  refine ⟨?_, ?_, ?_⟩
  · intro hflag hp
    refine ⟨(compute_los_fl fl ext.get_vec3d_magnitude
      "A data-catalogue particle coincides with the origin." loaded_data).1,
      by simp [main_los_fl, hflag], ?_⟩
    rw [compute_los_fl_getElem?, hp, Option.map_some',
      los_of_particle_fl_entry fl _ p hmag]
  · intro hflag hp
    refine ⟨(compute_los_fl fl ext.get_vec3d_magnitude
      "A random-catalogue particle coincides with the origin." loaded_rand).1,
      by simp [main_los_fl, hflag], ?_⟩
    rw [compute_los_fl_getElem?, hp, Option.map_some',
      los_of_particle_fl_entry fl _ p hmag]
  · intro hnorm hx hy hz
    rw [hx, hy, hz]
    have h2 := hnorm.2
    field_simp
    linarith

end RoundedLosClaims

/-- For the particle at `(1, 1, 1)`, whatever numbers the magnitude function
and the divisions return, the three components `main` writes are one and the
same number, and no number of the kind the program computes with (a rational)
has three times its square equal to 1: the entry is not a unit vector. -/
theorem main_los_not_unit_vector_of_any_magnitude :
    ∀ (fl : ℚ → ℚ) (ext : External ℚ),
      (⟨1, 1, 1⟩ : Vec3 ℚ) ≠ ⟨0, 0, 0⟩ ∧
      ∃ los e,
        (main_los_fl fl ext (example_params "sim" "powspec" "2pt" "none")
          (example_catalogue [⟨⟨1, 1, 1⟩, 1⟩]) ParticleCatalogue.init).1 = some los ∧
        los[0]? = some e ∧
        e.pos.x * e.pos.x + e.pos.y * e.pos.y + e.pos.z * e.pos.z ≠ 1 := by
  intro fl ext
  refine ⟨by simp, (compute_los_fl fl ext.get_vec3d_magnitude
      "A data-catalogue particle coincides with the origin."
      (example_catalogue [⟨⟨1, 1, 1⟩, 1⟩])).1,
    (los_of_particle_fl fl ext.get_vec3d_magnitude ⟨⟨1, 1, 1⟩, 1⟩).1,
    by simp [main_los_fl, example_params], ?_, ?_⟩
  · simp [compute_los_fl, example_catalogue]
  · simp only [los_of_particle_fl]
    exact three_squares_ne_one _

/-- Witness for C6, amended, in binary64: the particle at `(3, 0, 0)` gets
`(1, 0, 0)`. -/
theorem main_los_fl_entry_witness :
    example_external.get_vec3d_magnitude (⟨⟨3, 0, 0⟩, 1⟩ : ParticleData ℚ).pos ≠ 0 ∧
    IsEuclideanNorm (example_external.get_vec3d_magnitude ⟨3, 0, 0⟩) (⟨3, 0, 0⟩ : Vec3 ℚ) ∧
    (∃ los, (main_los_fl round_binary64 example_external
        (example_params "survey" "powspec" "2pt" "none") (example_catalogue [⟨⟨3, 0, 0⟩, 1⟩])
        (example_catalogue [⟨⟨3, 0, 0⟩, 1⟩])).1 = some los ∧
      los[0]? = some ⟨⟨1, 0, 0⟩⟩) ∧
    round_binary64 1 * round_binary64 1 + round_binary64 0 * round_binary64 0 +
      round_binary64 0 * round_binary64 0 = 1 := by
  have hm : example_external.get_vec3d_magnitude ⟨3, 0, 0⟩ = 3 := vec3_magnitude_rat_three
  have hne : example_external.get_vec3d_magnitude (⟨⟨3, 0, 0⟩, 1⟩ : ParticleData ℚ).pos ≠ 0 := by
    show example_external.get_vec3d_magnitude ⟨3, 0, 0⟩ ≠ 0
    rw [hm]
    norm_num
  have hmag : IsEuclideanNorm (example_external.get_vec3d_magnitude ⟨3, 0, 0⟩)
      (⟨3, 0, 0⟩ : Vec3 ℚ) := by
    rw [hm]
    constructor <;> norm_num
  have h0 : round_binary64 0 = 0 := round_binary64_upto_ten.1
  have h1 : round_binary64 1 = 1 := round_binary64_upto_ten.2.1
  have h := main_los_fl_entry round_binary64 example_external
    (example_params "survey" "powspec" "2pt" "none") (example_catalogue [⟨⟨3, 0, 0⟩, 1⟩])
    (example_catalogue [⟨⟨3, 0, 0⟩, 1⟩]) 0 ⟨⟨3, 0, 0⟩, 1⟩ hne
  obtain ⟨los, hl1, hl2⟩ := h.1 (Or.inl rfl) rfl
  have hx : round_binary64 ((3 : ℚ) / example_external.get_vec3d_magnitude ⟨3, 0, 0⟩) = 1 := by
    rw [hm]
    norm_num [h1]
  have hy : round_binary64 ((0 : ℚ) / example_external.get_vec3d_magnitude ⟨3, 0, 0⟩) = 0 := by
    rw [hm]
    norm_num [h0]
  have hunit := h.2.2 hmag (by rw [hx, hm]; norm_num) (by rw [hy, hm]; norm_num)
    (by rw [hy, hm]; norm_num)
  refine ⟨hne, hmag, ⟨los, hl1, ?_⟩, ?_⟩
  · rw [hl2]
    show some (LineOfSight.mk ⟨round_binary64 ((3 : ℚ) / _), round_binary64 ((0 : ℚ) / _),
      round_binary64 ((0 : ℚ) / _)⟩) = _
    rw [hx, hy]
  · have hunit' : round_binary64 ((3 : ℚ) / example_external.get_vec3d_magnitude ⟨3, 0, 0⟩) *
        round_binary64 ((3 : ℚ) / example_external.get_vec3d_magnitude ⟨3, 0, 0⟩) +
        round_binary64 ((0 : ℚ) / example_external.get_vec3d_magnitude ⟨3, 0, 0⟩) *
          round_binary64 ((0 : ℚ) / example_external.get_vec3d_magnitude ⟨3, 0, 0⟩) +
        round_binary64 ((0 : ℚ) / example_external.get_vec3d_magnitude ⟨3, 0, 0⟩) *
          round_binary64 ((0 : ℚ) / example_external.get_vec3d_magnitude ⟨3, 0, 0⟩) = 1 :=
      hunit
    rw [hx, hy] at hunit'
    rw [h0, h1]
    exact hunit'

/-! ### The output file of section B.5 -/

section FileTheorems

variable {α : Type} [LinearOrderedField α]

omit [LinearOrderedField α] in
/-- The file calls of the branch shared by `powspec`, `2pcf`, `bispec` and
`3pcf`. -/
theorem main_file_calls_of_statistic (params : ParameterSet α)
    (hs : params.statistic_type = "powspec" ∨ params.statistic_type = "2pcf" ∨
      params.statistic_type = "bispec" ∨ params.statistic_type = "3pcf") :
    main_file_calls params = main_file_calls_of_catalogue_type params.catalogue_type := by
  have h1 : ¬ (("2pcf" : String) = "powspec") := by decide
  have h2 : ¬ (("bispec" : String) = "powspec") := by decide
  have h3 : ¬ (("bispec" : String) = "2pcf") := by decide
  have h4 : ¬ (("bispec" : String) = "2pcf-win") := by decide
  have h5 : ¬ (("3pcf" : String) = "powspec") := by decide
  have h6 : ¬ (("3pcf" : String) = "2pcf") := by decide
  have h7 : ¬ (("3pcf" : String) = "2pcf-win") := by decide
  have h8 : ¬ (("3pcf" : String) = "bispec") := by decide
  rcases hs with hs | hs | hs | hs <;>
    simp only [main_file_calls, hs, h1, h2, h3, h4, h5, h6, h7, h8, if_true, if_false]

/-- C12.  Section B.5 of `main` has no statement that throws for the
combination of `catalogue_type` and `statistic_type`.  For `powspec`, `2pcf`,
`bispec` and `3pcf` with a catalogue type other than `survey` and `sim` it
calls no estimator, assigns nothing to `save_fileptr`, and hands the null
pointer it holds to `print_measurement_datatab_to_file` and to `std::fclose`,
which is undefined behaviour; with `survey` or `sim` the same branches call
an estimator and open the file before these two calls.  For a statistic type
outside the seven of the chain it calls no estimator and touches no file. -/
theorem main_unsupported_combination_null_fileptr (ext : External α)
    (params : ParameterSet α) (binning : Binning α)
    (loaded_data loaded_rand : ParticleCatalogue α) :
    (params.statistic_type = "powspec" ∨ params.statistic_type = "2pcf" ∨
        params.statistic_type = "bispec" ∨ params.statistic_type = "3pcf" →
      params.catalogue_type ≠ "survey" → params.catalogue_type ≠ "sim" →
      (main_measure ext params binning loaded_data loaded_rand).estimator = none ∧
      main_file_calls params =
        [.print_measurement_datatab_to_file .nullptr, .fclose .nullptr] ∧
      main_file_outcome params = .error .undefined_behaviour) ∧
    (params.statistic_type = "powspec" ∨ params.statistic_type = "2pcf" ∨
        params.statistic_type = "bispec" ∨ params.statistic_type = "3pcf" →
      params.catalogue_type = "survey" ∨ params.catalogue_type = "sim" →
      (main_measure ext params binning loaded_data loaded_rand).estimator ≠ none ∧
      main_file_calls params =
        [.print_measurement_header_to_file .fopen_w,
          .print_measurement_datatab_to_file .fopen_w, .fclose .fopen_w] ∧
      main_file_outcome params = .ok ()) ∧
    (params.statistic_type ≠ "powspec" → params.statistic_type ≠ "2pcf" →
      params.statistic_type ≠ "2pcf-win" → params.statistic_type ≠ "bispec" →
      params.statistic_type ≠ "3pcf" → params.statistic_type ≠ "3pcf-win" →
      params.statistic_type ≠ "3pcf-win-wa" →
      (main_measure ext params binning loaded_data loaded_rand).estimator = none ∧
      main_file_calls params = [] ∧ main_file_outcome params = .ok ()) := by
  have hwin : ∀ s : String, s = "powspec" ∨ s = "2pcf" ∨ s = "bispec" ∨ s = "3pcf" →
      s ≠ "2pcf-win" ∧ s ≠ "3pcf-win" ∧ s ≠ "3pcf-win-wa" := by
    intro s hs
    rcases hs with rfl | rfl | rfl | rfl <;> decide
  refine ⟨?_, ?_, ?_⟩
  · intro hs h1 h2
    obtain ⟨hw1, hw2, hw3⟩ := hwin _ hs
    have hcalls : main_file_calls params =
        [.print_measurement_datatab_to_file .nullptr, .fclose .nullptr] := by
      rw [main_file_calls_of_statistic params hs]
      simp [main_file_calls_of_catalogue_type, h1, h2]
    refine ⟨?_, hcalls, ?_⟩
    · apply (main_estimator_eq_none_iff _ _ _ _ _ _ _ _).mpr
      rintro (⟨-, h | h⟩ | h | h | h)
      · exact h1 h
      · exact h2 h
      · exact hw1 h
      · exact hw2 h
      · exact hw3 h
    · simp [main_file_outcome, hcalls]
  · intro hs hc
    have hcalls : main_file_calls params =
        [.print_measurement_header_to_file .fopen_w,
          .print_measurement_datatab_to_file .fopen_w, .fclose .fopen_w] := by
      rw [main_file_calls_of_statistic params hs]
      rcases hc with hc | hc <;> simp [main_file_calls_of_catalogue_type, hc]
    refine ⟨?_, hcalls, ?_⟩
    · intro hnone
      exact (main_estimator_eq_none_iff _ _ _ _ _ _ _ _).mp hnone (Or.inl ⟨hs, hc⟩)
    · simp [main_file_outcome, hcalls]
  · intro h1 h2 h3 h4 h5 h6 h7
    have hcalls : main_file_calls params = [] := by
      simp only [main_file_calls, h1, h2, h3, h4, h5, h6, h7, if_false]
    refine ⟨?_, hcalls, ?_⟩
    · apply (main_estimator_eq_none_iff _ _ _ _ _ _ _ _).mpr
      rintro (⟨h | h | h | h, -⟩ | h | h | h)
      · exact h1 h
      · exact h2 h
      · exact h4 h
      · exact h5 h
      · exact h3 h
      · exact h6 h
      · exact h7 h
    · simp [main_file_outcome, hcalls]

end FileTheorems

/-- Witness for C12: the power spectrum of a `random` catalogue (no
estimator, the null file pointer printed to and closed), of a `survey` pair
of catalogues, and the statistic `modes`. -/
theorem main_unsupported_combination_null_fileptr_witness :
    ((main_measure example_external (example_params "random" "powspec" "2pt" "none")
        (example_binning 1 3 4) ParticleCatalogue.init
        (example_catalogue [⟨⟨3, 0, 0⟩, 1⟩])).estimator = none ∧
      main_file_calls (example_params "random" "powspec" "2pt" "none") =
        [.print_measurement_datatab_to_file .nullptr, .fclose .nullptr] ∧
      main_file_outcome (example_params "random" "powspec" "2pt" "none") =
        .error .undefined_behaviour) ∧
    ((main_measure example_external (example_params "survey" "powspec" "2pt" "none")
        (example_binning 1 3 4) (example_catalogue [⟨⟨3, 0, 0⟩, 1⟩])
        (example_catalogue [⟨⟨3, 0, 0⟩, 1⟩])).estimator ≠ none ∧
      main_file_calls (example_params "survey" "powspec" "2pt" "none") =
        [.print_measurement_header_to_file .fopen_w,
          .print_measurement_datatab_to_file .fopen_w, .fclose .fopen_w] ∧
      main_file_outcome (example_params "survey" "powspec" "2pt" "none") = .ok ()) ∧
    ((main_measure example_external (example_params "survey" "modes" "none" "none")
        (example_binning 1 3 4) (example_catalogue [⟨⟨3, 0, 0⟩, 1⟩])
        (example_catalogue [⟨⟨3, 0, 0⟩, 1⟩])).estimator = none ∧
      main_file_calls (example_params "survey" "modes" "none" "none") = [] ∧
      main_file_outcome (example_params "survey" "modes" "none" "none") = .ok ()) :=
  ⟨(main_unsupported_combination_null_fileptr example_external
      (example_params "random" "powspec" "2pt" "none") (example_binning 1 3 4)
      ParticleCatalogue.init (example_catalogue [⟨⟨3, 0, 0⟩, 1⟩])).1 (Or.inl rfl)
      (by decide) (by decide),
    (main_unsupported_combination_null_fileptr example_external
      (example_params "survey" "powspec" "2pt" "none") (example_binning 1 3 4)
      (example_catalogue [⟨⟨3, 0, 0⟩, 1⟩]) (example_catalogue [⟨⟨3, 0, 0⟩, 1⟩])).2.1
      (Or.inl rfl) (Or.inl rfl),
    (main_unsupported_combination_null_fileptr example_external
      (example_params "survey" "modes" "none" "none") (example_binning 1 3 4)
      (example_catalogue [⟨⟨3, 0, 0⟩, 1⟩]) (example_catalogue [⟨⟨3, 0, 0⟩, 1⟩])).2.2
      (by decide) (by decide) (by decide) (by decide) (by decide) (by decide) (by decide)⟩

/-! ### The uses of `alpha` in `main` -/

section AlphaTheorems

variable {α : Type} [LinearOrderedField α]

/-- Both catalogues are loaded exactly for the catalogue type `survey`. -/
theorem both_flags_iff_survey (catalogue_type : String) :
    (decide (catalogue_type = "survey" ∨ catalogue_type = "sim") &&
      decide (catalogue_type = "survey" ∨ catalogue_type = "random")) =
      decide (catalogue_type = "survey") := by
  by_cases h : catalogue_type = "survey"
  · simp [h]
  · by_cases h1 : catalogue_type = "sim"
    · subst h1
      decide
    · simp [h, h1]

/-- The assignment of `alpha` in `main`, with the outcome of its division
spelled out: the quotient of the total weights for `survey`, and 1 otherwise. -/
theorem main_alpha_ieee_eq (ext : External α) (params : ParameterSet α)
    (catalogue_data catalogue_rand : ParticleCatalogue α) :
    main_alpha_ieee ext params catalogue_data catalogue_rand =
      if params.catalogue_type = "survey" then
        double_div (ext.wstotal catalogue_data) (ext.wstotal catalogue_rand)
      else .finite 1 := by
  unfold main_alpha_ieee
  simp only [both_flags_iff_survey]
  by_cases h : params.catalogue_type = "survey" <;> simp [h]

/-- The `alpha` of a run of `main_measure`: the field quotient of the total
weights of the aligned catalogues for `survey`, and 1 otherwise. -/
theorem main_measure_alpha (ext : External α) (params : ParameterSet α)
    (binning : Binning α) (loaded_data loaded_rand : ParticleCatalogue α) :
    (main_measure ext params binning loaded_data loaded_rand).alpha =
      if params.catalogue_type = "survey" then
        ext.wstotal (main_measure ext params binning loaded_data loaded_rand).catalogue_data /
          ext.wstotal (main_measure ext params binning loaded_data loaded_rand).catalogue_rand
      else 1 := by
  unfold main_measure
  simp only [both_flags_iff_survey]
  by_cases h : params.catalogue_type = "survey" <;> simp [h]

/-- Every call that receives `alpha` or `alpha_for_norm` in a `survey` run
receives the value of the division. -/
theorem main_alpha_arguments_ieee_survey (ext : External α) (params : ParameterSet α)
    (catalogue_data catalogue_rand : ParticleCatalogue α)
    (hs : params.catalogue_type = "survey") :
    ∀ use ∈ main_alpha_arguments_ieee ext params catalogue_data catalogue_rand,
      use.2 = main_alpha_ieee ext params catalogue_data catalogue_rand := by
  unfold main_alpha_arguments_ieee
  simp only [hs, true_or, decide_True, if_true]
  intro use
  split_ifs <;> aesop

end AlphaTheorems

section AlphaClaims

variable {α : Type} [LinearOrderedField α]

/-- C15, amended.  When the random weights sum to zero, `calc_alpha_ratio`
raises no error: it returns what the division yields, NaN when the data
weights sum to zero too and otherwise the infinity of the sign of their sum;
when they do not sum to zero it returns the quotient of the two sums.  The
assignment of `alpha` in a `survey` run of `main` does the same with the
total weights of the two aligned catalogues: when that of the random
catalogue is zero, `alpha` is NaN or an infinity, and every call of sections
B.4 and B.5 that takes `alpha` or `alpha_for_norm` receives this value (the
three power-spectrum normalisations for `npoint = 2pt`, the two bispectrum
normalisations for `npoint = 3pt`, the window estimator for the statistic
`2pcf-win`).  When the catalogue type is not `survey` or the total weight of
the random catalogue is not zero, the value is the finite `alpha` of
`main_measure`. -/
theorem main_alpha_zero_random_weight (particles_data particles_rand : ParticleCatalogue α)
    (ext : External α) (params : ParameterSet α) (binning : Binning α)
    (loaded_data loaded_rand : ParticleCatalogue α) :
    ((particles_rand.particles.map fun p => p.w).sum = 0 →
      calc_alpha_ratio_ieee particles_data particles_rand =
        if (particles_data.particles.map fun p => p.w).sum = 0 then .nan
        else if 0 < (particles_data.particles.map fun p => p.w).sum then .pos_infinity
        else .neg_infinity) ∧
    ((particles_rand.particles.map fun p => p.w).sum ≠ 0 →
      calc_alpha_ratio_ieee particles_data particles_rand =
        .finite (calc_alpha_ratio particles_data particles_rand)) ∧
    (params.catalogue_type = "survey" →
      ext.wstotal (main_measure ext params binning loaded_data loaded_rand).catalogue_rand = 0 →
      main_alpha_ieee ext params
          (main_measure ext params binning loaded_data loaded_rand).catalogue_data
          (main_measure ext params binning loaded_data loaded_rand).catalogue_rand =
        (if ext.wstotal (main_measure ext params binning loaded_data loaded_rand).catalogue_data
            = 0 then .nan
          else if 0 <
            ext.wstotal (main_measure ext params binning loaded_data loaded_rand).catalogue_data
          then .pos_infinity
          else .neg_infinity) ∧
      (∀ value : α, main_alpha_ieee ext params
          (main_measure ext params binning loaded_data loaded_rand).catalogue_data
          (main_measure ext params binning loaded_data loaded_rand).catalogue_rand ≠
        .finite value) ∧
      (∀ use ∈ main_alpha_arguments_ieee ext params
          (main_measure ext params binning loaded_data loaded_rand).catalogue_data
          (main_measure ext params binning loaded_data loaded_rand).catalogue_rand,
        use.2 = main_alpha_ieee ext params
          (main_measure ext params binning loaded_data loaded_rand).catalogue_data
          (main_measure ext params binning loaded_data loaded_rand).catalogue_rand) ∧
      (params.npoint = "2pt" →
        ("calc_powspec_normalisation_from_particles", main_alpha_ieee ext params
            (main_measure ext params binning loaded_data loaded_rand).catalogue_data
            (main_measure ext params binning loaded_data loaded_rand).catalogue_rand) ∈
          main_alpha_arguments_ieee ext params
            (main_measure ext params binning loaded_data loaded_rand).catalogue_data
            (main_measure ext params binning loaded_data loaded_rand).catalogue_rand ∧
        ("calc_powspec_normalisation_from_mesh", main_alpha_ieee ext params
            (main_measure ext params binning loaded_data loaded_rand).catalogue_data
            (main_measure ext params binning loaded_data loaded_rand).catalogue_rand) ∈
          main_alpha_arguments_ieee ext params
            (main_measure ext params binning loaded_data loaded_rand).catalogue_data
            (main_measure ext params binning loaded_data loaded_rand).catalogue_rand ∧
        ("calc_powspec_normalisation_from_meshes", main_alpha_ieee ext params
            (main_measure ext params binning loaded_data loaded_rand).catalogue_data
            (main_measure ext params binning loaded_data loaded_rand).catalogue_rand) ∈
          main_alpha_arguments_ieee ext params
            (main_measure ext params binning loaded_data loaded_rand).catalogue_data
            (main_measure ext params binning loaded_data loaded_rand).catalogue_rand) ∧
      (params.npoint = "3pt" →
        ("calc_bispec_normalisation_from_particles", main_alpha_ieee ext params
            (main_measure ext params binning loaded_data loaded_rand).catalogue_data
            (main_measure ext params binning loaded_data loaded_rand).catalogue_rand) ∈
          main_alpha_arguments_ieee ext params
            (main_measure ext params binning loaded_data loaded_rand).catalogue_data
            (main_measure ext params binning loaded_data loaded_rand).catalogue_rand ∧
        ("calc_bispec_normalisation_from_mesh", main_alpha_ieee ext params
            (main_measure ext params binning loaded_data loaded_rand).catalogue_data
            (main_measure ext params binning loaded_data loaded_rand).catalogue_rand) ∈
          main_alpha_arguments_ieee ext params
            (main_measure ext params binning loaded_data loaded_rand).catalogue_data
            (main_measure ext params binning loaded_data loaded_rand).catalogue_rand) ∧
      (params.statistic_type = "2pcf-win" →
        ("compute_corrfunc_window", main_alpha_ieee ext params
            (main_measure ext params binning loaded_data loaded_rand).catalogue_data
            (main_measure ext params binning loaded_data loaded_rand).catalogue_rand) ∈
          main_alpha_arguments_ieee ext params
            (main_measure ext params binning loaded_data loaded_rand).catalogue_data
            (main_measure ext params binning loaded_data loaded_rand).catalogue_rand)) ∧
    (params.catalogue_type ≠ "survey" ∨
        ext.wstotal (main_measure ext params binning loaded_data loaded_rand).catalogue_rand ≠ 0 →
      main_alpha_ieee ext params
          (main_measure ext params binning loaded_data loaded_rand).catalogue_data
          (main_measure ext params binning loaded_data loaded_rand).catalogue_rand =
        .finite (main_measure ext params binning loaded_data loaded_rand).alpha) := by
  refine ⟨?_, ?_, ?_, ?_⟩
  · intro h0
    simp only [calc_alpha_ratio_ieee, double_div, num_wgt_eq_sum, h0, if_true]
  · intro hne
    simp only [calc_alpha_ratio_ieee, calc_alpha_ratio, double_div, num_wgt_eq_sum, hne,
      if_false]
  · intro hs h0
    generalize (main_measure ext params binning loaded_data loaded_rand).catalogue_data = d
      at h0 ⊢
    generalize (main_measure ext params binning loaded_data loaded_rand).catalogue_rand = r
      at h0 ⊢
    have hval : main_alpha_ieee ext params d r =
        (if ext.wstotal d = 0 then .nan
          else if 0 < ext.wstotal d then .pos_infinity else .neg_infinity) := by
      rw [main_alpha_ieee_eq, if_pos hs]
      simp only [double_div, h0, if_true]
    have h1 : ¬ (("2pt" : String) = "3pt") := by decide
    refine ⟨hval, ?_, main_alpha_arguments_ieee_survey ext params d r hs, ?_, ?_, ?_⟩
    · intro value
      rw [hval]
      split_ifs <;> simp
    · intro hn
      simp [main_alpha_arguments_ieee, hs, hn]
    · intro hn
      simp [main_alpha_arguments_ieee, hs, hn]
    · intro hst
      simp [main_alpha_arguments_ieee, hs, hst]
  · intro h
    rw [main_alpha_ieee_eq, main_measure_alpha]
    by_cases hs : params.catalogue_type = "survey"
    · rcases h with h | h
      · exact absurd hs h
      · simp only [hs, if_true, double_div, h, if_false]
    · simp only [hs, if_false]

end AlphaClaims

/-- Witness for C15, amended: data weights `[1]` with random weights `[0]`
and with random weights `[2, 2]`; a `survey` run for the window statistic
`2pcf-win` whose random catalogue has total weight 0, in which `alpha` is
plus infinity and is passed to the three normalisation functions and to the
estimator; and the same run with random weights `[2, 2]`. -/
theorem main_alpha_zero_random_weight_witness :
    calc_alpha_ratio_ieee (example_catalogue [⟨⟨1, 2, 3⟩, 1⟩])
      (example_catalogue [⟨⟨0, 0, 0⟩, 0⟩]) = .pos_infinity ∧
    calc_alpha_ratio_ieee (example_catalogue [⟨⟨1, 2, 3⟩, 1⟩])
      (example_catalogue [⟨⟨0, 0, 0⟩, 2⟩, ⟨⟨1, 0, 0⟩, 2⟩]) = .finite (1 / 4) ∧
    (example_external.wstotal
        (main_measure example_external (example_params "survey" "2pcf-win" "2pt" "none")
          (example_binning 1 3 4) (example_catalogue [⟨⟨1, 2, 3⟩, 1⟩])
          (example_catalogue [⟨⟨0, 0, 0⟩, 0⟩])).catalogue_rand = 0 ∧
      main_alpha_ieee example_external (example_params "survey" "2pcf-win" "2pt" "none")
        (main_measure example_external (example_params "survey" "2pcf-win" "2pt" "none")
          (example_binning 1 3 4) (example_catalogue [⟨⟨1, 2, 3⟩, 1⟩])
          (example_catalogue [⟨⟨0, 0, 0⟩, 0⟩])).catalogue_data
        (main_measure example_external (example_params "survey" "2pcf-win" "2pt" "none")
          (example_binning 1 3 4) (example_catalogue [⟨⟨1, 2, 3⟩, 1⟩])
          (example_catalogue [⟨⟨0, 0, 0⟩, 0⟩])).catalogue_rand = .pos_infinity ∧
      main_alpha_arguments_ieee example_external
        (example_params "survey" "2pcf-win" "2pt" "none")
        (main_measure example_external (example_params "survey" "2pcf-win" "2pt" "none")
          (example_binning 1 3 4) (example_catalogue [⟨⟨1, 2, 3⟩, 1⟩])
          (example_catalogue [⟨⟨0, 0, 0⟩, 0⟩])).catalogue_data
        (main_measure example_external (example_params "survey" "2pcf-win" "2pt" "none")
          (example_binning 1 3 4) (example_catalogue [⟨⟨1, 2, 3⟩, 1⟩])
          (example_catalogue [⟨⟨0, 0, 0⟩, 0⟩])).catalogue_rand =
        [("calc_powspec_normalisation_from_particles", .pos_infinity),
         ("calc_powspec_normalisation_from_mesh", .pos_infinity),
         ("calc_powspec_normalisation_from_meshes", .pos_infinity),
         ("compute_corrfunc_window", .pos_infinity)]) ∧
    main_alpha_ieee example_external (example_params "survey" "2pcf-win" "2pt" "none")
        (main_measure example_external (example_params "survey" "2pcf-win" "2pt" "none")
          (example_binning 1 3 4) (example_catalogue [⟨⟨1, 2, 3⟩, 1⟩])
          (example_catalogue [⟨⟨0, 0, 0⟩, 2⟩, ⟨⟨1, 0, 0⟩, 2⟩])).catalogue_data
        (main_measure example_external (example_params "survey" "2pcf-win" "2pt" "none")
          (example_binning 1 3 4) (example_catalogue [⟨⟨1, 2, 3⟩, 1⟩])
          (example_catalogue [⟨⟨0, 0, 0⟩, 2⟩, ⟨⟨1, 0, 0⟩, 2⟩])).catalogue_rand =
      .finite (main_measure example_external (example_params "survey" "2pcf-win" "2pt" "none")
          (example_binning 1 3 4) (example_catalogue [⟨⟨1, 2, 3⟩, 1⟩])
          (example_catalogue [⟨⟨0, 0, 0⟩, 2⟩, ⟨⟨1, 0, 0⟩, 2⟩])).alpha := by
  have h := main_alpha_zero_random_weight (example_catalogue [⟨⟨1, 2, 3⟩, 1⟩])
    (example_catalogue [⟨⟨0, 0, 0⟩, 0⟩]) example_external
    (example_params "survey" "2pcf-win" "2pt" "none") (example_binning 1 3 4)
    (example_catalogue [⟨⟨1, 2, 3⟩, 1⟩]) (example_catalogue [⟨⟨0, 0, 0⟩, 0⟩])
  have h' := main_alpha_zero_random_weight (example_catalogue [⟨⟨1, 2, 3⟩, 1⟩])
    (example_catalogue [⟨⟨0, 0, 0⟩, 2⟩, ⟨⟨1, 0, 0⟩, 2⟩]) example_external
    (example_params "survey" "2pcf-win" "2pt" "none") (example_binning 1 3 4)
    (example_catalogue [⟨⟨1, 2, 3⟩, 1⟩]) (example_catalogue [⟨⟨0, 0, 0⟩, 2⟩, ⟨⟨1, 0, 0⟩, 2⟩])
  have hw0 : example_external.wstotal
      (main_measure example_external (example_params "survey" "2pcf-win" "2pt" "none")
        (example_binning 1 3 4) (example_catalogue [⟨⟨1, 2, 3⟩, 1⟩])
        (example_catalogue [⟨⟨0, 0, 0⟩, 0⟩])).catalogue_rand = 0 := by decide!
  have hw1 : example_external.wstotal
      (main_measure example_external (example_params "survey" "2pcf-win" "2pt" "none")
        (example_binning 1 3 4) (example_catalogue [⟨⟨1, 2, 3⟩, 1⟩])
        (example_catalogue [⟨⟨0, 0, 0⟩, 0⟩])).catalogue_data = 1 := by decide!
  have hw2 : example_external.wstotal
      (main_measure example_external (example_params "survey" "2pcf-win" "2pt" "none")
        (example_binning 1 3 4) (example_catalogue [⟨⟨1, 2, 3⟩, 1⟩])
        (example_catalogue [⟨⟨0, 0, 0⟩, 2⟩, ⟨⟨1, 0, 0⟩, 2⟩])).catalogue_rand ≠ 0 := by decide!
  obtain ⟨hval, -, huses, h2pt, -, hwin⟩ := h.2.2.1 rfl hw0
  have hinf : main_alpha_ieee example_external (example_params "survey" "2pcf-win" "2pt" "none")
      (main_measure example_external (example_params "survey" "2pcf-win" "2pt" "none")
        (example_binning 1 3 4) (example_catalogue [⟨⟨1, 2, 3⟩, 1⟩])
        (example_catalogue [⟨⟨0, 0, 0⟩, 0⟩])).catalogue_data
      (main_measure example_external (example_params "survey" "2pcf-win" "2pt" "none")
        (example_binning 1 3 4) (example_catalogue [⟨⟨1, 2, 3⟩, 1⟩])
        (example_catalogue [⟨⟨0, 0, 0⟩, 0⟩])).catalogue_rand = .pos_infinity := by
    rw [hval, hw1]
    norm_num
  refine ⟨((h.1 (by decide!)).trans (by decide!)), ((h'.2.1 (by decide!)).trans (by decide!)),
    ⟨hw0, hinf, ?_⟩, h'.2.2.2 (Or.inr hw2)⟩
  simp only [main_alpha_arguments_ieee, hinf]
  decide

/-- In binary64 the last left edge of the scheme `lin` can lie above the
stored `bin_max`: ten bins over `[0, 6 * 2^(-1074)]`, in the subnormal range,
where the width `0.6 * 2^(-1074)` rounds up to `2^(-1074)`, so that the left
edge of the last bin is `9 * 2^(-1074)`. -/
theorem set_bins_lin_last_edge_above_bin_max_in_binary64 :
    round_binary64 (6 / 2 ^ 1074) = 6 / 2 ^ 1074 ∧
    ((example_binning 0 (6 / 2 ^ 1074) 10).set_bins_fl round_binary64 id id 0 "lin"
      "fourier").2.bin_edges[9]? = some (9 / 2 ^ 1074) ∧
    ((example_binning 0 (6 / 2 ^ 1074) 10).set_bins_fl round_binary64 id id 0 "lin"
      "fourier").2.bin_edges[10]? = some (6 / 2 ^ 1074) ∧
    (6 / 2 ^ 1074 : ℚ) < 9 / 2 ^ 1074 := by
  have h10 : Int.toNat 10 = 10 := rfl
  have h6 : round_binary64 (6 / 2 ^ 1074) = 6 / 2 ^ 1074 := by
    rw [round_binary64_eval (6 / 2 ^ 1074) (-1072) 6 (by norm_num) (by norm_num)
      (by norm_num [round_half_even])]
    norm_num
  have hd : round_binary64 (6 / 2 ^ 1074 / 10) = 1 / 2 ^ 1074 := by
    rw [round_binary64_eval (6 / 2 ^ 1074 / 10) (-1075) 1 (by norm_num) (by norm_num)
      (by norm_num [round_half_even])]
    norm_num
  have h9 : round_binary64 (1 / 2 ^ 1074 * 9) = 9 / 2 ^ 1074 := by
    rw [round_binary64_eval (1 / 2 ^ 1074 * 9) (-1071) 9 (by norm_num) (by norm_num)
      (by norm_num [round_half_even])]
    norm_num
  have h9' : round_binary64 (9 / 2 ^ 1074) = 9 / 2 ^ 1074 := by
    rw [round_binary64_eval (9 / 2 ^ 1074) (-1071) 9 (by norm_num) (by norm_num)
      (by norm_num [round_half_even])]
    norm_num
  have hdbin : round_binary64 (round_binary64 ((6 / 2 ^ 1074 : ℚ) - 0) / ((10 : Int) : ℚ)) =
      1 / 2 ^ 1074 := by
    rw [sub_zero, h6]
    simpa using hd
  have hentry := fun i hi => append_bins_entry (example_binning 0 (6 / 2 ^ 1074) 10)
    ⟨rfl, rfl, rfl⟩ 10 (lin_bin_fl round_binary64 0 (1 / 2 ^ 1074)) i hi
  have hform : (example_binning 0 (6 / 2 ^ 1074) 10).set_bins_fl round_binary64 id id 0 "lin"
      "fourier" = (.ok (), (example_binning 0 (6 / 2 ^ 1074) 10).append_bins
        ((List.range 10).map (lin_bin_fl round_binary64 0 (1 / 2 ^ 1074)))) := by
    rw [set_bins_fl_lin_bins]
    simp only [example_binning, h10]
    rw [hdbin]
  refine ⟨h6, ?_, ?_, by norm_num⟩
  · rw [hform, (hentry 9 (by norm_num)).1]
    simp only [lin_bin_fl, Nat.cast_ofNat, h9, zero_add, h9']
  · rw [hform]
    exact (hentry 9 (by norm_num)).2.2

/-- The binary64 magnitude of `(1, 1, 1)` is the rounded square root of 3. -/
theorem vec3_magnitude_binary64_ones :
    vec3_magnitude_binary64 ⟨1, 1, 1⟩ = 7800463371553962 / 2 ^ 52 := by
  obtain ⟨-, h1, h2, h3, -⟩ := round_binary64_upto_ten
  have hlog : Int.log 2 (3 : ℚ) = 1 := by
    apply le_antisymm
    · have := (Int.lt_zpow_iff_log_lt (by norm_num : 1 < 2) (by norm_num : (0 : ℚ) < 3)).mp
        (by norm_num : (3 : ℚ) < ((2 : ℕ) : ℚ) ^ ((1 : ℤ) + 1))
      omega
    · exact (Int.zpow_le_iff_le_log (by norm_num : 1 < 2) (by norm_num : (0 : ℚ) < 3)).mp
        (by norm_num)
  have hsum : round_binary64 (round_binary64 (round_binary64 ((1 : ℚ) * 1) +
      round_binary64 ((1 : ℚ) * 1)) + round_binary64 ((1 : ℚ) * 1)) = 3 := by
    norm_num [h1, h2, h3]
  have hq : ((1 : ℤ) / 2 - 52) = -52 := by norm_num
  have ht : (3 : ℚ) / 4 ^ (-52 : ℤ) = ((60847228810955011271841753858048 : ℕ) : ℚ) := by
    norm_num
  have hsqrt : Nat.sqrt 60847228810955011271841753858048 = 7800463371553962 :=
    (Nat.eq_sqrt.mpr ⟨by norm_num, by norm_num⟩).symm
  have hfloor : ⌊((60847228810955011271841753858048 : ℕ) : ℚ)⌋.toNat =
      60847228810955011271841753858048 := by
    rw [Int.floor_natCast, Int.toNat_ofNat]
  unfold vec3_magnitude_binary64
  rw [hsum]
  unfold sqrt_binary64
  rw [if_neg (by norm_num : ¬ (3 : ℚ) ≤ 0)]
  simp only [hlog, hq, ht, hfloor, hsqrt]
  norm_num

/-- C6 as stated fails in binary64: for the particle at `(1, 1, 1)` the
magnitude is the rounded square root of 3, each component `main` writes is
the rounded quotient `d = 5200308914369309 / 2^53`, and `3 * d * d` is above
1: the entry is not a unit vector. -/
theorem main_los_not_unit_vector :
    (⟨1, 1, 1⟩ : Vec3 ℚ) ≠ ⟨0, 0, 0⟩ ∧
    example_external_binary64.get_vec3d_magnitude ⟨1, 1, 1⟩ = 7800463371553962 / 2 ^ 52 ∧
    (main_los_fl round_binary64 example_external_binary64
        (example_params "sim" "powspec" "2pt" "none") (example_catalogue [⟨⟨1, 1, 1⟩, 1⟩])
        ParticleCatalogue.init).1 =
      some [⟨⟨5200308914369309 / 2 ^ 53, 5200308914369309 / 2 ^ 53,
        5200308914369309 / 2 ^ 53⟩⟩] ∧
    (5200308914369309 / 2 ^ 53 : ℚ) * (5200308914369309 / 2 ^ 53) +
      5200308914369309 / 2 ^ 53 * (5200308914369309 / 2 ^ 53) +
      5200308914369309 / 2 ^ 53 * (5200308914369309 / 2 ^ 53) ≠ 1 := by
  have hm : example_external_binary64.get_vec3d_magnitude ⟨1, 1, 1⟩ =
      7800463371553962 / 2 ^ 52 := vec3_magnitude_binary64_ones
  have hd : round_binary64 (1 / (7800463371553962 / 2 ^ 52)) = 5200308914369309 / 2 ^ 53 := by
    rw [round_binary64_eval (1 / (7800463371553962 / 2 ^ 52)) (-1) 5200308914369309
      (by norm_num) (by norm_num) (by norm_num [round_half_even])]
    norm_num
  have hne : (7800463371553962 / 2 ^ 52 : ℚ) ≠ 0 := by norm_num
  have hentry : (los_of_particle_fl round_binary64 example_external_binary64.get_vec3d_magnitude
      ⟨⟨1, 1, 1⟩, 1⟩).1 =
      ⟨⟨5200308914369309 / 2 ^ 53, 5200308914369309 / 2 ^ 53, 5200308914369309 / 2 ^ 53⟩⟩ := by
    rw [los_of_particle_fl_entry round_binary64 _ ⟨⟨1, 1, 1⟩, 1⟩ (by
      show example_external_binary64.get_vec3d_magnitude ⟨1, 1, 1⟩ ≠ 0
      rw [hm]
      exact hne)]
    show LineOfSight.mk ⟨round_binary64 (1 / example_external_binary64.get_vec3d_magnitude
        ⟨1, 1, 1⟩), round_binary64 (1 / example_external_binary64.get_vec3d_magnitude
        ⟨1, 1, 1⟩), round_binary64 (1 / example_external_binary64.get_vec3d_magnitude
        ⟨1, 1, 1⟩)⟩ = _
    rw [hm, hd]
  refine ⟨by simp, hm, ?_, by norm_num⟩
  simp [main_los_fl, compute_los_fl, example_params, example_catalogue, hentry]

end Triumvirate
